import Mathlib

/-!
Moist thermodynamics of MicroHH (`src/thermo_moist.cxx`).

A shallow embedding of the numerical kernels of `cthermo_moist` and the
properties of them that the specification states.

Modelling conventions.

* A C++ `double` is an element of an arbitrary linearly ordered field `K`
  (exact arithmetic, no rounding, no NaN).  Every definition is computable and
  can be run on `ℚ`; theorems that need a genuine fractional power are stated
  on `ℝ`.
* The C library function `pow` with a non-integer exponent is not part of the
  repository.  It is a parameter `pw : K → K → K` of every kernel that calls
  it; on `ℝ` it is instantiated with `Real.rpow`.  `std::pow(x, 2)` is `x ^ 2`.
* The `while` loop of `calcql` has no iteration cap.  It is modelled with a
  fuel argument; `none` means that no defined value is returned (the fuel ran
  out, or the local `qs` was read before it was ever assigned).
* Arrays are total functions `Int → K` on the flat index, a store `a[i] = v`
  is `Function.update a i v`.
-/

namespace cthermo_moist

variable {K : Type} [LinearOrderedField K]

/-! ## Constants (`#define`s at the top of the file) -/

/-- Gas constant of dry air, `#define rd 287.04`. -/
def rd : K := 287.04
/-- Gas constant of water vapour, `#define rv 461.5`. -/
def rv : K := 461.5
/-- Ratio `#define ep rd/rv`; every use site is `ep*...` or `(1-ep)`, where the
textual expansion `rd/rv` groups as `(rd/rv)`. -/
def ep : K := rd / rv
/-- Specific heat of dry air, `#define cp 1005`; it only ever meets doubles. -/
def cp : K := 1005
/-- Latent heat of vaporisation, `#define lv 2.5e6`. -/
def lv : K := 2.5e6
/-- Melting point, `#define tmelt 273.15`. -/
def tmelt : K := 273.15
/-- Reference pressure, `#define p0 1.e5`. -/
def p0 : K := 1.e5
/-- Gravitational acceleration, `#define grav 9.81`. -/
def grav : K := 9.81

/-- Coefficient `c0` of the saturation vapour pressure polynomial. -/
def c0 : K := 0.6105851e+03
/-- Coefficient `c1`. -/
def c1 : K := 0.4440316e+02
/-- Coefficient `c2`. -/
def c2 : K := 0.1430341e+01
/-- Coefficient `c3`. -/
def c3 : K := 0.2641412e-01
/-- Coefficient `c4`. -/
def c4 : K := 0.2995057e-03
/-- Coefficient `c5`. -/
def c5 : K := 0.2031998e-05
/-- Coefficient `c6`. -/
def c6 : K := 0.6936113e-08
/-- Coefficient `c7`. -/
def c7 : K := 0.2564861e-11
/-- Coefficient `c8`, `#define c8 -.3704404e-13`. -/
def c8 : K := -0.3704404e-13

/-! ## Inline scalar functions -/

/-- Saturation vapour pressure `esl(t)`: the polynomial in
`x = max(-80, t - tmelt)`. -/
def esl (t : K) : K :=
  let x := max (-80) (t - tmelt)
  c0+x*(c1+x*(c2+x*(c3+x*(c4+x*(c5+x*(c6+x*(c7+x*c8)))))))

/-- Saturation mixing ratio `rslf(p, t) = ep*esl(t)/(p-(1-ep)*esl(t))`. -/
def rslf (p t : K) : K :=
  ep*esl t/(p-(1-ep)*esl t)

/-- Exner function `exn(p) = pow((p/p0),(rd/cp))`. -/
def exn (pw : K → K → K) (p : K) : K :=
  pw (p/p0) (rd/cp)

/-- Two-point interpolation `interp2(a, b) = 0.5*(a + b)`. -/
def interp2 (a b : K) : K :=
  0.5*(a + b)

/-- Four-point interpolation `interp4(a, b, c, d) = (-a + 9.*b + 9.*c - d) / 16.`. -/
def interp4 (a b c d : K) : K :=
  (-a + 9*b + 9*c - d) / 16

/-- Buoyancy `bu(p, s, qt, ql, thvref)`. -/
def bu (pw : K → K → K) (p s qt ql thvref : K) : K :=
  grav * ((s + lv*ql/(cp*exn pw p)) * (1 - (1 - rv/rd)*qt - rv/rd*ql) - thvref) / thvref

/-- Buoyancy without liquid water `bunoql(s, qt, thvref)`. -/
def bunoql (s qt thvref : K) : K :=
  grav * (s * (1 - (1 - rv/rd)*qt) - thvref) / thvref

/-- Surface buoyancy flux without liquid water `bufluxnoql`. -/
def bufluxnoql (s sflux qt qtflux thvref : K) : K :=
  grav/thvref * (sflux * (1 - (1-rv/rd)*qt) - (1-rv/rd)*s*qtflux)

/-! ## Saturation adjustment `calcql` -/

/-- The locals of `calcql` that live across loop passes.  `qs` is declared
without an initialiser in the source, hence an `Option`. -/
structure NewtonState (K : Type) where
  /-- Previous Newton temperature `tnr_old`. -/
  tnr_old : K
  /-- Current Newton temperature `tnr`. -/
  tnr : K
  /-- Last saturation mixing ratio `qs`, `none` while unassigned. -/
  qs : Option K

/-- Loop test of `calcql`: `std::fabs(tnr-tnr_old)/tnr_old > 1e-5`. -/
def calcqlCond (st : NewtonState K) : Prop :=
  |st.tnr - st.tnr_old| / st.tnr_old > 1e-5

instance (st : NewtonState K) : Decidable (calcqlCond st) := by
  unfold calcqlCond; infer_instance

/-- One pass through the loop body of `calcql`:
`tnr_old = tnr; qs = rslf(p,tnr); tnr = tnr - (...)/(...)`. -/
def calcqlBody (tl qt p : K) (st : NewtonState K) : NewtonState K :=
  let qs := rslf p st.tnr
  { tnr_old := st.tnr
    qs := some qs
    tnr := st.tnr - (st.tnr+(lv/cp)*qs-tl-(lv/cp)*qt)/(1+(lv^2*qs)/ (rv*cp*st.tnr^2)) }

/-- The `while` loop of `calcql`, at most `fuel` tests of the loop condition
that succeed; `none` when the fuel is used up. -/
def calcqlLoop (tl qt p : K) : Nat → NewtonState K → Option (NewtonState K)
  | 0, _ => none
  | fuel + 1, st =>
    if calcqlCond st then calcqlLoop tl qt p fuel (calcqlBody tl qt p st)
    else some st

/-- The state of the locals when the loop of `calcql` is first tested:
`tnr_old = 1.e9`, `tnr = tl`, `qs` unassigned. -/
def calcqlInit (tl : K) : NewtonState K :=
  { tnr_old := 1.e9, tnr := tl, qs := none }

/-- Saturation adjustment `calcql(s, qt, p, exn)`: Newton iteration on the
temperature started at `tl = s * exn`, then `ql = std::max(0.,qt - qs)`. -/
def calcql (fuel : Nat) (s qt p exn : K) : Option K :=
  let tl := s * exn
  match calcqlLoop tl qt p fuel (calcqlInit tl) with
  | some st => st.qs.map (fun qs => max 0 (qt - qs))
  | none => none

/-- The estimate-then-solve shortcut of the buoyancy kernels for one cell:
the estimate `ql = qt - rslf(p, tl)` is replaced by `calcql(...)` when it is
positive and by `0.` otherwise. -/
def qlShortcut (fuel : Nat) (s qt p ex : K) : Option K :=
  let tl := s * ex
  let ql := qt - rslf p tl
  if ql > 0 then calcql fuel s qt p ex else some 0

/-- Numerator of the Newton update in `calcql`,
`tnr+(lv/cp)*qs-tl-(lv/cp)*qt` with `qs = rslf(p,tnr)`, at `tnr = t`. -/
def newtonResidual (tl qt p t : K) : K :=
  t+(lv/cp)*rslf p t-tl-(lv/cp)*qt

/-- Denominator of the Newton update in `calcql`,
`1+(std::pow(lv,2)*qs)/ (rv*cp*std::pow(tnr,2))` with `qs = rslf(p,tnr)`, at
`tnr = t`. -/
def newtonSlope (p t : K) : K :=
  1+(lv^2*rslf p t)/ (rv*cp*t^2)

/-! ## Collaborators and loops -/

/-- Modelled from the spec: the members of the `cgrid` collaborator (declared
in `grid.h`, which is not among the sources) that this file reads: the index
ranges with their ghost cells, the strides, the spatial-order selector, the
vertical coordinates and spacings, and the periodic boundary exchange. -/
structure Grid (K : Type) where
  /-- Number of cells in `i`, ghost cells included; the `j` stride. -/
  icells : Int
  /-- Number of cells in `j`, ghost cells included. -/
  jcells : Int
  /-- Number of cells in `k`, ghost cells included. -/
  kcells : Int
  /-- Number of cells of one horizontal slice; the `k` stride of `calcmaskql`. -/
  ijcells : Int
  /-- First interior index in `i`. -/
  istart : Int
  /-- One past the last interior index in `i`. -/
  iend : Int
  /-- First interior index in `j`. -/
  jstart : Int
  /-- One past the last interior index in `j`. -/
  jend : Int
  /-- First interior level. -/
  kstart : Int
  /-- One past the last interior level. -/
  kend : Int
  /-- Number of interior levels. -/
  kmax : Int
  /-- Spatial order of the scheme, `"2"` or `"4"`. -/
  swspatialorder : String
  /-- Height of the full levels. -/
  z : Int → K
  /-- Height of the half levels. -/
  zh : Int → K
  /-- Thickness of the full-level cells. -/
  dz : Int → K
  /-- Distance between full levels. -/
  dzh : Int → K
  /-- Inverse of `dz`. -/
  dzi : Int → K
  /-- Inverse of `dzh`. -/
  dzhi : Int → K
  /-- Periodic boundary exchange applied to a 3D field. -/
  boundary_cyclic : (Int → K) → (Int → K)

/-- Modelled from the spec: the `cmaster` collaborator (declared in `master.h`,
which is not among the sources); `sum a n` is the array `a` after the first `n`
entries were summed over all processes. -/
structure Master where
  /-- Rank of this process. -/
  mpiid : Int
  /-- Reduction `master->sum(data, n)`. -/
  sum : (Int → Int) → Int → (Int → Int)

/-- The interior cells lie inside the allocated field and the slice stride is
`icells*jcells`. -/
structure Grid.WellFormed (grid : Grid K) : Prop where
  /-- The first interior column is a valid index. -/
  istart_nonneg : 0 ≤ grid.istart
  /-- The interior columns end inside the row. -/
  iend_le : grid.iend ≤ grid.icells
  /-- The first interior row is a valid index. -/
  jstart_nonneg : 0 ≤ grid.jstart
  /-- The interior rows end inside the slice. -/
  jend_le : grid.jend ≤ grid.jcells
  /-- One horizontal slice has `icells*jcells` cells. -/
  ijcells_eq : grid.ijcells = grid.icells * grid.jcells

/-- The horizontal position `(i, j)` is an interior one, that is one visited by
`for(j=jstart; j<jend; j++) for(i=istart; i<iend; i++)`. -/
def Interior (grid : Grid K) (i j : Int) : Prop :=
  grid.istart ≤ i ∧ i < grid.iend ∧ grid.jstart ≤ j ∧ j < grid.jend

/-- Body of `for(int k=lo; ...; k++)` executed `n` times from `k = lo`, each
pass may fail. -/
def forLoopM {σ : Type} (body : Int → σ → Option σ) : Nat → Int → σ → Option σ
  | 0, _, s => some s
  | n + 1, k, s => (body k s).bind (forLoopM body n (k + 1))

/-- Loop `for(int k=lo; k<hi; k++)` whose body may fail. -/
def forRangeM {σ : Type} (lo hi : Int) (body : Int → σ → Option σ) (s : σ) : Option σ :=
  forLoopM body (hi - lo).toNat lo s

/-- Body of `for(int k=lo; ...; k++)` executed `n` times from `k = lo`. -/
def forLoop {σ : Type} (body : Int → σ → σ) : Nat → Int → σ → σ
  | 0, _, s => s
  | n + 1, k, s => forLoop body n (k + 1) (body k s)

/-- Loop `for(int k=lo; k<hi; k++)`. -/
def forRange {σ : Type} (lo hi : Int) (body : Int → σ → σ) (s : σ) : σ :=
  forLoop body (hi - lo).toNat lo s

/-- The horizontal double loop `for(j=jstart; j<jend; j++) for(i=istart; i<iend; i++)`. -/
def forIJ {σ : Type} (grid : Grid K) (body : Int → Int → σ → σ) (s : σ) : σ :=
  forRange grid.jstart grid.jend
    (fun j => forRange grid.istart grid.iend (fun i => body i j)) s

/-- The horizontal double loop with a body that may fail. -/
def forIJM {σ : Type} (grid : Grid K) (body : Int → Int → σ → Option σ) (s : σ) : Option σ :=
  forRangeM grid.jstart grid.jend
    (fun j => forRangeM grid.istart grid.iend (fun i => body i j)) s

/-! ## Reference state `calcbasestate` -/

/-- The eight output profiles of `calcbasestate`. -/
structure BaseState (K : Type) where
  /-- Full-level pressure. -/
  pref : Int → K
  /-- Half-level pressure. -/
  prefh : Int → K
  /-- Full-level density. -/
  rho : Int → K
  /-- Half-level density. -/
  rhoh : Int → K
  /-- Full-level virtual potential temperature. -/
  thv : Int → K
  /-- Half-level virtual potential temperature. -/
  thvh : Int → K
  /-- Full-level Exner function. -/
  ex : Int → K
  /-- Half-level Exner function. -/
  exh : Int → K

/-- Interpolation of a mean profile to the half level `k`: `interp2` for
second order, `interp4` for fourth order; for any other order the source
leaves the local unassigned. -/
def interpHalf (grid : Grid K) (a : Int → K) (k : Int) : Option K :=
  if grid.swspatialorder = "2" then some (interp2 (a (k-1)) (a k))
  else if grid.swspatialorder = "4" then some (interp4 (a (k-2)) (a (k-1)) (a k) (a (k+1)))
  else none

/-- Surface part of `calcbasestate` (half level `kstart`) and the first
full-level pressure. -/
def basestateSurface (pw : K → K → K) (fuel : Nat) (grid : Grid K) (ps : K)
    (thlmean qtmean : Int → K) (st : BaseState K) : Option (BaseState K) :=
  let kstart := grid.kstart
  let rdcp : K := rd/cp
  match interpHalf grid thlmean kstart, interpHalf grid qtmean kstart with
  | some ssurf, some qtsurf =>
    let exh := Function.update st.exh kstart (exn pw ps)
    match calcql fuel ssurf qtsurf ps (exh kstart) with
    | none => none
    | some ql =>
      let thvh := Function.update st.thvh kstart
        ((ssurf + lv*ql/(cp*exh kstart)) * (1 - (1 - rv/rd)*qtsurf - rv/rd*ql))
      let prefh := Function.update st.prefh kstart ps
      let rhoh := Function.update st.rhoh kstart (ps / (rd * exh kstart * thvh kstart))
      let pref := Function.update st.pref kstart
        (pw (pw ps rdcp - grav * pw p0 rdcp * grid.z kstart / (cp * thvh kstart)) (1/rdcp))
      some { st with exh := exh, thvh := thvh, prefh := prefh, rhoh := rhoh, pref := pref }
  | _, _ => none

/-- Body of the level loop of `calcbasestate` for one `k`. -/
def basestateLevel (pw : K → K → K) (fuel : Nat) (grid : Grid K)
    (thlmean qtmean : Int → K) (k : Int) (st : BaseState K) : Option (BaseState K) :=
  let rdcp : K := rd/cp
  let ex := Function.update st.ex (k-1) (exn pw (st.pref (k-1)))
  match calcql fuel (thlmean (k-1)) (qtmean (k-1)) (st.pref (k-1)) (ex (k-1)) with
  | none => none
  | some ql =>
    let thv := Function.update st.thv (k-1)
      ((thlmean (k-1) + lv*ql/(cp*ex (k-1))) * (1 - (1 - rv/rd)*qtmean (k-1) - rv/rd*ql))
    let rho := Function.update st.rho (k-1) (st.pref (k-1) / (rd * ex (k-1) * thv (k-1)))
    let prefh := Function.update st.prefh k
      (pw (pw (st.prefh (k-1)) rdcp - grav * pw p0 rdcp * grid.dz (k-1) / (cp * thv (k-1)))
        (1/rdcp))
    match interpHalf grid thlmean k, interpHalf grid qtmean k with
    | some si, some qti =>
      let exh := Function.update st.exh k (exn pw (prefh k))
      match calcql fuel si qti (prefh k) (exh k) with
      | none => none
      | some qli =>
        let thvh := Function.update st.thvh k
          ((si + lv*qli/(cp*exh k)) * (1 - (1 - rv/rd)*qti - rv/rd*qli))
        let rhoh := Function.update st.rhoh k (prefh k / (rd * exh k * thvh k))
        let pref := Function.update st.pref k
          (pw (pw (st.pref (k-1)) rdcp - grav * pw p0 rdcp * grid.dzh k / (cp * thvh k))
            (1/rdcp))
        some { pref := pref, prefh := prefh, rho := rho, rhoh := rhoh, thv := thv, thvh := thvh,
               ex := ex, exh := exh }
    | _, _ => none

/-- Ghost-cell fill of the full-level pressure at the end of `calcbasestate`. -/
def basestateGhost (grid : Grid K) (st : BaseState K) : BaseState K :=
  let kstart := grid.kstart
  let kend := grid.kend
  if grid.swspatialorder = "2" then
    let pref1 := Function.update st.pref (kstart-1) (2*st.prefh kstart - st.pref kstart)
    let pref2 := Function.update pref1 kend (2*st.prefh kend - pref1 (kend-1))
    { st with pref := pref2 }
  else if grid.swspatialorder = "4" then
    let pref1 := Function.update st.pref (kstart-1)
      ((8/3)*st.prefh kstart - 2*st.pref kstart + (1/3)*st.pref (kstart+1))
    let pref2 := Function.update pref1 (kstart-2)
      (8*st.prefh kstart - 9*pref1 kstart + 2*pref1 (kstart+1))
    let pref3 := Function.update pref2 kend
      ((8/3)*st.prefh kend - 2*pref2 (kend-1) + (1/3)*pref2 (kend-2))
    let pref4 := Function.update pref3 (kend+1)
      (8*st.prefh kend - 9*pref3 (kend-1) + 2*pref3 (kend-2))
    { st with pref := pref4 }
  else st

/-- Reference state `calcbasestate(pref, prefh, rho, rhoh, thv, thvh, ex, exh,
thlmean, qtmean)`: `st` holds the eight output arrays on entry, the result
holds them on return. -/
def calcbasestate (pw : K → K → K) (fuel : Nat) (grid : Grid K) (ps : K)
    (thlmean qtmean : Int → K) (st : BaseState K) : Option (BaseState K) :=
  match basestateSurface pw fuel grid ps thlmean qtmean st with
  | none => none
  | some st1 =>
    match forRangeM (grid.kstart+1) (grid.kend+1)
        (basestateLevel pw fuel grid thlmean qtmean) st1 with
    | none => none
    | some st2 => some (basestateGhost grid st2)

/-! ## Buoyancy tendency `calcbuoyancytend_2nd` / `calcbuoyancytend_4th` -/

/-- The arrays written by the tendency kernels: the tendency `wt` and the
horizontal scratch slices `sh`, `qth`, `ql`. -/
structure TendState (K : Type) where
  /-- Vertical velocity tendency, a 3D field. -/
  wt : Int → K
  /-- Scratch slice: `s` interpolated to the half level. -/
  sh : Int → K
  /-- Scratch slice: `qt` interpolated to the half level. -/
  qth : Int → K
  /-- Scratch slice: liquid water at the half level. -/
  ql : Int → K

/-- Second horizontal loop of the tendency kernels at one cell:
`if(ql[ij]>0) ql[ij] = calcql(sh[ij], qth[ij], ph[k], exnh); else ql[ij] = 0.;`. -/
def tendSolve (fuel : Nat) (grid : Grid K) (ph : Int → K) (exnh : K) (k : Int)
    (i j : Int) (st : TendState K) : Option (TendState K) :=
  let jj := grid.icells
  let ij := i + j*jj
  if st.ql ij > 0 then
    match calcql fuel (st.sh ij) (st.qth ij) (ph k) exnh with
    | none => none
    | some v => some { st with ql := Function.update st.ql ij v }
  else some { st with ql := Function.update st.ql ij 0 }

/-- Third horizontal loop of the tendency kernels at one cell:
`wt[ijk] += bu(ph[k], sh[ij], qth[ij], ql[ij], thvrefh[k]);`. -/
def tendAdd (pw : K → K → K) (grid : Grid K) (ph thvrefh : Int → K) (k : Int)
    (i j : Int) (st : TendState K) : TendState K :=
  let jj := grid.icells
  let kk := grid.icells*grid.jcells
  let ijk := i + j*jj + k*kk
  let ij := i + j*jj
  let v := st.wt ijk + bu pw (ph k) (st.sh ij) (st.qth ij) (st.ql ij) (thvrefh k)
  { st with wt := Function.update st.wt ijk v }

/-- First horizontal loop of `calcbuoyancytend_2nd` at one cell: interpolation
with `interp2` and the estimate `ql[ij] = qth[ij]-rslf(ph[k],tl)`. -/
def tendEstimate_2nd (grid : Grid K) (s qt ph : Int → K) (exnh : K) (k : Int)
    (i j : Int) (st : TendState K) : TendState K :=
  let jj := grid.icells
  let kk := grid.icells*grid.jcells
  let ijk := i + j*jj + k*kk
  let ij := i + j*jj
  let sh := Function.update st.sh ij (interp2 (s (ijk-kk)) (s ijk))
  let qth := Function.update st.qth ij (interp2 (qt (ijk-kk)) (qt ijk))
  let tl := sh ij * exnh
  { st with sh := sh, qth := qth, ql := Function.update st.ql ij (qth ij - rslf (ph k) tl) }

/-- First horizontal loop of `calcbuoyancytend_4th` at one cell: interpolation
with `interp4` and the estimate `ql[ij] = qth[ij]-rslf(ph[k],tl)`. -/
def tendEstimate_4th (grid : Grid K) (s qt ph : Int → K) (exnh : K) (k : Int)
    (i j : Int) (st : TendState K) : TendState K :=
  let jj := grid.icells
  let kk1 := 1*grid.icells*grid.jcells
  let kk2 := 2*grid.icells*grid.jcells
  let ijk := i + j*jj + k*kk1
  let ij := i + j*jj
  let sh := Function.update st.sh ij
    (interp4 (s (ijk-kk2)) (s (ijk-kk1)) (s ijk) (s (ijk+kk1)))
  let qth := Function.update st.qth ij
    (interp4 (qt (ijk-kk2)) (qt (ijk-kk1)) (qt ijk) (qt (ijk+kk1)))
  let tl := sh ij * exnh
  { st with sh := sh, qth := qth, ql := Function.update st.ql ij (qth ij - rslf (ph k) tl) }

/-- Body of the level loop of the tendency kernels: `exnh = exn(ph[k])` and
the three horizontal loops, the first one being `estimate`. -/
def tendLevel (pw : K → K → K) (fuel : Nat) (grid : Grid K) (ph thvrefh : Int → K)
    (estimate : K → Int → Int → Int → TendState K → TendState K)
    (k : Int) (st : TendState K) : Option (TendState K) :=
  let exnh := exn pw (ph k)
  let st1 := forIJ grid (estimate exnh k) st
  match forIJM grid (tendSolve fuel grid ph exnh k) st1 with
  | none => none
  | some st2 => some (forIJ grid (tendAdd pw grid ph thvrefh k) st2)

/-- Kernel `calcbuoyancytend_2nd(wt, s, qt, ph, sh, qth, ql, thvrefh)`; `st`
holds `wt`, `sh`, `qth`, `ql` on entry, the result holds them on return. -/
def calcbuoyancytend_2nd (pw : K → K → K) (fuel : Nat) (grid : Grid K)
    (s qt ph thvrefh : Int → K) (st : TendState K) : Option (TendState K) :=
  forRangeM (grid.kstart+1) grid.kend
    (tendLevel pw fuel grid ph thvrefh (tendEstimate_2nd grid s qt ph)) st

/-- Kernel `calcbuoyancytend_4th(wt, s, qt, ph, sh, qth, ql, thvrefh)`; `st`
holds `wt`, `sh`, `qth`, `ql` on entry, the result holds them on return. -/
def calcbuoyancytend_4th (pw : K → K → K) (fuel : Nat) (grid : Grid K)
    (s qt ph thvrefh : Int → K) (st : TendState K) : Option (TendState K) :=
  forRangeM (grid.kstart+1) grid.kend
    (tendLevel pw fuel grid ph thvrefh (tendEstimate_4th grid s qt ph)) st

/-! ## Cloud mask `calcmaskql` -/

/-- The arrays written by the mask kernels. -/
structure MaskState (K : Type) where
  /-- Full-level indicator field. -/
  mask : Int → K
  /-- Half-level indicator field. -/
  maskh : Int → K
  /-- Full-level count per level. -/
  nmask : Int → Int
  /-- Half-level count per level. -/
  nmaskh : Int → Int

/-- Conversion of a C++ comparison result to `int`. -/
def boolToInt (b : Bool) : Int :=
  if b then 1 else 0

/-- Full-level loop body of `calcmaskql` at one cell:
`ntmp = ql[ijk] > 0.; nmask[k] += ntmp; mask[ijk] = (double)ntmp;`. -/
def maskqlCell (grid : Grid K) (ql : Int → K) (k : Int) (i j : Int)
    (st : MaskState K) : MaskState K :=
  let jj := grid.icells
  let kk := grid.ijcells
  let ijk := i + j*jj + k*kk
  let ntmp := boolToInt (decide (ql ijk > 0))
  { st with nmask := Function.update st.nmask k (st.nmask k + ntmp),
            mask := Function.update st.mask ijk ((ntmp : Int) : K) }

/-- Half-level loop body of `calcmaskql` at one cell:
`ntmp = (ql[ijk-kk] + ql[ijk]) > 0.; nmaskh[k] += ntmp; maskh[ijk] = (double)ntmp;`. -/
def maskqlCellh (grid : Grid K) (ql : Int → K) (k : Int) (i j : Int)
    (st : MaskState K) : MaskState K :=
  let jj := grid.icells
  let kk := grid.ijcells
  let ijk := i + j*jj + k*kk
  let ntmp := boolToInt (decide ((ql (ijk-kk) + ql ijk) > 0))
  { st with nmaskh := Function.update st.nmaskh k (st.nmaskh k + ntmp),
            maskh := Function.update st.maskh ijk ((ntmp : Int) : K) }

/-- Kernel `calcmaskql(mask, maskh, nmask, nmaskh, area, areah, ql)`; the
arguments `area` and `areah` are not used by the source. -/
def calcmaskql (grid : Grid K) (master : Master) (ql : Int → K) (st : MaskState K) :
    MaskState K :=
  let kstart := grid.kstart
  let kend := grid.kend
  let st1 := forRange grid.kstart grid.kend (fun k st =>
    forIJ grid (maskqlCell grid ql k) { st with nmask := Function.update st.nmask k 0 }) st
  let st2 := forRange grid.kstart (grid.kend+1) (fun k st =>
    forIJ grid (maskqlCellh grid ql k) { st with nmaskh := Function.update st.nmaskh k 0 }) st1
  let st3 := { st2 with mask := grid.boundary_cyclic st2.mask }
  let st4 := { st3 with maskh := grid.boundary_cyclic st3.maskh }
  let st5 := { st4 with nmask := master.sum st4.nmask grid.kcells }
  let st6 := { st5 with nmaskh := master.sum st5.nmaskh grid.kcells }
  let st7 := { st6 with nmaskh := Function.update st6.nmaskh kstart 0 }
  { st7 with nmaskh := Function.update st7.nmaskh kend 0 }

/-! ## Core mask `calcmaskqlcore` -/

/-- Full-level loop body of `calcmaskqlcore` at one cell:
`ntmp = (ql[ijk] > 0.)*(b[ijk]-bmean[k] > 0.); nmask[k] += ntmp; mask[ijk] = (double)ntmp;`. -/
def maskqlcoreCell (grid : Grid K) (ql b bmean : Int → K) (k : Int) (i j : Int)
    (st : MaskState K) : MaskState K :=
  let jj := grid.icells
  let kk := grid.ijcells
  let ijk := i + j*jj + k*kk
  let ntmp := boolToInt (decide (ql ijk > 0)) * boolToInt (decide (b ijk - bmean k > 0))
  { st with nmask := Function.update st.nmask k (st.nmask k + ntmp),
            mask := Function.update st.mask ijk ((ntmp : Int) : K) }

/-- Half-level loop body of `calcmaskqlcore` at one cell:
`ntmp = (ql[ijk-kk]+ql[ijk] > 0.)*(b[ijk-kk]+b[ijk]-bmean[k-1]-bmean[k] > 0.);`
`nmaskh[k] += ntmp; maskh[ijk] = (double)ntmp;`. -/
def maskqlcoreCellh (grid : Grid K) (ql b bmean : Int → K) (k : Int) (i j : Int)
    (st : MaskState K) : MaskState K :=
  let jj := grid.icells
  let kk := grid.ijcells
  let ijk := i + j*jj + k*kk
  let ntmp := boolToInt (decide (ql (ijk-kk) + ql ijk > 0))
    * boolToInt (decide (b (ijk-kk) + b ijk - bmean (k-1) - bmean k > 0))
  { st with nmaskh := Function.update st.nmaskh k (st.nmaskh k + ntmp),
            maskh := Function.update st.maskh ijk ((ntmp : Int) : K) }

/-- Kernel `calcmaskqlcore(mask, maskh, nmask, nmaskh, area, areah, ql, b, bmean)`;
the arguments `area` and `areah` are not used by the source. -/
def calcmaskqlcore (grid : Grid K) (master : Master) (ql b bmean : Int → K)
    (st : MaskState K) : MaskState K :=
  let kstart := grid.kstart
  let kend := grid.kend
  let st1 := forRange grid.kstart grid.kend (fun k st =>
    forIJ grid (maskqlcoreCell grid ql b bmean k)
      { st with nmask := Function.update st.nmask k 0 }) st
  let st2 := forRange grid.kstart (grid.kend+1) (fun k st =>
    forIJ grid (maskqlcoreCellh grid ql b bmean k)
      { st with nmaskh := Function.update st.nmaskh k 0 }) st1
  let st3 := { st2 with mask := grid.boundary_cyclic st2.mask }
  let st4 := { st3 with maskh := grid.boundary_cyclic st3.maskh }
  let st5 := { st4 with nmask := master.sum st4.nmask grid.kcells }
  let st6 := { st5 with nmaskh := master.sum st5.nmaskh grid.kcells }
  let st7 := { st6 with nmaskh := Function.update st6.nmaskh kstart 0 }
  { st7 with nmaskh := Function.update st7.nmaskh kend 0 }

/-- Every entry of the four mask arrays of the state `t` is at most the entry
of the state `u`. -/
def MaskLe (t u : MaskState K) : Prop :=
  (∀ n, t.mask n ≤ u.mask n) ∧ (∀ n, t.maskh n ≤ u.maskh n) ∧
  (∀ k, t.nmask k ≤ u.nmask k) ∧ (∀ k, t.nmaskh k ≤ u.nmaskh k)

/-! ## Initialisation `create()` -/

/-- Ghost cells of the reference profiles in `create()`: the surface and top
values `thl0s`, `qt0s`, `thl0t`, `qt0t` and the four stores that follow them.
The arguments are `thl0` and `qt0` after `getProf` has stored the interior
levels; the result is the pair of arrays after the stores. -/
def createGhost (grid : Grid K) (thl0 qt0 : Int → K) : (Int → K) × (Int → K) :=
  let kstart := grid.kstart
  let kend := grid.kend
  let thl0s := thl0 kstart - grid.z kstart*(thl0 (kstart+1)-thl0 kstart)*grid.dzhi (kstart+1)
  let qt0s := qt0 kstart - grid.z kstart*(qt0 (kstart+1) -qt0 kstart )*grid.dzhi (kstart+1)
  let thl0t := thl0 (kend-1)
    + (grid.zh kend-grid.z (kend-1))*(thl0 (kend-1)-thl0 (kend-2))*grid.dzhi (kend-1)
  let qt0t := qt0 (kend-1)
    + (grid.zh kend-grid.z (kend-1))*(qt0 (kend-1)- qt0 (kend-2) )*grid.dzhi (kend-1)
  let thl0a := Function.update thl0 (kstart-1) (2*thl0s - thl0 kstart)
  let thl0b := Function.update thl0a kend (2*thl0t - thl0a (kend-1))
  let qt0a := Function.update qt0 (kstart-1) (2*qt0s - qt0 kstart)
  let qt0b := Function.update qt0a kend (2*qt0t - qt0a (kend-1))
  (thl0b, qt0b)

/-- Value at `x` of the straight line through `(x1, y1)` and `(x2, y2)`; this
is the wording of the specification, not code. -/
def lineThrough (x1 y1 x2 y2 x : K) : K :=
  y1 + (x - x1) * ((y2 - y1) / (x2 - x1))

/-- The vector `allowedcrossvars` after the `push_back` calls of `create()`,
starting from the empty vector of a freshly constructed object. -/
def allowedcrossvars (grid : Grid K) : List String :=
  ["b", "bbot", "bfluxbot"] ++ (if grid.swspatialorder = "4" then ["blngrad"] else [])
    ++ ["ql", "qlpath"]

/-- The `while` loop of `create()` over `crosslist`: an entry that
`std::count` does not find among the allowed names is erased, any other entry
is kept. -/
def checkCrosslist (allowed : List String) : List String → List String
  | [] => []
  | x :: rest =>
    if allowed.count x = 0 then checkCrosslist allowed rest
    else x :: checkCrosslist allowed rest

/-- The member `crosslist` at the end of `create()`: the checked list after
`std::sort`, for which the ascending insertion sort of strings stands in. -/
def createCrosslist (grid : Grid K) (crosslist : List String) : List String :=
  (checkCrosslist (allowedcrossvars grid) crosslist).insertionSort (fun a b => a ≤ b)

/-! ## Field kernels `calcqlfield`, `calcbuoyancy`, `calcN2` -/

/-- Loop body of `calcqlfield` at one cell:
`ql[ijk] = calcql(s[ijk], qt[ijk], p[k], ex);`. -/
def qlfieldCell (fuel : Nat) (grid : Grid K) (s qt p : Int → K) (ex : K) (k : Int)
    (i j : Int) (ql : Int → K) : Option (Int → K) :=
  let jj := grid.icells
  let kk := grid.icells*grid.jcells
  let ijk := i + j*jj + k*kk
  match calcql fuel (s ijk) (qt ijk) (p k) ex with
  | none => none
  | some v => some (Function.update ql ijk v)

/-- Kernel `calcqlfield(ql, s, qt, p)`: the argument `ql` is the array on
entry, the result is the array on return. -/
def calcqlfield (pw : K → K → K) (fuel : Nat) (grid : Grid K) (ql s qt p : Int → K) :
    Option (Int → K) :=
  forRangeM grid.kstart grid.kend
    (fun k ql => forIJM grid (qlfieldCell fuel grid s qt p (exn pw (p k)) k) ql) ql

/-- The arrays written by `calcbuoyancy`: the buoyancy `b` and the horizontal
scratch slice `ql`. -/
structure BuoyState (K : Type) where
  /-- Buoyancy, a 3D field. -/
  b : Int → K
  /-- Scratch slice: liquid water of the current level. -/
  ql : Int → K

/-- First horizontal loop of `calcbuoyancy` at one cell:
`tl = s[ijk] * ex; ql[ij] = qt[ijk]-rslf(p[k],tl);`. -/
def buoyEstimate (grid : Grid K) (s qt p : Int → K) (ex : K) (k : Int)
    (i j : Int) (st : BuoyState K) : BuoyState K :=
  let jj := grid.icells
  let kk := grid.icells*grid.jcells
  let ijk := i + j*jj + k*kk
  let ij := i + j*jj
  let tl := s ijk * ex
  { st with ql := Function.update st.ql ij (qt ijk - rslf (p k) tl) }

/-- Second horizontal loop of `calcbuoyancy` at one cell:
`if(ql[ij] > 0) ql[ij] = calcql(s[ijk], qt[ijk], p[k], ex); else ql[ij] = 0.;`. -/
def buoySolve (fuel : Nat) (grid : Grid K) (s qt p : Int → K) (ex : K) (k : Int)
    (i j : Int) (st : BuoyState K) : Option (BuoyState K) :=
  let jj := grid.icells
  let kk := grid.icells*grid.jcells
  let ijk := i + j*jj + k*kk
  let ij := i + j*jj
  if st.ql ij > 0 then
    match calcql fuel (s ijk) (qt ijk) (p k) ex with
    | none => none
    | some v => some { st with ql := Function.update st.ql ij v }
  else some { st with ql := Function.update st.ql ij 0 }

/-- Third horizontal loop of `calcbuoyancy` at one cell:
`b[ijk] = bu(p[k], s[ijk], qt[ijk], ql[ij], thvref[k]);`. -/
def buoyAssign (pw : K → K → K) (grid : Grid K) (s qt p thvref : Int → K) (k : Int)
    (i j : Int) (st : BuoyState K) : BuoyState K :=
  let jj := grid.icells
  let kk := grid.icells*grid.jcells
  let ijk := i + j*jj + k*kk
  let ij := i + j*jj
  { st with b := Function.update st.b ijk (bu pw (p k) (s ijk) (qt ijk) (st.ql ij) (thvref k)) }

/-- Kernel `calcbuoyancy(b, s, qt, p, ql, thvref)`; `st` holds `b` and `ql` on
entry, the result holds them on return. -/
def calcbuoyancy (pw : K → K → K) (fuel : Nat) (grid : Grid K) (s qt p thvref : Int → K)
    (st : BuoyState K) : Option (BuoyState K) :=
  forRangeM 0 grid.kcells (fun k st =>
    let ex := exn pw (p k)
    let st1 := forIJ grid (buoyEstimate grid s qt p ex k) st
    match forIJM grid (buoySolve fuel grid s qt p ex k) st1 with
    | none => none
    | some st2 => some (forIJ grid (buoyAssign pw grid s qt p thvref k) st2)) st

/-- Loop body of `calcN2` at one cell:
`N2[ijk] = grav/thvref[k]*0.5*(s[ijk+kk] - s[ijk-kk])*dzi[k];`. -/
def N2Cell (grid : Grid K) (s dzi thvref : Int → K) (k : Int) (i j : Int)
    (N2 : Int → K) : Int → K :=
  let jj := grid.icells
  let kk := grid.icells*grid.jcells
  let ijk := i + j*jj + k*kk
  Function.update N2 ijk (grav/thvref k*0.5*(s (ijk+kk) - s (ijk-kk))*dzi k)

/-- Kernel `calcN2(N2, s, dzi, thvref)`. -/
def calcN2 (grid : Grid K) (N2 s dzi thvref : Int → K) : Int → K :=
  forRange 0 grid.kcells (fun k N2 => forIJ grid (N2Cell grid s dzi thvref k) N2) N2

/-! ## Module state, `exec`, `getmask`, `getthermofield` -/

/-- Modelled from the spec: the members of a `cfield3d` (declared in
`field3d.h`, which is not among the sources) that `exec`, `getmask` and
`getthermofield` touch: the array `data` and the profile `datamean`. -/
structure Field3d (K : Type) where
  /-- The three-dimensional array. -/
  data : Int → K
  /-- The profile of horizontal means. -/
  datamean : Int → K

/-- Modelled from the spec: the state shared by the member functions, that is
the members of `cthermo_moist` (declared in `thermo_moist.h`, not among the
sources) and of the `cfields` registry that `exec`, `getmask` and
`getthermofield` read or write.  A pointer to a `cfield3d` is the key of that
field in `s`; `fields->s["x"]` is the key `"x"`. -/
structure ThermoState (K : Type) where
  /-- Switch `swupdatebasestate`. -/
  swupdatebasestate : Int
  /-- Surface pressure `ps`. -/
  ps : K
  /-- Full-level reference pressure. -/
  pref : Int → K
  /-- Half-level reference pressure. -/
  prefh : Int → K
  /-- Full-level Exner function. -/
  exnref : Int → K
  /-- Half-level Exner function. -/
  exnrefh : Int → K
  /-- Full-level reference virtual potential temperature. -/
  thvref : Int → K
  /-- Half-level reference virtual potential temperature. -/
  thvrefh : Int → K
  /-- The named fields `fields->s`. -/
  s : String → Field3d K
  /-- The tendency `fields->wt->data`. -/
  wt : Int → K
  /-- Full-level reference density `fields->rhoref`. -/
  rhoref : Int → K
  /-- Half-level reference density `fields->rhorefh`. -/
  rhorefh : Int → K

/-- The array seen through the pointer `&a[off]`: its element `n` is
`a[off + n]`. -/
def sliceAt (a : Int → K) (off : Int) : Int → K :=
  fun n => a (off + n)

/-- The array `a` after the `len` elements behind `&a[off]` have taken the
values of `v`. -/
def unsliceAt (a : Int → K) (off len : Int) (v : Int → K) : Int → K :=
  fun n => if off ≤ n ∧ n < off + len then v (n - off) else a n

/-- The eight output arrays handed to `calcbasestate` by `exec` and
`getthermofield`: `pref`, `prefh`, the slices `&tmp2[0*kcells]`,
`&tmp2[1*kcells]`, `&tmp2[2*kcells]`, `&tmp2[3*kcells]` of
`fields->s["tmp2"]->data`, `exnref` and `exnrefh`. -/
def basestateArgs (grid : Grid K) (st : ThermoState K) : BaseState K :=
  let kcells := grid.kcells
  let tmp2 := (st.s "tmp2").data
  { pref := st.pref, prefh := st.prefh
    rho := sliceAt tmp2 (0*kcells), rhoh := sliceAt tmp2 (1*kcells)
    thv := sliceAt tmp2 (2*kcells), thvh := sliceAt tmp2 (3*kcells)
    ex := st.exnref, exh := st.exnrefh }

/-- The statement shared by `exec` and `getthermofield`:
`if(swupdatebasestate) calcbasestate(pref, prefh, &tmp2[0*kcells],
&tmp2[1*kcells], &tmp2[2*kcells], &tmp2[3*kcells], exnref, exnrefh,
fields->s["s"]->datamean, fields->s["qt"]->datamean);`.  The four slices of
`tmp2` are handed over as arrays and written back as blocks of `kcells`
elements. -/
def updateBasestate (pw : K → K → K) (fuel : Nat) (grid : Grid K) (st : ThermoState K) :
    Option (ThermoState K) :=
  let kcells := grid.kcells
  let tmp2 := (st.s "tmp2").data
  if st.swupdatebasestate ≠ 0 then
    match calcbasestate pw fuel grid st.ps (st.s "s").datamean (st.s "qt").datamean
        (basestateArgs grid st) with
    | none => none
    | some r =>
      let d1 := unsliceAt tmp2 (0*kcells) kcells r.rho
      let d2 := unsliceAt d1 (1*kcells) kcells r.rhoh
      let d3 := unsliceAt d2 (2*kcells) kcells r.thv
      let d4 := unsliceAt d3 (3*kcells) kcells r.thvh
      some { st with pref := r.pref, prefh := r.prefh, exnref := r.ex, exnrefh := r.exh,
                     s := Function.update st.s "tmp2" { st.s "tmp2" with data := d4 } }
  else some st

/-- The state after a tendency kernel called as in `exec` has returned the
arrays `r`: `wt` and the three slices `&tmp2[0*kk]`, `&tmp2[1*kk]`,
`&tmp2[2*kk]`. -/
def execWriteBack (grid : Grid K) (st : ThermoState K) (r : TendState K) : ThermoState K :=
  let kk := grid.icells*grid.jcells
  let tmp2 := (st.s "tmp2").data
  let d1 := unsliceAt tmp2 (0*kk) kk r.sh
  let d2 := unsliceAt d1 (1*kk) kk r.qth
  let d3 := unsliceAt d2 (2*kk) kk r.ql
  { st with wt := r.wt, s := Function.update st.s "tmp2" { st.s "tmp2" with data := d3 } }

/-- Member function `exec()`: the result is the state on return and the
returned value `(nerror>0)`. -/
def exec (pw : K → K → K) (fuel : Nat) (grid : Grid K) (st : ThermoState K) :
    Option (ThermoState K × Int) :=
  let kk := grid.icells*grid.jcells
  let nerror : Int := 0
  match updateBasestate pw fuel grid st with
  | none => none
  | some st1 =>
    let tmp2 := (st1.s "tmp2").data
    let ts : TendState K :=
      { wt := st1.wt, sh := sliceAt tmp2 (0*kk), qth := sliceAt tmp2 (1*kk)
        ql := sliceAt tmp2 (2*kk) }
    if grid.swspatialorder = "2" then
      match calcbuoyancytend_2nd pw fuel grid (st1.s "s").data (st1.s "qt").data st1.prefh
          st1.thvrefh ts with
      | none => none
      | some r => some (execWriteBack grid st1 r, boolToInt (decide (nerror > 0)))
    else if grid.swspatialorder = "4" then
      match calcbuoyancytend_4th pw fuel grid (st1.s "s").data (st1.s "qt").data st1.prefh
          st1.thvrefh ts with
      | none => none
      | some r => some (execWriteBack grid st1 r, boolToInt (decide (nerror > 0)))
    else some (st1, boolToInt (decide (nerror > 0)))

/-- Member function `getthermofield(fld, tmp, name)`; `fld` and `tmp` are the
keys of the two fields.  The result is the state on return and the returned
value.  The `restrict` arrays of a kernel are taken to be distinct. -/
def getthermofield (pw : K → K → K) (fuel : Nat) (grid : Grid K) (fld tmp : String)
    (name : String) (st : ThermoState K) : Option (ThermoState K × Int) :=
  match updateBasestate pw fuel grid st with
  | none => none
  | some st1 =>
    if name = "b" then
      match calcbuoyancy pw fuel grid (st1.s "s").data (st1.s "qt").data st1.pref st1.thvref
          { b := (st1.s fld).data, ql := (st1.s tmp).data } with
      | none => none
      | some r =>
        let s1 := Function.update st1.s tmp { st1.s tmp with data := r.ql }
        some ({ st1 with s := Function.update s1 fld { s1 fld with data := r.b } }, 0)
    else if name = "ql" then
      match calcqlfield pw fuel grid (st1.s fld).data (st1.s "s").data (st1.s "qt").data
          st1.pref with
      | none => none
      | some ql => some ({ st1 with s := Function.update st1.s fld { st1.s fld with data := ql } }, 0)
    else if name = "N2" then
      let n2 := calcN2 grid (st1.s fld).data (st1.s "s").data grid.dzi st1.thvref
      some ({ st1 with s := Function.update st1.s fld { st1.s fld with data := n2 } }, 0)
    else some (st1, 1)

/-- Member function `getmask(mfield, mfieldh, m)` for the mask named `name`;
`m` holds `mfield->data`, `mfieldh->data`, `stats->nmask` and `stats->nmaskh`.
The horizontal mean `grid->calcmean(prof, data, n)` is not among the sources
and is the parameter `calcmean`.  The result is the state, the mask arrays and
the returned value. -/
def getmask (pw : K → K → K) (fuel : Nat) (grid : Grid K) (master : Master)
    (calcmean : (Int → K) → (Int → K) → Int → (Int → K)) (name : String)
    (st : ThermoState K) (m : MaskState K) : Option (ThermoState K × MaskState K × Int) :=
  if name = "ql" then
    match calcqlfield pw fuel grid (st.s "tmp1").data (st.s "s").data (st.s "qt").data
        st.pref with
    | none => none
    | some ql =>
      let st1 := { st with s := Function.update st.s "tmp1" { st.s "tmp1" with data := ql } }
      some (st1, calcmaskql grid master (st1.s "tmp1").data m, 0)
  else if name = "qlcore" then
    match calcbuoyancy pw fuel grid (st.s "s").data (st.s "qt").data st.pref st.thvref
        { b := (st.s "tmp2").data, ql := (st.s "tmp1").data } with
    | none => none
    | some r =>
      let s1 := Function.update st.s "tmp1" { st.s "tmp1" with data := r.ql }
      let s2 := Function.update s1 "tmp2" { s1 "tmp2" with data := r.b }
      let s3 := Function.update s2 "tmp2"
        { s2 "tmp2" with datamean := calcmean (s2 "tmp2").datamean (s2 "tmp2").data grid.kcells }
      match calcqlfield pw fuel grid (s3 "tmp1").data (s3 "s").data (s3 "qt").data st.pref with
      | none => none
      | some ql =>
        let s4 := Function.update s3 "tmp1" { s3 "tmp1" with data := ql }
        some ({ st with s := s4 },
          calcmaskqlcore grid master (s4 "tmp1").data (s4 "tmp2").data (s4 "tmp2").datamean m, 0)
  else some (st, m, 0)

/-- Member function `checkthermofield(name)`:
`if(name == "b" || name == "ql") return 0; else return 1;`. -/
def checkthermofield (name : String) : Int :=
  if name = "b" ∨ name = "ql" then 0 else 1

/-! ## The reduction over processes -/

/-- The two counting loops of `calcmaskql` (full levels, then half levels),
that is the kernel up to the boundary exchange and the reduction. -/
def calcmaskqlCount (grid : Grid K) (ql : Int → K) (st : MaskState K) : MaskState K :=
  let st1 := forRange grid.kstart grid.kend (fun k st =>
    forIJ grid (maskqlCell grid ql k) { st with nmask := Function.update st.nmask k 0 }) st
  forRange grid.kstart (grid.kend+1) (fun k st =>
    forIJ grid (maskqlCellh grid ql k) { st with nmaskh := Function.update st.nmaskh k 0 }) st1

/-- Modelled from the spec: the reduction `master->sum(data, n)` seen over all
processes (`master.cxx` is not among the sources; the spec calls it the "sum of
an array across processes").  Process `q` holds `data q` on entry; on return
each of its first `n` elements is the sum of that element over the processes
`procs`, the other elements are as before. -/
def allreduceSum {P : Type} (procs : Finset P) (data : P → Int → Int) (n : Int) :
    P → Int → Int :=
  fun q k => if 0 ≤ k ∧ k < n then ∑ p in procs, data p k else data q k

/-- The sub-domains of the processes `procs` partition the interior horizontal
cells of the whole domain `G`: process `p` works on the grid `g p`, which has
the levels of `G`, its interior cell `(i, j)` is the cell `cellOf p i j` of the
whole domain, and every interior cell of the whole domain is the cell of
exactly one process. -/
structure IsPartition {P : Type} (procs : Finset P) (G : Grid K) (g : P → Grid K)
    (cellOf : P → Int → Int → Int × Int) : Prop where
  /-- Every sub-domain is a well-formed grid. -/
  wellFormed : ∀ p ∈ procs, (g p).WellFormed
  /-- The sub-domains start at the first level of the whole domain. -/
  kstart_eq : ∀ p ∈ procs, (g p).kstart = G.kstart
  /-- The sub-domains end at the last level of the whole domain. -/
  kend_eq : ∀ p ∈ procs, (g p).kend = G.kend
  /-- The sub-domains have the level count of the whole domain. -/
  kcells_eq : ∀ p ∈ procs, (g p).kcells = G.kcells
  /-- An interior cell of a sub-domain is an interior cell of the whole domain. -/
  interior : ∀ p ∈ procs, ∀ i j, Interior (g p) i j →
    Interior G (cellOf p i j).1 (cellOf p i j).2
  /-- No cell of the whole domain belongs to two sub-domains or twice to one. -/
  disjoint : ∀ p ∈ procs, ∀ q ∈ procs, ∀ i j i2 j2, Interior (g p) i j → Interior (g q) i2 j2 →
    cellOf p i j = cellOf q i2 j2 → p = q ∧ i = i2 ∧ j = j2
  /-- Every interior cell of the whole domain belongs to a sub-domain. -/
  cover : ∀ I J, Interior G I J →
    ∃ p ∈ procs, ∃ i j, Interior (g p) i j ∧ cellOf p i j = (I, J)

/-- The field `ql p` of process `p` holds, in the interior cells of its
sub-domain and at the interior levels, the values of the field `Q` of the whole
domain. -/
def IsRestriction {P : Type} (procs : Finset P) (G : Grid K) (g : P → Grid K)
    (cellOf : P → Int → Int → Int × Int) (Q : Int → K) (ql : P → Int → K) : Prop :=
  ∀ p ∈ procs, ∀ i j k, Interior (g p) i j → G.kstart ≤ k → k < G.kend →
    ql p (i + j * (g p).icells + k * (g p).ijcells)
      = Q ((cellOf p i j).1 + (cellOf p i j).2 * G.icells + k * G.ijcells)

/-! ## A small test column -/

/-- A column with one horizontal cell and two interior levels (`kstart = 1`,
`kend = 3`), second order, levels ten metres apart. -/
def dryGrid : Grid K :=
  { icells := 1, jcells := 1, kcells := 5, ijcells := 1
    istart := 0, iend := 1, jstart := 0, jend := 1
    kstart := 1, kend := 3, kmax := 2
    swspatialorder := "2"
    z := fun k => 10 * (k : K) - 5
    zh := fun k => 10 * (k : K) - 10
    dz := fun _ => 10
    dzh := fun _ => 10
    dzi := fun _ => 0.1
    dzhi := fun _ => 0.1
    boundary_cyclic := id }

/-- Output profiles that are zero everywhere, as handed to `calcbasestate`
before it has written anything. -/
def zeroBaseState : BaseState K :=
  { pref := fun _ => 0, prefh := fun _ => 0, rho := fun _ => 0, rhoh := fun _ => 0
    thv := fun _ => 0, thvh := fun _ => 0, ex := fun _ => 0, exh := fun _ => 0 }

/-- Tendency and scratch arrays that are zero everywhere. -/
def zeroTendState : TendState K :=
  { wt := fun _ => 0, sh := fun _ => 0, qth := fun _ => 0, ql := fun _ => 0 }

/-- Mask arrays that are zero everywhere. -/
def zeroMaskState : MaskState K :=
  { mask := fun _ => 0, maskh := fun _ => 0, nmask := fun _ => 0, nmaskh := fun _ => 0 }

/-- A single process: the reduction returns its argument. -/
def singleMaster : Master :=
  { mpiid := 0, sum := fun a _ => a }

/-- A state for the test column: `s`, `qt` and the reference pressure have the
same value at every cell and level and every other array is zero; `sw` is the
switch `swupdatebasestate`. -/
def columnState (sw : Int) (sv qv pv : K) : ThermoState K :=
  { swupdatebasestate := sw, ps := pv
    pref := fun _ => pv, prefh := fun _ => pv
    exnref := fun _ => 0, exnrefh := fun _ => 0
    thvref := fun _ => 0, thvrefh := fun _ => 0
    s := fun name =>
      if name = "s" then { data := fun _ => sv, datamean := fun _ => sv }
      else if name = "qt" then { data := fun _ => qv, datamean := fun _ => qv }
      else { data := fun _ => 0, datamean := fun _ => 0 }
    wt := fun _ => 0, rhoref := fun _ => 0, rhorefh := fun _ => 0 }

/-- The dry test column as a module state: `s = 190` and `qt = 0` in every cell
and mean, surface pressure `1e5`, the base state is updated
(`swupdatebasestate = 1`) and every other array is zero. -/
def dryState : ThermoState K :=
  { columnState 1 190 0 0 with ps := 1e5 }

/-- A whole domain of two columns side by side (`istart = 0`, `iend = 2`), with
the levels of the test column. -/
def pairGrid : Grid K :=
  { icells := 2, jcells := 1, kcells := 5, ijcells := 2
    istart := 0, iend := 2, jstart := 0, jend := 1
    kstart := 1, kend := 3, kmax := 2
    swspatialorder := "2"
    z := fun k => 10 * (k : K) - 5
    zh := fun k => 10 * (k : K) - 10
    dz := fun _ => 10
    dzh := fun _ => 10
    dzi := fun _ => 0.1
    dzhi := fun _ => 0.1
    boundary_cyclic := id }

/-- The column of `pairGrid` that process `p` of two works on: column `0` for
`false`, column `1` for `true`. -/
def pairCell (p : Bool) (i j : Int) : Int × Int :=
  (i + (if p then 1 else 0), j)

/-- A second-order column with one interior cell per level and one ghost cell
on every side: `icells = jcells = 3`, the interior cell is `i = j = 1`, the
levels are `0 .. 3` with `kstart = 1` and `kend = 3`. -/
def ghostGrid : Grid K :=
  { icells := 3, jcells := 3, kcells := 4, ijcells := 9
    istart := 1, iend := 2, jstart := 1, jend := 2
    kstart := 1, kend := 3, kmax := 2
    swspatialorder := "2"
    z := fun k => 10 * (k : K) - 5
    zh := fun k => 10 * (k : K) - 10
    dz := fun _ => 10
    dzh := fun _ => 10
    dzi := fun _ => 0.1
    dzhi := fun _ => 0.1
    boundary_cyclic := id }

/-- A fourth-order column with one interior cell per level and two ghost cells
on every side: `icells = jcells = 5`, the interior cell is `i = j = 2`, the
levels are `0 .. 5` with `kstart = 2` and `kend = 4`. -/
def fourthGrid : Grid K :=
  { icells := 5, jcells := 5, kcells := 6, ijcells := 25
    istart := 2, iend := 3, jstart := 2, jend := 3
    kstart := 2, kend := 4, kmax := 2
    swspatialorder := "4"
    z := fun k => 10 * (k : K) - 15
    zh := fun k => 10 * (k : K) - 20
    dz := fun _ => 10
    dzh := fun _ => 10
    dzi := fun _ => 0.1
    dzhi := fun _ => 0.1
    boundary_cyclic := id }

/-! # Theorems -/

/-! ## The Newton loop of `calcql` -/

theorem calcqlLoop_of_cond (tl qt p : K) (fuel : Nat) (st : NewtonState K)
    (h : calcqlCond st) :
    calcqlLoop tl qt p (fuel + 1) st = calcqlLoop tl qt p fuel (calcqlBody tl qt p st) := by
  simp [calcqlLoop, h]

theorem calcqlLoop_of_not_cond (tl qt p : K) (fuel : Nat) (st : NewtonState K)
    (h : ¬ calcqlCond st) :
    calcqlLoop tl qt p (fuel + 1) st = some st := by
  simp [calcqlLoop, h]

/-- A loop whose test succeeds on the first `n` states and fails on the next one
stops after exactly `n` passes, whatever fuel is left over. -/
theorem calcqlLoop_iter (tl qt p : K) (n extra : Nat) (st : NewtonState K)
    (hc : ∀ m, m < n → calcqlCond ((calcqlBody tl qt p)^[m] st))
    (hn : ¬ calcqlCond ((calcqlBody tl qt p)^[n] st)) :
    calcqlLoop tl qt p (n + 1 + extra) st = some ((calcqlBody tl qt p)^[n] st) := by
  induction n generalizing st with
  | zero =>
    have e : 0 + 1 + extra = extra + 1 := by omega
    rw [e]
    exact calcqlLoop_of_not_cond tl qt p extra st hn
  | succ n ih =>
    have e : n + 1 + 1 + extra = (n + 1 + extra) + 1 := by omega
    rw [e, calcqlLoop_of_cond tl qt p _ st (hc 0 (by omega)), Function.iterate_succ_apply]
    apply ih
    · intro m hm
      have h1 := hc (m + 1) (by omega)
      rwa [Function.iterate_succ_apply] at h1
    · rwa [Function.iterate_succ_apply] at hn

/-- The loop is only ever left in a state that fails the loop test. -/
theorem calcqlLoop_exit (tl qt p : K) (fuel : Nat) (st res : NewtonState K)
    (h : calcqlLoop tl qt p fuel st = some res) : ¬ calcqlCond res := by
  induction fuel generalizing st with
  | zero => simp [calcqlLoop] at h
  | succ n ih =>
    by_cases hc : calcqlCond st
    · rw [calcqlLoop_of_cond tl qt p n st hc] at h
      exact ih _ h
    · rw [calcqlLoop_of_not_cond tl qt p n st hc] at h
      cases h
      exact hc

/-- The state left by the loop is either the one it was entered with, or the
result of one pass through the body. -/
theorem calcqlLoop_result (tl qt p : K) (fuel : Nat) (st res : NewtonState K)
    (h : calcqlLoop tl qt p fuel st = some res) :
    res = st ∨ ∃ pre, res = calcqlBody tl qt p pre := by
  induction fuel generalizing st with
  | zero => simp [calcqlLoop] at h
  | succ n ih =>
    by_cases hc : calcqlCond st
    · rw [calcqlLoop_of_cond tl qt p n st hc] at h
      rcases ih _ h with h1 | h1
      · exact Or.inr ⟨st, h1⟩
      · exact Or.inr h1
    · rw [calcqlLoop_of_not_cond tl qt p n st hc] at h
      cases h
      exact Or.inl rfl

/-- More fuel does not change a result that was reached. -/
theorem calcqlLoop_fuel_mono (tl qt p : K) (fuel extra : Nat) (st res : NewtonState K)
    (h : calcqlLoop tl qt p fuel st = some res) :
    calcqlLoop tl qt p (fuel + extra) st = some res := by
  induction fuel generalizing st with
  | zero => simp [calcqlLoop] at h
  | succ n ih =>
    have e : n + 1 + extra = (n + extra) + 1 := by omega
    rw [e]
    by_cases hc : calcqlCond st
    · rw [calcqlLoop_of_cond tl qt p n st hc] at h
      rw [calcqlLoop_of_cond tl qt p _ st hc]
      exact ih _ h
    · rw [calcqlLoop_of_not_cond tl qt p n st hc] at h
      rw [calcqlLoop_of_not_cond tl qt p _ st hc]
      exact h

/-- What `calcql` returns, read off the state in which its loop stops. -/
theorem calcql_of_loop (fuel : Nat) (s qt p ex : K) (st : NewtonState K)
    (h : calcqlLoop (s * ex) qt p fuel (calcqlInit (s * ex)) = some st) :
    calcql fuel s qt p ex = st.qs.map (fun qs => max 0 (qt - qs)) := by
  simp [calcql, h]

/-- A returned value comes from a loop that stopped after at least one pass. -/
theorem calcql_some (fuel : Nat) (s qt p ex ql : K)
    (h : calcql fuel s qt p ex = some ql) :
    ∃ st, calcqlLoop (s * ex) qt p fuel (calcqlInit (s * ex)) = some st ∧
      st.qs = some (rslf p st.tnr_old) ∧
      st.tnr = st.tnr_old - (st.tnr_old+(lv/cp)*rslf p st.tnr_old-s*ex-(lv/cp)*qt)
        /(1+(lv^2*rslf p st.tnr_old)/ (rv*cp*st.tnr_old^2)) ∧
      ql = max 0 (qt - rslf p st.tnr_old) := by
  cases hl : calcqlLoop (s * ex) qt p fuel (calcqlInit (s * ex)) with
  | none => simp [calcql, hl] at h
  | some st =>
    rw [calcql_of_loop fuel s qt p ex st hl] at h
    rcases calcqlLoop_result _ _ _ _ _ _ hl with h1 | ⟨pre, h1⟩
    · subst h1
      simp [calcqlInit] at h
    · subst h1
      refine ⟨_, rfl, rfl, rfl, ?_⟩
      simp [calcqlBody] at h
      exact h.symm

/-- Fuel independence of `calcql`. -/
theorem calcql_fuel_mono (fuel extra : Nat) (s qt p ex ql : K)
    (h : calcql fuel s qt p ex = some ql) :
    calcql (fuel + extra) s qt p ex = some ql := by
  obtain ⟨st, hl, hq, -, hv⟩ := calcql_some fuel s qt p ex ql h
  rw [calcql_of_loop _ s qt p ex st (calcqlLoop_fuel_mono _ _ _ _ extra _ _ hl), hq, hv]
  rfl

/-- A run that leaves the loop after exactly one pass returns the single-shot
estimate `max(0, qt - rslf(p, tl))`. -/
theorem calcql_one_pass (fuel : Nat) (s qt p ex : K)
    (h0 : calcqlCond (calcqlInit (s * ex)))
    (h1 : ¬ calcqlCond (calcqlBody (s * ex) qt p (calcqlInit (s * ex)))) :
    calcql (fuel + 2) s qt p ex = some (max 0 (qt - rslf p (s * ex))) := by
  have hl := calcqlLoop_iter (s * ex) qt p 1 fuel (calcqlInit (s * ex))
    (by intro m hm; interval_cases m; simpa using h0) (by simpa using h1)
  have e : 1 + 1 + fuel = fuel + 2 := by omega
  rw [e] at hl
  rw [calcql_of_loop _ s qt p ex _ hl]
  simp [calcqlBody, calcqlInit]

/-! ## Concrete runs of `calcql` at `p = p0`, `exn = 1` -/

/-- At `s = 300`, `qt = 0.022269`, `p = 1e5` the loop stops after one pass. -/
theorem calcqlLoop_300_a (extra : Nat) :
    calcqlLoop (300 * 1 : ℚ) 0.022269 1e5 (1 + 1 + extra) (calcqlInit (300 * 1)) =
      some ((calcqlBody (300 * 1) 0.022269 1e5)^[1] (calcqlInit (300 * 1))) := by
  apply calcqlLoop_iter _ _ _ 1 extra
  · intro m hm
    interval_cases m
    norm_num [calcqlCond, calcqlInit, abs_of_neg]
  · norm_num [calcqlCond, calcqlInit, calcqlBody, rslf, esl, c0, c1, c2, c3, c4, c5, c6, c7, c8,
      tmelt, ep, rd, rv, cp, lv, abs_of_pos, abs_of_neg]

/-- At `s = 300`, `qt = 0.02227`, `p = 1e5` the loop stops after two passes. -/
theorem calcqlLoop_300_c (extra : Nat) :
    calcqlLoop (300 * 1 : ℚ) 0.02227 1e5 (2 + 1 + extra) (calcqlInit (300 * 1)) =
      some ((calcqlBody (300 * 1) 0.02227 1e5)^[2] (calcqlInit (300 * 1))) := by
  apply calcqlLoop_iter _ _ _ 2 extra
  · intro m hm
    interval_cases m
    · norm_num [calcqlCond, calcqlInit, abs_of_neg]
    · norm_num [calcqlCond, calcqlInit, calcqlBody, rslf, esl, c0, c1, c2, c3, c4, c5, c6, c7,
        c8, tmelt, ep, rd, rv, cp, lv, abs_of_pos, abs_of_neg]
  · norm_num [calcqlCond, calcqlInit, calcqlBody, rslf, esl, c0, c1, c2, c3, c4, c5, c6, c7, c8,
      tmelt, ep, rd, rv, cp, lv, abs_of_pos, abs_of_neg]

/-- At `s = 340`, `qt = 0.188`, `p = 1e5` the loop stops after two passes. -/
theorem calcqlLoop_340 (extra : Nat) :
    calcqlLoop (340 * 1 : ℚ) 0.188 1e5 (2 + 1 + extra) (calcqlInit (340 * 1)) =
      some ((calcqlBody (340 * 1) 0.188 1e5)^[2] (calcqlInit (340 * 1))) := by
  apply calcqlLoop_iter _ _ _ 2 extra
  · intro m hm
    interval_cases m
    · norm_num [calcqlCond, calcqlInit, abs_of_neg]
    · norm_num [calcqlCond, calcqlInit, calcqlBody, rslf, esl, c0, c1, c2, c3, c4, c5, c6, c7,
        c8, tmelt, ep, rd, rv, cp, lv, abs_of_pos, abs_of_neg]
  · norm_num [calcqlCond, calcqlInit, calcqlBody, rslf, esl, c0, c1, c2, c3, c4, c5, c6, c7, c8,
      tmelt, ep, rd, rv, cp, lv, abs_of_pos, abs_of_neg]

set_option maxRecDepth 100000 in
/-- In scenario 2 (`s = 300`, `p = 1e5`, `qt = rslf(1e5, 300) + 0.002`) the loop
stops after three passes. -/
theorem calcqlLoop_scenario2 (extra : Nat) :
    calcqlLoop (300 * 1 : ℚ) (rslf 1e5 300 + 0.002) 1e5 (3 + 1 + extra) (calcqlInit (300 * 1)) =
      some ((calcqlBody (300 * 1) (rslf 1e5 300 + 0.002) 1e5)^[3] (calcqlInit (300 * 1))) := by
  apply calcqlLoop_iter _ _ _ 3 extra
  · intro m hm
    interval_cases m
    · norm_num [calcqlCond, calcqlInit, abs_of_neg]
    · norm_num [calcqlCond, calcqlInit, calcqlBody, rslf, esl, c0, c1, c2, c3, c4, c5, c6, c7,
        c8, tmelt, ep, rd, rv, cp, lv, abs_of_pos, abs_of_neg]
    · norm_num [calcqlCond, calcqlInit, calcqlBody, rslf, esl, c0, c1, c2, c3, c4, c5, c6, c7,
        c8, tmelt, ep, rd, rv, cp, lv, abs_of_pos, abs_of_neg]
  · norm_num [calcqlCond, calcqlInit, calcqlBody, rslf, esl, c0, c1, c2, c3, c4, c5, c6, c7, c8,
      tmelt, ep, rd, rv, cp, lv, abs_of_pos, abs_of_neg]

/-! ## Claims about `calcql` -/

/-- C1 (evaluation of the code at the failing input): at `s = 340`, `qt = 0.188`,
`p = 1e5`, `exn = 1` the input is unsaturated at the single-shot estimate
(`qt ≤ rslf(p, s*exn)`, with `0 < esl(s*exn) < p` and `s*exn > 0`), yet `calcql`
stops after two passes with a strictly positive liquid water content, whereas
the estimate-then-solve shortcut of the buoyancy kernels yields exactly `0`. -/
theorem calcql_unsaturated_positive :
    ∃ ql : ℚ, (∀ extra, calcql (2 + 1 + extra) 340 0.188 1e5 1 = some ql) ∧
      (0.188 : ℚ) ≤ rslf 1e5 (340 * 1) ∧ (0 : ℚ) < esl (340 * 1) ∧
      esl (340 * 1) < (1e5 : ℚ) ∧ (0 : ℚ) < 340 * 1 ∧ 0 < ql ∧
      (∀ fuel, qlShortcut fuel (340 : ℚ) 0.188 1e5 1 = some 0) := by
  refine ⟨max 0 (0.188 - rslf 1e5 (calcqlBody (340 * 1) 0.188 1e5 (calcqlInit (340 * 1))).tnr),
    fun extra => ?_, ?_, ?_, ?_, ?_, ?_, fun fuel => ?_⟩
  · rw [calcql_of_loop _ _ _ _ _ _ (calcqlLoop_340 extra)]
    simp [calcqlBody]
  · norm_num [rslf, esl, c0, c1, c2, c3, c4, c5, c6, c7, c8, tmelt, ep, rd, rv]
  · norm_num [esl, c0, c1, c2, c3, c4, c5, c6, c7, c8, tmelt]
  · norm_num [esl, c0, c1, c2, c3, c4, c5, c6, c7, c8, tmelt]
  · norm_num
  · norm_num [calcqlInit, calcqlBody, rslf, esl, c0, c1, c2, c3, c4, c5, c6, c7, c8,
      tmelt, ep, rd, rv, cp, lv]
  · norm_num [qlShortcut, rslf, esl, c0, c1, c2, c3, c4, c5, c6, c7, c8, tmelt, ep, rd, rv]

/-- C2: whenever `calcql` returns a value `ql`, that value is non-negative and
equals `max(0, qt - qs)` for the saturation mixing ratio `qs` that the Newton
loop evaluated last, that is `qs = rslf(p, tnr_old)` in the state in which the
loop stopped. -/
theorem calcql_nonneg_last_qs (fuel : Nat) (s qt p ex ql : K)
    (h : calcql fuel s qt p ex = some ql) :
    0 ≤ ql ∧ ∃ st qs, calcqlLoop (s * ex) qt p fuel (calcqlInit (s * ex)) = some st ∧
      st.qs = some qs ∧ qs = rslf p st.tnr_old ∧ ql = max 0 (qt - qs) := by
  obtain ⟨st, hl, hq, -, hv⟩ := calcql_some fuel s qt p ex ql h
  exact ⟨hv ▸ le_max_left _ _, st, _, hl, hq, rfl, hv⟩

/-- Witness for C2 at `s = 300`, `qt = 0.02227`, `p = 1e5`, `exn = 1`. -/
theorem calcql_nonneg_last_qs_witness :
    calcql 3 (300 : ℚ) 0.02227 1e5 1
        = some (max 0 (0.02227 - rslf 1e5 (calcqlBody (300 * 1) 0.02227 1e5
            (calcqlInit (300 * 1))).tnr)) ∧
      0 ≤ max 0 ((0.02227 : ℚ) - rslf 1e5 (calcqlBody (300 * 1) 0.02227 1e5
            (calcqlInit (300 * 1))).tnr) ∧
      ∃ st qs, calcqlLoop (300 * 1 : ℚ) 0.02227 1e5 3 (calcqlInit (300 * 1)) = some st ∧
        st.qs = some qs ∧ qs = rslf 1e5 st.tnr_old ∧
        max 0 ((0.02227 : ℚ) - rslf 1e5 (calcqlBody (300 * 1) 0.02227 1e5
            (calcqlInit (300 * 1))).tnr) = max 0 (0.02227 - qs) := by
  have h : calcql 3 (300 : ℚ) 0.02227 1e5 1
      = some (max 0 (0.02227 - rslf 1e5 (calcqlBody (300 * 1) 0.02227 1e5
          (calcqlInit (300 * 1))).tnr)) := by
    rw [calcql_of_loop _ _ _ _ _ _ (calcqlLoop_300_c 0)]
    simp [calcqlBody]
  exact ⟨h, calcql_nonneg_last_qs 3 _ _ _ _ _ h⟩

/-- C3 (counterexample): with `s = 300`, `p = 1e5`, `exn = 1` the smaller total
water `qt = 0.022269` (loop left after one pass) gives a strictly larger
liquid water content than the larger `qt = 0.02227` (two passes). -/
theorem calcql_not_monotone :
    ∃ a b : ℚ, (∀ extra, calcql (1 + 1 + extra) 300 0.022269 1e5 1 = some a) ∧
      (∀ extra, calcql (2 + 1 + extra) 300 0.02227 1e5 1 = some b) ∧
      (0.022269 : ℚ) ≤ 0.02227 ∧ b < a := by
  refine ⟨max 0 (0.022269 - rslf 1e5 (300 * 1)),
    max 0 (0.02227 - rslf 1e5 (calcqlBody (300 * 1) 0.02227 1e5 (calcqlInit (300 * 1))).tnr),
    fun extra => ?_, fun extra => ?_, by norm_num, ?_⟩
  · rw [calcql_of_loop _ _ _ _ _ _ (calcqlLoop_300_a extra)]
    simp [calcqlBody, calcqlInit]
  · rw [calcql_of_loop _ _ _ _ _ _ (calcqlLoop_300_c extra)]
    simp [calcqlBody]
  · norm_num [calcqlInit, calcqlBody, rslf, esl, c0, c1, c2, c3, c4, c5, c6, c7, c8,
      tmelt, ep, rd, rv, cp, lv]

/-! ## The saturation curve between 273.15 K and 323.15 K -/

/-- Differences of powers are non-negative and bounded by the derivative at the
upper end. -/
theorem pow_sub_pow_bounds (a b : K) (ha : 0 ≤ a) (hab : a ≤ b) (k : Nat) :
    0 ≤ b ^ (k + 1) - a ^ (k + 1) ∧
      b ^ (k + 1) - a ^ (k + 1) ≤ ((k : K) + 1) * b ^ k * (b - a) := by
  have hb : 0 ≤ b := le_trans ha hab
  induction k with
  | zero => constructor <;> simp <;> linarith
  | succ n ih =>
    obtain ⟨i1, i2⟩ := ih
    have e : b ^ (n + 1 + 1) - a ^ (n + 1 + 1)
        = b * (b ^ (n + 1) - a ^ (n + 1)) + a ^ (n + 1) * (b - a) := by ring
    have hap : 0 ≤ a ^ (n + 1) := pow_nonneg ha _
    have hle : a ^ (n + 1) ≤ b ^ (n + 1) := by linarith
    have hd : 0 ≤ b - a := by linarith
    constructor
    · rw [e]
      exact add_nonneg (mul_nonneg hb i1) (mul_nonneg hap hd)
    · rw [e]
      have h1 : b * (b ^ (n + 1) - a ^ (n + 1)) ≤ b * (((n : K) + 1) * b ^ n * (b - a)) :=
        mul_le_mul_of_nonneg_left i2 hb
      have h2 : a ^ (n + 1) * (b - a) ≤ b ^ (n + 1) * (b - a) :=
        mul_le_mul_of_nonneg_right hle hd
      have e2 : (((n + 1 : Nat) : K) + 1) * b ^ (n + 1) * (b - a)
          = b * (((n : K) + 1) * b ^ n * (b - a)) + b ^ (n + 1) * (b - a) := by
        push_cast; ring
      rw [e2]
      linarith

/-- Above the melting point the clamp of `esl` is inactive: the polynomial in
`x = t - tmelt` with the coefficients written out. -/
theorem esl_warm (x : K) (hx : 0 ≤ x) :
    esl (x + 273.15) = 610.5851 + x * (44.40316 + x * (1.430341 + x * (0.02641412
      + x * (0.0002995057 + x * (0.000002031998 + x * (0.000000006936113
      + x * (0.000000000002564861 + x * (-0.00000000000003704404)))))))) := by
  have h : max (-80) (x + 273.15 - tmelt) = x := by
    have e : (tmelt : K) = 273.15 := rfl
    rw [e]
    have e2 : x + 273.15 - 273.15 = x := by ring
    rw [e2]
    apply max_eq_right
    linarith
  simp only [esl, h, c0, c1, c2, c3, c4, c5, c6, c7, c8]

/-- Between 273.15 K and 323.15 K the saturation vapour pressure grows by at
least 44 Pa per kelvin, and its growth between two temperatures is at most
`5450 * esl(t2) / t2^2` per kelvin. -/
theorem esl_sub_bounds (t1 t2 : K) (h1 : 273.15 ≤ t1) (h12 : t1 ≤ t2) (h2 : t2 ≤ 323.15) :
    44 * (t2 - t1) ≤ esl t2 - esl t1 ∧
      (esl t2 - esl t1) * t2 ^ 2 ≤ 5450 * esl t2 * (t2 - t1) := by
  obtain ⟨x1, rfl⟩ : ∃ x1, t1 = x1 + 273.15 := ⟨t1 - 273.15, by ring⟩
  obtain ⟨x2, rfl⟩ : ∃ x2, t2 = x2 + 273.15 := ⟨t2 - 273.15, by ring⟩
  have hx1 : 0 ≤ x1 := by linarith
  have hx12 : x1 ≤ x2 := by linarith
  have hx2 : 0 ≤ x2 := by linarith
  have hx50 : x2 ≤ 50 := by linarith
  have hd : 0 ≤ x2 - x1 := by linarith
  have e1 := esl_warm x1 hx1
  have e2 := esl_warm x2 hx2
  generalize esl (x1 + 273.15) = E1 at e1 ⊢
  generalize esl (x2 + 273.15) = E2 at e2 ⊢
  have b1 := pow_sub_pow_bounds x1 x2 hx1 hx12 1
  have b2 := pow_sub_pow_bounds x1 x2 hx1 hx12 2
  have b3 := pow_sub_pow_bounds x1 x2 hx1 hx12 3
  have b4 := pow_sub_pow_bounds x1 x2 hx1 hx12 4
  have b5 := pow_sub_pow_bounds x1 x2 hx1 hx12 5
  have b6 := pow_sub_pow_bounds x1 x2 hx1 hx12 6
  have b7 := pow_sub_pow_bounds x1 x2 hx1 hx12 7
  norm_num at b1 b2 b3 b4 b5 b6 b7
  have p7 : x2 ^ 7 ≤ 50 ^ 7 := pow_le_pow_left hx2 hx50 7
  have q7 : x2 ^ 7 * (x2 - x1) ≤ 50 ^ 7 * (x2 - x1) := mul_le_mul_of_nonneg_right p7 hd
  have hu : E2 - E1 ≤ (44.40316 + 2 * 1.430341 * x2 + 3 * 0.02641412 * x2 ^ 2
      + 4 * 0.0002995057 * x2 ^ 3 + 5 * 0.000002031998 * x2 ^ 4
      + 6 * 0.000000006936113 * x2 ^ 5 + 7 * 0.000000000002564861 * x2 ^ 6) * (x2 - x1) := by
    linarith only [e1, e2, b1.2, b2.2, b3.2, b4.2, b5.2, b6.2, b7.1, hd]
  have hP : (44.40316 + 2 * 1.430341 * x2 + 3 * 0.02641412 * x2 ^ 2
      + 4 * 0.0002995057 * x2 ^ 3 + 5 * 0.000002031998 * x2 ^ 4
      + 6 * 0.000000006936113 * x2 ^ 5 + 7 * 0.000000000002564861 * x2 ^ 6)
        * (x2 + 273.15) ^ 2 ≤ 5450 * E2 := by
    have g6 : 0 ≤ x2 ^ 6 * (50 - x2) := mul_nonneg (pow_nonneg hx2 6) (by linarith)
    have g7 : 0 ≤ x2 ^ 7 * (50 - x2) := mul_nonneg (pow_nonneg hx2 7) (by linarith)
    linarith only [e2, hx2, pow_nonneg hx2 2, pow_nonneg hx2 3, pow_nonneg hx2 4,
      pow_nonneg hx2 5, pow_nonneg hx2 6, g6, g7]
  generalize (44.40316 + 2 * 1.430341 * x2 + 3 * 0.02641412 * x2 ^ 2
      + 4 * 0.0002995057 * x2 ^ 3 + 5 * 0.000002031998 * x2 ^ 4
      + 6 * 0.000000006936113 * x2 ^ 5 + 7 * 0.000000000002564861 * x2 ^ 6 : K) = P at hu hP
  have hsq : (0 : K) ≤ (x2 + 273.15) ^ 2 := sq_nonneg _
  have ed : x2 + 273.15 - (x1 + 273.15) = x2 - x1 := by ring
  rw [ed]
  constructor
  · linarith only [e1, e2, b1.1, b2.1, b3.1, b4.1, b5.1, b6.1, b7.1, b7.2, q7, hd]
  · have i1 := mul_le_mul_of_nonneg_right hu hsq
    have i2 := mul_le_mul_of_nonneg_right hP hd
    have e3 : P * (x2 - x1) * (x2 + 273.15) ^ 2 = P * (x2 + 273.15) ^ 2 * (x2 - x1) := by ring
    rw [e3] at i1
    exact le_trans i1 i2

/-- Between 273.15 K and 323.15 K: `610 ≤ esl(t) ≤ 12345` and
`44 * t^2 ≤ (lv/rv) * esl(t)`, the latter with the constants multiplied out. -/
theorem esl_range (t : K) (h1 : 273.15 ≤ t) (h2 : t ≤ 323.15) :
    610 ≤ esl t ∧ esl t ≤ 12345 ∧ 20306 * t ^ 2 ≤ 2500000 * esl t := by
  obtain ⟨x, rfl⟩ : ∃ x, t = x + 273.15 := ⟨t - 273.15, by ring⟩
  have hx : 0 ≤ x := by linarith
  have hx50 : x ≤ 50 := by linarith
  have e := esl_warm x hx
  generalize esl (x + 273.15) = E at e ⊢
  have g7 : 0 ≤ x ^ 7 * (50 - x) := mul_nonneg (pow_nonneg hx 7) (by linarith)
  have p2 : x ^ 2 ≤ 50 ^ 2 := pow_le_pow_left hx hx50 2
  have p3 : x ^ 3 ≤ 50 ^ 3 := pow_le_pow_left hx hx50 3
  have p4 : x ^ 4 ≤ 50 ^ 4 := pow_le_pow_left hx hx50 4
  have p5 : x ^ 5 ≤ 50 ^ 5 := pow_le_pow_left hx hx50 5
  have p6 : x ^ 6 ≤ 50 ^ 6 := pow_le_pow_left hx hx50 6
  have p7 : x ^ 7 ≤ 50 ^ 7 := pow_le_pow_left hx hx50 7
  refine ⟨?_, ?_, ?_⟩
  · linarith only [e, hx, pow_nonneg hx 2, pow_nonneg hx 3, pow_nonneg hx 4,
      pow_nonneg hx 5, pow_nonneg hx 6, pow_nonneg hx 7, g7]
  · linarith only [e, hx50, p2, p3, p4, p5, p6, p7, pow_nonneg hx 8]
  · linarith only [e, hx, pow_nonneg hx 2, pow_nonneg hx 3, pow_nonneg hx 4,
      pow_nonneg hx 5, pow_nonneg hx 6, pow_nonneg hx 7, g7]

/-! ## The saturation mixing ratio between 273.15 K and 323.15 K -/

/-- Bounds on the constants that enter `rslf` and the Newton update. -/
theorem thermo_constants :
    (0.6219 : K) ≤ ep ∧ (ep : K) ≤ 0.622 ∧ (2487 : K) ≤ lv / cp ∧ (5417 : K) ≤ lv / rv ∧
      (lv / rv : K) * 461.5 = 2500000 := by
  refine ⟨?_, ?_, ?_, ?_, ?_⟩ <;> norm_num [ep, rd, rv, lv, cp]

/-- For `50000 ≤ p` and a temperature between 273.15 K and 323.15 K the
denominator of `rslf` lies between 45000 and `p`, and `rslf` is the
non-negative solution of `rslf * (p - (1-ep)*esl) = ep*esl`. -/
theorem rslf_den (p t : K) (hp : 50000 ≤ p) (h1 : 273.15 ≤ t) (h2 : t ≤ 323.15) :
    45000 ≤ p - (1 - ep) * esl t ∧ p - (1 - ep) * esl t ≤ p ∧
      rslf p t * (p - (1 - ep) * esl t) = ep * esl t ∧ 0 ≤ rslf p t := by
  obtain ⟨e1, e2, -⟩ := esl_range t h1 h2
  obtain ⟨c1, c2, -, -, -⟩ := @thermo_constants K _
  have hc : 0 ≤ 1 - (ep : K) := by linarith
  have hc2 : 1 - (ep : K) ≤ 0.3781 := by linarith
  have hE : 0 ≤ esl t := by linarith
  have m1 : (1 - ep) * esl t ≤ 0.3781 * 12345 :=
    mul_le_mul hc2 e2 hE (by norm_num)
  have m2 : 0 ≤ (1 - ep) * esl t := mul_nonneg hc hE
  have d1 : 45000 ≤ p - (1 - ep) * esl t := by
    norm_num at m1
    linarith
  have dpos : 0 < p - (1 - ep) * esl t := by linarith
  refine ⟨d1, by linarith, ?_, ?_⟩
  · unfold rslf
    exact div_mul_cancel₀ _ (ne_of_gt dpos)
  · unfold rslf
    exact div_nonneg (mul_nonneg (by linarith) hE) (le_of_lt dpos)

set_option maxHeartbeats 1000000 in
/-- Growth of `rslf` between two temperatures of the window, for
`50000 ≤ p`: it is non-decreasing, grows by at most
`(9/8)*(lv/rv)*rslf(p,t2)/t2^2` per kelvin, and over at most 6 K by at most
`2*(lv/rv)*rslf(p,t1)/t1^2` per kelvin. -/
theorem rslf_sub_upper (p t1 t2 : K) (hp : 50000 ≤ p)
    (h1 : 273.15 ≤ t1) (h12 : t1 ≤ t2) (h2 : t2 ≤ 323.15) :
    rslf p t1 ≤ rslf p t2 ∧
      (rslf p t2 - rslf p t1) * t2 ^ 2 ≤ 9 / 8 * (lv / rv) * rslf p t2 * (t2 - t1) ∧
      (t2 - t1 ≤ 6 →
        (rslf p t2 - rslf p t1) * t1 ^ 2 ≤ 2 * (lv / rv) * rslf p t1 * (t2 - t1)) := by
  obtain ⟨k1, k2, -, k4, -⟩ := @thermo_constants K _
  obtain ⟨a1, a2, a3, a4⟩ := rslf_den p t1 hp h1 (le_trans h12 h2)
  obtain ⟨b1, b2, b3, b4⟩ := rslf_den p t2 hp (le_trans h1 h12) h2
  obtain ⟨s1, s2⟩ := esl_sub_bounds t1 t2 h1 h12 h2
  obtain ⟨r1, r2, -⟩ := esl_range t1 h1 (le_trans h12 h2)
  obtain ⟨r3, r4, -⟩ := esl_range t2 (le_trans h1 h12) h2
  generalize rslf p t1 = Q1 at *
  generalize rslf p t2 = Q2 at *
  generalize esl t1 = e1 at *
  generalize esl t2 = e2 at *
  generalize (lv / rv : K) = A at *
  generalize (ep : K) = ε at *
  have hδ : 0 ≤ t2 - t1 := sub_nonneg.mpr h12
  have hE : 0 ≤ e2 - e1 := by linarith only [s1, hδ]
  have hε0 : 0 ≤ ε := by linarith only [k1]
  have hc : 0 ≤ 1 - ε := by linarith only [k2]
  have hc2 : 1 - ε ≤ 0.3781 := by linarith only [k1]
  have he1 : 0 ≤ e1 := by linarith only [r1]
  have he2 : 0 ≤ e2 := by linarith only [r3]
  have hd1 : 0 < p - (1 - ε) * e1 := by linarith only [a1]
  have hd2 : 0 < p - (1 - ε) * e2 := by linarith only [b1]
  have f1 : (Q2 - Q1) * (p - (1 - ε) * e1) = (ε + (1 - ε) * Q2) * (e2 - e1) := by
    linear_combination (-1 : K) * a3 + b3
  have f2 : (Q2 - Q1) * (p - (1 - ε) * e2) = (ε + (1 - ε) * Q1) * (e2 - e1) := by
    linear_combination (-1 : K) * a3 + b3
  have hf2 : 0 ≤ ε + (1 - ε) * Q2 := add_nonneg hε0 (mul_nonneg hc b4)
  have hf1 : 0 ≤ ε + (1 - ε) * Q1 := add_nonneg hε0 (mul_nonneg hc a4)
  have hm : Q1 ≤ Q2 := by
    have : 0 ≤ (Q2 - Q1) * (p - (1 - ε) * e1) := by
      rw [f1]
      exact mul_nonneg hf2 hE
    exact sub_nonneg.mp (nonneg_of_mul_nonneg_left this hd1)
  have hQδ2 : 0 ≤ Q2 * (t2 - t1) := mul_nonneg b4 hδ
  have hQδ1 : 0 ≤ Q1 * (t2 - t1) := mul_nonneg a4 hδ
  have m1 : (1 - ε) * e1 ≤ 0.3781 * 12345 := mul_le_mul hc2 r2 he1 (by norm_num)
  have m2 : (1 - ε) * e2 ≤ 0.3781 * 12345 := mul_le_mul hc2 r4 he2 (by norm_num)
  have g3 : (ε + (1 - ε) * Q2) * e2 = p * Q2 := by linear_combination (-1 : K) * b3
  have g4 : (ε + (1 - ε) * Q1) * e1 = p * Q1 := by linear_combination (-1 : K) * a3
  refine ⟨hm, ?_, ?_⟩
  · have hA : 5450 * p ≤ 9 / 8 * A * (p - (1 - ε) * e1) := by
      have i1 : 9 / 8 * 5417 * (p - (1 - ε) * e1) ≤ 9 / 8 * A * (p - (1 - ε) * e1) :=
        mul_le_mul_of_nonneg_right (by linarith only [k4]) (le_of_lt hd1)
      linarith only [i1, m1, hp]
    have i2 : (Q2 - Q1) * t2 ^ 2 * (p - (1 - ε) * e1)
        ≤ 9 / 8 * A * Q2 * (t2 - t1) * (p - (1 - ε) * e1) := by
      have j1 : (ε + (1 - ε) * Q2) * ((e2 - e1) * t2 ^ 2)
          ≤ (ε + (1 - ε) * Q2) * (5450 * e2 * (t2 - t1)) := mul_le_mul_of_nonneg_left s2 hf2
      have j2 : 5450 * p * (Q2 * (t2 - t1)) ≤ 9 / 8 * A * (p - (1 - ε) * e1) * (Q2 * (t2 - t1)) :=
        mul_le_mul_of_nonneg_right hA hQδ2
      have j3 : (Q2 - Q1) * t2 ^ 2 * (p - (1 - ε) * e1)
          = (ε + (1 - ε) * Q2) * ((e2 - e1) * t2 ^ 2) := by
        linear_combination t2 ^ 2 * f1
      have j4 : (ε + (1 - ε) * Q2) * (5450 * e2 * (t2 - t1)) = 5450 * p * (Q2 * (t2 - t1)) := by
        linear_combination 5450 * (t2 - t1) * g3
      have j5 : 9 / 8 * A * (p - (1 - ε) * e1) * (Q2 * (t2 - t1))
          = 9 / 8 * A * Q2 * (t2 - t1) * (p - (1 - ε) * e1) := by ring
      rw [j3, ← j5]
      rw [j4] at j1
      exact le_trans j1 j2
    exact le_of_mul_le_mul_right i2 hd1
  · intro h6
    have ht2 : (273.15 : K) ^ 2 ≤ t2 ^ 2 := pow_le_pow_left (by norm_num) (le_trans h1 h12) 2
    have ht12 : t1 ^ 2 ≤ t2 ^ 2 :=
      pow_le_pow_left (le_trans (by norm_num) h1) h12 2
    have hB : e2 ≤ 9 / 5 * e1 := by
      have i1 : (e2 - e1) * (273.15 : K) ^ 2 ≤ (e2 - e1) * t2 ^ 2 :=
        mul_le_mul_of_nonneg_left ht2 hE
      have i2 : 5450 * e2 * (t2 - t1) ≤ 5450 * e2 * 6 :=
        mul_le_mul_of_nonneg_left h6 (mul_nonneg (by norm_num) he2)
      norm_num at i1
      linarith only [i1, i2, s2, he1]
    have hA : 9810 * p ≤ 2 * A * (p - (1 - ε) * e2) := by
      have i1 : 2 * 5417 * (p - (1 - ε) * e2) ≤ 2 * A * (p - (1 - ε) * e2) :=
        mul_le_mul_of_nonneg_right (by linarith only [k4]) (le_of_lt hd2)
      linarith only [i1, m2, hp]
    have i2 : (Q2 - Q1) * t1 ^ 2 * (p - (1 - ε) * e2)
        ≤ 2 * A * Q1 * (t2 - t1) * (p - (1 - ε) * e2) := by
      have j0 : (e2 - e1) * t1 ^ 2 ≤ 5450 * (9 / 5 * e1) * (t2 - t1) := by
        have i3 : (e2 - e1) * t1 ^ 2 ≤ (e2 - e1) * t2 ^ 2 := mul_le_mul_of_nonneg_left ht12 hE
        have i4 : 5450 * e2 * (t2 - t1) ≤ 5450 * (9 / 5 * e1) * (t2 - t1) :=
          mul_le_mul_of_nonneg_right (by linarith only [hB]) hδ
        linarith only [i3, i4, s2]
      have j1 : (ε + (1 - ε) * Q1) * ((e2 - e1) * t1 ^ 2)
          ≤ (ε + (1 - ε) * Q1) * (5450 * (9 / 5 * e1) * (t2 - t1)) :=
        mul_le_mul_of_nonneg_left j0 hf1
      have j2 : 9810 * p * (Q1 * (t2 - t1)) ≤ 2 * A * (p - (1 - ε) * e2) * (Q1 * (t2 - t1)) :=
        mul_le_mul_of_nonneg_right hA hQδ1
      have j3 : (Q2 - Q1) * t1 ^ 2 * (p - (1 - ε) * e2)
          = (ε + (1 - ε) * Q1) * ((e2 - e1) * t1 ^ 2) := by
        linear_combination t1 ^ 2 * f2
      have j4 : (ε + (1 - ε) * Q1) * (5450 * (9 / 5 * e1) * (t2 - t1))
          = 9810 * p * (Q1 * (t2 - t1)) := by
        linear_combination 9810 * (t2 - t1) * g4
      have j5 : 2 * A * (p - (1 - ε) * e2) * (Q1 * (t2 - t1))
          = 2 * A * Q1 * (t2 - t1) * (p - (1 - ε) * e2) := by ring
      rw [j3, ← j5]
      rw [j4] at j1
      exact le_trans j1 j2
    exact le_of_mul_le_mul_right i2 hd2

set_option maxHeartbeats 1000000 in
/-- For `50000 ≤ p ≤ 110000` and temperatures of the window, `(lv/cp)*rslf`
grows by at least 3/5 per kelvin, and `(lv/cp)*(lv/rv)*rslf(p,t)/t^2`, the
part of the Newton denominator above 1, is at least 3/5. -/
theorem rslf_sub_lower (p t1 t2 : K) (hp : 50000 ≤ p) (hp2 : p ≤ 110000)
    (h1 : 273.15 ≤ t1) (h12 : t1 ≤ t2) (h2 : t2 ≤ 323.15) :
    3 / 5 * (t2 - t1) ≤ lv / cp * (rslf p t2 - rslf p t1) ∧
      3 / 5 * t2 ^ 2 ≤ lv / cp * (lv / rv * rslf p t2) := by
  obtain ⟨k1, k2, k3, k4, k5⟩ := @thermo_constants K _
  obtain ⟨a1, a2, a3, a4⟩ := rslf_den p t1 hp h1 (le_trans h12 h2)
  obtain ⟨b1, b2, b3, b4⟩ := rslf_den p t2 hp (le_trans h1 h12) h2
  obtain ⟨s1, -⟩ := esl_sub_bounds t1 t2 h1 h12 h2
  obtain ⟨r3, r4, r5⟩ := esl_range t2 (le_trans h1 h12) h2
  generalize rslf p t1 = Q1 at *
  generalize rslf p t2 = Q2 at *
  generalize esl t1 = e1 at *
  generalize esl t2 = e2 at *
  generalize (lv / rv : K) = A at *
  generalize (lv / cp : K) = L at *
  generalize (ep : K) = ε at *
  have hδ : 0 ≤ t2 - t1 := sub_nonneg.mpr h12
  have hE : 0 ≤ e2 - e1 := by linarith only [s1, hδ]
  have hε0 : 0 ≤ ε := by linarith only [k1]
  have hc : 0 ≤ 1 - ε := by linarith only [k2]
  have hp0 : 0 < p := by linarith only [hp]
  have hd1 : 0 < p - (1 - ε) * e1 := by linarith only [a1]
  have hd2 : 0 < p - (1 - ε) * e2 := by linarith only [b1]
  have f1 : (Q2 - Q1) * (p - (1 - ε) * e1) = (ε + (1 - ε) * Q2) * (e2 - e1) := by
    linear_combination (-1 : K) * a3 + b3
  have g2 : (ε + (1 - ε) * Q2) * (p - (1 - ε) * e2) = ε * p := by
    linear_combination (1 - ε) * b3
  have hQ : 0 ≤ Q2 - Q1 := by
    have : 0 ≤ (Q2 - Q1) * (p - (1 - ε) * e1) := by
      rw [f1]
      exact mul_nonneg (add_nonneg hε0 (mul_nonneg hc b4)) hE
    exact nonneg_of_mul_nonneg_left this hd1
  constructor
  · have i1 : (Q2 - Q1) * (p - (1 - ε) * e1) * (p - (1 - ε) * e2) ≤ (Q2 - Q1) * p * p :=
      mul_le_mul (mul_le_mul_of_nonneg_left a2 hQ) b2 (le_of_lt hd2)
        (mul_nonneg hQ (le_of_lt hp0))
    have i2 : (Q2 - Q1) * (p - (1 - ε) * e1) * (p - (1 - ε) * e2) = ε * p * (e2 - e1) := by
      linear_combination (p - (1 - ε) * e2) * f1 + (e2 - e1) * g2
    have i3 : ε * p * (44 * (t2 - t1)) ≤ ε * p * (e2 - e1) :=
      mul_le_mul_of_nonneg_left s1 (mul_nonneg hε0 (le_of_lt hp0))
    have i4 : 44 * ε * (t2 - t1) ≤ (Q2 - Q1) * p := by
      have : 44 * ε * (t2 - t1) * p ≤ (Q2 - Q1) * p * p := by
        have e : 44 * ε * (t2 - t1) * p = ε * p * (44 * (t2 - t1)) := by ring
        rw [e]
        linarith only [i1, i2, i3]
      exact le_of_mul_le_mul_right this hp0
    have i5 : 0.6219 * (t2 - t1) ≤ ε * (t2 - t1) := mul_le_mul_of_nonneg_right k1 hδ
    have i6 : 2487 * ((Q2 - Q1) * p) ≤ L * ((Q2 - Q1) * p) :=
      mul_le_mul_of_nonneg_right k3 (mul_nonneg hQ (le_of_lt hp0))
    have i7 : p * (t2 - t1) ≤ 110000 * (t2 - t1) := mul_le_mul_of_nonneg_right hp2 hδ
    have i8 : 3 / 5 * (t2 - t1) * p ≤ L * (Q2 - Q1) * p := by
      have e : L * (Q2 - Q1) * p = L * ((Q2 - Q1) * p) := by ring
      rw [e]
      linarith only [i4, i5, i6, i7, hδ]
    exact le_of_mul_le_mul_right i8 hp0
  · have i1 : Q2 * (p - (1 - ε) * e2) ≤ Q2 * p := mul_le_mul_of_nonneg_left b2 b4
    have i2 : 44 * t2 ^ 2 ≤ A * e2 := by
      have : 461.5 * (44 * t2 ^ 2) ≤ 461.5 * (A * e2) := by
        have e : 461.5 * (A * e2) = (A * 461.5) * e2 := by ring
        rw [e, k5]
        linarith only [r5]
      exact le_of_mul_le_mul_left this (by norm_num)
    have hA : 0 ≤ A := by linarith only [k4]
    have i3 : A * (ε * e2) ≤ A * (Q2 * p) :=
      mul_le_mul_of_nonneg_left (by linarith only [i1, b3]) hA
    have i4 : ε * (44 * t2 ^ 2) ≤ ε * (A * e2) := mul_le_mul_of_nonneg_left i2 hε0
    have ht : 0 ≤ t2 ^ 2 := sq_nonneg _
    have i5 : 0.6219 * (44 * t2 ^ 2) ≤ ε * (44 * t2 ^ 2) :=
      mul_le_mul_of_nonneg_right k1 (mul_nonneg (by norm_num) ht)
    have hAQ : 0 ≤ A * (Q2 * p) := mul_nonneg hA (mul_nonneg b4 (le_of_lt hp0))
    have i6 : 2487 * (A * (Q2 * p)) ≤ L * (A * (Q2 * p)) := mul_le_mul_of_nonneg_right k3 hAQ
    have i7 : p * t2 ^ 2 ≤ 110000 * t2 ^ 2 := mul_le_mul_of_nonneg_right hp2 ht
    have i8 : 3 / 5 * t2 ^ 2 * p ≤ L * (A * Q2) * p := by
      have e : L * (A * Q2) * p = L * (A * (Q2 * p)) := by ring
      rw [e]
      linarith only [i3, i4, i5, i6, i7, ht]
    exact le_of_mul_le_mul_right i8 hp0

/-! ## The Newton update of `calcql` inside the window -/

/-- The Newton denominator as one plus `(lv/cp)*(lv/rv)*rslf/t^2`. -/
theorem newtonSlope_eq (p t : K) :
    newtonSlope p t = 1 + lv / cp * (lv / rv * rslf p t) / t ^ 2 := by
  unfold newtonSlope
  have h1 : (rv : K) ≠ 0 := by norm_num [rv]
  have h2 : (cp : K) ≠ 0 := by norm_num [cp]
  congr 1
  by_cases ht : t = 0
  · subst ht
    simp
  · field_simp
    ring

/-- Differences of the Newton numerator. -/
theorem newtonResidual_sub (tl qt p t1 t2 : K) :
    newtonResidual tl qt p t2 - newtonResidual tl qt p t1
      = (t2 - t1) + lv / cp * (rslf p t2 - rslf p t1) := by
  unfold newtonResidual
  ring

/-- For `50000 ≤ p ≤ 110000` and temperatures `t1 ≤ t2` between 273.15 K and
323.15 K: the Newton numerator grows by at least `8/5` per kelvin and by at
most `9/8` times the denominator at the upper end; over at most 6 K it grows by
at most twice the denominator at the lower end; the denominator is at least
`8/5`. -/
theorem newton_window (tl qt p t1 t2 : K) (hp : 50000 ≤ p) (hp2 : p ≤ 110000)
    (h1 : 273.15 ≤ t1) (h12 : t1 ≤ t2) (h2 : t2 ≤ 323.15) :
    8 / 5 * (t2 - t1) ≤ newtonResidual tl qt p t2 - newtonResidual tl qt p t1 ∧
      newtonResidual tl qt p t2 - newtonResidual tl qt p t1
        ≤ 9 / 8 * newtonSlope p t2 * (t2 - t1) ∧
      (t2 - t1 ≤ 6 → newtonResidual tl qt p t2 - newtonResidual tl qt p t1
        ≤ 2 * newtonSlope p t1 * (t2 - t1)) ∧
      8 / 5 ≤ newtonSlope p t2 := by
  obtain ⟨-, -, k3, -, -⟩ := @thermo_constants K _
  obtain ⟨-, u2, u3⟩ := rslf_sub_upper p t1 t2 hp h1 h12 h2
  obtain ⟨l1, l2⟩ := rslf_sub_lower p t1 t2 hp hp2 h1 h12 h2
  obtain ⟨-, l3⟩ := rslf_sub_lower p t1 t1 hp hp2 h1 le_rfl (le_trans h12 h2)
  rw [newtonResidual_sub, newtonSlope_eq, newtonSlope_eq]
  generalize rslf p t1 = Q1 at *
  generalize rslf p t2 = Q2 at *
  generalize (lv / rv : K) = A at *
  generalize (lv / cp : K) = L at *
  have hL : 0 ≤ L := le_trans (by norm_num) k3
  have hδ : 0 ≤ t2 - t1 := sub_nonneg.mpr h12
  have h01 : 0 < t1 := lt_of_lt_of_le (by norm_num) h1
  have ht1 : 0 < t1 ^ 2 := pow_pos h01 2
  have ht2 : 0 < t2 ^ 2 := pow_pos (lt_of_lt_of_le h01 h12) 2
  have d2 : 3 / 5 ≤ L * (A * Q2) / t2 ^ 2 := by
    rw [le_div_iff ht2]
    exact l2
  have d1 : 3 / 5 ≤ L * (A * Q1) / t1 ^ 2 := by
    rw [le_div_iff ht1]
    exact l3
  refine ⟨by linarith only [l1], ?_, ?_, by linarith only [d2]⟩
  · have i1 : L * (Q2 - Q1) ≤ 9 / 8 * (L * (A * Q2) / t2 ^ 2) * (t2 - t1) := by
      have e : 9 / 8 * (L * (A * Q2) / t2 ^ 2) * (t2 - t1)
          = L * (9 / 8 * A * Q2 * (t2 - t1)) / t2 ^ 2 := by ring
      rw [e, le_div_iff ht2]
      have := mul_le_mul_of_nonneg_left u2 hL
      linarith only [this]
    linarith only [i1, hδ]
  · intro h6
    have i1 : L * (Q2 - Q1) ≤ 2 * (L * (A * Q1) / t1 ^ 2) * (t2 - t1) := by
      have e : 2 * (L * (A * Q1) / t1 ^ 2) * (t2 - t1)
          = L * (2 * A * Q1 * (t2 - t1)) / t1 ^ 2 := by ring
      rw [e, le_div_iff ht1]
      have := mul_le_mul_of_nonneg_left (u3 h6) hL
      linarith only [this]
    linarith only [i1, hδ]

/-- A Newton step downwards, taken at a temperature `t` of the window where the
numerator is non-negative, with a temperature `lo ≤ t` where it is
non-positive: the new temperature is at most `(t - lo)/8` below `lo`, and the
numerator there lies between `-1/8` times and once its old value. -/
theorem newton_step_down (tl qt p t lo : K) (hp : 50000 ≤ p) (hp2 : p ≤ 110000)
    (hlo : 273.15 ≤ lo - 1 / 8 * (t - lo)) (hlt : lo ≤ t) (ht : t ≤ 323.15)
    (hrl : newtonResidual tl qt p lo ≤ 0) (hr : 0 ≤ newtonResidual tl qt p t) :
    lo - 1 / 8 * (t - lo) ≤ t - newtonResidual tl qt p t / newtonSlope p t ∧
      t - newtonResidual tl qt p t / newtonSlope p t ≤ t ∧
      -(1 / 8) * newtonResidual tl qt p t
        ≤ newtonResidual tl qt p (t - newtonResidual tl qt p t / newtonSlope p t) ∧
      newtonResidual tl qt p (t - newtonResidual tl qt p t / newtonSlope p t)
        ≤ newtonResidual tl qt p t := by
  have hlo1 : 273.15 ≤ lo := by linarith only [hlo, hlt]
  obtain ⟨-, w2, -, w4⟩ := newton_window tl qt p lo t hp hp2 hlo1 hlt ht
  have hD : 0 < newtonSlope p t := by linarith only [w4]
  obtain ⟨δ, hδ⟩ : ∃ δ, δ = newtonResidual tl qt p t / newtonSlope p t := ⟨_, rfl⟩
  have hδD : δ * newtonSlope p t = newtonResidual tl qt p t := by
    rw [hδ]
    exact div_mul_cancel₀ _ (ne_of_gt hD)
  rw [← hδ]
  have hδ0 : 0 ≤ δ := by
    rw [hδ]
    exact div_nonneg hr (le_of_lt hD)
  have hδ1 : δ ≤ 9 / 8 * (t - lo) := by
    have : δ * newtonSlope p t ≤ 9 / 8 * (t - lo) * newtonSlope p t := by
      rw [hδD]
      linarith only [w2, hrl]
    exact le_of_mul_le_mul_right this hD
  obtain ⟨v1, v2, -, -⟩ := newton_window tl qt p (t - δ) t hp hp2
    (by linarith only [hlo, hδ1]) (by linarith only [hδ0]) ht
  have e : t - (t - δ) = δ := by ring
  rw [e] at v1 v2
  have v3 : 9 / 8 * newtonSlope p t * δ = 9 / 8 * newtonResidual tl qt p t := by
    rw [← hδD]
    ring
  rw [v3] at v2
  exact ⟨by linarith only [hδ1], by linarith only [hδ0], by linarith only [v2],
    by linarith only [v1, hδ0]⟩

/-- A Newton step upwards, taken at a temperature `t` of the window where the
numerator is non-positive and at least `-48/5`: the new temperature is at most
`5/8` of the numerator above `t`, and the numerator there lies between its old
value and minus its old value. -/
theorem newton_step_up (tl qt p t : K) (hp : 50000 ≤ p) (hp2 : p ≤ 110000)
    (ht : 273.15 ≤ t) (hr : newtonResidual tl qt p t ≤ 0)
    (hα : -newtonResidual tl qt p t ≤ 48 / 5)
    (hhi : t + 5 / 8 * (-newtonResidual tl qt p t) ≤ 323.15) :
    t ≤ t - newtonResidual tl qt p t / newtonSlope p t ∧
      t - newtonResidual tl qt p t / newtonSlope p t
        ≤ t + 5 / 8 * (-newtonResidual tl qt p t) ∧
      newtonResidual tl qt p t
        ≤ newtonResidual tl qt p (t - newtonResidual tl qt p t / newtonSlope p t) ∧
      newtonResidual tl qt p (t - newtonResidual tl qt p t / newtonSlope p t)
        ≤ -newtonResidual tl qt p t := by
  have ht2 : t ≤ 323.15 := by linarith only [hhi, hr]
  obtain ⟨-, -, -, w4⟩ := newton_window tl qt p t t hp hp2 ht le_rfl ht2
  have hD : 0 < newtonSlope p t := by linarith only [w4]
  obtain ⟨δ, hδ⟩ : ∃ δ, δ = -newtonResidual tl qt p t / newtonSlope p t := ⟨_, rfl⟩
  have hδD : δ * newtonSlope p t = -newtonResidual tl qt p t := by
    rw [hδ]
    exact div_mul_cancel₀ _ (ne_of_gt hD)
  have hN : t - newtonResidual tl qt p t / newtonSlope p t = t + δ := by
    rw [hδ]
    ring
  rw [hN]
  have hδ0 : 0 ≤ δ := by
    rw [hδ]
    exact div_nonneg (by linarith only [hr]) (le_of_lt hD)
  have hδ1 : 8 / 5 * δ ≤ -newtonResidual tl qt p t := by
    rw [← hδD]
    have := mul_le_mul_of_nonneg_left w4 hδ0
    linarith only [this]
  obtain ⟨v1, -, v3, -⟩ := newton_window tl qt p t (t + δ) hp hp2 ht
    (by linarith only [hδ0]) (by linarith only [hδ1, hhi])
  have e : t + δ - t = δ := by ring
  rw [e] at v1 v3
  have v4 := v3 (by linarith only [hδ1, hα])
  have v5 : 2 * newtonSlope p t * δ = 2 * (-newtonResidual tl qt p t) := by
    rw [← hδD]
    ring
  rw [v5] at v4
  exact ⟨by linarith only [hδ0], by linarith only [hδ1], by linarith only [v1, hδ0],
    by linarith only [v4]⟩

/-- The Newton step keeps the temperature in `[lo, hi]` and the numerator in
`[-α, β]`, when the numerator is at most `-α` at `lo` and at least `β` at `hi`
and the window has room for one step on either side. -/
theorem newton_step_invariant (tl qt p lo hi α β t : K) (hp : 50000 ≤ p) (hp2 : p ≤ 110000)
    (hw1 : 273.15 ≤ lo - 1 / 8 * (hi - lo)) (hw2 : hi + 5 / 8 * α ≤ 323.15)
    (hα : α ≤ 48 / 5) (hα0 : 0 ≤ α) (hβα : 1 / 8 * β ≤ α) (hαβ : α ≤ β)
    (hrl : newtonResidual tl qt p lo ≤ -α) (hrh : β ≤ newtonResidual tl qt p hi)
    (h1 : lo ≤ t) (h2 : t ≤ hi) (h3 : -α ≤ newtonResidual tl qt p t)
    (h4 : newtonResidual tl qt p t ≤ β) :
    lo ≤ t - newtonResidual tl qt p t / newtonSlope p t ∧
      t - newtonResidual tl qt p t / newtonSlope p t ≤ hi ∧
      -α ≤ newtonResidual tl qt p (t - newtonResidual tl qt p t / newtonSlope p t) ∧
      newtonResidual tl qt p (t - newtonResidual tl qt p t / newtonSlope p t) ≤ β := by
  have hlo1 : 273.15 ≤ lo := by linarith only [hw1, h1, h2]
  have hhi1 : hi ≤ 323.15 := by linarith only [hw2, hα0]
  rcases le_total 0 (newtonResidual tl qt p t) with hr | hr
  · obtain ⟨s1, s2, s3, s4⟩ := newton_step_down tl qt p t lo hp hp2
      (by linarith only [hw1, h2]) h1 (by linarith only [h2, hhi1])
      (by linarith only [hrl, hα0]) hr
    generalize t - newtonResidual tl qt p t / newtonSlope p t = n at *
    have hn3 : -α ≤ newtonResidual tl qt p n := by linarith only [s3, h4, hβα]
    refine ⟨?_, by linarith only [s2, h2], hn3, by linarith only [s4, h4]⟩
    by_contra hc
    push_neg at hc
    obtain ⟨v1, -, -, -⟩ := newton_window tl qt p n lo hp hp2 (by linarith only [s1, hw1, h2])
      (le_of_lt hc) (by linarith only [h1, h2, hhi1])
    linarith only [v1, hc, hrl, hn3]
  · obtain ⟨s1, s2, s3, s4⟩ := newton_step_up tl qt p t hp hp2 (by linarith only [hlo1, h1]) hr
      (by linarith only [h3, hα]) (by linarith only [h3, h2, hw2])
    generalize t - newtonResidual tl qt p t / newtonSlope p t = n at *
    have hn4 : newtonResidual tl qt p n ≤ β := by linarith only [s4, h3, hαβ]
    refine ⟨by linarith only [s1, h1], ?_, by linarith only [s3, h3], hn4⟩
    by_contra hc
    push_neg at hc
    obtain ⟨v1, -, -, -⟩ := newton_window tl qt p hi n hp hp2 (by linarith only [hlo1, h1, h2])
      (le_of_lt hc) (by linarith only [s2, h3, h2, hw2])
    linarith only [v1, hc, hrh, hn4]

/-! ## The last Newton temperature of a run of `calcql` -/

/-- The loop body replaces the temperature by its Newton update. -/
theorem calcqlBody_tnr (tl qt p : K) (st : NewtonState K) :
    (calcqlBody tl qt p st).tnr
      = st.tnr - newtonResidual tl qt p st.tnr / newtonSlope p st.tnr := rfl

/-- A property of the temperature that the Newton update preserves holds for
the state on which the last pass of the loop was run. -/
theorem calcqlLoop_invariant (tl qt p : K) (I : K → Prop)
    (hI : ∀ t, I t → I (t - newtonResidual tl qt p t / newtonSlope p t))
    (fuel : Nat) (st res : NewtonState K)
    (h : calcqlLoop tl qt p fuel st = some res) (h0 : I st.tnr) :
    res = st ∨ ∃ pre, I pre.tnr ∧ res = calcqlBody tl qt p pre := by
  induction fuel generalizing st with
  | zero => simp [calcqlLoop] at h
  | succ n ih =>
    by_cases hc : calcqlCond st
    · rw [calcqlLoop_of_cond tl qt p n st hc] at h
      have h1 : I (calcqlBody tl qt p st).tnr := by
        rw [calcqlBody_tnr]
        exact hI _ h0
      rcases ih _ h h1 with h2 | h2
      · exact Or.inr ⟨st, h0, h2⟩
      · exact Or.inr h2
    · rw [calcqlLoop_of_not_cond tl qt p n st hc] at h
      cases h
      exact Or.inl rfl

/-- A value returned by `calcql` is `max(0, qt - rslf(p, a))` for a temperature
`a` that has the preserved property and at which the loop test failed after
the update: for `a > 0` and a positive denominator the Newton numerator is at
most `1e-5 * a` times the denominator. -/
theorem calcql_last (fuel : Nat) (s qt p ex ql : K) (I : K → Prop)
    (hI : ∀ t, I t → I (t - newtonResidual (s * ex) qt p t / newtonSlope p t))
    (h0 : I (s * ex)) (hpos : ∀ t, I t → 0 < t ∧ 0 < newtonSlope p t)
    (h : calcql fuel s qt p ex = some ql) :
    ∃ a, I a ∧ ql = max 0 (qt - rslf p a) ∧
      |newtonResidual (s * ex) qt p a| ≤ 1e-5 * a * newtonSlope p a := by
  cases hl : calcqlLoop (s * ex) qt p fuel (calcqlInit (s * ex)) with
  | none => simp [calcql, hl] at h
  | some st =>
    rw [calcql_of_loop fuel s qt p ex st hl] at h
    have hx := calcqlLoop_exit _ _ _ _ _ _ hl
    rcases calcqlLoop_invariant (s * ex) qt p I hI fuel _ _ hl h0 with h1 | ⟨pre, hp, h1⟩
    · subst h1
      simp [calcqlInit] at h
    · subst h1
      refine ⟨pre.tnr, hp, ?_, ?_⟩
      · simp [calcqlBody] at h
        exact h.symm
      · obtain ⟨ha, hD⟩ := hpos _ hp
        have hc : ¬ (|(pre.tnr - newtonResidual (s * ex) qt p pre.tnr / newtonSlope p pre.tnr)
            - pre.tnr| / pre.tnr > 1e-5) := hx
        push_neg at hc
        have e : (pre.tnr - newtonResidual (s * ex) qt p pre.tnr / newtonSlope p pre.tnr)
            - pre.tnr = -(newtonResidual (s * ex) qt p pre.tnr / newtonSlope p pre.tnr) := by
          ring
        rw [e, abs_neg, abs_div, abs_of_pos hD, div_le_iff ha, div_le_iff hD] at hc
        exact hc

/-- At the start temperature the Newton numerator is `(lv/cp)*(rslf(p,tl) - qt)`. -/
theorem newtonResidual_start (tl qt p : K) :
    newtonResidual tl qt p tl = lv / cp * (rslf p tl - qt) := by
  unfold newtonResidual
  ring

set_option maxHeartbeats 1000000 in
/-- Inside the window every Newton temperature of a run of `calcql` stays
between `lo` and `hi`: the temperature at which `qs` was last evaluated lies
there, and the Newton numerator at it is within the tolerance of the loop
test. -/
theorem calcql_last_in_window (fuel : Nat) (s qt p ex ql lo hi : K)
    (hp : 50000 ≤ p) (hp2 : p ≤ 110000) (hlo : 273.15 ≤ lo) (hhi : hi ≤ 323.15)
    (w1 : lo + 4 / 5 * (lv / cp * (rslf p (s * ex) - qt)) ≤ s * ex)
    (w2 : lo + 1 / 5 * (lv / cp * (qt - rslf p (s * ex))) ≤ s * ex)
    (w3 : s * ex + 2 * (lv / cp * (qt - rslf p (s * ex))) ≤ hi)
    (w4 : s * ex + 1 / 10 * (lv / cp * (rslf p (s * ex) - qt)) ≤ hi)
    (w5 : lv / cp * (qt - rslf p (s * ex)) ≤ 48 / 5)
    (h : calcql fuel s qt p ex = some ql) :
    ∃ a, lo ≤ a ∧ a ≤ hi ∧ ql = max 0 (qt - rslf p a) ∧
      |newtonResidual (s * ex) qt p a| ≤ 1e-5 * a * newtonSlope p a := by
  have hs := newtonResidual_start (s * ex) qt p
  have e : lv / cp * (qt - rslf p (s * ex)) = -(lv / cp * (rslf p (s * ex) - qt)) := by ring
  rw [e] at w2 w3 w5
  rw [← hs] at w1 w2 w3 w4 w5
  clear e hs
  have hstep := fun lo' hi' α β t => newton_step_invariant (s * ex) qt p lo' hi' α β t hp hp2
  have hwin := fun t1 t2 => newton_window (s * ex) qt p t1 t2 hp hp2
  have hlast := fun I => calcql_last fuel s qt p ex ql I
  generalize s * ex = tl at *
  generalize hu : newtonResidual tl qt p tl = u at *
  have hslope : ∀ t, 273.15 ≤ t → t ≤ 323.15 → 0 < t ∧ 0 < newtonSlope p t := by
    intro t t1 t2
    obtain ⟨-, -, -, d⟩ := hwin t t t1 le_rfl t2
    exact ⟨by linarith only [t1], by linarith only [d]⟩
  rcases le_total 0 u with h0 | h0
  · have hw : 273.15 ≤ tl - 45 / 64 * u := by linarith only [hlo, w1, h0]
    have htl : tl ≤ 323.15 := by linarith only [hhi, w4, h0]
    obtain ⟨v1, -, -, -⟩ := hwin (tl - 45 / 64 * u) tl hw (by linarith only [h0]) htl
    rw [hu] at v1
    obtain ⟨a, ⟨a1, a2, -, -⟩, a5, a6⟩ := hlast
      (fun t => tl - 45 / 64 * u ≤ t ∧ t ≤ tl ∧ -(1 / 8 * u) ≤ newtonResidual tl qt p t
        ∧ newtonResidual tl qt p t ≤ u)
      (fun t ht => hstep (tl - 45 / 64 * u) tl (1 / 8 * u) u t
        (by linarith only [hlo, w1, h0]) (by linarith only [hhi, w4, h0])
        (by linarith only [hlo, hhi, w1, w4, h0]) (by linarith only [h0]) le_rfl
        (by linarith only [h0]) (by linarith only [v1]) (le_of_eq hu.symm)
        ht.1 ht.2.1 ht.2.2.1 ht.2.2.2)
      ⟨by linarith only [h0], le_rfl, by rw [hu]; linarith only [h0], le_of_eq hu⟩
      (fun t ht => hslope t (le_trans hw ht.1) (le_trans ht.2.1 htl))
      h
    exact ⟨a, by linarith only [a1, w1, h0], by linarith only [a2, w4, h0], a5, a6⟩
  · have hw : tl + 5 / 4 * (-u) ≤ 323.15 := by linarith only [hhi, w3, h0]
    have htl : 273.15 ≤ tl := by linarith only [hlo, w2, h0]
    obtain ⟨v1, -, -, -⟩ := hwin tl (tl + 5 / 4 * (-u)) htl (by linarith only [h0]) hw
    rw [hu] at v1
    obtain ⟨a, ⟨a1, a2, -, -⟩, a5, a6⟩ := hlast
      (fun t => tl ≤ t ∧ t ≤ tl + 5 / 4 * (-u) ∧ -(-u) ≤ newtonResidual tl qt p t
        ∧ newtonResidual tl qt p t ≤ -u)
      (fun t ht => hstep tl (tl + 5 / 4 * (-u)) (-u) (-u) t
        (by linarith only [hlo, w2, h0]) (by linarith only [hhi, w3, h0])
        (by linarith only [w5]) (by linarith only [h0]) (by linarith only [h0]) le_rfl
        (by rw [hu, neg_neg]) (by linarith only [v1])
        ht.1 ht.2.1 ht.2.2.1 ht.2.2.2)
      ⟨le_rfl, by linarith only [h0], by rw [hu]; linarith only [h0],
        by rw [hu]; linarith only [h0]⟩
      (fun t ht => hslope t (le_trans htl ht.1) (le_trans ht.2.1 hw))
      h
    exact ⟨a, by linarith only [a1, w2, h0], by linarith only [a2, w3, h0], a5, a6⟩

/-- For a temperature `a` between `lo` and `hi` inside the window, `a` times the
Newton denominator is at most `hi + lv^2*rslf(p,hi)/(rv*cp*lo)`. -/
theorem newtonSlope_le (p a lo hi : K) (hp : 50000 ≤ p) (hlo : 273.15 ≤ lo) (hhi : hi ≤ 323.15)
    (h1 : lo ≤ a) (h2 : a ≤ hi) :
    a * newtonSlope p a ≤ hi + lv ^ 2 * rslf p hi / (rv * cp * lo) := by
  obtain ⟨m, -, -⟩ := rslf_sub_upper p a hi hp (by linarith) h2 hhi
  obtain ⟨-, -, -, q0⟩ := rslf_den p a hp (by linarith) (by linarith)
  have ha : 0 < a := by linarith
  have hl : 0 < lo := by linarith
  have hrv : (0 : K) < rv * cp := by norm_num [rv, cp]
  have hlv : (0 : K) ≤ lv ^ 2 := sq_nonneg _
  have e : a * newtonSlope p a = a + lv ^ 2 * rslf p a / (rv * cp * a) := by
    unfold newtonSlope
    field_simp
    ring
  rw [e]
  have i1 : lv ^ 2 * rslf p a / (rv * cp * a) ≤ lv ^ 2 * rslf p hi / (rv * cp * lo) :=
    div_le_div (mul_nonneg hlv (le_trans q0 m)) (mul_le_mul_of_nonneg_left m hlv)
      (mul_pos hrv hl) (mul_le_mul_of_nonneg_left h1 (le_of_lt hrv))
  linarith

/-! ## Monotonicity of `calcql` in `qt` up to the tolerance of the loop test -/

/-- Two runs whose last Newton temperatures `a` and `b` lie in `[lo, hi]` inside
the window, with numerators within the tolerance of the loop test: for
`qt1 ≤ qt2` the excess `qt1 - rslf(p,a)` is at most `qt2 - rslf(p,b)` plus
`2e-5*(cp/lv)*(hi + lv^2*rslf(p,hi)/(rv*cp*lo))`. -/
theorem last_excess_le (tl p qt1 qt2 a b lo hi : K) (hp : 50000 ≤ p)
    (hlo : 273.15 ≤ lo) (hhi : hi ≤ 323.15) (hqt : qt1 ≤ qt2)
    (a1 : lo ≤ a) (a2 : a ≤ hi) (b1 : lo ≤ b) (b2 : b ≤ hi)
    (ha : |newtonResidual tl qt1 p a| ≤ 1e-5 * a * newtonSlope p a)
    (hb : |newtonResidual tl qt2 p b| ≤ 1e-5 * b * newtonSlope p b) :
    0 ≤ 2e-5 * (cp / lv) * (hi + lv ^ 2 * rslf p hi / (rv * cp * lo)) ∧
      qt1 - rslf p a
        ≤ qt2 - rslf p b + 2e-5 * (cp / lv) * (hi + lv ^ 2 * rslf p hi / (rv * cp * lo)) := by
  obtain ⟨-, -, k3, -, -⟩ := @thermo_constants K _
  have sa := newtonSlope_le p a lo hi hp hlo hhi a1 a2
  have sb := newtonSlope_le p b lo hi hp hlo hhi b1 b2
  obtain ⟨-, -, -, qh⟩ := rslf_den p hi hp (le_trans hlo (le_trans a1 a2)) hhi
  have hl0 : 0 < lo := lt_of_lt_of_le (by norm_num) hlo
  have hM : 0 ≤ hi + lv ^ 2 * rslf p hi / (rv * cp * lo) := by
    have : (0 : K) ≤ lv ^ 2 * rslf p hi / (rv * cp * lo) :=
      div_nonneg (mul_nonneg (sq_nonneg _) qh)
        (mul_nonneg (by norm_num [rv, cp]) (le_of_lt hl0))
    linarith only [this, hl0, a1, a2]
  generalize hi + lv ^ 2 * rslf p hi / (rv * cp * lo) = M at *
  have hcl : (cp / lv : K) * (lv / cp) = 1 := by norm_num [cp, lv]
  have hcl0 : (0 : K) ≤ cp / lv := by norm_num [cp, lv]
  have hε : 0 ≤ 2e-5 * (cp / lv) * M := mul_nonneg (mul_nonneg (by norm_num) hcl0) hM
  refine ⟨hε, ?_⟩
  rcases le_total a b with hab | hab
  · have ea := (abs_le.mp ha).1
    have eb := (abs_le.mp hb).2
    unfold newtonResidual at ea eb
    have hL : (0 : K) < lv / cp := lt_of_lt_of_le (by norm_num) k3
    have key : lv / cp * (qt1 - rslf p a)
        ≤ lv / cp * (qt2 - rslf p b + 2e-5 * (cp / lv) * M) := by
      have e : lv / cp * (qt2 - rslf p b + 2e-5 * (cp / lv) * M)
          = lv / cp * (qt2 - rslf p b) + 2e-5 * M * ((cp / lv) * (lv / cp)) := by ring
      rw [e, hcl]
      have e1 : (1e-5 : K) * a * newtonSlope p a = 1e-5 * (a * newtonSlope p a) := by ring
      have e2 : (1e-5 : K) * b * newtonSlope p b = 1e-5 * (b * newtonSlope p b) := by ring
      rw [e1] at ea
      rw [e2] at eb
      linarith only [ea, eb, sa, sb, hab]
    exact le_of_mul_le_mul_left key hL
  · obtain ⟨m, -, -⟩ := rslf_sub_upper p b a hp (le_trans hlo b1) hab (le_trans a2 hhi)
    linarith only [m, hqt, hε]

/-- C3 (amended): `calcql` is non-decreasing in `qt` up to the tolerance of its
loop test. Let `tl = s*exn`, `50000 ≤ p ≤ 110000`, and let `[lo, hi]` with
`273.15 ≤ lo` and `hi ≤ 323.15` be a temperature window around `tl` with
`lo + 4/5*(lv/cp)*(rslf(p,tl) - qt1) ≤ tl`,
`lo + 1/5*(lv/cp)*(qt2 - rslf(p,tl)) ≤ tl`,
`tl + 2*(lv/cp)*(qt2 - rslf(p,tl)) ≤ hi`,
`tl + 1/10*(lv/cp)*(rslf(p,tl) - qt1) ≤ hi` and
`(lv/cp)*(qt2 - rslf(p,tl)) ≤ 48/5`. Then for `qt1 ≤ qt2` on which `calcql`
returns, `calcql(s,qt1,p,exn) ≤ calcql(s,qt2,p,exn)
+ 2e-5*(cp/lv)*(hi + lv^2*rslf(p,hi)/(rv*cp*lo))`. -/
theorem calcql_mono_up_to_tolerance (fuel1 fuel2 : Nat) (s p ex qt1 qt2 ql1 ql2 lo hi : K)
    (hp : 50000 ≤ p) (hp2 : p ≤ 110000) (hlo : 273.15 ≤ lo) (hhi : hi ≤ 323.15)
    (hqt : qt1 ≤ qt2)
    (hdry : lo + 4 / 5 * (lv / cp) * (rslf p (s * ex) - qt1) ≤ s * ex)
    (hdry2 : s * ex + 1 / 10 * (lv / cp) * (rslf p (s * ex) - qt1) ≤ hi)
    (hwet : s * ex + 2 * (lv / cp) * (qt2 - rslf p (s * ex)) ≤ hi)
    (hwet2 : lo + 1 / 5 * (lv / cp) * (qt2 - rslf p (s * ex)) ≤ s * ex)
    (hstep : lv / cp * (qt2 - rslf p (s * ex)) ≤ 48 / 5)
    (h1 : calcql fuel1 s qt1 p ex = some ql1) (h2 : calcql fuel2 s qt2 p ex = some ql2) :
    ql1 ≤ ql2 + 2e-5 * (cp / lv) * (hi + lv ^ 2 * rslf p hi / (rv * cp * lo)) := by
  obtain ⟨-, -, k3, -, -⟩ := @thermo_constants K _
  have hL : (0 : K) ≤ lv / cp := le_trans (by norm_num) k3
  have m1 : lv / cp * (qt1 - rslf p (s * ex)) ≤ lv / cp * (qt2 - rslf p (s * ex)) :=
    mul_le_mul_of_nonneg_left (sub_le_sub_right hqt _) hL
  have m2 : lv / cp * (rslf p (s * ex) - qt2) ≤ lv / cp * (rslf p (s * ex) - qt1) :=
    mul_le_mul_of_nonneg_left (sub_le_sub_left hqt _) hL
  obtain ⟨a, a1, a2, a3, a4⟩ := calcql_last_in_window fuel1 s qt1 p ex ql1 lo hi hp hp2 hlo hhi
    (by linarith only [hdry]) (by linarith only [hwet2, m1]) (by linarith only [hwet, m1])
    (by linarith only [hdry2]) (by linarith only [hstep, m1]) h1
  obtain ⟨b, b1, b2, b3, b4⟩ := calcql_last_in_window fuel2 s qt2 p ex ql2 lo hi hp hp2 hlo hhi
    (by linarith only [hdry, m2]) (by linarith only [hwet2]) (by linarith only [hwet])
    (by linarith only [hdry2, m2]) hstep h2
  obtain ⟨hε, hx⟩ := last_excess_le (s * ex) p qt1 qt2 a b lo hi hp hlo hhi hqt a1 a2 b1 b2 a4 b4
  rw [a3, b3]
  apply max_le
  · exact add_nonneg (le_max_left _ _) hε
  · exact le_trans hx (add_le_add_right (le_max_right _ _) _)

/-- Witness for the amended C3: the pair of the counterexample, `s = 300`,
`p = 1e5`, `exn = 1`, `qt1 = 0.022269` (one pass) and `qt2 = 0.02227` (two
passes), with the window `[299, 301]`; the tolerance is below `1.2e-5` there. -/
theorem calcql_mono_up_to_tolerance_witness :
    (0.022269 : ℚ) ≤ 0.02227 ∧
      (299 : ℚ) + 4 / 5 * (lv / cp) * (rslf 1e5 (300 * 1) - 0.022269) ≤ 300 * 1 ∧
      (300 * 1 : ℚ) + 1 / 10 * (lv / cp) * (rslf 1e5 (300 * 1) - 0.022269) ≤ 301 ∧
      (300 * 1 : ℚ) + 2 * (lv / cp) * (0.02227 - rslf 1e5 (300 * 1)) ≤ 301 ∧
      (299 : ℚ) + 1 / 5 * (lv / cp) * (0.02227 - rslf 1e5 (300 * 1)) ≤ 300 * 1 ∧
      (lv / cp : ℚ) * (0.02227 - rslf 1e5 (300 * 1)) ≤ 48 / 5 ∧
      calcql 2 (300 : ℚ) 0.022269 1e5 1 = some (max 0 (0.022269 - rslf 1e5 (300 * 1))) ∧
      calcql 3 (300 : ℚ) 0.02227 1e5 1 = some (max 0 (0.02227 - rslf 1e5
        (calcqlBody (300 * 1) 0.02227 1e5 (calcqlInit (300 * 1))).tnr)) ∧
      max 0 ((0.022269 : ℚ) - rslf 1e5 (300 * 1))
        ≤ max 0 (0.02227 - rslf 1e5 (calcqlBody (300 * 1) 0.02227 1e5 (calcqlInit (300 * 1))).tnr)
          + 2e-5 * (cp / lv) * (301 + lv ^ 2 * rslf 1e5 301 / (rv * cp * 299)) ∧
      (2e-5 : ℚ) * (cp / lv) * (301 + lv ^ 2 * rslf 1e5 301 / (rv * cp * 299)) < 1.2e-5 := by
  have h1 : calcql 2 (300 : ℚ) 0.022269 1e5 1
      = some (max 0 (0.022269 - rslf 1e5 (300 * 1))) := by
    rw [calcql_of_loop _ _ _ _ _ _ (calcqlLoop_300_a 0)]
    simp [calcqlBody, calcqlInit]
  have h2 : calcql 3 (300 : ℚ) 0.02227 1e5 1 = some (max 0 (0.02227 - rslf 1e5
      (calcqlBody (300 * 1) 0.02227 1e5 (calcqlInit (300 * 1))).tnr)) := by
    rw [calcql_of_loop _ _ _ _ _ _ (calcqlLoop_300_c 0)]
    simp [calcqlBody]
  have w1 : (299 : ℚ) + 4 / 5 * (lv / cp) * (rslf 1e5 (300 * 1) - 0.022269) ≤ 300 * 1 := by
    norm_num [rslf, esl, c0, c1, c2, c3, c4, c5, c6, c7, c8, tmelt, ep, rd, rv, cp, lv]
  have w2 : (300 * 1 : ℚ) + 1 / 10 * (lv / cp) * (rslf 1e5 (300 * 1) - 0.022269) ≤ 301 := by
    norm_num [rslf, esl, c0, c1, c2, c3, c4, c5, c6, c7, c8, tmelt, ep, rd, rv, cp, lv]
  have w3 : (300 * 1 : ℚ) + 2 * (lv / cp) * (0.02227 - rslf 1e5 (300 * 1)) ≤ 301 := by
    norm_num [rslf, esl, c0, c1, c2, c3, c4, c5, c6, c7, c8, tmelt, ep, rd, rv, cp, lv]
  have w4 : (299 : ℚ) + 1 / 5 * (lv / cp) * (0.02227 - rslf 1e5 (300 * 1)) ≤ 300 * 1 := by
    norm_num [rslf, esl, c0, c1, c2, c3, c4, c5, c6, c7, c8, tmelt, ep, rd, rv, cp, lv]
  have w5 : (lv / cp : ℚ) * (0.02227 - rslf 1e5 (300 * 1)) ≤ 48 / 5 := by
    norm_num [rslf, esl, c0, c1, c2, c3, c4, c5, c6, c7, c8, tmelt, ep, rd, rv, cp, lv]
  refine ⟨by norm_num, w1, w2, w3, w4, w5, h1, h2,
    calcql_mono_up_to_tolerance 2 3 300 1e5 1 0.022269 0.02227 _ _ 299 301 (by norm_num)
      (by norm_num) (by norm_num) (by norm_num) (by norm_num) w1 w2 w3 w4 w5 h1 h2, ?_⟩
  norm_num [rslf, esl, c0, c1, c2, c3, c4, c5, c6, c7, c8, tmelt, ep, rd, rv, cp, lv]

/-- C5: when `calcql` returns `ql` and its loop stopped in a state with final
temperature `T = tnr` and preceding iterate `T_prev = tnr_old > 0`, then
`ql = max(0, qt - rslf(p, T_prev))`, `T` is the Newton update of `T_prev`, and
`|T - T_prev| ≤ 1e-5 * T_prev`. -/
theorem calcql_self_consistent (fuel : Nat) (s qt p ex ql : K) (st : NewtonState K)
    (hl : calcqlLoop (s * ex) qt p fuel (calcqlInit (s * ex)) = some st)
    (h : calcql fuel s qt p ex = some ql) (hpos : 0 < st.tnr_old) :
    ql = max 0 (qt - rslf p st.tnr_old) ∧
      st.tnr = st.tnr_old - (st.tnr_old+(lv/cp)*rslf p st.tnr_old-s*ex-(lv/cp)*qt)
        /(1+(lv^2*rslf p st.tnr_old)/ (rv*cp*st.tnr_old^2)) ∧
      |st.tnr - st.tnr_old| ≤ 1e-5 * st.tnr_old := by
  obtain ⟨t, hl', -, ht, hv⟩ := calcql_some fuel s qt p ex ql h
  rw [hl] at hl'
  cases hl'
  refine ⟨hv, ht, ?_⟩
  have hx := calcqlLoop_exit _ _ _ _ _ _ hl
  unfold calcqlCond at hx
  rw [gt_iff_lt, not_lt, div_le_iff₀ hpos] at hx
  exact hx

set_option maxRecDepth 100000 in
/-- Witness for C5 in scenario 2 (`s = 300`, `p = 1e5`, `exn = 1`,
`qt = rslf(1e5, 300) + 0.002`, three passes). -/
theorem calcql_self_consistent_witness :
    ∃ (st : NewtonState ℚ) (ql : ℚ),
      calcqlLoop (300 * 1) (rslf 1e5 300 + 0.002) 1e5 4 (calcqlInit (300 * 1)) = some st ∧
      calcql 4 300 (rslf 1e5 300 + 0.002) 1e5 1 = some ql ∧ 0 < st.tnr_old ∧
      ql = max 0 ((rslf 1e5 300 + 0.002) - rslf 1e5 st.tnr_old) ∧
      |st.tnr - st.tnr_old| ≤ 1e-5 * st.tnr_old := by
  have hl := calcqlLoop_scenario2 0
  have h : calcql 4 (300 : ℚ) (rslf 1e5 300 + 0.002) 1e5 1 = some
      (max 0 ((rslf 1e5 300 + 0.002) - rslf 1e5 ((calcqlBody (300 * 1)
        (rslf 1e5 300 + 0.002) 1e5)^[2] (calcqlInit (300 * 1))).tnr)) := by
    rw [calcql_of_loop _ _ _ _ _ _ hl]
    simp [calcqlBody]
  have hpos : (0 : ℚ) < ((calcqlBody (300 * 1) (rslf 1e5 300 + 0.002) 1e5)^[3]
      (calcqlInit (300 * 1))).tnr_old := by
    norm_num [calcqlInit, calcqlBody, rslf, esl, c0, c1, c2, c3, c4, c5, c6, c7, c8,
      tmelt, ep, rd, rv, cp, lv]
  have hc := calcql_self_consistent 4 300 (rslf 1e5 300 + 0.002) 1e5 1 _ _ hl h hpos
  exact ⟨_, _, hl, h, hpos, hc.1, hc.2.2⟩

/-! ## Loops -/

/-- Invariant rule for a loop whose body may fail: an invariant indexed by the
loop counter that holds on entry and is kept by every pass holds on exit. -/
theorem forLoopM_ind {σ : Type} (body : Int → σ → Option σ) (P : Int → σ → Prop)
    (n : Nat) (lo : Int) (s r : σ) (h : forLoopM body n lo s = some r) (h0 : P lo s)
    (hstep : ∀ k t u, lo ≤ k → k < lo + n → P k t → body k t = some u → P (k + 1) u) :
    P (lo + n) r := by
  induction n generalizing lo s with
  | zero =>
    simp [forLoopM] at h
    subst h
    simpa using h0
  | succ n ih =>
    simp only [forLoopM] at h
    cases hb : body lo s with
    | none => simp [hb] at h
    | some u =>
      simp only [hb, Option.some_bind] at h
      have h1 := ih (lo + 1) u h (hstep lo s u le_rfl (by push_cast; omega) h0 hb)
        (fun k t v hk1 hk2 hP hbk => hstep k t v (by omega) (by push_cast at hk2 ⊢; omega) hP hbk)
      have e : lo + ((n + 1 : Nat) : Int) = lo + 1 + (n : Int) := by push_cast; ring
      rw [e]
      exact h1

/-- Invariant rule for `forRangeM`. -/
theorem forRangeM_ind {σ : Type} (body : Int → σ → Option σ) (P : Int → σ → Prop)
    (lo hi : Int) (hle : lo ≤ hi) (s r : σ) (h : forRangeM lo hi body s = some r) (h0 : P lo s)
    (hstep : ∀ k t u, lo ≤ k → k < hi → P k t → body k t = some u → P (k + 1) u) :
    P hi r := by
  have e : lo + ((hi - lo).toNat : Int) = hi := by
    rw [Int.toNat_of_nonneg (by omega)]; ring
  have h1 := forLoopM_ind body P (hi - lo).toNat lo s r h h0
    (fun k t u hk1 hk2 hP hb => hstep k t u hk1 (by omega) hP hb)
  rwa [e] at h1

/-- A pure loop is a loop whose body never fails. -/
theorem forLoopM_pure {σ : Type} (body : Int → σ → σ) (n : Nat) (lo : Int) (s : σ) :
    forLoopM (fun k t => some (body k t)) n lo s = some (forLoop body n lo s) := by
  induction n generalizing lo s with
  | zero => rfl
  | succ n ih => simp [forLoopM, forLoop, ih]

/-- Invariant rule for `forRange`. -/
theorem forRange_ind {σ : Type} (body : Int → σ → σ) (P : Int → σ → Prop)
    (lo hi : Int) (hle : lo ≤ hi) (s : σ) (h0 : P lo s)
    (hstep : ∀ k t, lo ≤ k → k < hi → P k t → P (k + 1) (body k t)) :
    P hi (forRange lo hi body s) := by
  apply forRangeM_ind (fun k t => some (body k t)) P lo hi hle s _
    (forLoopM_pure body _ lo s) h0
  intro k t u hk1 hk2 hP hb
  cases hb
  exact hstep k t hk1 hk2 hP

/-- An empty range leaves the state alone. -/
theorem forRangeM_empty {σ : Type} (body : Int → σ → Option σ) (lo hi : Int) (h : hi ≤ lo)
    (s : σ) : forRangeM lo hi body s = some s := by
  have e : (hi - lo).toNat = 0 := by
    apply Int.toNat_eq_zero.mpr; omega
  simp [forRangeM, e, forLoopM]

/-- An empty range leaves the state alone. -/
theorem forRange_empty {σ : Type} (body : Int → σ → σ) (lo hi : Int) (h : hi ≤ lo)
    (s : σ) : forRange lo hi body s = s := by
  have e : (hi - lo).toNat = 0 := by
    apply Int.toNat_eq_zero.mpr; omega
  simp [forRange, e, forLoop]

/-! ## The reference state -/


theorem basestateLevel_spec (pw : K → K → K) (fuel : Nat) (grid : Grid K)
    (thlmean qtmean : Int → K) (k : Int) (s t : BaseState K)
    (h : basestateLevel pw fuel grid thlmean qtmean k s = some t) :
    (∀ m, m ≠ k → t.prefh m = s.prefh m) ∧ (∀ m, m ≠ k → t.pref m = s.pref m) ∧
    (∀ m, m ≠ k → t.thvh m = s.thvh m) ∧ (∀ m, m ≠ k - 1 → t.thv m = s.thv m) ∧
    t.prefh k = pw (pw (s.prefh (k-1)) (rd/cp) - grav * pw p0 (rd/cp) * grid.dz (k-1)
      / (cp * t.thv (k-1))) (1/(rd/cp)) ∧
    t.pref k = pw (pw (s.pref (k-1)) (rd/cp) - grav * pw p0 (rd/cp) * grid.dzh k
      / (cp * t.thvh k)) (1/(rd/cp)) := by
  unfold basestateLevel at h
  simp only at h
  split at h
  · simp at h
  · split at h
    · split at h
      · simp at h
      · simp only [Option.some.injEq] at h
        subst h
        refine ⟨?_, ?_, ?_, ?_, ?_, ?_⟩
        · intro m hm; simp [Function.update_noteq hm]
        · intro m hm; simp [Function.update_noteq hm]
        · intro m hm; simp [Function.update_noteq hm]
        · intro m hm; simp [Function.update_noteq hm]
        · simp
        · simp
    · simp at h

theorem basestateSurface_spec (pw : K → K → K) (fuel : Nat) (grid : Grid K) (ps : K)
    (thlmean qtmean : Int → K) (s t : BaseState K)
    (h : basestateSurface pw fuel grid ps thlmean qtmean s = some t) :
    t.prefh grid.kstart = ps ∧ t.exh grid.kstart = exn pw ps ∧
    t.pref grid.kstart = pw (pw ps (rd/cp) - grav * pw p0 (rd/cp) * grid.z grid.kstart
      / (cp * t.thvh grid.kstart)) (1/(rd/cp)) := by
  unfold basestateSurface at h
  simp only at h
  split at h
  · split at h
    · simp at h
    · simp only [Option.some.injEq] at h
      subst h
      simp
  · simp at h

theorem basestateGhost_spec (grid : Grid K) (s : BaseState K) :
    (basestateGhost grid s).prefh = s.prefh ∧ (basestateGhost grid s).thv = s.thv ∧
    (basestateGhost grid s).thvh = s.thvh ∧ (basestateGhost grid s).exh = s.exh ∧
    ∀ m, grid.kstart ≤ m → m < grid.kend → (basestateGhost grid s).pref m = s.pref m := by
  unfold basestateGhost
  simp only
  split
  · refine ⟨rfl, rfl, rfl, rfl, ?_⟩
    intro m h1 h2
    simp only
    rw [Function.update_noteq (by omega), Function.update_noteq (by omega)]
  · split
    · refine ⟨rfl, rfl, rfl, rfl, ?_⟩
      intro m h1 h2
      simp only
      rw [Function.update_noteq (by omega), Function.update_noteq (by omega),
        Function.update_noteq (by omega), Function.update_noteq (by omega)]
    · exact ⟨rfl, rfl, rfl, rfl, fun _ _ _ => rfl⟩

/-- The pressures written by `calcbasestate` satisfy the recurrences of the
hydrostatic integration, expressed with the profiles it returns. -/
theorem calcbasestate_equations (pw : K → K → K) (fuel : Nat) (grid : Grid K) (ps : K)
    (thlmean qtmean : Int → K) (s t : BaseState K) (hk : grid.kstart < grid.kend)
    (h : calcbasestate pw fuel grid ps thlmean qtmean s = some t) :
    t.prefh grid.kstart = ps ∧
    t.pref grid.kstart = pw (pw ps (rd/cp) - grav * pw p0 (rd/cp) * grid.z grid.kstart
      / (cp * t.thvh grid.kstart)) (1/(rd/cp)) ∧
    (∀ k, grid.kstart < k → k ≤ grid.kend →
      t.prefh k = pw (pw (t.prefh (k-1)) (rd/cp) - grav * pw p0 (rd/cp) * grid.dz (k-1)
        / (cp * t.thv (k-1))) (1/(rd/cp))) ∧
    (∀ k, grid.kstart < k → k < grid.kend →
      t.pref k = pw (pw (t.pref (k-1)) (rd/cp) - grav * pw p0 (rd/cp) * grid.dzh k
        / (cp * t.thvh k)) (1/(rd/cp))) := by
  unfold calcbasestate at h
  split at h
  · simp at h
  · rename_i st1 hs
    split at h
    · simp at h
    · rename_i st2 hloop
      simp only [Option.some.injEq] at h
      subst h
      obtain ⟨hs1, -, hs3⟩ := basestateSurface_spec pw fuel grid ps thlmean qtmean s st1 hs
      have inv := forRangeM_ind (basestateLevel pw fuel grid thlmean qtmean)
        (fun m u => u.prefh grid.kstart = ps ∧
          u.pref grid.kstart = pw (pw ps (rd/cp) - grav * pw p0 (rd/cp) * grid.z grid.kstart
            / (cp * u.thvh grid.kstart)) (1/(rd/cp)) ∧
          (∀ k, grid.kstart < k → k < m →
            u.prefh k = pw (pw (u.prefh (k-1)) (rd/cp) - grav * pw p0 (rd/cp) * grid.dz (k-1)
              / (cp * u.thv (k-1))) (1/(rd/cp))) ∧
          (∀ k, grid.kstart < k → k < m →
            u.pref k = pw (pw (u.pref (k-1)) (rd/cp) - grav * pw p0 (rd/cp) * grid.dzh k
              / (cp * u.thvh k)) (1/(rd/cp))))
        (grid.kstart+1) (grid.kend+1) (by omega) st1 st2 hloop
        ⟨hs1, hs3, fun k h1 h2 => by omega, fun k h1 h2 => by omega⟩
        (by
          intro m u v hm1 hm2 ⟨i1, i2, i3, i4⟩ hb
          obtain ⟨f1, f2, f3, f4, e1, e2⟩ :=
            basestateLevel_spec pw fuel grid thlmean qtmean m u v hb
          refine ⟨?_, ?_, ?_, ?_⟩
          · rw [f1 _ (by omega)]; exact i1
          · rw [f2 _ (by omega), f3 _ (by omega)]; exact i2
          · intro k h1 h2
            by_cases hkm : k = m
            · subst hkm
              rw [e1, f1 (k-1) (by omega)]
            · rw [f1 k hkm, f1 (k-1) (by omega), f4 (k-1) (by omega)]
              exact i3 k h1 (by omega)
          · intro k h1 h2
            by_cases hkm : k = m
            · subst hkm
              rw [e2, f2 (k-1) (by omega)]
            · rw [f2 k hkm, f2 (k-1) (by omega), f3 k hkm]
              exact i4 k h1 (by omega))
      obtain ⟨i1, i2, i3, i4⟩ := inv
      obtain ⟨g1, g2, g3, -, g5⟩ := basestateGhost_spec grid st2
      rw [g1, g2, g3]
      refine ⟨i1, ?_, fun k h1 h2 => i3 k h1 (by omega), ?_⟩
      · rw [g5 _ le_rfl hk]; exact i2
      · intro k h1 h2
        rw [g5 k (by omega) h2, g5 (k-1) (by omega) (by omega)]
        exact i4 k h1 (by omega)

theorem rdcp_pos : (0 : ℝ) < rd / cp := by norm_num [rd, cp]

theorem p0_pos : (0 : ℝ) < p0 := by norm_num [p0]

/-- The Exner function of a pressure obtained by the inverse power. -/
theorem exn_rpow_inv (B : ℝ) (hB : 0 < B) :
    exn Real.rpow (Real.rpow B (1/(rd/cp))) = B / p0 ^ (rd/cp : ℝ) := by
  simp only [exn, Real.rpow_eq_pow]
  rw [Real.div_rpow (Real.rpow_nonneg hB.le _) p0_pos.le, ← Real.rpow_mul hB.le,
    one_div, inv_mul_cancel₀ rdcp_pos.ne', Real.rpow_one]

theorem exn_rpow_div (p : ℝ) (hp : 0 ≤ p) :
    exn Real.rpow p = p ^ (rd/cp : ℝ) / p0 ^ (rd/cp : ℝ) := by
  simp only [exn, Real.rpow_eq_pow]
  rw [Real.div_rpow hp p0_pos.le]

/-- One hydrostatic step in the Exner function. -/
theorem exn_step (p c : ℝ) (hp : 0 ≤ p)
    (hB : 0 < p ^ (rd/cp : ℝ) - grav * p0 ^ (rd/cp : ℝ) * c) :
    exn Real.rpow (Real.rpow (Real.rpow p (rd/cp) - grav * Real.rpow p0 (rd/cp) * c)
      (1/(rd/cp))) - exn Real.rpow p = - grav * c := by
  have e : Real.rpow p (rd/cp) - grav * Real.rpow p0 (rd/cp) * c
      = p ^ (rd/cp : ℝ) - grav * p0 ^ (rd/cp : ℝ) * c := rfl
  rw [e, exn_rpow_inv _ hB, exn_rpow_div p hp]
  have h0 : (p0 : ℝ) ^ (rd/cp : ℝ) ≠ 0 := (Real.rpow_pos_of_pos p0_pos _).ne'
  field_simp
  ring

/-- One hydrostatic step lowers the pressure. -/
theorem pressure_step_lt (p c : ℝ) (hp : 0 ≤ p) (hc : 0 < c)
    (hB : 0 < p ^ (rd/cp : ℝ) - grav * p0 ^ (rd/cp : ℝ) * c) :
    Real.rpow (Real.rpow p (rd/cp) - grav * Real.rpow p0 (rd/cp) * c) (1/(rd/cp)) < p := by
  simp only [Real.rpow_eq_pow]
  have hpos : 0 < grav * (p0 : ℝ) ^ (rd/cp : ℝ) * c :=
    mul_pos (mul_pos (by norm_num [grav]) (Real.rpow_pos_of_pos p0_pos _)) hc
  have h1 : p ^ (rd/cp : ℝ) - grav * p0 ^ (rd/cp : ℝ) * c < p ^ (rd/cp : ℝ) := by linarith
  have h2 := Real.rpow_lt_rpow hB.le h1 (show (0:ℝ) < 1/(rd/cp) from one_div_pos.mpr rdcp_pos)
  rw [← Real.rpow_mul hp, mul_one_div, div_self rdcp_pos.ne', Real.rpow_one] at h2
  exact h2

/-- The pressures returned by `calcbasestate` are positive when every
fractional-power base is. -/
theorem calcbasestate_pressure_pos (fuel : Nat) (grid : Grid ℝ) (ps : ℝ)
    (thlmean qtmean : Int → ℝ) (s t : BaseState ℝ) (hk : grid.kstart < grid.kend)
    (h : calcbasestate Real.rpow fuel grid ps thlmean qtmean s = some t) (hps : 0 < ps)
    (hb0 : 0 < ps ^ (rd/cp : ℝ) - grav * p0 ^ (rd/cp : ℝ)
      * grid.z grid.kstart / (cp * t.thvh grid.kstart))
    (hbh : ∀ k, grid.kstart < k → k ≤ grid.kend →
      0 < t.prefh (k-1) ^ (rd/cp : ℝ) - grav * p0 ^ (rd/cp : ℝ)
        * grid.dz (k-1) / (cp * t.thv (k-1)))
    (hbf : ∀ k, grid.kstart < k → k < grid.kend →
      0 < t.pref (k-1) ^ (rd/cp : ℝ) - grav * p0 ^ (rd/cp : ℝ)
        * grid.dzh k / (cp * t.thvh k)) :
    (∀ k, grid.kstart ≤ k → k ≤ grid.kend → 0 < t.prefh k) ∧
    (∀ k, grid.kstart ≤ k → k < grid.kend → 0 < t.pref k) := by
  obtain ⟨e1, e2, e3, e4⟩ :=
    calcbasestate_equations Real.rpow fuel grid ps thlmean qtmean s t hk h
  constructor
  · intro k h1 h2
    rcases eq_or_lt_of_le h1 with h3 | h3
    · rw [← h3, e1]; exact hps
    · rw [e3 k h3 h2]
      exact Real.rpow_pos_of_pos (hbh k h3 h2) _
  · intro k h1 h2
    rcases eq_or_lt_of_le h1 with h3 | h3
    · rw [← h3, e2]
      exact Real.rpow_pos_of_pos hb0 _
    · rw [e4 k h3 h2]
      exact Real.rpow_pos_of_pos (hbf k h3 h2) _

/-- C6: the profiles returned by `calcbasestate` are in discrete hydrostatic
balance in the Exner function.  On a grid with at least one interior level
(`kstart < kend`), with `pow` the real power function, a positive surface
pressure and every fractional-power base positive:
`exn(pref[kstart]) - exn(ps) = -grav*z[kstart]/(cp*thvh[kstart])`,
`exn(prefh[k]) - exn(prefh[k-1]) = -grav*dz[k-1]/(cp*thv[k-1])` for
`kstart < k ≤ kend`, and
`exn(pref[k]) - exn(pref[k-1]) = -grav*dzh[k]/(cp*thvh[k])` for `kstart < k < kend`. -/
theorem calcbasestate_hydrostatic (fuel : Nat) (grid : Grid ℝ) (ps : ℝ)
    (thlmean qtmean : Int → ℝ) (s t : BaseState ℝ) (hk : grid.kstart < grid.kend)
    (h : calcbasestate Real.rpow fuel grid ps thlmean qtmean s = some t) (hps : 0 < ps)
    (hb0 : 0 < ps ^ (rd/cp : ℝ) - grav * p0 ^ (rd/cp : ℝ)
      * grid.z grid.kstart / (cp * t.thvh grid.kstart))
    (hbh : ∀ k, grid.kstart < k → k ≤ grid.kend →
      0 < t.prefh (k-1) ^ (rd/cp : ℝ) - grav * p0 ^ (rd/cp : ℝ)
        * grid.dz (k-1) / (cp * t.thv (k-1)))
    (hbf : ∀ k, grid.kstart < k → k < grid.kend →
      0 < t.pref (k-1) ^ (rd/cp : ℝ) - grav * p0 ^ (rd/cp : ℝ)
        * grid.dzh k / (cp * t.thvh k)) :
    exn Real.rpow (t.pref grid.kstart) - exn Real.rpow ps
        = -grav * grid.z grid.kstart / (cp * t.thvh grid.kstart) ∧
    (∀ k, grid.kstart < k → k ≤ grid.kend →
      exn Real.rpow (t.prefh k) - exn Real.rpow (t.prefh (k-1))
        = -grav * grid.dz (k-1) / (cp * t.thv (k-1))) ∧
    (∀ k, grid.kstart < k → k < grid.kend →
      exn Real.rpow (t.pref k) - exn Real.rpow (t.pref (k-1))
        = -grav * grid.dzh k / (cp * t.thvh k)) := by
  obtain ⟨e1, e2, e3, e4⟩ :=
    calcbasestate_equations Real.rpow fuel grid ps thlmean qtmean s t hk h
  obtain ⟨p1, p2⟩ := calcbasestate_pressure_pos fuel grid ps thlmean qtmean s t hk h hps
    hb0 hbh hbf
  refine ⟨?_, ?_, ?_⟩
  · rw [e2, mul_div_assoc, exn_step ps _ hps.le (by rw [← mul_div_assoc]; exact hb0)]
    ring
  · intro k h1 h2
    rw [e3 k h1 h2, mul_div_assoc, exn_step _ _ (p1 (k-1) (by omega) (by omega)).le
      (by rw [← mul_div_assoc]; exact hbh k h1 h2)]
    ring
  · intro k h1 h2
    rw [e4 k h1 h2, mul_div_assoc, exn_step _ _ (p2 (k-1) (by omega) (by omega)).le
      (by rw [← mul_div_assoc]; exact hbf k h1 h2)]
    ring

/-- C7: the reference pressures returned by `calcbasestate` strictly decrease
with the height index.  On a grid with at least one interior level, with `pow`
the real power function, `ps > 0`, positive layer thicknesses, positive virtual
potential temperatures and every fractional-power base positive:
`prefh[k] < prefh[k-1]` for `kstart < k ≤ kend`, `pref[kstart] < ps`, and
`pref[k] < pref[k-1]` for `kstart < k < kend`. -/
theorem calcbasestate_pressure_decreasing (fuel : Nat) (grid : Grid ℝ) (ps : ℝ)
    (thlmean qtmean : Int → ℝ) (s t : BaseState ℝ) (hk : grid.kstart < grid.kend)
    (h : calcbasestate Real.rpow fuel grid ps thlmean qtmean s = some t) (hps : 0 < ps)
    (hz : 0 < grid.z grid.kstart)
    (hdz : ∀ k, grid.kstart < k → k ≤ grid.kend → 0 < grid.dz (k-1))
    (hdzh : ∀ k, grid.kstart < k → k < grid.kend → 0 < grid.dzh k)
    (hthv : ∀ k, grid.kstart < k → k ≤ grid.kend → 0 < t.thv (k-1))
    (hthvh : ∀ k, grid.kstart ≤ k → k < grid.kend → 0 < t.thvh k)
    (hb0 : 0 < ps ^ (rd/cp : ℝ) - grav * p0 ^ (rd/cp : ℝ)
      * grid.z grid.kstart / (cp * t.thvh grid.kstart))
    (hbh : ∀ k, grid.kstart < k → k ≤ grid.kend →
      0 < t.prefh (k-1) ^ (rd/cp : ℝ) - grav * p0 ^ (rd/cp : ℝ)
        * grid.dz (k-1) / (cp * t.thv (k-1)))
    (hbf : ∀ k, grid.kstart < k → k < grid.kend →
      0 < t.pref (k-1) ^ (rd/cp : ℝ) - grav * p0 ^ (rd/cp : ℝ)
        * grid.dzh k / (cp * t.thvh k)) :
    (∀ k, grid.kstart < k → k ≤ grid.kend → t.prefh k < t.prefh (k-1)) ∧
    t.pref grid.kstart < ps ∧
    (∀ k, grid.kstart < k → k < grid.kend → t.pref k < t.pref (k-1)) := by
  obtain ⟨e1, e2, e3, e4⟩ :=
    calcbasestate_equations Real.rpow fuel grid ps thlmean qtmean s t hk h
  obtain ⟨p1, p2⟩ := calcbasestate_pressure_pos fuel grid ps thlmean qtmean s t hk h hps
    hb0 hbh hbf
  have hcp : (0 : ℝ) < cp := by norm_num [cp]
  refine ⟨?_, ?_, ?_⟩
  · intro k h1 h2
    rw [e3 k h1 h2, mul_div_assoc]
    exact pressure_step_lt _ _ (p1 (k-1) (by omega) (by omega)).le
      (div_pos (hdz k h1 h2) (mul_pos hcp (hthv k h1 h2)))
      (by rw [← mul_div_assoc]; exact hbh k h1 h2)
  · rw [e2, mul_div_assoc]
    exact pressure_step_lt _ _ hps.le (div_pos hz (mul_pos hcp (hthvh _ le_rfl hk)))
      (by rw [← mul_div_assoc]; exact hb0)
  · intro k h1 h2
    rw [e4 k h1 h2, mul_div_assoc]
    exact pressure_step_lt _ _ (p2 (k-1) (by omega) (by omega)).le
      (div_pos (hdzh k h1 h2) (mul_pos hcp (hthvh k (by omega) h2)))
      (by rw [← mul_div_assoc]; exact hbf k h1 h2)

/-! ## A dry, cold column: concrete runs of the reference state -/


/-- Below `tmelt - 80` the saturation vapour pressure is the clamped value. -/
theorem esl_clamped (t : K) (ht : t ≤ 193.15) :
    esl t = 0.109472054016 := by
  have hx : max (-80) (t - tmelt) = (-80 : K) := by
    apply max_eq_left
    have : (tmelt : K) = 273.15 := rfl
    rw [this]
    linarith
  simp only [esl, hx]
  norm_num [c0, c1, c2, c3, c4, c5, c6, c7, c8]

/-- A dry parcel at 190 K near the reference pressure: the first Newton step is
within the tolerance and `calcql` returns zero. -/
theorem calcql_dry_cold (fuel : Nat) (p ex : K) (hp : 95000 ≤ p) (hex0 : 0.99 ≤ ex)
    (hex1 : ex ≤ 1) : calcql (fuel + 2) 190 0 p ex = some 0 := by
  have ht : (190 * ex : K) ≤ 193.15 := by linarith
  have ht0 : (188 : K) ≤ 190 * ex := by linarith
  have hes : esl (190 * ex : K) = 0.109472054016 := esl_clamped _ ht
  have hden : (94999 : K) ≤ p - (1 - ep) * 0.109472054016 := by
    have : ((1 : K) - ep) * 0.109472054016 ≤ 1 := by norm_num [ep, rd, rv]
    linarith
  have hq0 : 0 < rslf p (190 * ex) := by
    rw [rslf, hes]
    exact div_pos (by norm_num [ep, rd, rv]) (by linarith)
  have hq1 : rslf p (190 * ex) ≤ 7.2e-7 := by
    rw [rslf, hes, div_le_iff₀ (by linarith)]
    have : (ep : K) * 0.109472054016 ≤ 7.2e-7 * 94999 := by norm_num [ep, rd, rv]
    nlinarith
  have h := calcql_one_pass fuel 190 0 p ex ?_ ?_
  · rw [h]
    congr 1
    apply max_eq_left
    linarith
  · simp only [calcqlCond, calcqlInit]
    rw [abs_of_neg (by norm_num; linarith)]
    rw [gt_iff_lt, lt_div_iff₀ (by norm_num)]
    norm_num
    linarith
  · simp only [calcqlCond, calcqlInit, calcqlBody]
    rw [gt_iff_lt, not_lt, div_le_iff₀ (by linarith)]
    set q := rslf p (190 * ex) with hq
    have hd : (1 : K) ≤ 1 + lv ^ 2 * q / (rv * cp * (190 * ex) ^ 2) := by
      have : (0 : K) ≤ lv ^ 2 * q / (rv * cp * (190 * ex) ^ 2) := by
        apply div_nonneg
        · exact mul_nonneg (by norm_num [lv]) hq0.le
        · exact mul_nonneg (by norm_num [rv, cp]) (sq_nonneg _)
      linarith
    have hnum : (0 : K) ≤ 190 * ex + lv / cp * q - 190 * ex - lv / cp * 0 := by
      have : (0 : K) ≤ lv / cp * q := mul_nonneg (by norm_num [lv, cp]) hq0.le
      linarith
    have e : (190 * ex - (190 * ex + lv / cp * q - 190 * ex - lv / cp * 0)
        / (1 + lv ^ 2 * q / (rv * cp * (190 * ex) ^ 2)) - 190 * ex : K)
        = -((190 * ex + lv / cp * q - 190 * ex - lv / cp * 0)
        / (1 + lv ^ 2 * q / (rv * cp * (190 * ex) ^ 2))) := by ring
    rw [e, abs_neg, abs_of_nonneg (div_nonneg hnum (by linarith))]
    rw [div_le_iff₀ (by linarith)]
    have h2 : (lv / cp * q : K) ≤ 1e-5 * 188 := by
      have : (lv / cp : K) * 7.2e-7 ≤ 1e-5 * 188 := by norm_num [lv, cp]
      have h3 : (lv / cp : K) * q ≤ lv / cp * 7.2e-7 :=
        mul_le_mul_of_nonneg_left hq1 (by norm_num [lv, cp])
      linarith
    have h4 : (1e-5 * 188 : K) ≤ 1e-5 * (190 * ex) := by linarith
    have h5 : (1e-5 * (190 * ex) : K) ≤ 1e-5 * (190 * ex)
        * (1 + lv ^ 2 * q / (rv * cp * (190 * ex) ^ 2)) := by
      apply le_mul_of_one_le_right _ hd
      linarith
    linarith

/-- The base of the inverse power, written with the Exner function. -/
theorem base_eq_exn (p c : ℝ) (hp : 0 ≤ p) :
    p ^ (rd/cp : ℝ) - grav * p0 ^ (rd/cp : ℝ) * c
      = p0 ^ (rd/cp : ℝ) * (exn Real.rpow p - grav * c) := by
  rw [exn_rpow_div p hp]
  have h0 : (p0 : ℝ) ^ (rd/cp : ℝ) ≠ 0 := (Real.rpow_pos_of_pos p0_pos _).ne'
  field_simp
  ring

theorem base_pos_of_exn (p c : ℝ) (hp : 0 ≤ p) (h : 0 < exn Real.rpow p - grav * c) :
    0 < p ^ (rd/cp : ℝ) - grav * p0 ^ (rd/cp : ℝ) * c := by
  rw [base_eq_exn p c hp]
  exact mul_pos (Real.rpow_pos_of_pos p0_pos _) h

/-- A pressure whose Exner function is at least `0.99` is at least `95000`. -/
theorem pressure_ge_of_exn (p : ℝ) (hp : 0 ≤ p) (h : 0.99 ≤ exn Real.rpow p) :
    95000 ≤ p := by
  by_contra hlt
  rw [not_le] at hlt
  have ha : (0 : ℝ) < rd / cp := rdcp_pos
  have h1 : p / p0 < 0.95 := by
    rw [div_lt_iff₀ p0_pos]
    norm_num [p0]
    linarith
  have h2 : (p / p0) ^ (rd/cp : ℝ) < (0.95 : ℝ) ^ (rd/cp : ℝ) :=
    Real.rpow_lt_rpow (div_nonneg hp p0_pos.le) h1 ha
  have h3 : (0.95 : ℝ) ≤ (0.99 : ℝ) ^ (1/(rd/cp) : ℝ) := by
    have h4 : (0.99 : ℝ) ^ ((4 : ℕ) : ℝ) ≤ (0.99 : ℝ) ^ (1/(rd/cp) : ℝ) := by
      apply Real.rpow_le_rpow_of_exponent_ge (by norm_num) (by norm_num)
      norm_num [rd, cp]
    rw [Real.rpow_natCast] at h4
    have h5 : (0.95 : ℝ) ≤ (0.99 : ℝ) ^ 4 := by norm_num
    linarith
  have h6 : (0.95 : ℝ) ^ (rd/cp : ℝ) ≤ 0.99 := by
    have h7 := Real.rpow_le_rpow (by norm_num) h3 ha.le
    rw [← Real.rpow_mul (by norm_num), one_div, inv_mul_cancel₀ ha.ne', Real.rpow_one] at h7
    exact h7
  have h8 : exn Real.rpow p < 0.99 := by
    simp only [exn, Real.rpow_eq_pow]
    linarith
  linarith

theorem thv_dry (e : ℝ) :
    ((190 : ℝ) + lv*0/(cp*e)) * (1 - (1 - rv/rd)*0 - rv/rd*0) = 190 := by
  norm_num

theorem interpHalf_dry (c : ℝ) (k : Int) :
    interpHalf dryGrid (fun _ => c) k = some c := by
  simp only [interpHalf, dryGrid, interp2, if_true]
  congr 1
  norm_num
  ring

/-- One pass of the level loop of `calcbasestate` on the dry column. -/
theorem basestateLevel_dry (fuel : Nat) (k : Int) (u : BaseState ℝ)
    (hP : 0 < u.pref (k-1)) (hPh : 0 < u.prefh (k-1))
    (hE0 : 0.995 ≤ exn Real.rpow (u.pref (k-1))) (hE1 : exn Real.rpow (u.pref (k-1)) ≤ 1)
    (hEh0 : 0.995 ≤ exn Real.rpow (u.prefh (k-1)))
    (hEh1 : exn Real.rpow (u.prefh (k-1)) ≤ 1) :
    ∃ t, basestateLevel Real.rpow (fuel + 2) dryGrid (fun _ => 190) (fun _ => 0) k u = some t ∧
      t.thv (k-1) = 190 ∧ t.thvh k = 190 ∧ 0 < t.prefh k ∧ 0 < t.pref k ∧
      exn Real.rpow (t.prefh k) = exn Real.rpow (u.prefh (k-1)) - grav * (10 / (cp * 190)) ∧
      exn Real.rpow (t.pref k) = exn Real.rpow (u.pref (k-1)) - grav * (10 / (cp * 190)) := by
  have hd : (grav : ℝ) * (10 / (cp * 190)) ≤ 0.001 := by norm_num [grav, cp]
  have hd0 : (0 : ℝ) ≤ grav * (10 / (cp * 190)) := by norm_num [grav, cp]
  have hc1 : calcql (fuel + 2) 190 0 (u.pref (k-1)) (exn Real.rpow (u.pref (k-1))) = some 0 :=
    calcql_dry_cold fuel _ _ (pressure_ge_of_exn _ hP.le (by linarith)) (by linarith) hE1
  have hB1 : 0 < u.prefh (k-1) ^ (rd/cp : ℝ) - grav * p0 ^ (rd/cp : ℝ) * (10 / (cp * 190)) :=
    base_pos_of_exn _ _ hPh.le (by linarith)
  have hB2 : 0 < u.pref (k-1) ^ (rd/cp : ℝ) - grav * p0 ^ (rd/cp : ℝ) * (10 / (cp * 190)) :=
    base_pos_of_exn _ _ hP.le (by linarith)
  have hx1 := exn_step (u.prefh (k-1)) (10 / (cp * 190)) hPh.le hB1
  have hx2 := exn_step (u.pref (k-1)) (10 / (cp * 190)) hP.le hB2
  have hp1 : 0 < Real.rpow (Real.rpow (u.prefh (k-1)) (rd/cp)
      - grav * Real.rpow p0 (rd/cp) * (10 / (cp * 190))) (1/(rd/cp)) :=
    Real.rpow_pos_of_pos hB1 _
  have hp2 : 0 < Real.rpow (Real.rpow (u.pref (k-1)) (rd/cp)
      - grav * Real.rpow p0 (rd/cp) * (10 / (cp * 190))) (1/(rd/cp)) :=
    Real.rpow_pos_of_pos hB2 _
  have hc2 : calcql (fuel + 2) 190 0 (Real.rpow (Real.rpow (u.prefh (k-1)) (rd/cp)
      - grav * Real.rpow p0 (rd/cp) * (10 / (cp * 190))) (1/(rd/cp)))
      (exn Real.rpow (Real.rpow (Real.rpow (u.prefh (k-1)) (rd/cp)
      - grav * Real.rpow p0 (rd/cp) * (10 / (cp * 190))) (1/(rd/cp)))) = some 0 :=
    calcql_dry_cold fuel _ _ (pressure_ge_of_exn _ hp1.le (by linarith)) (by linarith)
      (by linarith)
  have hdz : (dryGrid : Grid ℝ).dz (k-1) = 10 := rfl
  have hdzh : (dryGrid : Grid ℝ).dzh k = 10 := rfl
  unfold basestateLevel
  simp only [Function.update_same, hc1, interpHalf_dry, hdz, hdzh, mul_div_assoc,
    mul_zero, zero_div, add_zero, sub_zero, mul_one, hc2]
  refine ⟨_, rfl, ?_⟩
  simp only [Function.update_same]
  exact ⟨trivial, trivial, hp1, hp2, by linarith, by linarith⟩

theorem exn_p0 : exn Real.rpow (1e5 : ℝ) = 1 := by
  have e : (1e5 : ℝ) / p0 = 1 := by norm_num [p0]
  simp only [exn, e, Real.rpow_eq_pow, Real.one_rpow]

/-- The surface part of `calcbasestate` on the dry column. -/
theorem basestateSurface_dry (fuel : Nat) :
    ∃ t, basestateSurface Real.rpow (fuel + 2) dryGrid 1e5 (fun _ => 190) (fun _ => 0)
        zeroBaseState = some t ∧
      t.thvh 1 = 190 ∧ t.prefh 1 = 1e5 ∧ 0 < t.pref 1 ∧
      exn Real.rpow (t.pref 1) = 1 - grav * (5 / (cp * 190)) := by
  have hc : calcql (fuel + 2) 190 0 (1e5 : ℝ) 1 = some 0 :=
    calcql_dry_cold fuel _ _ (by norm_num) (by norm_num) le_rfl
  have hz : (dryGrid : Grid ℝ).z 1 = 5 := by norm_num [dryGrid]
  have hk : (dryGrid : Grid ℝ).kstart = 1 := rfl
  have hB : 0 < (1e5 : ℝ) ^ (rd/cp : ℝ) - grav * p0 ^ (rd/cp : ℝ) * (5 / (cp * 190)) :=
    base_pos_of_exn _ _ (by norm_num) (by rw [exn_p0]; norm_num [grav, cp])
  have hx := exn_step (1e5 : ℝ) (5 / (cp * 190)) (by norm_num) hB
  rw [exn_p0] at hx
  unfold basestateSurface
  simp only [hk, Function.update_same, interpHalf_dry, exn_p0, hc, hz, mul_div_assoc,
    mul_zero, zero_div, add_zero, sub_zero, mul_one]
  refine ⟨_, rfl, ?_⟩
  simp only [Function.update_same]
  exact ⟨trivial, trivial, Real.rpow_pos_of_pos hB _, by linarith⟩

/-- The reference state of the dry column: `calcbasestate` returns, the virtual
potential temperatures are 190 K and the Exner function stays close to one. -/
theorem calcbasestate_dry (fuel : Nat) :
    ∃ t, calcbasestate Real.rpow (fuel + 2) dryGrid 1e5 (fun _ => 190) (fun _ => 0)
        zeroBaseState = some t ∧
      t.thvh 1 = 190 ∧ t.thvh 2 = 190 ∧ t.thv 1 = 190 ∧ t.thv 2 = 190 ∧
      0 < t.prefh 1 ∧ 0 < t.prefh 2 ∧ 0 < t.pref 1 ∧
      0.99 ≤ exn Real.rpow (t.prefh 1) ∧ 0.99 ≤ exn Real.rpow (t.prefh 2) ∧
      0.99 ≤ exn Real.rpow (t.pref 1) := by
  have hd : (grav : ℝ) * (10 / (cp * 190)) ≤ 0.001 := by norm_num [grav, cp]
  have hd0 : (0 : ℝ) ≤ grav * (10 / (cp * 190)) := by norm_num [grav, cp]
  have hd5 : (grav : ℝ) * (5 / (cp * 190)) ≤ 0.001 := by norm_num [grav, cp]
  have hd50 : (0 : ℝ) ≤ grav * (5 / (cp * 190)) := by norm_num [grav, cp]
  obtain ⟨t1, hs, a1, a2, a3, a4⟩ := basestateSurface_dry fuel
  have a2x : exn Real.rpow (t1.prefh 1) = 1 := by rw [a2, exn_p0]
  obtain ⟨t2, hl2, b1, b2, b3, b4, b5, b6⟩ := basestateLevel_dry fuel 2 t1
    (by norm_num; exact a3) (by norm_num; rw [a2]; norm_num)
    (by norm_num; linarith) (by norm_num; linarith)
    (by norm_num; linarith) (by norm_num; linarith)
  norm_num at b1 b5 b6
  obtain ⟨f1, f2, f3, f4, -, -⟩ := basestateLevel_spec _ _ _ _ _ 2 t1 t2 hl2
  obtain ⟨t3, hl3, c1, c2, c3, c4, c5, c6⟩ := basestateLevel_dry fuel 3 t2
    (by norm_num; exact b4) (by norm_num; exact b3)
    (by norm_num; linarith) (by norm_num; linarith)
    (by norm_num; linarith) (by norm_num; linarith)
  norm_num at c1
  obtain ⟨g1, g2, g3, g4, -, -⟩ := basestateLevel_spec _ _ _ _ _ 3 t2 t3 hl3
  obtain ⟨e1, e2, e3, -, e5⟩ := basestateGhost_spec (dryGrid : Grid ℝ) t3
  have hk1 : (dryGrid : Grid ℝ).kstart = 1 := rfl
  have hk3 : (dryGrid : Grid ℝ).kend = 3 := rfl
  have hloop : forRangeM ((dryGrid : Grid ℝ).kstart + 1) ((dryGrid : Grid ℝ).kend + 1)
      (basestateLevel Real.rpow (fuel + 2) dryGrid (fun _ => 190) (fun _ => 0)) t1 = some t3 := by
    have e : ((dryGrid : Grid ℝ).kend + 1 - ((dryGrid : Grid ℝ).kstart + 1)).toNat = 2 := by
      rw [hk1, hk3]; rfl
    simp only [forRangeM, e, forLoopM, hk1]
    norm_num
    rw [hl2]
    simp only [Option.some_bind]
    rw [hl3]
  refine ⟨basestateGhost dryGrid t3, ?_, ?_⟩
  · simp only [calcbasestate, hs, hloop]
  · rw [e1, e2, e3, e5 1 (by rw [hk1]) (by rw [hk3]; norm_num)]
    rw [g3 1 (by norm_num), f3 1 (by norm_num), g3 2 (by norm_num), g4 1 (by norm_num),
      g1 1 (by norm_num), f1 1 (by norm_num), g1 2 (by norm_num), g2 1 (by norm_num),
      f2 1 (by norm_num)]
    refine ⟨a1, b2, b1, c1, ?_, b3, a3, ?_, ?_, ?_⟩
    · rw [a2]; norm_num
    · rw [a2x]; norm_num
    · linarith
    · linarith

/-- The hypotheses of the hydrostatic claims hold on the dry column. -/
theorem calcbasestate_dry_bases (fuel : Nat) :
    ∃ t, calcbasestate Real.rpow (fuel + 2) dryGrid 1e5 (fun _ => 190) (fun _ => 0)
        zeroBaseState = some t ∧
      (∀ k, (dryGrid : Grid ℝ).kstart < k → k ≤ (dryGrid : Grid ℝ).kend →
        0 < t.thv (k-1)) ∧
      (∀ k, (dryGrid : Grid ℝ).kstart ≤ k → k < (dryGrid : Grid ℝ).kend → 0 < t.thvh k) ∧
      (0 < (1e5 : ℝ) ^ (rd/cp : ℝ) - grav * p0 ^ (rd/cp : ℝ)
        * (dryGrid : Grid ℝ).z (dryGrid : Grid ℝ).kstart
        / (cp * t.thvh (dryGrid : Grid ℝ).kstart)) ∧
      (∀ k, (dryGrid : Grid ℝ).kstart < k → k ≤ (dryGrid : Grid ℝ).kend →
        0 < t.prefh (k-1) ^ (rd/cp : ℝ) - grav * p0 ^ (rd/cp : ℝ)
          * (dryGrid : Grid ℝ).dz (k-1) / (cp * t.thv (k-1))) ∧
      (∀ k, (dryGrid : Grid ℝ).kstart < k → k < (dryGrid : Grid ℝ).kend →
        0 < t.pref (k-1) ^ (rd/cp : ℝ) - grav * p0 ^ (rd/cp : ℝ)
          * (dryGrid : Grid ℝ).dzh k / (cp * t.thvh k)) := by
  obtain ⟨t, h, a1, a2, a3, a4, a5, a6, a7, a8, a9, a10⟩ := calcbasestate_dry fuel
  have hk1 : (dryGrid : Grid ℝ).kstart = 1 := rfl
  have hk3 : (dryGrid : Grid ℝ).kend = 3 := rfl
  have hz : (dryGrid : Grid ℝ).z 1 = 5 := by norm_num [dryGrid]
  have hd : (grav : ℝ) * (10 / (cp * 190)) ≤ 0.001 := by norm_num [grav, cp]
  have hd5 : (grav : ℝ) * (5 / (cp * 190)) ≤ 0.001 := by norm_num [grav, cp]
  refine ⟨t, h, ?_, ?_, ?_, ?_, ?_⟩
  · intro k h1 h2
    rw [hk1] at h1
    rw [hk3] at h2
    have hk : k = 2 ∨ k = 3 := by omega
    rcases hk with rfl | rfl
    · norm_num; rw [a3]; norm_num
    · norm_num; rw [a4]; norm_num
  · intro k h1 h2
    rw [hk1] at h1
    rw [hk3] at h2
    have hk : k = 1 ∨ k = 2 := by omega
    rcases hk with rfl | rfl
    · rw [a1]; norm_num
    · rw [a2]; norm_num
  · rw [hk1, a1, hz, mul_div_assoc]
    exact base_pos_of_exn (1e5 : ℝ) (5 / (cp * 190)) (by norm_num) (by rw [exn_p0]; linarith)
  · intro k h1 h2
    rw [hk1] at h1
    rw [hk3] at h2
    have hdz : (dryGrid : Grid ℝ).dz (k-1) = 10 := rfl
    rw [hdz]
    have hk : k = 2 ∨ k = 3 := by omega
    rcases hk with rfl | rfl
    · have e : (2 : Int) - 1 = 1 := by norm_num
      rw [e, a3, mul_div_assoc]
      exact base_pos_of_exn (t.prefh 1) (10 / (cp * 190)) a5.le (by linarith)
    · have e : (3 : Int) - 1 = 2 := by norm_num
      rw [e, a4, mul_div_assoc]
      exact base_pos_of_exn (t.prefh 2) (10 / (cp * 190)) a6.le (by linarith)
  · intro k h1 h2
    rw [hk1] at h1
    rw [hk3] at h2
    have hdzh : (dryGrid : Grid ℝ).dzh k = 10 := rfl
    rw [hdzh]
    have hk : k = 2 := by omega
    subst hk
    have e : (2 : Int) - 1 = 1 := by norm_num
    rw [e, a2, mul_div_assoc]
    exact base_pos_of_exn (t.pref 1) (10 / (cp * 190)) a7.le (by linarith)

/-- Witness for C6: the dry column (`ps = 1e5`, `thl = 190`, `qt = 0`, second
order, two interior levels ten metres apart). -/
theorem calcbasestate_hydrostatic_witness :
    ∃ t, calcbasestate Real.rpow 2 dryGrid 1e5 (fun _ => 190) (fun _ => 0)
        zeroBaseState = some t ∧
      (dryGrid : Grid ℝ).kstart < (dryGrid : Grid ℝ).kend ∧ (0 : ℝ) < 1e5 ∧
      (0 < (1e5 : ℝ) ^ (rd/cp : ℝ) - grav * p0 ^ (rd/cp : ℝ)
        * (dryGrid : Grid ℝ).z (dryGrid : Grid ℝ).kstart
        / (cp * t.thvh (dryGrid : Grid ℝ).kstart)) ∧
      (∀ k, (dryGrid : Grid ℝ).kstart < k → k ≤ (dryGrid : Grid ℝ).kend →
        0 < t.prefh (k-1) ^ (rd/cp : ℝ) - grav * p0 ^ (rd/cp : ℝ)
          * (dryGrid : Grid ℝ).dz (k-1) / (cp * t.thv (k-1))) ∧
      (∀ k, (dryGrid : Grid ℝ).kstart < k → k < (dryGrid : Grid ℝ).kend →
        0 < t.pref (k-1) ^ (rd/cp : ℝ) - grav * p0 ^ (rd/cp : ℝ)
          * (dryGrid : Grid ℝ).dzh k / (cp * t.thvh k)) ∧
      (exn Real.rpow (t.pref (dryGrid : Grid ℝ).kstart) - exn Real.rpow 1e5
          = -grav * (dryGrid : Grid ℝ).z (dryGrid : Grid ℝ).kstart
            / (cp * t.thvh (dryGrid : Grid ℝ).kstart) ∧
        (∀ k, (dryGrid : Grid ℝ).kstart < k → k ≤ (dryGrid : Grid ℝ).kend →
          exn Real.rpow (t.prefh k) - exn Real.rpow (t.prefh (k-1))
            = -grav * (dryGrid : Grid ℝ).dz (k-1) / (cp * t.thv (k-1))) ∧
        (∀ k, (dryGrid : Grid ℝ).kstart < k → k < (dryGrid : Grid ℝ).kend →
          exn Real.rpow (t.pref k) - exn Real.rpow (t.pref (k-1))
            = -grav * (dryGrid : Grid ℝ).dzh k / (cp * t.thvh k))) := by
  obtain ⟨t, h, -, -, hb0, hbh, hbf⟩ := calcbasestate_dry_bases 0
  have hk : (dryGrid : Grid ℝ).kstart < (dryGrid : Grid ℝ).kend := by decide
  exact ⟨t, h, hk, by norm_num, hb0, hbh, hbf,
    calcbasestate_hydrostatic 2 dryGrid 1e5 _ _ zeroBaseState t hk h (by norm_num) hb0 hbh hbf⟩

/-- Witness for C7: the dry column (`ps = 1e5`, `thl = 190`, `qt = 0`, second
order, two interior levels ten metres apart). -/
theorem calcbasestate_pressure_decreasing_witness :
    ∃ t, calcbasestate Real.rpow 2 dryGrid 1e5 (fun _ => 190) (fun _ => 0)
        zeroBaseState = some t ∧
      (dryGrid : Grid ℝ).kstart < (dryGrid : Grid ℝ).kend ∧ (0 : ℝ) < 1e5 ∧
      0 < (dryGrid : Grid ℝ).z (dryGrid : Grid ℝ).kstart ∧
      (∀ k, (dryGrid : Grid ℝ).kstart < k → k ≤ (dryGrid : Grid ℝ).kend →
        0 < (dryGrid : Grid ℝ).dz (k-1)) ∧
      (∀ k, (dryGrid : Grid ℝ).kstart < k → k < (dryGrid : Grid ℝ).kend →
        0 < (dryGrid : Grid ℝ).dzh k) ∧
      (∀ k, (dryGrid : Grid ℝ).kstart < k → k ≤ (dryGrid : Grid ℝ).kend →
        0 < t.thv (k-1)) ∧
      (∀ k, (dryGrid : Grid ℝ).kstart ≤ k → k < (dryGrid : Grid ℝ).kend → 0 < t.thvh k) ∧
      ((∀ k, (dryGrid : Grid ℝ).kstart < k → k ≤ (dryGrid : Grid ℝ).kend →
          t.prefh k < t.prefh (k-1)) ∧
        t.pref (dryGrid : Grid ℝ).kstart < 1e5 ∧
        (∀ k, (dryGrid : Grid ℝ).kstart < k → k < (dryGrid : Grid ℝ).kend →
          t.pref k < t.pref (k-1))) := by
  obtain ⟨t, h, hthv, hthvh, hb0, hbh, hbf⟩ := calcbasestate_dry_bases 0
  have hk : (dryGrid : Grid ℝ).kstart < (dryGrid : Grid ℝ).kend := by decide
  have hz : 0 < (dryGrid : Grid ℝ).z (dryGrid : Grid ℝ).kstart := by norm_num [dryGrid]
  have hdz : ∀ k, (dryGrid : Grid ℝ).kstart < k → k ≤ (dryGrid : Grid ℝ).kend →
      0 < (dryGrid : Grid ℝ).dz (k-1) := fun k _ _ => by norm_num [dryGrid]
  have hdzh : ∀ k, (dryGrid : Grid ℝ).kstart < k → k < (dryGrid : Grid ℝ).kend →
      0 < (dryGrid : Grid ℝ).dzh k := fun k _ _ => by norm_num [dryGrid]
  exact ⟨t, h, hk, by norm_num, hz, hdz, hdzh, hthv, hthvh,
    calcbasestate_pressure_decreasing 2 dryGrid 1e5 _ _ zeroBaseState t hk h (by norm_num)
      hz hdz hdzh hthv hthvh hb0 hbh hbf⟩

/-! ## Buoyancy -/

/-- C8: buoyancy vanishes at exact reference conditions.  For every `p`, `s`,
`qt` and every power function, with `thvref = s*(1 - (1 - rv/rd)*qt)` and
`thvref ≠ 0`: `bu(p, s, qt, 0, thvref) = 0` and `bunoql(s, qt, thvref) = 0`. -/
theorem bu_reference_zero (pw : K → K → K) (p s qt thvref : K)
    (href : thvref = s * (1 - (1 - rv/rd)*qt)) (hne : thvref ≠ 0) :
    bu pw p s qt 0 thvref = 0 ∧ bunoql s qt thvref = 0 := by
  constructor
  · unfold bu
    rw [div_eq_zero_iff]
    left
    rw [href]
    simp
  · unfold bunoql
    rw [div_eq_zero_iff]
    left
    rw [href]
    simp

/-- Witness for C8: `p = 1e5`, `s = 300`, `qt = 0.01` with the real power
function. -/
theorem bu_reference_zero_witness :
    (300 : ℝ) * (1 - (1 - rv/rd)*0.01) ≠ 0 ∧
      bu Real.rpow 1e5 300 0.01 0 (300 * (1 - (1 - rv/rd)*0.01)) = 0 ∧
      bunoql (300 : ℝ) 0.01 (300 * (1 - (1 - rv/rd)*0.01)) = 0 := by
  have hne : (300 : ℝ) * (1 - (1 - rv/rd)*0.01) ≠ 0 := by norm_num [rv, rd]
  exact ⟨hne, bu_reference_zero Real.rpow 1e5 300 0.01 _ rfl hne⟩

/-! ## Horizontal loops and the flat index -/

/-- Invariant rule for `forRangeM` that also covers an empty range. -/
theorem forRangeM_ind_max {σ : Type} (body : Int → σ → Option σ) (P : Int → σ → Prop)
    (lo hi : Int) (s r : σ) (h : forRangeM lo hi body s = some r) (h0 : P lo s)
    (hstep : ∀ k t u, lo ≤ k → k < hi → P k t → body k t = some u → P (k + 1) u) :
    P (max lo hi) r := by
  rcases le_or_lt lo hi with hle | hlt
  · rw [max_eq_right hle]
    exact forRangeM_ind body P lo hi hle s r h h0 hstep
  · rw [max_eq_left hlt.le]
    rw [forRangeM_empty body lo hi hlt.le s] at h
    cases h
    exact h0

/-- A horizontal double loop whose body never fails. -/
theorem forIJM_pure {σ : Type} (grid : Grid K) (body : Int → Int → σ → σ) (s : σ) :
    forIJM grid (fun i j t => some (body i j t)) s = some (forIJ grid body s) := by
  unfold forIJM forIJ forRangeM forRange
  have e : (fun j => fun t => forLoopM (fun i => fun t => some (body i j t))
      (grid.iend - grid.istart).toNat grid.istart t)
      = fun j t => some (forLoop (fun i => body i j) (grid.iend - grid.istart).toNat
          grid.istart t) := by
    funext j t
    exact forLoopM_pure _ _ _ _
  rw [e]
  exact forLoopM_pure _ _ _ _

/-- Cell rule for the horizontal double loop: `R` is kept by every pass, the
pass at `(i, j)` turns `U i j` into `Q i j` and keeps `U` and `Q` of every other
interior cell.  Then every interior cell satisfies `Q` at the end. -/
theorem forIJM_cells {σ : Type} (grid : Grid K) (body : Int → Int → σ → Option σ)
    (R : σ → Prop) (U Q : Int → Int → σ → Prop) (s r : σ)
    (h : forIJM grid body s = some r) (hR : R s)
    (hU : ∀ i j, Interior grid i j → U i j s)
    (hstep : ∀ i j t u, Interior grid i j → R t → body i j t = some u →
      R u ∧ (U i j t → Q i j u) ∧
      ∀ a b, Interior grid a b → ¬ (a = i ∧ b = j) →
        (U a b t → U a b u) ∧ (Q a b t → Q a b u)) :
    R r ∧ ∀ i j, Interior grid i j → Q i j r := by
  have outer := forRangeM_ind_max
    (fun j => forRangeM grid.istart grid.iend (fun i => body i j))
    (fun m t => R t ∧ ∀ a b, Interior grid a b →
      (b < m → Q a b t) ∧ (m ≤ b → U a b t))
    grid.jstart grid.jend s r h
    ⟨hR, fun a b hab => ⟨fun hlt => absurd hab.2.2.1 (by omega), fun _ => hU a b hab⟩⟩
    (by
      intro j t u hj1 hj2 hP hb
      have inner := forRangeM_ind_max (fun i => body i j)
        (fun m v => R v ∧ ∀ a b, Interior grid a b →
          ((b < j ∨ (b = j ∧ a < m)) → Q a b v) ∧ (¬ (b < j ∨ (b = j ∧ a < m)) → U a b v))
        grid.istart grid.iend t u hb
        ⟨hP.1, fun a b hab => ⟨fun hc => (hP.2 a b hab).1 (by
            rcases hc with hc | hc
            · exact hc
            · exact absurd hab.1 (by omega)),
          fun hc => (hP.2 a b hab).2 (by omega)⟩⟩
        (by
          intro i v w hi1 hi2 hPv hbi
          have hint : Interior grid i j := ⟨hi1, hi2, hj1, hj2⟩
          obtain ⟨r1, r2, r3⟩ := hstep i j v w hint hPv.1 hbi
          refine ⟨r1, fun a b hab => ⟨fun hc => ?_, fun hc => ?_⟩⟩
          · by_cases hcell : a = i ∧ b = j
            · obtain ⟨rfl, rfl⟩ := hcell
              exact r2 ((hPv.2 a b hab).2 (by omega))
            · exact (r3 a b hab hcell).2 ((hPv.2 a b hab).1 (by omega))
          · have hcell : ¬ (a = i ∧ b = j) := by omega
            exact (r3 a b hab hcell).1 ((hPv.2 a b hab).2 (by omega)))
      refine ⟨inner.1, fun a b hab => ⟨fun hc => ?_, fun hc => ?_⟩⟩
      · apply (inner.2 a b hab).1
        have := hab.2.1
        have hm := le_max_right grid.istart grid.iend
        omega
      · apply (inner.2 a b hab).2
        omega)
  refine ⟨outer.1, fun i j hij => (outer.2 i j hij).1 ?_⟩
  have := hij.2.2.2
  have hm := le_max_right grid.jstart grid.jend
  omega

/-- Cell rule for the horizontal double loop with a body that never fails. -/
theorem forIJ_cells {σ : Type} (grid : Grid K) (body : Int → Int → σ → σ)
    (R : σ → Prop) (U Q : Int → Int → σ → Prop) (s : σ) (hR : R s)
    (hU : ∀ i j, Interior grid i j → U i j s)
    (hstep : ∀ i j t, Interior grid i j → R t →
      R (body i j t) ∧ (U i j t → Q i j (body i j t)) ∧
      ∀ a b, Interior grid a b → ¬ (a = i ∧ b = j) →
        (U a b t → U a b (body i j t)) ∧ (Q a b t → Q a b (body i j t))) :
    R (forIJ grid body s) ∧ ∀ i j, Interior grid i j → Q i j (forIJ grid body s) := by
  apply forIJM_cells grid (fun i j t => some (body i j t)) R U Q s _ (forIJM_pure grid body s)
    hR hU
  intro i j t u hij hRt hb
  cases hb
  exact hstep i j t hij hRt

/-- Two positions of a row-major index with a column part inside the row agree
in both parts. -/
theorem index_inj (n i j a b : Int) (hi : 0 ≤ i) (hin : i < n) (ha : 0 ≤ a) (han : a < n)
    (h : i + j * n = a + b * n) : i = a ∧ j = b := by
  have hn : n ≠ 0 := by omega
  have h1 : (i + j * n) / n = j := by
    rw [Int.add_mul_ediv_right i j hn, Int.ediv_eq_zero_of_lt hi hin, zero_add]
  have h2 : (a + b * n) / n = b := by
    rw [Int.add_mul_ediv_right a b hn, Int.ediv_eq_zero_of_lt ha han, zero_add]
  have hjb : j = b := by rw [← h1, ← h2, h]
  subst hjb
  exact ⟨by omega, rfl⟩

/-- The horizontal index of an interior position lies inside one slice. -/
theorem index_ij_bounds (grid : Grid K) (hwf : grid.WellFormed) (i j : Int)
    (hij : Interior grid i j) :
    0 ≤ i + j * grid.icells ∧ i + j * grid.icells < grid.icells * grid.jcells := by
  obtain ⟨h1, h2, h3, h4⟩ := hij
  have a1 := hwf.istart_nonneg
  have a2 := hwf.iend_le
  have a3 := hwf.jstart_nonneg
  have a4 := hwf.jend_le
  have hj : 0 ≤ j := by omega
  have hic : 0 < grid.icells := by omega
  constructor
  · have : 0 ≤ j * grid.icells := mul_nonneg hj hic.le
    omega
  · have h5 : (j + 1) * grid.icells ≤ grid.jcells * grid.icells :=
      mul_le_mul_of_nonneg_right (by omega) hic.le
    nlinarith

/-- Distinct interior positions have distinct horizontal indices. -/
theorem index_ij_inj (grid : Grid K) (hwf : grid.WellFormed) (i j a b : Int)
    (hij : Interior grid i j) (hab : Interior grid a b)
    (h : i + j * grid.icells = a + b * grid.icells) : i = a ∧ j = b := by
  have a1 := hwf.istart_nonneg
  have a2 := hwf.iend_le
  exact index_inj grid.icells i j a b (by have := hij.1; omega) (by have := hij.2.1; omega)
    (by have := hab.1; omega) (by have := hab.2.1; omega) h

/-- Distinct interior cells have distinct flat indices. -/
theorem index_ijk_inj (grid : Grid K) (hwf : grid.WellFormed) (i j k a b c : Int)
    (hij : Interior grid i j) (hab : Interior grid a b)
    (h : i + j * grid.icells + k * (grid.icells * grid.jcells)
      = a + b * grid.icells + c * (grid.icells * grid.jcells)) :
    i = a ∧ j = b ∧ k = c := by
  obtain ⟨b1, b2⟩ := index_ij_bounds grid hwf i j hij
  obtain ⟨b3, b4⟩ := index_ij_bounds grid hwf a b hab
  obtain ⟨e1, e2⟩ := index_inj (grid.icells * grid.jcells) _ k _ c b1 b2 b3 b4 h
  obtain ⟨e3, e4⟩ := index_ij_inj grid hwf i j a b hij hab e1
  exact ⟨e3, e4, e2⟩

/-! ## The buoyancy tendency kernels -/

/-- One level of a tendency kernel whose first horizontal loop stores the
interpolated values `shv i j k` and `qthv i j k`: the tendency of every interior
cell of level `k` grows by `bu` evaluated with the shortcut liquid water, and
no other entry of `wt` changes. -/
theorem tendLevel_spec (pw : K → K → K) (fuel : Nat) (grid : Grid K) (hwf : grid.WellFormed)
    (ph thvrefh : Int → K) (estimate : K → Int → Int → Int → TendState K → TendState K)
    (shv qthv : Int → Int → Int → K)
    (hest : ∀ exnh k i j (st : TendState K), estimate exnh k i j st =
      { st with sh := Function.update st.sh (i + j * grid.icells) (shv i j k),
                qth := Function.update st.qth (i + j * grid.icells) (qthv i j k),
                ql := Function.update st.ql (i + j * grid.icells)
                  (qthv i j k - rslf (ph k) (shv i j k * exnh)) })
    (k : Int) (st r : TendState K)
    (h : tendLevel pw fuel grid ph thvrefh estimate k st = some r) :
    (∀ idx, (∀ i j, Interior grid i j →
        idx ≠ i + j * grid.icells + k * (grid.icells * grid.jcells)) → r.wt idx = st.wt idx) ∧
    (∀ i j, Interior grid i j →
      ∃ v, qlShortcut fuel (shv i j k) (qthv i j k) (ph k) (exn pw (ph k)) = some v ∧
        r.wt (i + j * grid.icells + k * (grid.icells * grid.jcells))
          = st.wt (i + j * grid.icells + k * (grid.icells * grid.jcells))
            + bu pw (ph k) (shv i j k) (qthv i j k) v (thvrefh k)) := by
  unfold tendLevel at h
  simp only at h
  -- first horizontal loop
  obtain ⟨p1R, p1Q⟩ := forIJ_cells grid (estimate (exn pw (ph k)) k)
    (fun t => t.wt = st.wt) (fun _ _ _ => True)
    (fun i j t => t.sh (i + j * grid.icells) = shv i j k ∧
      t.qth (i + j * grid.icells) = qthv i j k ∧
      t.ql (i + j * grid.icells) = qthv i j k - rslf (ph k) (shv i j k * exn pw (ph k)))
    st rfl (fun _ _ _ => trivial)
    (by
      intro i j t hij hR
      rw [hest]
      refine ⟨hR, fun _ => ⟨by simp, by simp, by simp⟩, ?_⟩
      intro a b hab hne
      have hidx : a + b * grid.icells ≠ i + j * grid.icells := fun e =>
        hne (index_ij_inj grid hwf a b i j hab hij e)
      refine ⟨fun _ => trivial, fun hq => ?_⟩
      simp only [Function.update_noteq hidx]
      exact hq)
  generalize forIJ grid (estimate (exn pw (ph k)) k) st = st1 at h p1R p1Q
  -- second horizontal loop
  cases h2 : forIJM grid (tendSolve fuel grid ph (exn pw (ph k)) k) st1 with
  | none => simp [h2] at h
  | some st2 =>
    simp only [h2, Option.some.injEq] at h
    obtain ⟨⟨p2w, p2s⟩, p2Q⟩ := forIJM_cells grid (tendSolve fuel grid ph (exn pw (ph k)) k)
      (fun t => t.wt = st.wt ∧ ∀ i j, Interior grid i j →
        t.sh (i + j * grid.icells) = shv i j k ∧ t.qth (i + j * grid.icells) = qthv i j k)
      (fun i j t => t.ql (i + j * grid.icells)
        = qthv i j k - rslf (ph k) (shv i j k * exn pw (ph k)))
      (fun i j t => qlShortcut fuel (shv i j k) (qthv i j k) (ph k) (exn pw (ph k))
        = some (t.ql (i + j * grid.icells)))
      st1 st2 h2 ⟨p1R, fun i j hij => ⟨(p1Q i j hij).1, (p1Q i j hij).2.1⟩⟩
      (fun i j hij => (p1Q i j hij).2.2)
      (by
        intro i j t u hij hR hb
        obtain ⟨hs, hq⟩ := hR.2 i j hij
        unfold tendSolve at hb
        simp only [hs, hq] at hb
        have key : u.wt = t.wt ∧ u.sh = t.sh ∧ u.qth = t.qth ∧
            (∀ a b, Interior grid a b → ¬ (a = i ∧ b = j) →
              u.ql (a + b * grid.icells) = t.ql (a + b * grid.icells)) ∧
            (t.ql (i + j * grid.icells)
                = qthv i j k - rslf (ph k) (shv i j k * exn pw (ph k)) →
              qlShortcut fuel (shv i j k) (qthv i j k) (ph k) (exn pw (ph k))
                = some (u.ql (i + j * grid.icells))) := by
          have hothers : ∀ (v : K) a b, Interior grid a b → ¬ (a = i ∧ b = j) →
              Function.update t.ql (i + j * grid.icells) v (a + b * grid.icells)
                = t.ql (a + b * grid.icells) := fun v a b hab hne =>
            Function.update_noteq
              (fun e => hne (index_ij_inj grid hwf a b i j hab hij e)) _ _
          split at hb
          · rename_i hpos
            split at hb
            · simp at hb
            · rename_i v hv
              simp only [Option.some.injEq] at hb
              subst hb
              refine ⟨rfl, rfl, rfl, hothers v, fun hU => ?_⟩
              simp only [Function.update_same, qlShortcut]
              rw [hU] at hpos
              rw [if_pos hpos, hv]
          · rename_i hpos
            simp only [Option.some.injEq] at hb
            subst hb
            refine ⟨rfl, rfl, rfl, hothers 0, fun hU => ?_⟩
            simp only [Function.update_same, qlShortcut]
            rw [hU] at hpos
            rw [if_neg hpos]
        obtain ⟨k1, k2, k3, k4, k5⟩ := key
        refine ⟨⟨k1.trans hR.1, fun a b hab => by rw [k2, k3]; exact hR.2 a b hab⟩, k5, ?_⟩
        intro a b hab hne
        beta_reduce
        rw [k4 a b hab hne]
        exact ⟨id, id⟩)
    -- third horizontal loop
    obtain ⟨⟨p3s, p3q, p3l, p3f⟩, p3Q⟩ := forIJ_cells grid (tendAdd pw grid ph thvrefh k)
      (fun t => t.sh = st2.sh ∧ t.qth = st2.qth ∧ t.ql = st2.ql ∧
        ∀ idx, (∀ i j, Interior grid i j →
          idx ≠ i + j * grid.icells + k * (grid.icells * grid.jcells)) → t.wt idx = st.wt idx)
      (fun i j t => t.wt (i + j * grid.icells + k * (grid.icells * grid.jcells))
        = st.wt (i + j * grid.icells + k * (grid.icells * grid.jcells)))
      (fun i j t => t.wt (i + j * grid.icells + k * (grid.icells * grid.jcells))
        = st.wt (i + j * grid.icells + k * (grid.icells * grid.jcells))
          + bu pw (ph k) (st2.sh (i + j * grid.icells)) (st2.qth (i + j * grid.icells))
              (st2.ql (i + j * grid.icells)) (thvrefh k))
      st2 ⟨rfl, rfl, rfl, fun idx _ => congrFun p2w idx⟩
      (fun i j _ => congrFun p2w _)
      (by
        intro i j t hij hR
        obtain ⟨r1, r2, r3, r4⟩ := hR
        unfold tendAdd
        beta_reduce
        simp only
        refine ⟨⟨r1, r2, r3, fun idx hidx => ?_⟩, fun hU => ?_, ?_⟩
        · rw [Function.update_noteq (hidx i j hij)]
          exact r4 idx hidx
        · rw [Function.update_same, hU, r1, r2, r3]
        · intro a b hab hne
          have hidx : a + b * grid.icells + k * (grid.icells * grid.jcells)
              ≠ i + j * grid.icells + k * (grid.icells * grid.jcells) := fun e =>
            hne ⟨(index_ijk_inj grid hwf a b k i j k hab hij e).1,
              (index_ijk_inj grid hwf a b k i j k hab hij e).2.1⟩
          rw [Function.update_noteq hidx]
          exact ⟨id, id⟩)
    rw [← h]
    refine ⟨p3f, fun i j hij => ⟨st2.ql (i + j * grid.icells), p2Q i j hij, ?_⟩⟩
    rw [p3Q i j hij, (p2s i j hij).1, (p2s i j hij).2]

/-- The level loop of a tendency kernel: every interior cell of the half levels
`kstart+1 .. kend-1` accumulates `bu`, and no other entry of `wt` changes. -/
theorem tendLoop_spec (pw : K → K → K) (fuel : Nat) (grid : Grid K) (hwf : grid.WellFormed)
    (ph thvrefh : Int → K) (estimate : K → Int → Int → Int → TendState K → TendState K)
    (shv qthv : Int → Int → Int → K)
    (hest : ∀ exnh k i j (st : TendState K), estimate exnh k i j st =
      { st with sh := Function.update st.sh (i + j * grid.icells) (shv i j k),
                qth := Function.update st.qth (i + j * grid.icells) (qthv i j k),
                ql := Function.update st.ql (i + j * grid.icells)
                  (qthv i j k - rslf (ph k) (shv i j k * exnh)) })
    (st r : TendState K)
    (h : forRangeM (grid.kstart+1) grid.kend
      (tendLevel pw fuel grid ph thvrefh estimate) st = some r) :
    (∀ i j k, Interior grid i j → grid.kstart + 1 ≤ k → k ≤ grid.kend - 1 →
      ∃ v, qlShortcut fuel (shv i j k) (qthv i j k) (ph k) (exn pw (ph k)) = some v ∧
        r.wt (i + j * grid.icells + k * (grid.icells * grid.jcells))
          = st.wt (i + j * grid.icells + k * (grid.icells * grid.jcells))
            + bu pw (ph k) (shv i j k) (qthv i j k) v (thvrefh k)) ∧
    (∀ idx, (∀ i j k, Interior grid i j → grid.kstart + 1 ≤ k → k ≤ grid.kend - 1 →
        idx ≠ i + j * grid.icells + k * (grid.icells * grid.jcells)) →
      r.wt idx = st.wt idx) := by
  have inv := forRangeM_ind_max (tendLevel pw fuel grid ph thvrefh estimate)
    (fun m t =>
      (∀ i j k, Interior grid i j → grid.kstart + 1 ≤ k → k < m →
        ∃ v, qlShortcut fuel (shv i j k) (qthv i j k) (ph k) (exn pw (ph k)) = some v ∧
          t.wt (i + j * grid.icells + k * (grid.icells * grid.jcells))
            = st.wt (i + j * grid.icells + k * (grid.icells * grid.jcells))
              + bu pw (ph k) (shv i j k) (qthv i j k) v (thvrefh k)) ∧
      (∀ idx, (∀ i j k, Interior grid i j → grid.kstart + 1 ≤ k → k < m →
          idx ≠ i + j * grid.icells + k * (grid.icells * grid.jcells)) →
        t.wt idx = st.wt idx))
    (grid.kstart+1) grid.kend st r h
    ⟨fun i j k _ h1 h2 => absurd h1 (by omega), fun idx _ => rfl⟩
    (by
      intro m t u hm1 hm2 hP hb
      obtain ⟨q1, q2⟩ := hP
      obtain ⟨l1, l2⟩ := tendLevel_spec pw fuel grid hwf ph thvrefh estimate shv qthv hest
        m t u hb
      constructor
      · intro i j k hij hk1 hk2
        by_cases hkm : k = m
        · subst hkm
          obtain ⟨v, hv, hw⟩ := l2 i j hij
          refine ⟨v, hv, ?_⟩
          rw [hw, q2 _ (fun a b c hab hc1 hc2 e => ?_)]
          have := (index_ijk_inj grid hwf i j k a b c hij hab e).2.2
          omega
        · obtain ⟨v, hv, hw⟩ := q1 i j k hij hk1 (by omega)
          refine ⟨v, hv, ?_⟩
          rw [l1 _ (fun a b hab e => ?_), hw]
          exact hkm (index_ijk_inj grid hwf i j k a b m hij hab e).2.2
      · intro idx hidx
        rw [l1 idx (fun a b hab => hidx a b m hab hm1 (by omega))]
        exact q2 idx (fun a b c hab hc1 hc2 => hidx a b c hab hc1 (by omega)))
  obtain ⟨q1, q2⟩ := inv
  constructor
  · intro i j k hij hk1 hk2
    exact q1 i j k hij hk1 (by have := le_max_right (grid.kstart+1) grid.kend; omega)
  · intro idx hidx
    apply q2 idx
    intro i j k hij hk1 hk2
    apply hidx i j k hij hk1
    rcases le_total (grid.kstart+1) grid.kend with hle | hle
    · rw [max_eq_right hle] at hk2; omega
    · rw [max_eq_left hle] at hk2; omega

/-- C9: the tendency kernels accumulate and touch nothing else.  On a
well-formed grid, whenever `calcbuoyancytend_2nd` returns, every interior cell
`(i, j)` of every half level `kstart+1 ≤ k ≤ kend-1` holds
`wt_before[ijk] + bu(ph[k], sh, qth, ql, thvrefh[k])` with
`sh = interp2(s[ijk-kk], s[ijk])`, `qth = interp2(qt[ijk-kk], qt[ijk])` and `ql`
the shortcut value, and every other entry of `wt` is unchanged; the same holds
for `calcbuoyancytend_4th` with `interp4` over the levels `k-2 .. k+1`. -/
theorem calcbuoyancytend_accumulates (pw : K → K → K) (fuel : Nat) (grid : Grid K)
    (hwf : grid.WellFormed) (s qt ph thvrefh : Int → K) (st : TendState K) :
    (∀ r, calcbuoyancytend_2nd pw fuel grid s qt ph thvrefh st = some r →
      (∀ i j k, Interior grid i j → grid.kstart + 1 ≤ k → k ≤ grid.kend - 1 →
        ∃ ql, qlShortcut fuel
            (interp2 (s (i + j * grid.icells + k * (grid.icells * grid.jcells)
                - grid.icells * grid.jcells))
              (s (i + j * grid.icells + k * (grid.icells * grid.jcells))))
            (interp2 (qt (i + j * grid.icells + k * (grid.icells * grid.jcells)
                - grid.icells * grid.jcells))
              (qt (i + j * grid.icells + k * (grid.icells * grid.jcells))))
            (ph k) (exn pw (ph k)) = some ql ∧
          r.wt (i + j * grid.icells + k * (grid.icells * grid.jcells))
            = st.wt (i + j * grid.icells + k * (grid.icells * grid.jcells))
              + bu pw (ph k)
                (interp2 (s (i + j * grid.icells + k * (grid.icells * grid.jcells)
                    - grid.icells * grid.jcells))
                  (s (i + j * grid.icells + k * (grid.icells * grid.jcells))))
                (interp2 (qt (i + j * grid.icells + k * (grid.icells * grid.jcells)
                    - grid.icells * grid.jcells))
                  (qt (i + j * grid.icells + k * (grid.icells * grid.jcells))))
                ql (thvrefh k)) ∧
      (∀ idx, (∀ i j k, Interior grid i j → grid.kstart + 1 ≤ k → k ≤ grid.kend - 1 →
          idx ≠ i + j * grid.icells + k * (grid.icells * grid.jcells)) →
        r.wt idx = st.wt idx)) ∧
    (∀ r, calcbuoyancytend_4th pw fuel grid s qt ph thvrefh st = some r →
      (∀ i j k, Interior grid i j → grid.kstart + 1 ≤ k → k ≤ grid.kend - 1 →
        ∃ ql, qlShortcut fuel
            (interp4 (s (i + j * grid.icells + k * (grid.icells * grid.jcells)
                - 2 * (grid.icells * grid.jcells)))
              (s (i + j * grid.icells + k * (grid.icells * grid.jcells)
                - grid.icells * grid.jcells))
              (s (i + j * grid.icells + k * (grid.icells * grid.jcells)))
              (s (i + j * grid.icells + k * (grid.icells * grid.jcells)
                + grid.icells * grid.jcells)))
            (interp4 (qt (i + j * grid.icells + k * (grid.icells * grid.jcells)
                - 2 * (grid.icells * grid.jcells)))
              (qt (i + j * grid.icells + k * (grid.icells * grid.jcells)
                - grid.icells * grid.jcells))
              (qt (i + j * grid.icells + k * (grid.icells * grid.jcells)))
              (qt (i + j * grid.icells + k * (grid.icells * grid.jcells)
                + grid.icells * grid.jcells)))
            (ph k) (exn pw (ph k)) = some ql ∧
          r.wt (i + j * grid.icells + k * (grid.icells * grid.jcells))
            = st.wt (i + j * grid.icells + k * (grid.icells * grid.jcells))
              + bu pw (ph k)
                (interp4 (s (i + j * grid.icells + k * (grid.icells * grid.jcells)
                    - 2 * (grid.icells * grid.jcells)))
                  (s (i + j * grid.icells + k * (grid.icells * grid.jcells)
                    - grid.icells * grid.jcells))
                  (s (i + j * grid.icells + k * (grid.icells * grid.jcells)))
                  (s (i + j * grid.icells + k * (grid.icells * grid.jcells)
                    + grid.icells * grid.jcells)))
                (interp4 (qt (i + j * grid.icells + k * (grid.icells * grid.jcells)
                    - 2 * (grid.icells * grid.jcells)))
                  (qt (i + j * grid.icells + k * (grid.icells * grid.jcells)
                    - grid.icells * grid.jcells))
                  (qt (i + j * grid.icells + k * (grid.icells * grid.jcells)))
                  (qt (i + j * grid.icells + k * (grid.icells * grid.jcells)
                    + grid.icells * grid.jcells)))
                ql (thvrefh k)) ∧
      (∀ idx, (∀ i j k, Interior grid i j → grid.kstart + 1 ≤ k → k ≤ grid.kend - 1 →
          idx ≠ i + j * grid.icells + k * (grid.icells * grid.jcells)) →
        r.wt idx = st.wt idx)) := by
  constructor
  · intro r h
    exact tendLoop_spec pw fuel grid hwf ph thvrefh (tendEstimate_2nd grid s qt ph)
      (fun i j k => interp2 (s (i + j * grid.icells + k * (grid.icells * grid.jcells)
          - grid.icells * grid.jcells))
        (s (i + j * grid.icells + k * (grid.icells * grid.jcells))))
      (fun i j k => interp2 (qt (i + j * grid.icells + k * (grid.icells * grid.jcells)
          - grid.icells * grid.jcells))
        (qt (i + j * grid.icells + k * (grid.icells * grid.jcells))))
      (by
        intro exnh k i j t
        simp only [tendEstimate_2nd, Function.update_same])
      st r h
  · intro r h
    exact tendLoop_spec pw fuel grid hwf ph thvrefh (tendEstimate_4th grid s qt ph)
      (fun i j k => interp4 (s (i + j * grid.icells + k * (grid.icells * grid.jcells)
          - 2 * (grid.icells * grid.jcells)))
        (s (i + j * grid.icells + k * (grid.icells * grid.jcells)
          - grid.icells * grid.jcells))
        (s (i + j * grid.icells + k * (grid.icells * grid.jcells)))
        (s (i + j * grid.icells + k * (grid.icells * grid.jcells)
          + grid.icells * grid.jcells)))
      (fun i j k => interp4 (qt (i + j * grid.icells + k * (grid.icells * grid.jcells)
          - 2 * (grid.icells * grid.jcells)))
        (qt (i + j * grid.icells + k * (grid.icells * grid.jcells)
          - grid.icells * grid.jcells))
        (qt (i + j * grid.icells + k * (grid.icells * grid.jcells)))
        (qt (i + j * grid.icells + k * (grid.icells * grid.jcells)
          + grid.icells * grid.jcells)))
      (by
        intro exnh k i j t
        simp only [tendEstimate_4th, Function.update_same, one_mul, mul_assoc])
      st r h

theorem dryGrid_wellFormed : (dryGrid : Grid K).WellFormed :=
  ⟨by simp [dryGrid], by simp [dryGrid], by simp [dryGrid], by simp [dryGrid],
    by simp [dryGrid]⟩

/-- The estimate of the liquid water of dry air at 300 K is not positive. -/
theorem estimate_dry_300 (a : ℝ) (ha : a = 300) :
    ¬ ((0 : ℝ) - rslf 1e5 (a * 1) > 0) := by
  subst ha
  norm_num [rslf, esl, c0, c1, c2, c3, c4, c5, c6, c7, c8, tmelt, ep, rd, rv]

theorem tend2_dry_run :
    ∃ r, calcbuoyancytend_2nd Real.rpow 2 dryGrid (fun _ => (300 : ℝ)) (fun _ => 0)
      (fun _ => 1e5) (fun _ => 300) zeroTendState = some r := by
  have e1 : ((3 : Int) - (1 + 1)).toNat = 1 := by decide
  have e2 : ((1 : Int) - 0).toNat = 1 := by decide
  have h3 : interp2 (300 : ℝ) 300 = 300 := by norm_num [interp2]
  have h0 : interp2 (0 : ℝ) 0 = 0 := by norm_num [interp2]
  simp only [calcbuoyancytend_2nd, dryGrid, forRangeM, forLoopM, tendLevel, forIJ, forIJM,
    forRange, forLoop, e1, e2, tendEstimate_2nd, tendSolve, Function.update_same, exn_p0,
    h3, h0, estimate_dry_300 300 rfl, if_false, Option.some_bind]
  exact ⟨_, rfl⟩

theorem tend4_dry_run :
    ∃ r, calcbuoyancytend_4th Real.rpow 2 dryGrid (fun _ => (300 : ℝ)) (fun _ => 0)
      (fun _ => 1e5) (fun _ => 300) zeroTendState = some r := by
  have e1 : ((3 : Int) - (1 + 1)).toNat = 1 := by decide
  have e2 : ((1 : Int) - 0).toNat = 1 := by decide
  have h3 : interp4 (300 : ℝ) 300 300 300 = 300 := by norm_num [interp4]
  have h0 : interp4 (0 : ℝ) 0 0 0 = 0 := by norm_num [interp4]
  simp only [calcbuoyancytend_4th, dryGrid, forRangeM, forLoopM, tendLevel, forIJ, forIJM,
    forRange, forLoop, e1, e2, tendEstimate_4th, tendSolve, Function.update_same, exn_p0,
    h3, h0, estimate_dry_300 300 rfl, if_false, Option.some_bind]
  exact ⟨_, rfl⟩

/-- Witness for C9: the one-column grid with dry air at 300 K, `ph = 1e5`,
`thvrefh = 300` and a zero tendency on entry.  Both kernels return; the
interior cell of the only half level `k = 2` receives `bu`, the cell at level
`0` is unchanged. -/
theorem calcbuoyancytend_accumulates_witness :
    (dryGrid : Grid ℝ).WellFormed ∧
    ∃ r2 r4 : TendState ℝ,
      calcbuoyancytend_2nd Real.rpow 2 dryGrid (fun _ => (300 : ℝ)) (fun _ => 0)
        (fun _ => 1e5) (fun _ => 300) zeroTendState = some r2 ∧
      calcbuoyancytend_4th Real.rpow 2 dryGrid (fun _ => (300 : ℝ)) (fun _ => 0)
        (fun _ => 1e5) (fun _ => 300) zeroTendState = some r4 ∧
      (∃ ql, qlShortcut 2 (interp2 (300 : ℝ) 300) (interp2 0 0) 1e5 (exn Real.rpow 1e5)
          = some ql ∧
        r2.wt 2 = 0 + bu Real.rpow 1e5 (interp2 300 300) (interp2 0 0) ql 300) ∧
      (∃ ql, qlShortcut 2 (interp4 (300 : ℝ) 300 300 300) (interp4 0 0 0 0) 1e5
          (exn Real.rpow 1e5) = some ql ∧
        r4.wt 2 = 0 + bu Real.rpow 1e5 (interp4 300 300 300 300) (interp4 0 0 0 0) ql 300) ∧
      r2.wt 0 = 0 ∧ r4.wt 0 = 0 := by
  obtain ⟨r2, h2⟩ := tend2_dry_run
  obtain ⟨r4, h4⟩ := tend4_dry_run
  have hint : Interior (dryGrid : Grid ℝ) 0 0 := by
    refine ⟨?_, ?_, ?_, ?_⟩ <;> decide
  have hthm := calcbuoyancytend_accumulates Real.rpow 2 dryGrid dryGrid_wellFormed
    (fun _ => (300 : ℝ)) (fun _ => 0) (fun _ => 1e5) (fun _ => 300) zeroTendState
  obtain ⟨a1, a2⟩ := hthm.1 r2 h2
  obtain ⟨b1, b2⟩ := hthm.2 r4 h4
  have hidx : ∀ i j k, Interior (dryGrid : Grid ℝ) i j →
      (dryGrid : Grid ℝ).kstart + 1 ≤ k → k ≤ (dryGrid : Grid ℝ).kend - 1 →
      (0 : Int) ≠ i + j * (dryGrid : Grid ℝ).icells
        + k * ((dryGrid : Grid ℝ).icells * (dryGrid : Grid ℝ).jcells) := by
    intro i j k hij hk1 hk2
    obtain ⟨c1, c2, c3, c4⟩ := hij
    simp only [dryGrid] at c1 c2 c3 c4 hk1 hk2 ⊢
    omega
  have e : (0 : Int) + 0 * (dryGrid : Grid ℝ).icells
      + 2 * ((dryGrid : Grid ℝ).icells * (dryGrid : Grid ℝ).jcells) = 2 := by decide
  have c2 := a1 0 0 2 hint (by decide) (by decide)
  have c4 := b1 0 0 2 hint (by decide) (by decide)
  rw [e] at c2 c4
  exact ⟨dryGrid_wellFormed, r2, r4, h2, h4, c2, c4, a2 0 hidx, b2 0 hidx⟩

/-! ## The cloud mask -/

/-- Invariant rule for `forRange` that also covers an empty range. -/
theorem forRange_ind_max {σ : Type} (body : Int → σ → σ) (P : Int → σ → Prop)
    (lo hi : Int) (s : σ) (h0 : P lo s)
    (hstep : ∀ k t, lo ≤ k → k < hi → P k t → P (k + 1) (body k t)) :
    P (max lo hi) (forRange lo hi body s) := by
  apply forRangeM_ind_max (fun k t => some (body k t)) P lo hi s _
    (forLoopM_pure body _ lo s) h0
  intro k t u hk1 hk2 hP hb
  cases hb
  exact hstep k t hk1 hk2 hP

/-- Splitting off the last term of a sum over an integer interval. -/
theorem sum_Ico_int_succ (f : Int → Int) (lo k : Int) (h : lo ≤ k) :
    ∑ x in Finset.Ico lo (k + 1), f x = ∑ x in Finset.Ico lo k, f x + f k := by
  have e : Finset.Ico lo (k + 1) = insert k (Finset.Ico lo k) := by
    ext x
    simp only [Finset.mem_Ico, Finset.mem_insert]
    omega
  rw [e, Finset.sum_insert (by simp), add_comm]

/-- A loop that adds `f k` to an accumulator in pass `k` adds the sum of `f`
over the range. -/
theorem forRange_sum {σ : Type} (body : Int → σ → σ) (acc : σ → Int) (f : Int → Int)
    (lo hi : Int) (s : σ)
    (hstep : ∀ k t, lo ≤ k → k < hi → acc (body k t) = acc t + f k) :
    acc (forRange lo hi body s) = acc s + ∑ k in Finset.Ico lo hi, f k := by
  have h := forRange_ind_max body
    (fun m t => acc t = acc s + ∑ k in Finset.Ico lo m, f k) lo hi s (by simp)
    (by
      intro k t hk1 hk2 hP
      rw [hstep k t hk1 hk2, hP, sum_Ico_int_succ f lo k hk1]
      ring)
  rcases le_total lo hi with hle | hle
  · rwa [max_eq_right hle] at h
  · rw [max_eq_left hle] at h
    rw [h, Finset.Ico_self, Finset.Ico_eq_empty (by omega)]

/-- The horizontal double loop adds up what its passes add to an accumulator. -/
theorem forIJ_sum {σ : Type} (grid : Grid K) (body : Int → Int → σ → σ) (acc : σ → Int)
    (f : Int → Int → Int) (s : σ)
    (hstep : ∀ i j t, Interior grid i j → acc (body i j t) = acc t + f i j) :
    acc (forIJ grid body s) = acc s
      + ∑ j in Finset.Ico grid.jstart grid.jend, ∑ i in Finset.Ico grid.istart grid.iend,
          f i j := by
  unfold forIJ
  apply forRange_sum _ acc (fun j => ∑ i in Finset.Ico grid.istart grid.iend, f i j)
  intro j t hj1 hj2
  apply forRange_sum _ acc (fun i => f i j)
  intro i u hi1 hi2
  exact hstep i j u ⟨hi1, hi2, hj1, hj2⟩

/-- One level of the full-level loop of `calcmaskql`. -/
theorem maskqlLevel_spec (grid : Grid K) (hwf : grid.WellFormed) (ql : Int → K) (k : Int)
    (t : MaskState K) :
    (∀ i j, Interior grid i j →
      (forIJ grid (maskqlCell grid ql k)
          { t with nmask := Function.update t.nmask k 0 }).mask
        (i + j * grid.icells + k * grid.ijcells)
        = ((boolToInt (decide (ql (i + j * grid.icells + k * grid.ijcells) > 0)) : Int) : K)) ∧
    (∀ idx, (∀ i j, Interior grid i j → idx ≠ i + j * grid.icells + k * grid.ijcells) →
      (forIJ grid (maskqlCell grid ql k)
          { t with nmask := Function.update t.nmask k 0 }).mask idx = t.mask idx) ∧
    (forIJ grid (maskqlCell grid ql k) { t with nmask := Function.update t.nmask k 0 }).nmask k
      = ∑ j in Finset.Ico grid.jstart grid.jend, ∑ i in Finset.Ico grid.istart grid.iend,
          boolToInt (decide (ql (i + j * grid.icells + k * grid.ijcells) > 0)) ∧
    (∀ c, c ≠ k →
      (forIJ grid (maskqlCell grid ql k)
          { t with nmask := Function.update t.nmask k 0 }).nmask c = t.nmask c) ∧
    (forIJ grid (maskqlCell grid ql k) { t with nmask := Function.update t.nmask k 0 }).maskh
      = t.maskh ∧
    (forIJ grid (maskqlCell grid ql k) { t with nmask := Function.update t.nmask k 0 }).nmaskh
      = t.nmaskh := by
  have hkk := hwf.ijcells_eq
  obtain ⟨⟨r1, r2, r3, r4⟩, q⟩ := forIJ_cells grid (maskqlCell grid ql k)
    (fun v => v.maskh = t.maskh ∧ v.nmaskh = t.nmaskh ∧ (∀ c, c ≠ k → v.nmask c = t.nmask c) ∧
      ∀ idx, (∀ i j, Interior grid i j → idx ≠ i + j * grid.icells + k * grid.ijcells) →
        v.mask idx = t.mask idx)
    (fun _ _ _ => True)
    (fun i j v => v.mask (i + j * grid.icells + k * grid.ijcells)
      = ((boolToInt (decide (ql (i + j * grid.icells + k * grid.ijcells) > 0)) : Int) : K))
    { t with nmask := Function.update t.nmask k 0 }
    ⟨rfl, rfl, fun c hc => Function.update_noteq hc _ _, fun _ _ => rfl⟩
    (fun _ _ _ => trivial)
    (by
      intro i j v hij hR
      obtain ⟨r1, r2, r3, r4⟩ := hR
      unfold maskqlCell
      beta_reduce
      simp only
      refine ⟨⟨r1, r2, fun c hc => ?_, fun idx hidx => ?_⟩, fun _ => ?_, ?_⟩
      · rw [Function.update_noteq hc]
        exact r3 c hc
      · rw [Function.update_noteq (hidx i j hij)]
        exact r4 idx hidx
      · rw [Function.update_same]
      · intro a b hab hne
        have hidx : a + b * grid.icells + k * grid.ijcells
            ≠ i + j * grid.icells + k * grid.ijcells := by
          rw [hkk]
          intro e
          exact hne ⟨(index_ijk_inj grid hwf a b k i j k hab hij e).1,
            (index_ijk_inj grid hwf a b k i j k hab hij e).2.1⟩
        rw [Function.update_noteq hidx]
        exact ⟨id, id⟩)
  have hsum := forIJ_sum grid (maskqlCell grid ql k) (fun v => v.nmask k)
    (fun i j => boolToInt (decide (ql (i + j * grid.icells + k * grid.ijcells) > 0)))
    { t with nmask := Function.update t.nmask k 0 }
    (by
      intro i j v _
      simp only [maskqlCell, Function.update_same])
  simp only [Function.update_same, zero_add] at hsum
  exact ⟨q, r4, hsum, r3, r1, r2⟩

/-- One level of the half-level loop of `calcmaskql`. -/
theorem maskqlLevelh_spec (grid : Grid K) (hwf : grid.WellFormed) (ql : Int → K) (k : Int)
    (t : MaskState K) :
    (∀ i j, Interior grid i j →
      (forIJ grid (maskqlCellh grid ql k)
          { t with nmaskh := Function.update t.nmaskh k 0 }).maskh
        (i + j * grid.icells + k * grid.ijcells)
        = ((boolToInt (decide (ql (i + j * grid.icells + k * grid.ijcells - grid.ijcells)
            + ql (i + j * grid.icells + k * grid.ijcells) > 0)) : Int) : K)) ∧
    (∀ idx, (∀ i j, Interior grid i j → idx ≠ i + j * grid.icells + k * grid.ijcells) →
      (forIJ grid (maskqlCellh grid ql k)
          { t with nmaskh := Function.update t.nmaskh k 0 }).maskh idx = t.maskh idx) ∧
    (forIJ grid (maskqlCellh grid ql k)
        { t with nmaskh := Function.update t.nmaskh k 0 }).nmaskh k
      = ∑ j in Finset.Ico grid.jstart grid.jend, ∑ i in Finset.Ico grid.istart grid.iend,
          boolToInt (decide (ql (i + j * grid.icells + k * grid.ijcells - grid.ijcells)
            + ql (i + j * grid.icells + k * grid.ijcells) > 0)) ∧
    (∀ c, c ≠ k →
      (forIJ grid (maskqlCellh grid ql k)
          { t with nmaskh := Function.update t.nmaskh k 0 }).nmaskh c = t.nmaskh c) ∧
    (forIJ grid (maskqlCellh grid ql k) { t with nmaskh := Function.update t.nmaskh k 0 }).mask
      = t.mask ∧
    (forIJ grid (maskqlCellh grid ql k) { t with nmaskh := Function.update t.nmaskh k 0 }).nmask
      = t.nmask := by
  have hkk := hwf.ijcells_eq
  obtain ⟨⟨r1, r2, r3, r4⟩, q⟩ := forIJ_cells grid (maskqlCellh grid ql k)
    (fun v => v.mask = t.mask ∧ v.nmask = t.nmask ∧ (∀ c, c ≠ k → v.nmaskh c = t.nmaskh c) ∧
      ∀ idx, (∀ i j, Interior grid i j → idx ≠ i + j * grid.icells + k * grid.ijcells) →
        v.maskh idx = t.maskh idx)
    (fun _ _ _ => True)
    (fun i j v => v.maskh (i + j * grid.icells + k * grid.ijcells)
      = ((boolToInt (decide (ql (i + j * grid.icells + k * grid.ijcells - grid.ijcells)
          + ql (i + j * grid.icells + k * grid.ijcells) > 0)) : Int) : K))
    { t with nmaskh := Function.update t.nmaskh k 0 }
    ⟨rfl, rfl, fun c hc => Function.update_noteq hc _ _, fun _ _ => rfl⟩
    (fun _ _ _ => trivial)
    (by
      intro i j v hij hR
      obtain ⟨r1, r2, r3, r4⟩ := hR
      unfold maskqlCellh
      beta_reduce
      simp only
      refine ⟨⟨r1, r2, fun c hc => ?_, fun idx hidx => ?_⟩, fun _ => ?_, ?_⟩
      · rw [Function.update_noteq hc]
        exact r3 c hc
      · rw [Function.update_noteq (hidx i j hij)]
        exact r4 idx hidx
      · rw [Function.update_same]
      · intro a b hab hne
        have hidx : a + b * grid.icells + k * grid.ijcells
            ≠ i + j * grid.icells + k * grid.ijcells := by
          rw [hkk]
          intro e
          exact hne ⟨(index_ijk_inj grid hwf a b k i j k hab hij e).1,
            (index_ijk_inj grid hwf a b k i j k hab hij e).2.1⟩
        rw [Function.update_noteq hidx]
        exact ⟨id, id⟩)
  have hsum := forIJ_sum grid (maskqlCellh grid ql k) (fun v => v.nmaskh k)
    (fun i j => boolToInt (decide (ql (i + j * grid.icells + k * grid.ijcells - grid.ijcells)
      + ql (i + j * grid.icells + k * grid.ijcells) > 0)))
    { t with nmaskh := Function.update t.nmaskh k 0 }
    (by
      intro i j v _
      simp only [maskqlCellh, Function.update_same])
  simp only [Function.update_same, zero_add] at hsum
  exact ⟨q, r4, hsum, r3, r1, r2⟩

/-- The full-level loop of `calcmaskql` over the levels `lo ≤ k < hi`. -/
theorem maskqlLoop_spec (grid : Grid K) (hwf : grid.WellFormed) (ql : Int → K) (lo hi : Int)
    (st : MaskState K) :
    (∀ i j k, Interior grid i j → lo ≤ k → k < hi →
      (forRange lo hi (fun k t => forIJ grid (maskqlCell grid ql k)
          { t with nmask := Function.update t.nmask k 0 }) st).mask
        (i + j * grid.icells + k * grid.ijcells)
        = ((boolToInt (decide (ql (i + j * grid.icells + k * grid.ijcells) > 0)) : Int) : K)) ∧
    (∀ k, lo ≤ k → k < hi →
      (forRange lo hi (fun k t => forIJ grid (maskqlCell grid ql k)
          { t with nmask := Function.update t.nmask k 0 }) st).nmask k
        = ∑ j in Finset.Ico grid.jstart grid.jend, ∑ i in Finset.Ico grid.istart grid.iend,
            boolToInt (decide (ql (i + j * grid.icells + k * grid.ijcells) > 0))) ∧
    (forRange lo hi (fun k t => forIJ grid (maskqlCell grid ql k)
        { t with nmask := Function.update t.nmask k 0 }) st).maskh = st.maskh ∧
    (forRange lo hi (fun k t => forIJ grid (maskqlCell grid ql k)
        { t with nmask := Function.update t.nmask k 0 }) st).nmaskh = st.nmaskh := by
  have hkk := hwf.ijcells_eq
  have inv := forRange_ind_max (fun k t => forIJ grid (maskqlCell grid ql k)
      { t with nmask := Function.update t.nmask k 0 })
    (fun m t =>
      (∀ i j k, Interior grid i j → lo ≤ k → k < m →
        t.mask (i + j * grid.icells + k * grid.ijcells)
          = ((boolToInt (decide (ql (i + j * grid.icells + k * grid.ijcells) > 0)) : Int) : K)) ∧
      (∀ k, lo ≤ k → k < m → t.nmask k
        = ∑ j in Finset.Ico grid.jstart grid.jend, ∑ i in Finset.Ico grid.istart grid.iend,
            boolToInt (decide (ql (i + j * grid.icells + k * grid.ijcells) > 0))) ∧
      t.maskh = st.maskh ∧ t.nmaskh = st.nmaskh)
    lo hi st
    ⟨fun i j k _ h1 h2 => absurd h1 (by omega), fun k h1 h2 => absurd h1 (by omega), rfl, rfl⟩
    (by
      intro m t hm1 hm2 hP
      obtain ⟨p1, p2, p3, p4⟩ := hP
      obtain ⟨l1, l2, l3, l4, l5, l6⟩ := maskqlLevel_spec grid hwf ql m t
      refine ⟨fun i j k hij hk1 hk2 => ?_, fun k hk1 hk2 => ?_, l5.trans p3, l6.trans p4⟩
      · by_cases hkm : k = m
        · subst hkm
          exact l1 i j hij
        · rw [l2 _ (fun a b hab e => ?_)]
          · exact p1 i j k hij hk1 (by omega)
          · rw [hkk] at e
            exact hkm (index_ijk_inj grid hwf i j k a b m hij hab e).2.2
      · by_cases hkm : k = m
        · subst hkm
          exact l3
        · rw [l4 k hkm]
          exact p2 k hk1 (by omega))
  obtain ⟨p1, p2, p3, p4⟩ := inv
  have hmax := le_max_right lo hi
  exact ⟨fun i j k hij h1 h2 => p1 i j k hij h1 (by omega),
    fun k h1 h2 => p2 k h1 (by omega), p3, p4⟩

/-- The half-level loop of `calcmaskql` over the levels `lo ≤ k < hi`. -/
theorem maskqlLooph_spec (grid : Grid K) (hwf : grid.WellFormed) (ql : Int → K) (lo hi : Int)
    (st : MaskState K) :
    (∀ i j k, Interior grid i j → lo ≤ k → k < hi →
      (forRange lo hi (fun k t => forIJ grid (maskqlCellh grid ql k)
          { t with nmaskh := Function.update t.nmaskh k 0 }) st).maskh
        (i + j * grid.icells + k * grid.ijcells)
        = ((boolToInt (decide (ql (i + j * grid.icells + k * grid.ijcells - grid.ijcells)
            + ql (i + j * grid.icells + k * grid.ijcells) > 0)) : Int) : K)) ∧
    (∀ k, lo ≤ k → k < hi →
      (forRange lo hi (fun k t => forIJ grid (maskqlCellh grid ql k)
          { t with nmaskh := Function.update t.nmaskh k 0 }) st).nmaskh k
        = ∑ j in Finset.Ico grid.jstart grid.jend, ∑ i in Finset.Ico grid.istart grid.iend,
            boolToInt (decide (ql (i + j * grid.icells + k * grid.ijcells - grid.ijcells)
              + ql (i + j * grid.icells + k * grid.ijcells) > 0))) ∧
    (forRange lo hi (fun k t => forIJ grid (maskqlCellh grid ql k)
        { t with nmaskh := Function.update t.nmaskh k 0 }) st).mask = st.mask ∧
    (forRange lo hi (fun k t => forIJ grid (maskqlCellh grid ql k)
        { t with nmaskh := Function.update t.nmaskh k 0 }) st).nmask = st.nmask := by
  have hkk := hwf.ijcells_eq
  have inv := forRange_ind_max (fun k t => forIJ grid (maskqlCellh grid ql k)
      { t with nmaskh := Function.update t.nmaskh k 0 })
    (fun m t =>
      (∀ i j k, Interior grid i j → lo ≤ k → k < m →
        t.maskh (i + j * grid.icells + k * grid.ijcells)
          = ((boolToInt (decide (ql (i + j * grid.icells + k * grid.ijcells - grid.ijcells)
              + ql (i + j * grid.icells + k * grid.ijcells) > 0)) : Int) : K)) ∧
      (∀ k, lo ≤ k → k < m → t.nmaskh k
        = ∑ j in Finset.Ico grid.jstart grid.jend, ∑ i in Finset.Ico grid.istart grid.iend,
            boolToInt (decide (ql (i + j * grid.icells + k * grid.ijcells - grid.ijcells)
              + ql (i + j * grid.icells + k * grid.ijcells) > 0))) ∧
      t.mask = st.mask ∧ t.nmask = st.nmask)
    lo hi st
    ⟨fun i j k _ h1 h2 => absurd h1 (by omega), fun k h1 h2 => absurd h1 (by omega), rfl, rfl⟩
    (by
      intro m t hm1 hm2 hP
      obtain ⟨p1, p2, p3, p4⟩ := hP
      obtain ⟨l1, l2, l3, l4, l5, l6⟩ := maskqlLevelh_spec grid hwf ql m t
      refine ⟨fun i j k hij hk1 hk2 => ?_, fun k hk1 hk2 => ?_, l5.trans p3, l6.trans p4⟩
      · by_cases hkm : k = m
        · subst hkm
          exact l1 i j hij
        · rw [l2 _ (fun a b hab e => ?_)]
          · exact p1 i j k hij hk1 (by omega)
          · rw [hkk] at e
            exact hkm (index_ijk_inj grid hwf i j k a b m hij hab e).2.2
      · by_cases hkm : k = m
        · subst hkm
          exact l3
        · rw [l4 k hkm]
          exact p2 k hk1 (by omega))
  obtain ⟨p1, p2, p3, p4⟩ := inv
  have hmax := le_max_right lo hi
  exact ⟨fun i j k hij h1 h2 => p1 i j k hij h1 (by omega),
    fun k h1 h2 => p2 k h1 (by omega), p3, p4⟩

/-- The indicator `(double)ntmp` of a comparison. -/
theorem boolToInt_cast (p : Prop) [Decidable p] :
    ((boolToInt (decide p) : Int) : K) = if p then 1 else 0 := by
  by_cases h : p <;> simp [boolToInt, h]

/-- The count contribution of a cell whose indicator is `1` exactly when `p`. -/
theorem boolToInt_of_indicator (p : Prop) [Decidable p] (x : K)
    (hx : x = if p then 1 else 0) :
    boolToInt (decide p) = if x = 1 then 1 else 0 := by
  by_cases h : p <;> simp [boolToInt, h, hx]

/-- C10: `calcmaskql` implements the cloud predicate.  On a well-formed grid, on
a single process (the reduction returns its argument) and with a boundary
exchange that leaves interior cells alone: `mask[ijk]` is `1` if `ql[ijk] > 0`
and `0` otherwise for `kstart ≤ k < kend`; `maskh[ijk]` is `1` if
`0.5*(ql[ijk-kk] + ql[ijk]) > 0` and `0` otherwise for `kstart ≤ k ≤ kend`;
`nmask[k]` is the number of interior cells with `mask = 1` at level `k`; and
for `kstart < k < kend`, `nmaskh[k]` is the number of interior cells with
`maskh = 1`. -/
theorem calcmaskql_cloud_predicate (grid : Grid K) (hwf : grid.WellFormed) (master : Master)
    (ql : Int → K) (st : MaskState K)
    (hsingle : ∀ a n, master.sum a n = a)
    (hbc : ∀ (f : Int → K) i j k, Interior grid i j →
      grid.boundary_cyclic f (i + j * grid.icells + k * grid.ijcells)
        = f (i + j * grid.icells + k * grid.ijcells)) :
    (∀ i j k, Interior grid i j → grid.kstart ≤ k → k < grid.kend →
      (calcmaskql grid master ql st).mask (i + j * grid.icells + k * grid.ijcells)
        = if ql (i + j * grid.icells + k * grid.ijcells) > 0 then 1 else 0) ∧
    (∀ i j k, Interior grid i j → grid.kstart ≤ k → k ≤ grid.kend →
      (calcmaskql grid master ql st).maskh (i + j * grid.icells + k * grid.ijcells)
        = if 0.5 * (ql (i + j * grid.icells + k * grid.ijcells - grid.ijcells)
            + ql (i + j * grid.icells + k * grid.ijcells)) > 0 then 1 else 0) ∧
    (∀ k, grid.kstart ≤ k → k < grid.kend →
      (calcmaskql grid master ql st).nmask k
        = ∑ j in Finset.Ico grid.jstart grid.jend, ∑ i in Finset.Ico grid.istart grid.iend,
            if (calcmaskql grid master ql st).mask (i + j * grid.icells + k * grid.ijcells) = 1
            then 1 else 0) ∧
    (∀ k, grid.kstart < k → k < grid.kend →
      (calcmaskql grid master ql st).nmaskh k
        = ∑ j in Finset.Ico grid.jstart grid.jend, ∑ i in Finset.Ico grid.istart grid.iend,
            if (calcmaskql grid master ql st).maskh (i + j * grid.icells + k * grid.ijcells) = 1
            then 1 else 0) := by
  obtain ⟨a1, a2, a3, a4⟩ := maskqlLoop_spec grid hwf ql grid.kstart grid.kend st
  obtain ⟨b1, b2, b3, b4⟩ := maskqlLooph_spec grid hwf ql grid.kstart (grid.kend + 1)
    (forRange grid.kstart grid.kend (fun k t => forIJ grid (maskqlCell grid ql k)
      { t with nmask := Function.update t.nmask k 0 }) st)
  have hm : ∀ i j k, Interior grid i j → grid.kstart ≤ k → k < grid.kend →
      (calcmaskql grid master ql st).mask (i + j * grid.icells + k * grid.ijcells)
        = if ql (i + j * grid.icells + k * grid.ijcells) > 0 then 1 else 0 := by
    intro i j k hij h1 h2
    simp only [calcmaskql]
    rw [hbc _ i j k hij, b3, a1 i j k hij h1 h2, boolToInt_cast]
  have hmh : ∀ i j k, Interior grid i j → grid.kstart ≤ k → k ≤ grid.kend →
      (calcmaskql grid master ql st).maskh (i + j * grid.icells + k * grid.ijcells)
        = if 0.5 * (ql (i + j * grid.icells + k * grid.ijcells - grid.ijcells)
            + ql (i + j * grid.icells + k * grid.ijcells)) > 0 then 1 else 0 := by
    intro i j k hij h1 h2
    simp only [calcmaskql]
    rw [hbc _ i j k hij, b1 i j k hij h1 (by omega), boolToInt_cast]
    have e : (0.5 * (ql (i + j * grid.icells + k * grid.ijcells - grid.ijcells)
          + ql (i + j * grid.icells + k * grid.ijcells)) > 0)
        ↔ (ql (i + j * grid.icells + k * grid.ijcells - grid.ijcells)
          + ql (i + j * grid.icells + k * grid.ijcells) > 0) := by
      constructor
      · intro h
        by_contra hn
        rw [gt_iff_lt, not_lt] at hn
        have : (0.5 : K) * (ql (i + j * grid.icells + k * grid.ijcells - grid.ijcells)
            + ql (i + j * grid.icells + k * grid.ijcells)) ≤ 0 :=
          mul_nonpos_of_nonneg_of_nonpos (by norm_num) hn
        exact absurd h (not_lt.mpr this)
      · intro h
        exact mul_pos (by norm_num) h
    simp only [e]
  refine ⟨hm, hmh, ?_, ?_⟩
  · intro k h1 h2
    have hn : (calcmaskql grid master ql st).nmask k
        = (forRange grid.kstart grid.kend (fun k t => forIJ grid (maskqlCell grid ql k)
            { t with nmask := Function.update t.nmask k 0 }) st).nmask k := by
      simp only [calcmaskql, hsingle]
      rw [b4]
    rw [hn, a2 k h1 h2]
    apply Finset.sum_congr rfl
    intro j hj
    apply Finset.sum_congr rfl
    intro i hi
    rw [Finset.mem_Ico] at hi hj
    exact boolToInt_of_indicator _ _ (hm i j k ⟨hi.1, hi.2, hj.1, hj.2⟩ h1 h2)
  · intro k h1 h2
    have hn : (calcmaskql grid master ql st).nmaskh k
        = (forRange grid.kstart (grid.kend + 1) (fun k t => forIJ grid (maskqlCellh grid ql k)
            { t with nmaskh := Function.update t.nmaskh k 0 })
            (forRange grid.kstart grid.kend (fun k t => forIJ grid (maskqlCell grid ql k)
              { t with nmask := Function.update t.nmask k 0 }) st)).nmaskh k := by
      simp only [calcmaskql, hsingle]
      rw [Function.update_noteq (by omega), Function.update_noteq (by omega)]
    rw [hn, b2 k (by omega) (by omega)]
    apply Finset.sum_congr rfl
    intro j hj
    apply Finset.sum_congr rfl
    intro i hi
    rw [Finset.mem_Ico] at hi hj
    have hx := hmh i j k ⟨hi.1, hi.2, hj.1, hj.2⟩ (by omega) (by omega)
    have e : (0.5 * (ql (i + j * grid.icells + k * grid.ijcells - grid.ijcells)
          + ql (i + j * grid.icells + k * grid.ijcells)) > 0)
        ↔ (ql (i + j * grid.icells + k * grid.ijcells - grid.ijcells)
          + ql (i + j * grid.icells + k * grid.ijcells) > 0) := by
      constructor
      · intro h
        by_contra hn
        rw [gt_iff_lt, not_lt] at hn
        have : (0.5 : K) * (ql (i + j * grid.icells + k * grid.ijcells - grid.ijcells)
            + ql (i + j * grid.icells + k * grid.ijcells)) ≤ 0 :=
          mul_nonpos_of_nonneg_of_nonpos (by norm_num) hn
        exact absurd h (not_lt.mpr this)
      · intro h
        exact mul_pos (by norm_num) h
    simp only [e] at hx
    exact boolToInt_of_indicator _ _ hx

/-- Witness for C10: the one-column grid on a single process with liquid water
only in the cell of level `1`. -/
theorem calcmaskql_cloud_predicate_witness :
    (dryGrid : Grid ℚ).WellFormed ∧ (∀ a n, singleMaster.sum a n = a) ∧
    (∀ (f : Int → ℚ) i j k, Interior (dryGrid : Grid ℚ) i j →
      (dryGrid : Grid ℚ).boundary_cyclic f
          (i + j * (dryGrid : Grid ℚ).icells + k * (dryGrid : Grid ℚ).ijcells)
        = f (i + j * (dryGrid : Grid ℚ).icells + k * (dryGrid : Grid ℚ).ijcells)) ∧
    (calcmaskql dryGrid singleMaster (fun idx => if idx = 1 then (1 : ℚ) else 0)
      zeroMaskState).mask 1 = 1 ∧
    (calcmaskql dryGrid singleMaster (fun idx => if idx = 1 then (1 : ℚ) else 0)
      zeroMaskState).mask 2 = 0 ∧
    (calcmaskql dryGrid singleMaster (fun idx => if idx = 1 then (1 : ℚ) else 0)
      zeroMaskState).maskh 2 = 1 ∧
    (calcmaskql dryGrid singleMaster (fun idx => if idx = 1 then (1 : ℚ) else 0)
      zeroMaskState).maskh 3 = 0 ∧
    (calcmaskql dryGrid singleMaster (fun idx => if idx = 1 then (1 : ℚ) else 0)
      zeroMaskState).nmask 1 = 1 ∧
    (calcmaskql dryGrid singleMaster (fun idx => if idx = 1 then (1 : ℚ) else 0)
      zeroMaskState).nmaskh 2 = 1 := by
  have hsingle : ∀ a n, singleMaster.sum a n = a := fun _ _ => rfl
  have hbc : ∀ (f : Int → ℚ) i j k, Interior (dryGrid : Grid ℚ) i j →
      (dryGrid : Grid ℚ).boundary_cyclic f
          (i + j * (dryGrid : Grid ℚ).icells + k * (dryGrid : Grid ℚ).ijcells)
        = f (i + j * (dryGrid : Grid ℚ).icells + k * (dryGrid : Grid ℚ).ijcells) :=
    fun _ _ _ _ _ => rfl
  have hint : Interior (dryGrid : Grid ℚ) 0 0 := by
    refine ⟨?_, ?_, ?_, ?_⟩ <;> decide
  obtain ⟨t1, t2, t3, t4⟩ := calcmaskql_cloud_predicate dryGrid dryGrid_wellFormed singleMaster
    (fun idx => if idx = 1 then (1 : ℚ) else 0) zeroMaskState hsingle hbc
  have m1 := t1 0 0 1 hint (by decide) (by decide)
  have m2 := t1 0 0 2 hint (by decide) (by decide)
  have h2 := t2 0 0 2 hint (by decide) (by decide)
  have h3 := t2 0 0 3 hint (by decide) (by decide)
  have n1 := t3 1 (by decide) (by decide)
  have n2 := t4 2 (by decide) (by decide)
  have e1 : (0 : Int) + 0 * (dryGrid : Grid ℚ).icells + 1 * (dryGrid : Grid ℚ).ijcells = 1 := by
    decide
  have e2 : (0 : Int) + 0 * (dryGrid : Grid ℚ).icells + 2 * (dryGrid : Grid ℚ).ijcells = 2 := by
    decide
  have e3 : (0 : Int) + 0 * (dryGrid : Grid ℚ).icells + 3 * (dryGrid : Grid ℚ).ijcells = 3 := by
    decide
  have ekk : (dryGrid : Grid ℚ).ijcells = 1 := rfl
  rw [e1] at m1
  rw [e2] at m2 h2
  rw [e3] at h3
  rw [ekk] at h2 h3
  norm_num at m1 m2 h2 h3
  have i1 : Finset.Ico (dryGrid : Grid ℚ).istart (dryGrid : Grid ℚ).iend = {0} := by decide
  have j1 : Finset.Ico (dryGrid : Grid ℚ).jstart (dryGrid : Grid ℚ).jend = {0} := by decide
  rw [i1, j1, Finset.sum_singleton, Finset.sum_singleton, e1, m1] at n1
  rw [i1, j1, Finset.sum_singleton, Finset.sum_singleton, e2, h2] at n2
  exact ⟨dryGrid_wellFormed, hsingle, hbc, m1, m2, h2, h3, by simpa using n1, by simpa using n2⟩

/-! ## The core mask and the boundary counts -/

/-- C12: after `calcmaskql` and after `calcmaskqlcore`, for every input, every
grid and every reduction `master->sum` (any number of processes), the boundary
half-level counts are zero: `nmaskh[kstart] = 0` and `nmaskh[kend] = 0`. -/
theorem nmaskh_boundary_zero (grid : Grid K) (master : Master) (ql b bmean : Int → K)
    (st : MaskState K) :
    ((calcmaskql grid master ql st).nmaskh grid.kstart = 0 ∧
      (calcmaskql grid master ql st).nmaskh grid.kend = 0) ∧
    ((calcmaskqlcore grid master ql b bmean st).nmaskh grid.kstart = 0 ∧
      (calcmaskqlcore grid master ql b bmean st).nmaskh grid.kend = 0) := by
  refine ⟨⟨?_, ?_⟩, ⟨?_, ?_⟩⟩
  · simp only [calcmaskql]
    by_cases h : grid.kstart = grid.kend
    · rw [h, Function.update_same]
    · rw [Function.update_noteq h, Function.update_same]
  · simp only [calcmaskql, Function.update_same]
  · simp only [calcmaskqlcore]
    by_cases h : grid.kstart = grid.kend
    · rw [h, Function.update_same]
    · rw [Function.update_noteq h, Function.update_same]
  · simp only [calcmaskqlcore, Function.update_same]

/-- One level of a full-level mask loop whose cell body stores the indicator
`nt i j` and adds it to `nmask[k]`. -/
theorem maskLevelGen_spec (grid : Grid K) (hwf : grid.WellFormed) (k : Int)
    (cell : Int → Int → MaskState K → MaskState K) (nt : Int → Int → Int)
    (hcell : ∀ i j (st : MaskState K), cell i j st =
      { st with nmask := Function.update st.nmask k (st.nmask k + nt i j),
                mask := Function.update st.mask (i + j * grid.icells + k * grid.ijcells)
                  ((nt i j : Int) : K) })
    (t : MaskState K) :
    (∀ i j, Interior grid i j →
      (forIJ grid cell { t with nmask := Function.update t.nmask k 0 }).mask
        (i + j * grid.icells + k * grid.ijcells) = ((nt i j : Int) : K)) ∧
    (∀ idx, (∀ i j, Interior grid i j → idx ≠ i + j * grid.icells + k * grid.ijcells) →
      (forIJ grid cell { t with nmask := Function.update t.nmask k 0 }).mask idx
        = t.mask idx) ∧
    (forIJ grid cell { t with nmask := Function.update t.nmask k 0 }).nmask k
      = ∑ j in Finset.Ico grid.jstart grid.jend, ∑ i in Finset.Ico grid.istart grid.iend,
          nt i j ∧
    (∀ c, c ≠ k →
      (forIJ grid cell { t with nmask := Function.update t.nmask k 0 }).nmask c = t.nmask c) ∧
    (forIJ grid cell { t with nmask := Function.update t.nmask k 0 }).maskh = t.maskh ∧
    (forIJ grid cell { t with nmask := Function.update t.nmask k 0 }).nmaskh = t.nmaskh := by
  have hkk := hwf.ijcells_eq
  obtain ⟨⟨r1, r2, r3, r4⟩, q⟩ := forIJ_cells grid cell
    (fun v => v.maskh = t.maskh ∧ v.nmaskh = t.nmaskh ∧ (∀ c, c ≠ k → v.nmask c = t.nmask c) ∧
      ∀ idx, (∀ i j, Interior grid i j → idx ≠ i + j * grid.icells + k * grid.ijcells) →
        v.mask idx = t.mask idx)
    (fun _ _ _ => True)
    (fun i j v => v.mask (i + j * grid.icells + k * grid.ijcells) = ((nt i j : Int) : K))
    { t with nmask := Function.update t.nmask k 0 }
    ⟨rfl, rfl, fun c hc => Function.update_noteq hc _ _, fun _ _ => rfl⟩
    (fun _ _ _ => trivial)
    (by
      intro i j v hij hR
      obtain ⟨r1, r2, r3, r4⟩ := hR
      rw [hcell]
      beta_reduce
      simp only
      refine ⟨⟨r1, r2, fun c hc => ?_, fun idx hidx => ?_⟩, fun _ => ?_, ?_⟩
      · rw [Function.update_noteq hc]
        exact r3 c hc
      · rw [Function.update_noteq (hidx i j hij)]
        exact r4 idx hidx
      · rw [Function.update_same]
      · intro a b hab hne
        have hidx : a + b * grid.icells + k * grid.ijcells
            ≠ i + j * grid.icells + k * grid.ijcells := by
          rw [hkk]
          intro e
          exact hne ⟨(index_ijk_inj grid hwf a b k i j k hab hij e).1,
            (index_ijk_inj grid hwf a b k i j k hab hij e).2.1⟩
        rw [Function.update_noteq hidx]
        exact ⟨id, id⟩)
  have hsum := forIJ_sum grid cell (fun v => v.nmask k) nt
    { t with nmask := Function.update t.nmask k 0 }
    (by
      intro i j v _
      rw [hcell]
      simp only [Function.update_same])
  simp only [Function.update_same, zero_add] at hsum
  exact ⟨q, r4, hsum, r3, r1, r2⟩

/-- One level of a half-level mask loop whose cell body stores the indicator
`nt i j` and adds it to `nmaskh[k]`. -/
theorem maskLevelhGen_spec (grid : Grid K) (hwf : grid.WellFormed) (k : Int)
    (cell : Int → Int → MaskState K → MaskState K) (nt : Int → Int → Int)
    (hcell : ∀ i j (st : MaskState K), cell i j st =
      { st with nmaskh := Function.update st.nmaskh k (st.nmaskh k + nt i j),
                maskh := Function.update st.maskh (i + j * grid.icells + k * grid.ijcells)
                  ((nt i j : Int) : K) })
    (t : MaskState K) :
    (∀ i j, Interior grid i j →
      (forIJ grid cell { t with nmaskh := Function.update t.nmaskh k 0 }).maskh
        (i + j * grid.icells + k * grid.ijcells) = ((nt i j : Int) : K)) ∧
    (∀ idx, (∀ i j, Interior grid i j → idx ≠ i + j * grid.icells + k * grid.ijcells) →
      (forIJ grid cell { t with nmaskh := Function.update t.nmaskh k 0 }).maskh idx
        = t.maskh idx) ∧
    (forIJ grid cell { t with nmaskh := Function.update t.nmaskh k 0 }).nmaskh k
      = ∑ j in Finset.Ico grid.jstart grid.jend, ∑ i in Finset.Ico grid.istart grid.iend,
          nt i j ∧
    (∀ c, c ≠ k →
      (forIJ grid cell { t with nmaskh := Function.update t.nmaskh k 0 }).nmaskh c
        = t.nmaskh c) ∧
    (forIJ grid cell { t with nmaskh := Function.update t.nmaskh k 0 }).mask = t.mask ∧
    (forIJ grid cell { t with nmaskh := Function.update t.nmaskh k 0 }).nmask = t.nmask := by
  have hkk := hwf.ijcells_eq
  obtain ⟨⟨r1, r2, r3, r4⟩, q⟩ := forIJ_cells grid cell
    (fun v => v.mask = t.mask ∧ v.nmask = t.nmask ∧ (∀ c, c ≠ k → v.nmaskh c = t.nmaskh c) ∧
      ∀ idx, (∀ i j, Interior grid i j → idx ≠ i + j * grid.icells + k * grid.ijcells) →
        v.maskh idx = t.maskh idx)
    (fun _ _ _ => True)
    (fun i j v => v.maskh (i + j * grid.icells + k * grid.ijcells) = ((nt i j : Int) : K))
    { t with nmaskh := Function.update t.nmaskh k 0 }
    ⟨rfl, rfl, fun c hc => Function.update_noteq hc _ _, fun _ _ => rfl⟩
    (fun _ _ _ => trivial)
    (by
      intro i j v hij hR
      obtain ⟨r1, r2, r3, r4⟩ := hR
      rw [hcell]
      beta_reduce
      simp only
      refine ⟨⟨r1, r2, fun c hc => ?_, fun idx hidx => ?_⟩, fun _ => ?_, ?_⟩
      · rw [Function.update_noteq hc]
        exact r3 c hc
      · rw [Function.update_noteq (hidx i j hij)]
        exact r4 idx hidx
      · rw [Function.update_same]
      · intro a b hab hne
        have hidx : a + b * grid.icells + k * grid.ijcells
            ≠ i + j * grid.icells + k * grid.ijcells := by
          rw [hkk]
          intro e
          exact hne ⟨(index_ijk_inj grid hwf a b k i j k hab hij e).1,
            (index_ijk_inj grid hwf a b k i j k hab hij e).2.1⟩
        rw [Function.update_noteq hidx]
        exact ⟨id, id⟩)
  have hsum := forIJ_sum grid cell (fun v => v.nmaskh k) nt
    { t with nmaskh := Function.update t.nmaskh k 0 }
    (by
      intro i j v _
      rw [hcell]
      simp only [Function.update_same])
  simp only [Function.update_same, zero_add] at hsum
  exact ⟨q, r4, hsum, r3, r1, r2⟩

/-- A full-level mask loop over the levels `lo ≤ k < hi`. -/
theorem maskLoopGen_spec (grid : Grid K) (hwf : grid.WellFormed)
    (cell : Int → Int → Int → MaskState K → MaskState K) (nt : Int → Int → Int → Int)
    (hcell : ∀ k i j (st : MaskState K), cell k i j st =
      { st with nmask := Function.update st.nmask k (st.nmask k + nt k i j),
                mask := Function.update st.mask (i + j * grid.icells + k * grid.ijcells)
                  ((nt k i j : Int) : K) })
    (lo hi : Int) (st : MaskState K) :
    (∀ i j k, Interior grid i j → lo ≤ k → k < hi →
      (forRange lo hi (fun k t => forIJ grid (cell k)
          { t with nmask := Function.update t.nmask k 0 }) st).mask
        (i + j * grid.icells + k * grid.ijcells) = ((nt k i j : Int) : K)) ∧
    (∀ k, lo ≤ k → k < hi →
      (forRange lo hi (fun k t => forIJ grid (cell k)
          { t with nmask := Function.update t.nmask k 0 }) st).nmask k
        = ∑ j in Finset.Ico grid.jstart grid.jend, ∑ i in Finset.Ico grid.istart grid.iend,
            nt k i j) ∧
    (forRange lo hi (fun k t => forIJ grid (cell k)
        { t with nmask := Function.update t.nmask k 0 }) st).maskh = st.maskh ∧
    (forRange lo hi (fun k t => forIJ grid (cell k)
        { t with nmask := Function.update t.nmask k 0 }) st).nmaskh = st.nmaskh := by
  have hkk := hwf.ijcells_eq
  have inv := forRange_ind_max (fun k t => forIJ grid (cell k)
      { t with nmask := Function.update t.nmask k 0 })
    (fun m t =>
      (∀ i j k, Interior grid i j → lo ≤ k → k < m →
        t.mask (i + j * grid.icells + k * grid.ijcells) = ((nt k i j : Int) : K)) ∧
      (∀ k, lo ≤ k → k < m → t.nmask k
        = ∑ j in Finset.Ico grid.jstart grid.jend, ∑ i in Finset.Ico grid.istart grid.iend,
            nt k i j) ∧
      t.maskh = st.maskh ∧ t.nmaskh = st.nmaskh)
    lo hi st
    ⟨fun i j k _ h1 h2 => absurd h1 (by omega), fun k h1 h2 => absurd h1 (by omega), rfl, rfl⟩
    (by
      intro m t hm1 hm2 hP
      obtain ⟨p1, p2, p3, p4⟩ := hP
      obtain ⟨l1, l2, l3, l4, l5, l6⟩ :=
        maskLevelGen_spec grid hwf m (cell m) (nt m) (hcell m) t
      refine ⟨fun i j k hij hk1 hk2 => ?_, fun k hk1 hk2 => ?_, l5.trans p3, l6.trans p4⟩
      · by_cases hkm : k = m
        · subst hkm
          exact l1 i j hij
        · rw [l2 _ (fun a b hab e => ?_)]
          · exact p1 i j k hij hk1 (by omega)
          · rw [hkk] at e
            exact hkm (index_ijk_inj grid hwf i j k a b m hij hab e).2.2
      · by_cases hkm : k = m
        · subst hkm
          exact l3
        · rw [l4 k hkm]
          exact p2 k hk1 (by omega))
  obtain ⟨p1, p2, p3, p4⟩ := inv
  have hmax := le_max_right lo hi
  exact ⟨fun i j k hij h1 h2 => p1 i j k hij h1 (by omega),
    fun k h1 h2 => p2 k h1 (by omega), p3, p4⟩

/-- A half-level mask loop over the levels `lo ≤ k < hi`. -/
theorem maskLoophGen_spec (grid : Grid K) (hwf : grid.WellFormed)
    (cell : Int → Int → Int → MaskState K → MaskState K) (nt : Int → Int → Int → Int)
    (hcell : ∀ k i j (st : MaskState K), cell k i j st =
      { st with nmaskh := Function.update st.nmaskh k (st.nmaskh k + nt k i j),
                maskh := Function.update st.maskh (i + j * grid.icells + k * grid.ijcells)
                  ((nt k i j : Int) : K) })
    (lo hi : Int) (st : MaskState K) :
    (∀ i j k, Interior grid i j → lo ≤ k → k < hi →
      (forRange lo hi (fun k t => forIJ grid (cell k)
          { t with nmaskh := Function.update t.nmaskh k 0 }) st).maskh
        (i + j * grid.icells + k * grid.ijcells) = ((nt k i j : Int) : K)) ∧
    (∀ k, lo ≤ k → k < hi →
      (forRange lo hi (fun k t => forIJ grid (cell k)
          { t with nmaskh := Function.update t.nmaskh k 0 }) st).nmaskh k
        = ∑ j in Finset.Ico grid.jstart grid.jend, ∑ i in Finset.Ico grid.istart grid.iend,
            nt k i j) ∧
    (forRange lo hi (fun k t => forIJ grid (cell k)
        { t with nmaskh := Function.update t.nmaskh k 0 }) st).mask = st.mask ∧
    (forRange lo hi (fun k t => forIJ grid (cell k)
        { t with nmaskh := Function.update t.nmaskh k 0 }) st).nmask = st.nmask := by
  have hkk := hwf.ijcells_eq
  have inv := forRange_ind_max (fun k t => forIJ grid (cell k)
      { t with nmaskh := Function.update t.nmaskh k 0 })
    (fun m t =>
      (∀ i j k, Interior grid i j → lo ≤ k → k < m →
        t.maskh (i + j * grid.icells + k * grid.ijcells) = ((nt k i j : Int) : K)) ∧
      (∀ k, lo ≤ k → k < m → t.nmaskh k
        = ∑ j in Finset.Ico grid.jstart grid.jend, ∑ i in Finset.Ico grid.istart grid.iend,
            nt k i j) ∧
      t.mask = st.mask ∧ t.nmask = st.nmask)
    lo hi st
    ⟨fun i j k _ h1 h2 => absurd h1 (by omega), fun k h1 h2 => absurd h1 (by omega), rfl, rfl⟩
    (by
      intro m t hm1 hm2 hP
      obtain ⟨p1, p2, p3, p4⟩ := hP
      obtain ⟨l1, l2, l3, l4, l5, l6⟩ :=
        maskLevelhGen_spec grid hwf m (cell m) (nt m) (hcell m) t
      refine ⟨fun i j k hij hk1 hk2 => ?_, fun k hk1 hk2 => ?_, l5.trans p3, l6.trans p4⟩
      · by_cases hkm : k = m
        · subst hkm
          exact l1 i j hij
        · rw [l2 _ (fun a b hab e => ?_)]
          · exact p1 i j k hij hk1 (by omega)
          · rw [hkk] at e
            exact hkm (index_ijk_inj grid hwf i j k a b m hij hab e).2.2
      · by_cases hkm : k = m
        · subst hkm
          exact l3
        · rw [l4 k hkm]
          exact p2 k hk1 (by omega))
  obtain ⟨p1, p2, p3, p4⟩ := inv
  have hmax := le_max_right lo hi
  exact ⟨fun i j k hij h1 h2 => p1 i j k hij h1 (by omega),
    fun k h1 h2 => p2 k h1 (by omega), p3, p4⟩

/-- The indicator `(double)ntmp` of a product of two comparisons. -/
theorem boolToInt_mul_cast (p q : Prop) [Decidable p] [Decidable q] :
    ((boolToInt (decide p) * boolToInt (decide q) : Int) : K) = if p ∧ q then 1 else 0 := by
  by_cases hp : p <;> by_cases hq : q <;> simp [boolToInt, hp, hq]

/-- C11: `calcmaskqlcore` implements the core predicate.  On a well-formed grid
and with a boundary exchange that leaves interior cells alone: for every
interior cell at a full level `kstart ≤ k < kend`, `mask[ijk]` is `1` if
`ql[ijk] > 0` and `b[ijk] > bmean[k]`, else `0`; for every interior cell at a
half level `kstart ≤ k ≤ kend`, `maskh[ijk]` is `1` if
`0.5*(ql[ijk-kk] + ql[ijk]) > 0` and
`0.5*(b[ijk-kk] + b[ijk]) > 0.5*(bmean[k-1] + bmean[k])`, else `0`. -/
theorem calcmaskqlcore_core_predicate (grid : Grid K) (hwf : grid.WellFormed)
    (master : Master) (ql b bmean : Int → K) (st : MaskState K)
    (hbc : ∀ (f : Int → K) i j k, Interior grid i j →
      grid.boundary_cyclic f (i + j * grid.icells + k * grid.ijcells)
        = f (i + j * grid.icells + k * grid.ijcells)) :
    (∀ i j k, Interior grid i j → grid.kstart ≤ k → k < grid.kend →
      (calcmaskqlcore grid master ql b bmean st).mask (i + j * grid.icells + k * grid.ijcells)
        = if ql (i + j * grid.icells + k * grid.ijcells) > 0
            ∧ b (i + j * grid.icells + k * grid.ijcells) > bmean k then 1 else 0) ∧
    (∀ i j k, Interior grid i j → grid.kstart ≤ k → k ≤ grid.kend →
      (calcmaskqlcore grid master ql b bmean st).maskh
          (i + j * grid.icells + k * grid.ijcells)
        = if 0.5 * (ql (i + j * grid.icells + k * grid.ijcells - grid.ijcells)
              + ql (i + j * grid.icells + k * grid.ijcells)) > 0
            ∧ 0.5 * (b (i + j * grid.icells + k * grid.ijcells - grid.ijcells)
              + b (i + j * grid.icells + k * grid.ijcells))
              > 0.5 * (bmean (k-1) + bmean k) then 1 else 0) := by
  obtain ⟨a1, -, -, -⟩ := maskLoopGen_spec grid hwf (maskqlcoreCell grid ql b bmean)
    (fun k i j => boolToInt (decide (ql (i + j * grid.icells + k * grid.ijcells) > 0))
      * boolToInt (decide (b (i + j * grid.icells + k * grid.ijcells) - bmean k > 0)))
    (fun k i j t => rfl) grid.kstart grid.kend st
  obtain ⟨b1, -, b3, -⟩ := maskLoophGen_spec grid hwf (maskqlcoreCellh grid ql b bmean)
    (fun k i j => boolToInt (decide (ql (i + j * grid.icells + k * grid.ijcells - grid.ijcells)
        + ql (i + j * grid.icells + k * grid.ijcells) > 0))
      * boolToInt (decide (b (i + j * grid.icells + k * grid.ijcells - grid.ijcells)
        + b (i + j * grid.icells + k * grid.ijcells) - bmean (k-1) - bmean k > 0)))
    (fun k i j t => rfl) grid.kstart (grid.kend + 1)
    (forRange grid.kstart grid.kend (fun k t => forIJ grid (maskqlcoreCell grid ql b bmean k)
      { t with nmask := Function.update t.nmask k 0 }) st)
  constructor
  · intro i j k hij h1 h2
    simp only [calcmaskqlcore]
    rw [hbc _ i j k hij, b3, a1 i j k hij h1 h2, boolToInt_mul_cast]
    have e : (b (i + j * grid.icells + k * grid.ijcells) - bmean k > 0)
        ↔ (b (i + j * grid.icells + k * grid.ijcells) > bmean k) := by
      constructor <;> intro h <;> linarith
    simp only [e]
  · intro i j k hij h1 h2
    simp only [calcmaskqlcore]
    rw [hbc _ i j k hij, b1 i j k hij h1 (by omega), boolToInt_mul_cast]
    have e1 : (ql (i + j * grid.icells + k * grid.ijcells - grid.ijcells)
          + ql (i + j * grid.icells + k * grid.ijcells) > 0)
        ↔ (0.5 * (ql (i + j * grid.icells + k * grid.ijcells - grid.ijcells)
          + ql (i + j * grid.icells + k * grid.ijcells)) > 0) := by
      constructor <;> intro h <;> linarith
    have e2 : (b (i + j * grid.icells + k * grid.ijcells - grid.ijcells)
          + b (i + j * grid.icells + k * grid.ijcells) - bmean (k-1) - bmean k > 0)
        ↔ (0.5 * (b (i + j * grid.icells + k * grid.ijcells - grid.ijcells)
          + b (i + j * grid.icells + k * grid.ijcells)) > 0.5 * (bmean (k-1) + bmean k)) := by
      constructor <;> intro h <;> linarith
    simp only [e1, e2]

/-- Witness for C11: the one-column grid with liquid water and a buoyancy above
the mean only in the cell of level `1`. -/
theorem calcmaskqlcore_core_predicate_witness :
    (dryGrid : Grid ℚ).WellFormed ∧
    (∀ (f : Int → ℚ) i j k, Interior (dryGrid : Grid ℚ) i j →
      (dryGrid : Grid ℚ).boundary_cyclic f
          (i + j * (dryGrid : Grid ℚ).icells + k * (dryGrid : Grid ℚ).ijcells)
        = f (i + j * (dryGrid : Grid ℚ).icells + k * (dryGrid : Grid ℚ).ijcells)) ∧
    (calcmaskqlcore dryGrid singleMaster (fun idx => if idx = 1 then (1 : ℚ) else 0)
      (fun idx => if idx = 1 then (2 : ℚ) else 0) (fun _ => 1) zeroMaskState).mask 1 = 1 ∧
    (calcmaskqlcore dryGrid singleMaster (fun idx => if idx = 1 then (1 : ℚ) else 0)
      (fun idx => if idx = 1 then (2 : ℚ) else 0) (fun _ => 1) zeroMaskState).mask 2 = 0 ∧
    (calcmaskqlcore dryGrid singleMaster (fun idx => if idx = 1 then (1 : ℚ) else 0)
      (fun idx => if idx = 1 then (2 : ℚ) else 0) (fun _ => 1) zeroMaskState).maskh 2 = 0 := by
  have hbc : ∀ (f : Int → ℚ) i j k, Interior (dryGrid : Grid ℚ) i j →
      (dryGrid : Grid ℚ).boundary_cyclic f
          (i + j * (dryGrid : Grid ℚ).icells + k * (dryGrid : Grid ℚ).ijcells)
        = f (i + j * (dryGrid : Grid ℚ).icells + k * (dryGrid : Grid ℚ).ijcells) :=
    fun _ _ _ _ _ => rfl
  have hint : Interior (dryGrid : Grid ℚ) 0 0 := by
    refine ⟨?_, ?_, ?_, ?_⟩ <;> decide
  obtain ⟨t1, t2⟩ := calcmaskqlcore_core_predicate dryGrid dryGrid_wellFormed singleMaster
    (fun idx => if idx = 1 then (1 : ℚ) else 0) (fun idx => if idx = 1 then (2 : ℚ) else 0)
    (fun _ => 1) zeroMaskState hbc
  have m1 := t1 0 0 1 hint (by decide) (by decide)
  have m2 := t1 0 0 2 hint (by decide) (by decide)
  have h2 := t2 0 0 2 hint (by decide) (by decide)
  have e1 : (0 : Int) + 0 * (dryGrid : Grid ℚ).icells + 1 * (dryGrid : Grid ℚ).ijcells = 1 := by
    decide
  have e2 : (0 : Int) + 0 * (dryGrid : Grid ℚ).icells + 2 * (dryGrid : Grid ℚ).ijcells = 2 := by
    decide
  have ekk : (dryGrid : Grid ℚ).ijcells = 1 := rfl
  rw [e1] at m1
  rw [e2] at m2 h2
  rw [ekk] at h2
  norm_num at m1 m2 h2
  exact ⟨dryGrid_wellFormed, hbc, m1, m2, h2⟩

/-! ## The surface half level of the reference state -/

/-- The level loop body of `calcbasestate` writes `exh` only at its own level. -/
theorem basestateLevel_exh (pw : K → K → K) (fuel : Nat) (grid : Grid K)
    (thlmean qtmean : Int → K) (k : Int) (s t : BaseState K)
    (h : basestateLevel pw fuel grid thlmean qtmean k s = some t) :
    ∀ m, m ≠ k → t.exh m = s.exh m := by
  unfold basestateLevel at h
  simp only at h
  split at h
  · simp at h
  · split at h
    · split at h
      · simp at h
      · simp only [Option.some.injEq] at h
        subst h
        intro m hm
        simp [Function.update_noteq hm]
    · simp at h

/-- What `calcbasestate` returns at the surface half level is what its surface
part wrote. -/
theorem calcbasestate_surface (pw : K → K → K) (fuel : Nat) (grid : Grid K) (ps : K)
    (thlmean qtmean : Int → K) (s t : BaseState K)
    (h : calcbasestate pw fuel grid ps thlmean qtmean s = some t) :
    ∃ t1, basestateSurface pw fuel grid ps thlmean qtmean s = some t1 ∧
      t.thvh grid.kstart = t1.thvh grid.kstart ∧ t.exh grid.kstart = t1.exh grid.kstart := by
  unfold calcbasestate at h
  split at h
  · simp at h
  · rename_i st1 hs
    split at h
    · simp at h
    · rename_i st2 hloop
      simp only [Option.some.injEq] at h
      subst h
      refine ⟨st1, hs, ?_⟩
      have inv := forRangeM_ind_max (basestateLevel pw fuel grid thlmean qtmean)
        (fun m u => grid.kstart < m ∧ u.thvh grid.kstart = st1.thvh grid.kstart ∧
          u.exh grid.kstart = st1.exh grid.kstart)
        (grid.kstart+1) (grid.kend+1) st1 st2 hloop ⟨by omega, rfl, rfl⟩
        (by
          intro m u v hm1 hm2 ⟨i0, i1, i2⟩ hb
          obtain ⟨-, -, f3, -, -, -⟩ :=
            basestateLevel_spec pw fuel grid thlmean qtmean m u v hb
          have f5 := basestateLevel_exh pw fuel grid thlmean qtmean m u v hb
          exact ⟨by omega, by rw [f3 _ (by omega)]; exact i1,
            by rw [f5 _ (by omega)]; exact i2⟩)
      obtain ⟨-, g2, g3⟩ := inv
      obtain ⟨-, -, e3, e4, -⟩ := basestateGhost_spec grid st2
      rw [e3, e4]
      exact ⟨g2, g3⟩

/-- The Exner function of the reference pressure. -/
theorem exn_rpow_p0 : exn Real.rpow (p0 : ℝ) = 1 := by
  simp only [exn, div_self p0_pos.ne', Real.rpow_eq_pow, Real.one_rpow]

/-- C16: `exn(p0) = 1` for the reference pressure `p0 = 1e5` (with `pow` the
real power function), and whenever `calcbasestate` is run with `ps = p0` and
returns, it has set `exh[kstart] = 1`. -/
theorem exn_reference_pressure (fuel : Nat) (grid : Grid ℝ) (thlmean qtmean : Int → ℝ)
    (s t : BaseState ℝ)
    (h : calcbasestate Real.rpow fuel grid p0 thlmean qtmean s = some t) :
    (p0 : ℝ) = 1e5 ∧ exn Real.rpow (p0 : ℝ) = 1 ∧ t.exh grid.kstart = 1 := by
  obtain ⟨t1, hs, -, he⟩ := calcbasestate_surface Real.rpow fuel grid p0 thlmean qtmean s t h
  obtain ⟨-, hx, -⟩ := basestateSurface_spec Real.rpow fuel grid p0 thlmean qtmean s t1 hs
  exact ⟨rfl, exn_rpow_p0, by rw [he, hx, exn_rpow_p0]⟩

/-- Witness for C16: the dry column with `ps = p0`. -/
theorem exn_reference_pressure_witness :
    ∃ t, calcbasestate Real.rpow 2 dryGrid p0 (fun _ => 190) (fun _ => 0)
        zeroBaseState = some t ∧
      (p0 : ℝ) = 1e5 ∧ exn Real.rpow (p0 : ℝ) = 1 ∧ t.exh (dryGrid : Grid ℝ).kstart = 1 := by
  obtain ⟨t, h, -⟩ := calcbasestate_dry 0
  have h' : calcbasestate Real.rpow 2 dryGrid p0 (fun _ => 190) (fun _ => 0)
      zeroBaseState = some t := h
  exact ⟨t, h', exn_reference_pressure 2 dryGrid _ _ zeroBaseState t h'⟩

set_option maxRecDepth 100000 in
/-- In scenario 1 (`s = 300`, `qt = 0.01`, `p = 1e5`, `exn = 1`) the loop of
`calcql` stops after four passes. -/
theorem calcqlLoop_scenario1 (extra : Nat) :
    calcqlLoop (300 * 1 : K) 0.01 1e5 (4 + 1 + extra) (calcqlInit (300 * 1)) =
      some ((calcqlBody (300 * 1) 0.01 1e5)^[4] (calcqlInit (300 * 1))) := by
  apply calcqlLoop_iter _ _ _ 4 extra
  · intro m hm
    interval_cases m
    · norm_num [calcqlCond, calcqlInit, abs_of_neg]
    · norm_num [calcqlCond, calcqlInit, calcqlBody, rslf, esl, c0, c1, c2, c3, c4, c5, c6, c7,
        c8, tmelt, ep, rd, rv, cp, lv, abs_of_pos, abs_of_neg]
    · norm_num [calcqlCond, calcqlInit, calcqlBody, rslf, esl, c0, c1, c2, c3, c4, c5, c6, c7,
        c8, tmelt, ep, rd, rv, cp, lv, abs_of_pos, abs_of_neg]
    · norm_num [calcqlCond, calcqlInit, calcqlBody, rslf, esl, c0, c1, c2, c3, c4, c5, c6, c7,
        c8, tmelt, ep, rd, rv, cp, lv, abs_of_pos, abs_of_neg]
  · norm_num [calcqlCond, calcqlInit, calcqlBody, rslf, esl, c0, c1, c2, c3, c4, c5, c6, c7, c8,
      tmelt, ep, rd, rv, cp, lv, abs_of_pos, abs_of_neg]

set_option maxRecDepth 100000 in
/-- In scenario 1 `calcql` returns exactly zero. -/
theorem calcql_scenario1 (extra : Nat) :
    calcql (4 + 1 + extra) (300 : K) 0.01 1e5 1 = some 0 := by
  rw [calcql_of_loop _ _ _ _ _ _ (calcqlLoop_scenario1 extra)]
  simp only [Function.iterate_succ, Function.iterate_zero, Function.comp_apply, id_eq,
    calcqlBody, Option.map_some']
  congr 1
  apply max_eq_left
  norm_num [calcqlInit, rslf, esl, c0, c1, c2, c3, c4, c5, c6, c7, c8,
    tmelt, ep, rd, rv, cp, lv]

/-- C15: scenario 1 at the surface half level of `calcbasestate`.  With
`ps = 1e5` and surface-interpolated values `ssurf = 300`, `qtsurf = 0.01`: the
single-shot estimate `0.01 - rslf(1e5, 300)` is negative, `calcql(300, 0.01,
1e5, 1)` returns `0` (after four passes), the surface part sets
`exh[kstart] = 1` and `thvh[kstart] = 300*(1 - (1 - rv/rd)*0.01)`, which is
also the value in any result of `calcbasestate`, and it lies within `0.01` of
`301.83`. -/
theorem scenario1_surface (extra : Nat) (grid : Grid ℝ) (thlmean qtmean : Int → ℝ)
    (s : BaseState ℝ)
    (hs : interpHalf grid thlmean grid.kstart = some 300)
    (hq : interpHalf grid qtmean grid.kstart = some 0.01) :
    (0.01 : ℝ) - rslf 1e5 300 < 0 ∧
    calcql (4 + 1 + extra) (300 : ℝ) 0.01 1e5 1 = some 0 ∧
    (∃ t1, basestateSurface Real.rpow (4 + 1 + extra) grid 1e5 thlmean qtmean s = some t1 ∧
      t1.exh grid.kstart = 1 ∧ t1.thvh grid.kstart = 300 * (1 - (1 - rv/rd) * 0.01)) ∧
    (∀ t, calcbasestate Real.rpow (4 + 1 + extra) grid 1e5 thlmean qtmean s = some t →
      t.thvh grid.kstart = 300 * (1 - (1 - rv/rd) * 0.01)) ∧
    |(300 : ℝ) * (1 - (1 - rv/rd) * 0.01) - 301.83| ≤ 0.01 := by
  have hc : calcql (4 + 1 + extra) (300 : ℝ) 0.01 1e5 1 = some 0 := calcql_scenario1 extra
  have hsurf : ∃ t1, basestateSurface Real.rpow (4 + 1 + extra) grid 1e5 thlmean qtmean s
      = some t1 ∧ t1.exh grid.kstart = 1 ∧
      t1.thvh grid.kstart = 300 * (1 - (1 - rv/rd) * 0.01) := by
    unfold basestateSurface
    simp only [hs, hq, Function.update_same, exn_p0, hc, mul_zero, zero_div, add_zero,
      sub_zero]
    exact ⟨_, rfl, by simp only [Function.update_same], by simp only [Function.update_same]⟩
  refine ⟨?_, hc, hsurf, ?_, ?_⟩
  · norm_num [rslf, esl, c0, c1, c2, c3, c4, c5, c6, c7, c8, tmelt, ep, rd, rv]
  · intro t ht
    obtain ⟨t1, h1, h2, h3⟩ := hsurf
    obtain ⟨u, hu, hv, -⟩ :=
      calcbasestate_surface Real.rpow _ grid 1e5 thlmean qtmean s t ht
    rw [h1] at hu
    cases hu
    rw [hv, h3]
  · rw [abs_le]
    constructor <;> norm_num [rv, rd]

/-- Witness for C15: the one-column grid with `thl = 300` and `qt = 0.01` at
every level. -/
theorem scenario1_surface_witness :
    interpHalf (dryGrid : Grid ℝ) (fun _ => 300) (dryGrid : Grid ℝ).kstart = some 300 ∧
    interpHalf (dryGrid : Grid ℝ) (fun _ => 0.01) (dryGrid : Grid ℝ).kstart = some 0.01 ∧
    (0.01 : ℝ) - rslf 1e5 300 < 0 ∧
    calcql (4 + 1 + 0) (300 : ℝ) 0.01 1e5 1 = some 0 ∧
    (∃ t1, basestateSurface Real.rpow (4 + 1 + 0) dryGrid 1e5 (fun _ => 300) (fun _ => 0.01)
        zeroBaseState = some t1 ∧
      t1.exh (dryGrid : Grid ℝ).kstart = 1 ∧
      t1.thvh (dryGrid : Grid ℝ).kstart = 300 * (1 - (1 - rv/rd) * 0.01)) ∧
    |(300 : ℝ) * (1 - (1 - rv/rd) * 0.01) - 301.83| ≤ 0.01 := by
  have h := scenario1_surface 0 dryGrid (fun _ => 300) (fun _ => 0.01) zeroBaseState
    (interpHalf_dry 300 _) (interpHalf_dry 0.01 _)
  exact ⟨interpHalf_dry 300 _, interpHalf_dry 0.01 _, h.1, h.2.1, h.2.2.1, h.2.2.2.2⟩

/-! ## Initialisation -/

/-- The checked list is the requested list filtered by membership. -/
theorem checkCrosslist_eq_filter (allowed l : List String) :
    checkCrosslist allowed l = l.filter (fun x => decide (x ∈ allowed)) := by
  induction l with
  | nil => rfl
  | cons x rest ih =>
    by_cases hx : x ∈ allowed
    · have hc : allowed.count x ≠ 0 := by
        rw [Ne, List.count_eq_zero]
        exact fun h => h hx
      simp [checkCrosslist, hc, hx, ih]
    · have hc : allowed.count x = 0 := List.count_eq_zero.mpr hx
      simp [checkCrosslist, hc, hx, ih]

/-- C17: after `create()`, `crosslist` is the ascending-sorted sequence of
exactly those requested entries that are allowed names.  The allowed names are
`b`, `bbot`, `bfluxbot`, `ql`, `qlpath`, and `blngrad` if and only if
`swspatialorder` is `"4"`; the result is sorted, is a permutation of the
allowed requested entries, keeps every allowed name with its multiplicity and
contains no other name. -/
theorem createCrosslist_sorted_allowed (grid : Grid K) (crosslist : List String) :
    (∀ x, x ∈ allowedcrossvars grid ↔
      (x = "b" ∨ x = "bbot" ∨ x = "bfluxbot" ∨ x = "ql" ∨ x = "qlpath"
        ∨ (x = "blngrad" ∧ grid.swspatialorder = "4"))) ∧
    (createCrosslist grid crosslist).Sorted (fun a b => a ≤ b) ∧
    (createCrosslist grid crosslist).Perm
      (crosslist.filter (fun x => decide (x ∈ allowedcrossvars grid))) ∧
    (∀ x, x ∈ createCrosslist grid crosslist → x ∈ allowedcrossvars grid) ∧
    (∀ x, x ∈ allowedcrossvars grid →
      (createCrosslist grid crosslist).count x = crosslist.count x) ∧
    (∀ x, x ∉ allowedcrossvars grid → (createCrosslist grid crosslist).count x = 0) := by
  have hperm : (createCrosslist grid crosslist).Perm
      (crosslist.filter (fun x => decide (x ∈ allowedcrossvars grid))) := by
    unfold createCrosslist
    rw [checkCrosslist_eq_filter]
    exact List.perm_insertionSort _ _
  refine ⟨?_, ?_, hperm, ?_, ?_, ?_⟩
  · intro x
    unfold allowedcrossvars
    by_cases h4 : grid.swspatialorder = "4"
    · simp [h4]
      tauto
    · simp [h4]
  · exact List.sorted_insertionSort _ _
  · intro x hx
    have := (hperm.mem_iff).mp hx
    simpa using (List.mem_filter.mp this).2
  · intro x hx
    rw [hperm.count_eq, List.count_filter]
    simpa using hx
  · intro x hx
    rw [hperm.count_eq, List.count_eq_zero]
    intro hmem
    exact hx (by simpa using (List.mem_filter.mp hmem).2)

/-- The surface estimate of `create()` is the line through the two lowest
levels evaluated at height zero. -/
theorem surface_line (z1 z2 y1 y2 d : K) (hd : d = 1 / (z2 - z1)) :
    y1 - z1 * (y2 - y1) * d = lineThrough z1 y1 z2 y2 0 := by
  unfold lineThrough
  rw [hd]
  ring

/-- The top estimate of `create()` is the line through the two highest
levels evaluated at the top half level. -/
theorem top_line (z1 z2 y1 y2 d x : K) (hd : d = 1 / (z1 - z2)) :
    y1 + (x - z1) * (y1 - y2) * d = lineThrough z1 y1 z2 y2 x := by
  unfold lineThrough
  rw [hd, ← neg_div_neg_eq (y2 - y1) (z2 - z1), neg_sub, neg_sub]
  ring

/-- C20: mirror extrapolation in `create()`.  With at least two interior
levels and `dzhi[k] = 1/(z[k] - z[k-1])`, the interior levels keep their
values, `thl0[kstart-1] = 2*thl0s - thl0[kstart]` and
`thl0[kend] = 2*thl0t - thl0[kend-1]`, where `thl0s` and `thl0t` are the values
at `z = 0` and at `zh[kend]` of the straight line through the two innermost
interior levels; the same holds for `qt0`, and `interp2` of the lower ghost
value and the first interior value is the extrapolated surface value. -/
theorem create_mirror_extrapolation (grid : Grid K) (thl0 qt0 : Int → K)
    (hk : grid.kstart + 1 < grid.kend)
    (hdzhi : ∀ k, grid.dzhi k = 1 / (grid.z k - grid.z (k-1))) :
    (∀ k, grid.kstart ≤ k → k < grid.kend →
      (createGhost grid thl0 qt0).1 k = thl0 k ∧ (createGhost grid thl0 qt0).2 k = qt0 k) ∧
    (createGhost grid thl0 qt0).1 (grid.kstart-1) =
      2 * lineThrough (grid.z grid.kstart) ((createGhost grid thl0 qt0).1 grid.kstart)
            (grid.z (grid.kstart+1)) ((createGhost grid thl0 qt0).1 (grid.kstart+1)) 0
        - (createGhost grid thl0 qt0).1 grid.kstart ∧
    (createGhost grid thl0 qt0).1 grid.kend =
      2 * lineThrough (grid.z (grid.kend-1)) ((createGhost grid thl0 qt0).1 (grid.kend-1))
            (grid.z (grid.kend-2)) ((createGhost grid thl0 qt0).1 (grid.kend-2)) (grid.zh grid.kend)
        - (createGhost grid thl0 qt0).1 (grid.kend-1) ∧
    (createGhost grid thl0 qt0).2 (grid.kstart-1) =
      2 * lineThrough (grid.z grid.kstart) ((createGhost grid thl0 qt0).2 grid.kstart)
            (grid.z (grid.kstart+1)) ((createGhost grid thl0 qt0).2 (grid.kstart+1)) 0
        - (createGhost grid thl0 qt0).2 grid.kstart ∧
    (createGhost grid thl0 qt0).2 grid.kend =
      2 * lineThrough (grid.z (grid.kend-1)) ((createGhost grid thl0 qt0).2 (grid.kend-1))
            (grid.z (grid.kend-2)) ((createGhost grid thl0 qt0).2 (grid.kend-2)) (grid.zh grid.kend)
        - (createGhost grid thl0 qt0).2 (grid.kend-1) ∧
    interp2 ((createGhost grid thl0 qt0).1 (grid.kstart-1)) ((createGhost grid thl0 qt0).1 grid.kstart)
      = lineThrough (grid.z grid.kstart) (thl0 grid.kstart)
          (grid.z (grid.kstart+1)) (thl0 (grid.kstart+1)) 0 ∧
    interp2 ((createGhost grid thl0 qt0).2 (grid.kstart-1)) ((createGhost grid thl0 qt0).2 grid.kstart)
      = lineThrough (grid.z grid.kstart) (qt0 grid.kstart)
          (grid.z (grid.kstart+1)) (qt0 (grid.kstart+1)) 0 := by
  have hin : ∀ k, grid.kstart ≤ k → k < grid.kend →
      (createGhost grid thl0 qt0).1 k = thl0 k ∧ (createGhost grid thl0 qt0).2 k = qt0 k := by
    intro k h1 h2
    have e1 : k ≠ grid.kend := by omega
    have e2 : k ≠ grid.kstart - 1 := by omega
    simp [createGhost, Function.update_noteq e1, Function.update_noteq e2]
  have hs1 := surface_line (grid.z grid.kstart) (grid.z (grid.kstart+1))
    (thl0 grid.kstart) (thl0 (grid.kstart+1)) (grid.dzhi (grid.kstart+1))
    (by rw [hdzhi, add_sub_cancel_right])
  have hs2 := surface_line (grid.z grid.kstart) (grid.z (grid.kstart+1))
    (qt0 grid.kstart) (qt0 (grid.kstart+1)) (grid.dzhi (grid.kstart+1))
    (by rw [hdzhi, add_sub_cancel_right])
  have e21 : grid.kend - 1 - 1 = grid.kend - 2 := by ring
  have ht1 := top_line (grid.z (grid.kend-1)) (grid.z (grid.kend-2))
    (thl0 (grid.kend-1)) (thl0 (grid.kend-2)) (grid.dzhi (grid.kend-1)) (grid.zh grid.kend)
    (by rw [hdzhi, e21])
  have ht2 := top_line (grid.z (grid.kend-1)) (grid.z (grid.kend-2))
    (qt0 (grid.kend-1)) (qt0 (grid.kend-2)) (grid.dzhi (grid.kend-1)) (grid.zh grid.kend)
    (by rw [hdzhi, e21])
  have a0 := hin grid.kstart le_rfl (by omega)
  have a1 := hin (grid.kstart+1) (by omega) hk
  have b1 := hin (grid.kend-1) (by omega) (by omega)
  have b2 := hin (grid.kend-2) (by omega) (by omega)
  have g1 : grid.kstart - 1 ≠ grid.kend := by omega
  have g2 : grid.kend - 1 ≠ grid.kstart - 1 := by omega
  have lo1 : (createGhost grid thl0 qt0).1 (grid.kstart-1) =
      2 * (thl0 grid.kstart - grid.z grid.kstart * (thl0 (grid.kstart+1) - thl0 grid.kstart)
        * grid.dzhi (grid.kstart+1)) - thl0 grid.kstart := by
    simp [createGhost, Function.update_noteq g1]
  have lo2 : (createGhost grid thl0 qt0).2 (grid.kstart-1) =
      2 * (qt0 grid.kstart - grid.z grid.kstart * (qt0 (grid.kstart+1) - qt0 grid.kstart)
        * grid.dzhi (grid.kstart+1)) - qt0 grid.kstart := by
    simp [createGhost, Function.update_noteq g1]
  have hi1 : (createGhost grid thl0 qt0).1 grid.kend =
      2 * (thl0 (grid.kend-1) + (grid.zh grid.kend - grid.z (grid.kend-1))
        * (thl0 (grid.kend-1) - thl0 (grid.kend-2)) * grid.dzhi (grid.kend-1))
        - thl0 (grid.kend-1) := by
    simp [createGhost, Function.update_noteq g2]
  have hi2 : (createGhost grid thl0 qt0).2 grid.kend =
      2 * (qt0 (grid.kend-1) + (grid.zh grid.kend - grid.z (grid.kend-1))
        * (qt0 (grid.kend-1) - qt0 (grid.kend-2)) * grid.dzhi (grid.kend-1))
        - qt0 (grid.kend-1) := by
    simp [createGhost, Function.update_noteq g2]
  refine ⟨hin, ?_, ?_, ?_, ?_, ?_, ?_⟩
  · rw [lo1, a0.1, a1.1, hs1]
  · rw [hi1, b1.1, b2.1, ht1]
  · rw [lo2, a0.2, a1.2, hs2]
  · rw [hi2, b1.2, b2.2, ht2]
  · rw [lo1, a0.1, hs1]
    unfold interp2
    ring
  · rw [lo2, a0.2, hs2]
    unfold interp2
    ring

/-- Witness for C20 on the test column (two interior levels ten metres apart),
`thl0[k] = 300 + k` and `qt0[k] = k / 1000`. -/
theorem create_mirror_extrapolation_witness :
    ((dryGrid : Grid ℚ).kstart + 1 < (dryGrid : Grid ℚ).kend ∧
      ∀ k, (dryGrid : Grid ℚ).dzhi k = 1 / ((dryGrid : Grid ℚ).z k - (dryGrid : Grid ℚ).z (k-1))) ∧
    (createGhost (dryGrid : Grid ℚ) (fun k => 300 + (k : ℚ)) (fun k => (k : ℚ) / 1000)).1 0 = 300 ∧
    interp2 ((createGhost (dryGrid : Grid ℚ) (fun k => 300 + (k : ℚ)) (fun k => (k : ℚ) / 1000)).1
        ((dryGrid : Grid ℚ).kstart-1))
      ((createGhost (dryGrid : Grid ℚ) (fun k => 300 + (k : ℚ)) (fun k => (k : ℚ) / 1000)).1
        (dryGrid : Grid ℚ).kstart)
      = lineThrough ((dryGrid : Grid ℚ).z (dryGrid : Grid ℚ).kstart) (300 + ((1:Int) : ℚ))
          ((dryGrid : Grid ℚ).z ((dryGrid : Grid ℚ).kstart+1)) (300 + (((1:Int)+1 : Int) : ℚ)) 0 :=
  ⟨⟨by decide, by intro k; simp [dryGrid]; ring_nf⟩,
   by simp [createGhost, dryGrid, Function.update]; norm_num,
   (create_mirror_extrapolation (dryGrid : Grid ℚ) (fun k => 300 + (k : ℚ)) (fun k => (k : ℚ) / 1000)
    (by decide) (by intro k; simp [dryGrid]; ring_nf)).2.2.2.2.2.1⟩

/-! ## The cloud mask of an unsaturated column -/

/-- At `s = 340`, `qt = 0.188`, `p = 1e5`, `exn = 1` the loop of `calcql` stops
after two passes, in every ordered field. -/
theorem calcqlLoop_hot (extra : Nat) :
    calcqlLoop (340 * 1 : K) 0.188 1e5 (2 + 1 + extra) (calcqlInit (340 * 1)) =
      some ((calcqlBody (340 * 1) 0.188 1e5)^[2] (calcqlInit (340 * 1))) := by
  apply calcqlLoop_iter _ _ _ 2 extra
  · intro m hm
    interval_cases m
    · norm_num [calcqlCond, calcqlInit, abs_of_neg]
    · norm_num [calcqlCond, calcqlInit, calcqlBody, rslf, esl, c0, c1, c2, c3, c4, c5, c6, c7,
        c8, tmelt, ep, rd, rv, cp, lv, abs_of_pos, abs_of_neg]
  · norm_num [calcqlCond, calcqlInit, calcqlBody, rslf, esl, c0, c1, c2, c3, c4, c5, c6, c7, c8,
      tmelt, ep, rd, rv, cp, lv, abs_of_pos, abs_of_neg]

/-- The value of `calcql(340, 0.188, 1e5, 1)`. -/
theorem calcql_hot (extra : Nat) :
    calcql (2 + 1 + extra) (340 : K) 0.188 1e5 1
      = some (max 0 (0.188 - rslf 1e5 (calcqlBody (340 * 1) 0.188 1e5 (calcqlInit (340 * 1))).tnr))
    := by
  rw [calcql_of_loop _ _ _ _ _ _ (calcqlLoop_hot extra)]
  simp [calcqlBody]

/-- The value of `calcql(340, 0.188, 1e5, 1)` is positive. -/
theorem calcql_hot_pos :
    (0 : K) < max 0 (0.188 - rslf 1e5 (calcqlBody (340 * 1) 0.188 1e5 (calcqlInit (340 * 1))).tnr)
    := by
  norm_num [calcqlInit, calcqlBody, rslf, esl, c0, c1, c2, c3, c4, c5, c6, c7, c8,
      tmelt, ep, rd, rv, cp, lv]

/-- The input `s = 340`, `qt = 0.188`, `p = 1e5` is unsaturated at the
single-shot estimate. -/
theorem hot_unsaturated : (0.188 : K) ≤ rslf 1e5 (340 * 1) := by
  norm_num [rslf, esl, c0, c1, c2, c3, c4, c5, c6, c7, c8, tmelt, ep, rd, rv]

/-- The Exner function at `1e5`. -/
theorem exn_rpow_1e5 : exn Real.rpow (1e5 : ℝ) = 1 := exn_p0

/-- On the test column, `calcqlfield` writes the value of `calcql` into the
cells of the two interior levels. -/
theorem calcqlfield_hot (extra : Nat) (ql : Int → ℝ) :
    calcqlfield Real.rpow (2 + 1 + extra) dryGrid ql (fun _ => 340) (fun _ => 0.188)
        (fun _ => 1e5)
      = some (Function.update (Function.update ql 1
          (max 0 (0.188 - rslf 1e5 (calcqlBody (340 * 1) 0.188 1e5 (calcqlInit (340 * 1))).tnr)))
          2 (max 0 (0.188 - rslf 1e5 (calcqlBody (340 * 1) 0.188 1e5 (calcqlInit (340 * 1))).tnr)))
    := by
  have h := calcql_hot (K := ℝ) extra
  have e1 : ((3 : Int) - 1).toNat = 2 := by decide
  have e2 : ((1 : Int) - 0).toNat = 1 := by decide
  simp only [calcqlfield, forRangeM, forIJM, dryGrid, e1, e2, forLoopM, qlfieldCell,
    exn_rpow_1e5, h, Option.bind]
  norm_num

/-- On the test column with a single process, a field that is positive in the
cells of the two interior levels gives the counts `nmask[1] = nmask[2] = 1` and
`nmaskh[2] = 1`. -/
theorem calcmaskql_column (ql : Int → K) (h1 : 0 < ql 1) (h2 : 0 < ql 2) (st : MaskState K) :
    (calcmaskql dryGrid singleMaster ql st).nmask 1 = 1 ∧
    (calcmaskql dryGrid singleMaster ql st).nmask 2 = 1 ∧
    (calcmaskql dryGrid singleMaster ql st).nmaskh 2 = 1 := by
  have e1 : ((3 : Int) - 1).toNat = 2 := by decide
  have e2 : ((1 : Int) - 0).toNat = 1 := by decide
  have e3 : ((3 : Int) + 1 - 1).toNat = 3 := by decide
  have h12 : 0 < ql 1 + ql 2 := add_pos h1 h2
  simp [calcmaskql, forRange, forIJ, dryGrid, e1, e2, e3, forLoop, maskqlCell, maskqlCellh,
    singleMaster, Function.update, boolToInt, h1, h2, h12]

/-- C14 (evaluation of the code at the failing input): on the one-column grid
with `s = 340`, `qt = 0.188` and `pref = 1e5` at every cell and level, a single
process and `pow` the real power, every cell is unsaturated at the
single-shot estimate (`qt[ijk] ≤ rslf(p[k], s[ijk]*exn(p[k]))`), yet with any
fuel of at least three passes the `getmask` path for `"ql"` (`calcqlfield`,
then `calcmaskql`) returns with `nmask[1] = 1`, `nmask[2] = 1` and
`nmaskh[2] = 1` instead of `0`. -/
theorem getmask_unsaturated_cloud :
    (∀ ijk k : Int,
      ((columnState 0 340 0.188 1e5 : ThermoState ℝ).s "qt").data ijk
        ≤ rslf ((columnState 0 340 0.188 1e5 : ThermoState ℝ).pref k)
            (((columnState 0 340 0.188 1e5 : ThermoState ℝ).s "s").data ijk
              * exn Real.rpow ((columnState 0 340 0.188 1e5 : ThermoState ℝ).pref k))) ∧
    ∀ extra, ∃ r : ThermoState ℝ × MaskState ℝ × Int,
      getmask Real.rpow (2 + 1 + extra) dryGrid singleMaster (fun prof _ _ => prof)
        "ql" (columnState 0 340 0.188 1e5) zeroMaskState = some r ∧
      r.2.2 = 0 ∧ r.2.1.nmask 1 = 1 ∧ r.2.1.nmask 2 = 1 ∧ r.2.1.nmaskh 2 = 1 := by
  have hpos := calcql_hot_pos (K := ℝ)
  have hm := calcmaskql_column
    (Function.update (Function.update (fun _ => (0 : ℝ)) 1
      (max 0 (0.188 - rslf 1e5 (calcqlBody (340 * 1) 0.188 1e5 (calcqlInit (340 * 1))).tnr)))
      2 (max 0 (0.188 - rslf 1e5 (calcqlBody (340 * 1) 0.188 1e5 (calcqlInit (340 * 1))).tnr)))
    (by simpa [Function.update] using hpos) (by simpa [Function.update] using hpos)
    zeroMaskState
  refine ⟨?_, fun extra => ?_⟩
  · intro ijk k
    simp only [columnState, show ("qt" = "s") = False from by decide, if_false, if_true,
      exn_rpow_1e5]
    exact hot_unsaturated
  · have hf := calcqlfield_hot extra (fun _ => (0 : ℝ))
    simp only [getmask, columnState, if_true]
    simp only [show ("tmp1" = "s") = False from by decide,
      show ("tmp1" = "qt") = False from by decide,
      show ("qt" = "s") = False from by decide, if_false, if_true, hf]
    refine ⟨_, rfl, rfl, ?_⟩
    simpa only [Function.update_same] using hm

/-! ## The base state update in `exec` and `getthermofield` -/

/-- Without the switch the shared statement does nothing. -/
theorem updateBasestate_off (pw : K → K → K) (fuel : Nat) (grid : Grid K) (st : ThermoState K)
    (h : st.swupdatebasestate = 0) : updateBasestate pw fuel grid st = some st := by
  simp [updateBasestate, h]

/-- With the switch set, the shared statement replaces `pref`, `prefh`,
`exnref`, `exnrefh` by the result of `calcbasestate` and writes the other four
profiles into `tmp2`; nothing else changes. -/
theorem updateBasestate_on (pw : K → K → K) (fuel : Nat) (grid : Grid K) (st st1 : ThermoState K)
    (hsw : st.swupdatebasestate ≠ 0) (h : updateBasestate pw fuel grid st = some st1) :
    ∃ bs, calcbasestate pw fuel grid st.ps (st.s "s").datamean (st.s "qt").datamean
        (basestateArgs grid st) = some bs ∧
      st1.pref = bs.pref ∧ st1.prefh = bs.prefh ∧ st1.exnref = bs.ex ∧ st1.exnrefh = bs.exh ∧
      st1.thvref = st.thvref ∧ st1.thvrefh = st.thvrefh ∧
      st1.rhoref = st.rhoref ∧ st1.rhorefh = st.rhorefh ∧ st1.wt = st.wt ∧
      (∀ key, key ≠ "tmp2" → st1.s key = st.s key) ∧
      (st1.s "tmp2").data = unsliceAt (unsliceAt (unsliceAt (unsliceAt (st.s "tmp2").data
          (0*grid.kcells) grid.kcells bs.rho) (1*grid.kcells) grid.kcells bs.rhoh)
          (2*grid.kcells) grid.kcells bs.thv) (3*grid.kcells) grid.kcells bs.thvh := by
  simp only [updateBasestate, hsw, ne_eq, not_false_eq_true, if_true] at h
  split at h
  · simp at h
  · rename_i bs hbs
    simp only [Option.some.injEq] at h
    subst h
    refine ⟨bs, hbs, rfl, rfl, rfl, rfl, rfl, rfl, rfl, rfl, rfl, ?_, ?_⟩
    · intro key hkey
      simp only [Function.update_noteq hkey]
    · simp only [Function.update_same]

/-- The shared statement changes no field other than `tmp2`, and none of
`thvref`, `thvrefh`, `rhoref`, `rhorefh`. -/
theorem updateBasestate_frame (pw : K → K → K) (fuel : Nat) (grid : Grid K)
    (st st1 : ThermoState K) (h : updateBasestate pw fuel grid st = some st1) :
    st1.thvref = st.thvref ∧ st1.thvrefh = st.thvrefh ∧
    st1.rhoref = st.rhoref ∧ st1.rhorefh = st.rhorefh ∧
    (∀ key, key ≠ "tmp2" → st1.s key = st.s key) := by
  by_cases hsw : st.swupdatebasestate = 0
  · rw [updateBasestate_off pw fuel grid st hsw] at h
    simp only [Option.some.injEq] at h
    subst h
    exact ⟨rfl, rfl, rfl, rfl, fun _ _ => rfl⟩
  · obtain ⟨bs, -, -, -, -, -, a1, a2, a3, a4, -, a5, -⟩ :=
      updateBasestate_on pw fuel grid st st1 hsw h
    exact ⟨a1, a2, a3, a4, a5⟩

/-- What `exec` does after the shared statement changes none of the profiles. -/
theorem exec_profiles (pw : K → K → K) (fuel : Nat) (grid : Grid K) (st st2 : ThermoState K)
    (r : Int) (h : exec pw fuel grid st = some (st2, r)) :
    ∃ st1, updateBasestate pw fuel grid st = some st1 ∧
      st2.pref = st1.pref ∧ st2.prefh = st1.prefh ∧ st2.exnref = st1.exnref ∧
      st2.exnrefh = st1.exnrefh ∧ st2.thvref = st1.thvref ∧ st2.thvrefh = st1.thvrefh ∧
      st2.rhoref = st1.rhoref ∧ st2.rhorefh = st1.rhorefh := by
  unfold exec at h
  split at h
  · simp at h
  · rename_i st1 hu
    refine ⟨st1, hu, ?_⟩
    simp only at h
    split at h
    · split at h
      · simp at h
      · simp only [Option.some.injEq, Prod.mk.injEq] at h
        obtain ⟨h, -⟩ := h
        subst h
        exact ⟨rfl, rfl, rfl, rfl, rfl, rfl, rfl, rfl⟩
    · split at h
      · split at h
        · simp at h
        · simp only [Option.some.injEq, Prod.mk.injEq] at h
          obtain ⟨h, -⟩ := h
          subst h
          exact ⟨rfl, rfl, rfl, rfl, rfl, rfl, rfl, rfl⟩
      · simp only [Option.some.injEq, Prod.mk.injEq] at h
        obtain ⟨h, -⟩ := h
        subst h
        exact ⟨rfl, rfl, rfl, rfl, rfl, rfl, rfl, rfl⟩

/-- What `getthermofield` does after the shared statement changes none of the
profiles, and the returned value tells whether the name is supported. -/
theorem getthermofield_profiles (pw : K → K → K) (fuel : Nat) (grid : Grid K)
    (fld tmp name : String) (st st2 : ThermoState K) (r : Int)
    (h : getthermofield pw fuel grid fld tmp name st = some (st2, r)) :
    ∃ st1, updateBasestate pw fuel grid st = some st1 ∧
      st2.pref = st1.pref ∧ st2.prefh = st1.prefh ∧ st2.exnref = st1.exnref ∧
      st2.exnrefh = st1.exnrefh ∧ st2.thvref = st1.thvref ∧ st2.thvrefh = st1.thvrefh ∧
      st2.rhoref = st1.rhoref ∧ st2.rhorefh = st1.rhorefh ∧
      ((name = "b" ∨ name = "ql" ∨ name = "N2") ∧ r = 0 ∨
        (name ≠ "b" ∧ name ≠ "ql" ∧ name ≠ "N2") ∧ r = 1 ∧ st2 = st1) := by
  unfold getthermofield at h
  split at h
  · simp at h
  · rename_i st1 hu
    refine ⟨st1, hu, ?_⟩
    simp only at h
    split at h
    · rename_i hb
      split at h
      · simp at h
      · simp only [Option.some.injEq, Prod.mk.injEq] at h
        obtain ⟨h, hr⟩ := h
        subst h
        exact ⟨rfl, rfl, rfl, rfl, rfl, rfl, rfl, rfl, Or.inl ⟨Or.inl hb, hr.symm⟩⟩
    · rename_i hb
      split at h
      · rename_i hq
        split at h
        · simp at h
        · simp only [Option.some.injEq, Prod.mk.injEq] at h
          obtain ⟨h, hr⟩ := h
          subst h
          exact ⟨rfl, rfl, rfl, rfl, rfl, rfl, rfl, rfl, Or.inl ⟨Or.inr (Or.inl hq), hr.symm⟩⟩
      · rename_i hq
        split at h
        · rename_i hn
          simp only [Option.some.injEq, Prod.mk.injEq] at h
          obtain ⟨h, hr⟩ := h
          subst h
          exact ⟨rfl, rfl, rfl, rfl, rfl, rfl, rfl, rfl,
            Or.inl ⟨Or.inr (Or.inr hn), hr.symm⟩⟩
        · rename_i hn
          simp only [Option.some.injEq, Prod.mk.injEq] at h
          obtain ⟨h, hr⟩ := h
          subst h
          exact ⟨rfl, rfl, rfl, rfl, rfl, rfl, rfl, rfl, Or.inr ⟨⟨hb, hq, hn⟩, hr.symm, rfl⟩⟩

/-- The saturation mixing ratio of a cold parcel near the reference pressure is
positive. -/
theorem rslf_cold_pos (p ex : K) (hp : 95000 ≤ p) (hex1 : ex ≤ 1) :
    0 < rslf p (190 * ex) := by
  have ht : (190 * ex : K) ≤ 193.15 := by linarith
  have hes : esl (190 * ex : K) = 0.109472054016 := esl_clamped _ ht
  have hden : (94999 : K) ≤ p - (1 - ep) * 0.109472054016 := by
    have : ((1 : K) - ep) * 0.109472054016 ≤ 1 := by norm_num [ep, rd, rv]
    linarith
  rw [rslf, hes]
  exact div_pos (by norm_num [ep, rd, rv]) (by linarith)

/-- The second-order tendency kernel returns on the dry column whenever the
half-level pressure of level `2` is near the reference pressure. -/
theorem tend2_cold_run (fuel : Nat) (ph thvrefh : Int → ℝ) (ts : TendState ℝ)
    (hp : 95000 ≤ ph 2) (he1 : exn Real.rpow (ph 2) ≤ 1) :
    ∃ r, calcbuoyancytend_2nd Real.rpow fuel dryGrid (fun _ => (190 : ℝ)) (fun _ => 0)
      ph thvrefh ts = some r := by
  have e1 : ((3 : Int) - (1 + 1)).toNat = 1 := by decide
  have e2 : ((1 : Int) - 0).toNat = 1 := by decide
  have h3 : interp2 (190 : ℝ) 190 = 190 := by norm_num [interp2]
  have h0 : interp2 (0 : ℝ) 0 = 0 := by norm_num [interp2]
  have hneg : ¬ ((0 : ℝ) - rslf (ph (1 + 1)) (190 * exn Real.rpow (ph (1 + 1))) > 0) := by
    have e : (1 : Int) + 1 = 2 := rfl
    rw [e]
    have := rslf_cold_pos (ph 2) (exn Real.rpow (ph 2)) hp he1
    rw [gt_iff_lt, not_lt]
    linarith
  simp only [calcbuoyancytend_2nd, dryGrid, forRangeM, forLoopM, tendLevel, forIJ, forIJM,
    forRange, forLoop, e1, e2, tendEstimate_2nd, tendSolve, Function.update_same,
    h3, h0, hneg, if_false, Option.some_bind]
  exact ⟨_, rfl⟩

/-- The arrays that `exec` and `getthermofield` hand to `calcbasestate` on the
dry test state. -/
theorem basestateArgs_dry : basestateArgs dryGrid (dryState : ThermoState ℝ) = zeroBaseState := by
  simp only [basestateArgs, dryState, columnState, zeroBaseState, sliceAt,
    show ("tmp2" = "s") = False from by decide, show ("tmp2" = "qt") = False from by decide,
    if_false]
  rfl

/-- The half-level pressure of level `2` of the dry column has an Exner
function just below one. -/
theorem calcbasestate_dry_prefh (fuel : Nat) (bs : BaseState ℝ)
    (h : calcbasestate Real.rpow fuel dryGrid 1e5 (fun _ => 190) (fun _ => 0)
      zeroBaseState = some bs) (hthv : bs.thv 1 = 190) :
    exn Real.rpow (bs.prefh 2) = 1 - grav * (10 / (cp * 190)) := by
  obtain ⟨a1, -, a3, -⟩ := calcbasestate_equations Real.rpow fuel dryGrid 1e5 _ _ _ bs
    (by decide) h
  have hk1 : (dryGrid : Grid ℝ).kstart = 1 := rfl
  have a := a3 2 (by decide) (by decide)
  have e : (2 : Int) - 1 = 1 := rfl
  rw [hk1] at a1
  rw [e, a1, hthv] at a
  have hdz : (dryGrid : Grid ℝ).dz 1 = 10 := rfl
  rw [hdz, mul_div_assoc] at a
  have hB : 0 < (1e5 : ℝ) ^ (rd/cp : ℝ) - grav * p0 ^ (rd/cp : ℝ) * (10 / (cp * 190)) :=
    base_pos_of_exn _ _ (by norm_num) (by rw [exn_p0]; norm_num [grav, cp])
  have hx := exn_step (1e5 : ℝ) (10 / (cp * 190)) (by norm_num) hB
  rw [exn_p0] at hx
  rw [a]
  linarith

/-- On the dry test state the shared statement returns; the result holds the
profiles of `calcbasestate`. -/
theorem updateBasestate_dry (fuel : Nat) :
    ∃ st1 bs, updateBasestate Real.rpow (fuel + 2) dryGrid (dryState : ThermoState ℝ) = some st1 ∧
      calcbasestate Real.rpow (fuel + 2) dryGrid 1e5 (fun _ => 190) (fun _ => 0)
        zeroBaseState = some bs ∧
      st1.prefh = bs.prefh ∧ st1.pref = bs.pref ∧
      (st1.s "s").data = (fun _ => 190) ∧ (st1.s "qt").data = (fun _ => 0) ∧
      (st1.s "tmp2").data 16 = 190 ∧
      95000 ≤ bs.prefh 2 ∧ exn Real.rpow (bs.prefh 2) ≤ 1 := by
  obtain ⟨bs, hbs, a1, a2, a3, a4, a5, a6, a7, a8, a9, a10⟩ := calcbasestate_dry fuel
  have hx := calcbasestate_dry_prefh (fuel + 2) bs hbs a3
  have hd0 : (0 : ℝ) ≤ grav * (10 / (cp * 190)) := by norm_num [grav, cp]
  have hs : ((dryState : ThermoState ℝ).s "s").datamean = fun _ => 190 := by
    simp [dryState, columnState]
  have hq : ((dryState : ThermoState ℝ).s "qt").datamean = fun _ => 0 := by
    simp [dryState, columnState]
  have hps : (dryState : ThermoState ℝ).ps = 1e5 := rfl
  have hsw : (dryState : ThermoState ℝ).swupdatebasestate ≠ 0 := by
    simp [dryState, columnState]
  simp only [updateBasestate, hsw, ne_eq, not_false_eq_true, if_true, basestateArgs_dry,
    hs, hq, hps, hbs]
  refine ⟨_, bs, rfl, rfl, rfl, rfl, ?_, ?_, ?_, pressure_ge_of_exn _ a6.le a9, by linarith⟩
  · simp [dryState, columnState, Function.update]
  · simp [dryState, columnState, Function.update]
  · simp only [Function.update_same, unsliceAt, dryGrid]
    norm_num
    exact a1

/-- On the dry test state `exec` returns. -/
theorem exec_dry_run (fuel : Nat) :
    ∃ st2 r, exec Real.rpow (fuel + 2) dryGrid (dryState : ThermoState ℝ) = some (st2, r) := by
  obtain ⟨st1, bs, hu, -, e1, -, e3, e4, -, hp, hx⟩ := updateBasestate_dry fuel
  have ho : (dryGrid : Grid ℝ).swspatialorder = "2" := rfl
  unfold exec
  simp only [hu, ho, if_true, e3, e4]
  obtain ⟨r, hr⟩ := tend2_cold_run (fuel + 2) st1.prefh st1.thvrefh
    { wt := st1.wt
      sh := sliceAt (st1.s "tmp2").data (0 * ((dryGrid : Grid ℝ).icells * (dryGrid : Grid ℝ).jcells))
      qth := sliceAt (st1.s "tmp2").data (1 * ((dryGrid : Grid ℝ).icells * (dryGrid : Grid ℝ).jcells))
      ql := sliceAt (st1.s "tmp2").data (2 * ((dryGrid : Grid ℝ).icells * (dryGrid : Grid ℝ).jcells)) }
    (by rw [e1]; exact hp) (by rw [e1]; exact hx)
  rw [hr]
  exact ⟨_, _, rfl⟩

/-- C19: recomputing the base state does not overwrite the reference density
and virtual-potential-temperature profiles.  When `swupdatebasestate` is set,
every return of `exec()` and of `getthermofield()` leaves `thvref`, `thvrefh`,
`fields->rhoref` and `fields->rhorefh` unchanged, while `pref`, `prefh`,
`exnref` and `exnrefh` are the corresponding profiles of the result of
`calcbasestate` run on the current horizontal means of `s` and `qt`. -/
theorem basestate_update_keeps_reference (pw : K → K → K) (fuel : Nat) (grid : Grid K)
    (st : ThermoState K) (fld tmp name : String) (hsw : st.swupdatebasestate ≠ 0) :
    (∀ st2 r, exec pw fuel grid st = some (st2, r) →
      st2.thvref = st.thvref ∧ st2.thvrefh = st.thvrefh ∧
      st2.rhoref = st.rhoref ∧ st2.rhorefh = st.rhorefh ∧
      ∃ bs, calcbasestate pw fuel grid st.ps (st.s "s").datamean (st.s "qt").datamean
          (basestateArgs grid st) = some bs ∧
        st2.pref = bs.pref ∧ st2.prefh = bs.prefh ∧ st2.exnref = bs.ex ∧ st2.exnrefh = bs.exh) ∧
    (∀ st2 r, getthermofield pw fuel grid fld tmp name st = some (st2, r) →
      st2.thvref = st.thvref ∧ st2.thvrefh = st.thvrefh ∧
      st2.rhoref = st.rhoref ∧ st2.rhorefh = st.rhorefh ∧
      ∃ bs, calcbasestate pw fuel grid st.ps (st.s "s").datamean (st.s "qt").datamean
          (basestateArgs grid st) = some bs ∧
        st2.pref = bs.pref ∧ st2.prefh = bs.prefh ∧ st2.exnref = bs.ex ∧ st2.exnrefh = bs.exh) := by
  constructor
  · intro st2 r h
    obtain ⟨st1, hu, p1, p2, p3, p4, p5, p6, p7, p8⟩ := exec_profiles pw fuel grid st st2 r h
    obtain ⟨bs, hbs, q1, q2, q3, q4, q5, q6, q7, q8, -⟩ :=
      updateBasestate_on pw fuel grid st st1 hsw hu
    exact ⟨p5.trans q5, p6.trans q6, p7.trans q7, p8.trans q8, bs, hbs,
      p1.trans q1, p2.trans q2, p3.trans q3, p4.trans q4⟩
  · intro st2 r h
    obtain ⟨st1, hu, p1, p2, p3, p4, p5, p6, p7, p8, -⟩ :=
      getthermofield_profiles pw fuel grid fld tmp name st st2 r h
    obtain ⟨bs, hbs, q1, q2, q3, q4, q5, q6, q7, q8, -⟩ :=
      updateBasestate_on pw fuel grid st st1 hsw hu
    exact ⟨p5.trans q5, p6.trans q6, p7.trans q7, p8.trans q8, bs, hbs,
      p1.trans q1, p2.trans q2, p3.trans q3, p4.trans q4⟩

/-- Witness for C19: on the dry test state, whose switch is set, `exec`
returns and its result has the stated profiles. -/
theorem basestate_update_keeps_reference_witness :
    (dryState : ThermoState ℝ).swupdatebasestate ≠ 0 ∧
    ∃ st2 r, exec Real.rpow 2 dryGrid (dryState : ThermoState ℝ) = some (st2, r) ∧
      st2.thvref = (dryState : ThermoState ℝ).thvref ∧
      st2.thvrefh = (dryState : ThermoState ℝ).thvrefh ∧
      st2.rhoref = (dryState : ThermoState ℝ).rhoref ∧
      st2.rhorefh = (dryState : ThermoState ℝ).rhorefh ∧
      ∃ bs, calcbasestate Real.rpow 2 dryGrid (dryState : ThermoState ℝ).ps
          ((dryState : ThermoState ℝ).s "s").datamean ((dryState : ThermoState ℝ).s "qt").datamean
          (basestateArgs dryGrid dryState) = some bs ∧
        st2.pref = bs.pref ∧ st2.prefh = bs.prefh ∧ st2.exnref = bs.ex ∧ st2.exnrefh = bs.exh := by
  have hsw : (dryState : ThermoState ℝ).swupdatebasestate ≠ 0 := by
    simp [dryState, columnState]
  obtain ⟨st2, r, h⟩ := exec_dry_run 0
  exact ⟨hsw, st2, r, h,
    (basestate_update_keeps_reference Real.rpow 2 dryGrid dryState "tmp1" "tmp2" "b" hsw).1
      st2 r h⟩

/-- C18 (counterexample): on the dry test state, whose switch
`swupdatebasestate` is set, `getthermofield` called with the unsupported name
`"xx"` and with `fields->s["tmp2"]` as the output field `fld` returns `1`, yet
`fld->data[16]`, which was `0`, is now `190`: the base state update has written
its scratch profiles into the output field. -/
theorem getthermofield_unsupported_overwrites :
    ∃ st2, getthermofield Real.rpow 2 dryGrid "tmp2" "tmp1" "xx" (dryState : ThermoState ℝ)
        = some (st2, 1) ∧
      ((dryState : ThermoState ℝ).s "tmp2").data 16 = 0 ∧ (st2.s "tmp2").data 16 = 190 ∧
      (st2.s "tmp2").data ≠ ((dryState : ThermoState ℝ).s "tmp2").data := by
  obtain ⟨st1, bs, hu, -, -, -, -, -, e5, -, -⟩ := updateBasestate_dry 0
  have h0 : ((dryState : ThermoState ℝ).s "tmp2").data 16 = 0 := by
    simp [dryState, columnState]
  refine ⟨st1, ?_, h0, e5, ?_⟩
  · unfold getthermofield
    simp only [hu, show ("xx" = "b") = False from by decide,
      show ("xx" = "ql") = False from by decide, show ("xx" = "N2") = False from by decide,
      if_false]
  · intro h
    have := congrFun h 16
    rw [e5, h0] at this
    norm_num at this

/-- C18 (amended): whenever `getthermofield` returns, it returns `1` exactly
when `name` is none of `"b"`, `"ql"`, `"N2"` and `0` for those three.  For an
unsupported name it returns `1` whenever the base state update returns, and
always when `swupdatebasestate` is off; for `"N2"` with the switch off it
always returns `0`.  When it returns `1`, every field other than the scratch
field `tmp2` is unchanged, so the output field `fld` is unchanged provided it
is not `tmp2`; with the switch off the whole state is unchanged. -/
theorem getthermofield_unsupported (pw : K → K → K) (fuel : Nat) (grid : Grid K)
    (fld tmp name : String) (st : ThermoState K) :
    (∀ st2 r, getthermofield pw fuel grid fld tmp name st = some (st2, r) →
      (r = 1 ↔ (name ≠ "b" ∧ name ≠ "ql" ∧ name ≠ "N2")) ∧
      (r = 0 ↔ (name = "b" ∨ name = "ql" ∨ name = "N2"))) ∧
    ((name ≠ "b" ∧ name ≠ "ql" ∧ name ≠ "N2") →
      getthermofield pw fuel grid fld tmp name st
        = (updateBasestate pw fuel grid st).map (fun st1 => (st1, 1))) ∧
    ((name ≠ "b" ∧ name ≠ "ql" ∧ name ≠ "N2") → st.swupdatebasestate = 0 →
      getthermofield pw fuel grid fld tmp name st = some (st, 1)) ∧
    (name = "N2" → st.swupdatebasestate = 0 →
      ∃ st2, getthermofield pw fuel grid fld tmp name st = some (st2, 0)) ∧
    (∀ st2, getthermofield pw fuel grid fld tmp name st = some (st2, 1) →
      (∀ key, key ≠ "tmp2" → st2.s key = st.s key) ∧
      (fld ≠ "tmp2" → st2.s fld = st.s fld) ∧
      (st.swupdatebasestate = 0 → st2 = st)) := by
  have hun : (name ≠ "b" ∧ name ≠ "ql" ∧ name ≠ "N2") →
      getthermofield pw fuel grid fld tmp name st
        = (updateBasestate pw fuel grid st).map (fun st1 => (st1, 1)) := by
    rintro ⟨hb, hq, hn⟩
    unfold getthermofield
    cases updateBasestate pw fuel grid st with
    | none => rfl
    | some st1 => simp [hb, hq, hn]
  refine ⟨?_, hun, ?_, ?_, ?_⟩
  · intro st2 r h
    obtain ⟨st1, -, -, -, -, -, -, -, -, -, hc⟩ :=
      getthermofield_profiles pw fuel grid fld tmp name st st2 r h
    rcases hc with ⟨hs, hr⟩ | ⟨⟨hb, hq, hn⟩, hr, -⟩
    · subst hr
      refine ⟨⟨fun h01 => absurd h01 (by decide), fun hnn => ?_⟩, ⟨fun _ => hs, fun _ => rfl⟩⟩
      rcases hs with h | h | h
      · exact absurd h hnn.1
      · exact absurd h hnn.2.1
      · exact absurd h hnn.2.2
    · subst hr
      refine ⟨⟨fun _ => ⟨hb, hq, hn⟩, fun _ => rfl⟩, ⟨fun h10 => absurd h10 (by decide), fun hs => ?_⟩⟩
      rcases hs with h | h | h
      · exact absurd h hb
      · exact absurd h hq
      · exact absurd h hn
  · intro hnn hsw
    rw [hun hnn, updateBasestate_off pw fuel grid st hsw]
    rfl
  · intro hn hsw
    subst hn
    unfold getthermofield
    rw [updateBasestate_off pw fuel grid st hsw]
    simp only [show ("N2" = "b") = False from by decide,
      show ("N2" = "ql") = False from by decide, if_false, if_true]
    exact ⟨_, rfl⟩
  · intro st2 h
    obtain ⟨st1, hu, -, -, -, -, -, -, -, -, hc⟩ :=
      getthermofield_profiles pw fuel grid fld tmp name st st2 1 h
    rcases hc with ⟨-, hr⟩ | ⟨-, -, h21⟩
    · exact absurd hr (by decide)
    · subst h21
      obtain ⟨-, -, -, -, hk⟩ := updateBasestate_frame pw fuel grid st st2 hu
      refine ⟨hk, fun hf => hk fld hf, fun hsw => ?_⟩
      rw [updateBasestate_off pw fuel grid st hsw] at hu
      exact (Option.some.inj hu).symm

/-- Witness for C18: on the dry test state `getthermofield` called with the
unsupported name `"xx"` and the output field `fields->s["tmp1"]` returns `1`
and leaves that field unchanged. -/
theorem getthermofield_unsupported_witness :
    ∃ st2, getthermofield Real.rpow 2 dryGrid "tmp1" "tmp2" "xx" (dryState : ThermoState ℝ)
        = some (st2, 1) ∧ st2.s "tmp1" = (dryState : ThermoState ℝ).s "tmp1" := by
  obtain ⟨st1, bs, hu, -⟩ := updateBasestate_dry 0
  obtain ⟨-, h2, -, -, h5⟩ :=
    getthermofield_unsupported Real.rpow 2 dryGrid "tmp1" "tmp2" "xx" (dryState : ThermoState ℝ)
  have hg := h2 ⟨by decide, by decide, by decide⟩
  rw [hu] at hg
  exact ⟨st1, hg, (h5 st1 hg).2.1 (by decide)⟩

/-! ## Partition invariance of the mask counts -/

/-- The counts of the two counting loops of `calcmaskql`, as sums over the
interior cells. -/
theorem calcmaskqlCount_spec (grid : Grid K) (hwf : grid.WellFormed) (ql : Int → K)
    (st : MaskState K) :
    (∀ k, grid.kstart ≤ k → k < grid.kend →
      (calcmaskqlCount grid ql st).nmask k
        = ∑ j in Finset.Ico grid.jstart grid.jend, ∑ i in Finset.Ico grid.istart grid.iend,
            boolToInt (decide (ql (i + j * grid.icells + k * grid.ijcells) > 0))) ∧
    (∀ k, grid.kstart ≤ k → k < grid.kend + 1 →
      (calcmaskqlCount grid ql st).nmaskh k
        = ∑ j in Finset.Ico grid.jstart grid.jend, ∑ i in Finset.Ico grid.istart grid.iend,
            boolToInt (decide (ql (i + j * grid.icells + k * grid.ijcells - grid.ijcells)
              + ql (i + j * grid.icells + k * grid.ijcells) > 0))) := by
  obtain ⟨-, a2, -, -⟩ := maskqlLoop_spec grid hwf ql grid.kstart grid.kend st
  obtain ⟨-, b2, -, b4⟩ := maskqlLooph_spec grid hwf ql grid.kstart (grid.kend + 1)
    (forRange grid.kstart grid.kend (fun k t => forIJ grid (maskqlCell grid ql k)
      { t with nmask := Function.update t.nmask k 0 }) st)
  constructor
  · intro k h1 h2
    simp only [calcmaskqlCount]
    rw [b4]
    exact a2 k h1 h2
  · intro k h1 h2
    simp only [calcmaskqlCount]
    exact b2 k h1 h2

/-- The kernel `calcmaskql` reduces the counts of its two counting loops. -/
theorem calcmaskql_counts (grid : Grid K) (master : Master) (ql : Int → K) (st : MaskState K) :
    (calcmaskql grid master ql st).nmask
      = master.sum (calcmaskqlCount grid ql st).nmask grid.kcells ∧
    (∀ k, k ≠ grid.kstart → k ≠ grid.kend →
      (calcmaskql grid master ql st).nmaskh k
        = master.sum (calcmaskqlCount grid ql st).nmaskh grid.kcells k) := by
  constructor
  · rfl
  · intro k h1 h2
    simp only [calcmaskql, calcmaskqlCount, Function.update_noteq h2, Function.update_noteq h1]

/-- A sum over the interior cells of all sub-domains is the sum over the
interior cells of the whole domain. -/
theorem sum_partition {P : Type} (procs : Finset P) (G : Grid K) (g : P → Grid K)
    (cellOf : P → Int → Int → Int × Int) (hpart : IsPartition procs G g cellOf)
    (F : Int → Int → Int) :
    ∑ p in procs, ∑ j in Finset.Ico (g p).jstart (g p).jend,
        ∑ i in Finset.Ico (g p).istart (g p).iend, F (cellOf p i j).1 (cellOf p i j).2
      = ∑ J in Finset.Ico G.jstart G.jend, ∑ I in Finset.Ico G.istart G.iend, F I J := by
  have e1 : ∀ p, (∑ j in Finset.Ico (g p).jstart (g p).jend,
        ∑ i in Finset.Ico (g p).istart (g p).iend, F (cellOf p i j).1 (cellOf p i j).2)
      = ∑ c in (Finset.Ico (g p).jstart (g p).jend) ×ˢ (Finset.Ico (g p).istart (g p).iend),
          F (cellOf p c.2 c.1).1 (cellOf p c.2 c.1).2 := by
    intro p
    rw [Finset.sum_product]
  have e2 : (∑ J in Finset.Ico G.jstart G.jend, ∑ I in Finset.Ico G.istart G.iend, F I J)
      = ∑ c in (Finset.Ico G.jstart G.jend) ×ˢ (Finset.Ico G.istart G.iend), F c.2 c.1 := by
    rw [Finset.sum_product]
  simp only [e1]
  rw [e2]
  refine Eq.trans (Finset.sum_sigma procs
    (fun p => (Finset.Ico (g p).jstart (g p).jend) ×ˢ (Finset.Ico (g p).istart (g p).iend))
    (fun x : (_ : P) × (Int × Int) =>
      F (cellOf x.1 x.2.2 x.2.1).1 (cellOf x.1 x.2.2 x.2.1).2)).symm ?_
  apply Finset.sum_bij
    (fun (x : (_ : P) × (Int × Int)) _ => ((cellOf x.1 x.2.2 x.2.1).2, (cellOf x.1 x.2.2 x.2.1).1))
  · intro x hx
    simp only [Finset.mem_sigma, Finset.mem_product, Finset.mem_Ico] at hx
    obtain ⟨hp, ⟨hj1, hj2⟩, hi1, hi2⟩ := hx
    have := hpart.interior x.1 hp x.2.2 x.2.1 ⟨hi1, hi2, hj1, hj2⟩
    simp only [Finset.mem_product, Finset.mem_Ico]
    exact ⟨⟨this.2.2.1, this.2.2.2⟩, this.1, this.2.1⟩
  · intro x hx y hy hxy
    simp only [Finset.mem_sigma, Finset.mem_product, Finset.mem_Ico] at hx hy
    obtain ⟨hp, ⟨hj1, hj2⟩, hi1, hi2⟩ := hx
    obtain ⟨hq, ⟨hj3, hj4⟩, hi3, hi4⟩ := hy
    simp only [Prod.mk.injEq] at hxy
    have hc : cellOf x.1 x.2.2 x.2.1 = cellOf y.1 y.2.2 y.2.1 := Prod.ext hxy.2 hxy.1
    obtain ⟨h1, h2, h3⟩ := hpart.disjoint x.1 hp y.1 hq x.2.2 x.2.1 y.2.2 y.2.1
      ⟨hi1, hi2, hj1, hj2⟩ ⟨hi3, hi4, hj3, hj4⟩ hc
    obtain ⟨xp, xj, xi⟩ := x
    obtain ⟨yp, yj, yi⟩ := y
    simp only at h1 h2 h3
    subst h1 h2 h3
    rfl
  · intro c hc
    simp only [Finset.mem_product, Finset.mem_Ico] at hc
    obtain ⟨⟨hj1, hj2⟩, hi1, hi2⟩ := hc
    obtain ⟨p, hp, i, j, hij, hcell⟩ := hpart.cover c.2 c.1 ⟨hi1, hi2, hj1, hj2⟩
    refine ⟨⟨p, j, i⟩, ?_, ?_⟩
    · simp only [Finset.mem_sigma, Finset.mem_product, Finset.mem_Ico]
      exact ⟨hp, ⟨hij.2.2.1, hij.2.2.2⟩, hij.1, hij.2.1⟩
    · simp only [hcell]
  · intro x hx
    rfl

/-- The sum over the processes of the local full-level counts is the count of
the whole domain. -/
theorem count_partition {P : Type} (procs : Finset P) (G : Grid K) (g : P → Grid K)
    (cellOf : P → Int → Int → Int × Int) (Q : Int → K) (ql : P → Int → K)
    (st : P → MaskState K)
    (hpart : IsPartition procs G g cellOf) (hres : IsRestriction procs G g cellOf Q ql)
    (k : Int) (h1 : G.kstart ≤ k) (h2 : k < G.kend) :
    ∑ p in procs, (calcmaskqlCount (g p) (ql p) (st p)).nmask k
      = ∑ J in Finset.Ico G.jstart G.jend, ∑ I in Finset.Ico G.istart G.iend,
          boolToInt (decide (Q (I + J * G.icells + k * G.ijcells) > 0)) := by
  rw [← sum_partition procs G g cellOf hpart
    (fun I J => boolToInt (decide (Q (I + J * G.icells + k * G.ijcells) > 0)))]
  apply Finset.sum_congr rfl
  intro p hp
  rw [(calcmaskqlCount_spec (g p) (hpart.wellFormed p hp) (ql p) (st p)).1 k
    (by rw [hpart.kstart_eq p hp]; exact h1) (by rw [hpart.kend_eq p hp]; exact h2)]
  apply Finset.sum_congr rfl
  intro j hj
  apply Finset.sum_congr rfl
  intro i hi
  rw [Finset.mem_Ico] at hi hj
  rw [hres p hp i j k ⟨hi.1, hi.2, hj.1, hj.2⟩ h1 h2]

/-- The sum over the processes of the local half-level counts is the count of
the whole domain. -/
theorem counth_partition {P : Type} (procs : Finset P) (G : Grid K) (g : P → Grid K)
    (cellOf : P → Int → Int → Int × Int) (Q : Int → K) (ql : P → Int → K)
    (st : P → MaskState K)
    (hpart : IsPartition procs G g cellOf) (hres : IsRestriction procs G g cellOf Q ql)
    (k : Int) (h1 : G.kstart < k) (h2 : k < G.kend) :
    ∑ p in procs, (calcmaskqlCount (g p) (ql p) (st p)).nmaskh k
      = ∑ J in Finset.Ico G.jstart G.jend, ∑ I in Finset.Ico G.istart G.iend,
          boolToInt (decide (Q (I + J * G.icells + k * G.ijcells - G.ijcells)
            + Q (I + J * G.icells + k * G.ijcells) > 0)) := by
  rw [← sum_partition procs G g cellOf hpart
    (fun I J => boolToInt (decide (Q (I + J * G.icells + k * G.ijcells - G.ijcells)
            + Q (I + J * G.icells + k * G.ijcells) > 0)))]
  apply Finset.sum_congr rfl
  intro p hp
  rw [(calcmaskqlCount_spec (g p) (hpart.wellFormed p hp) (ql p) (st p)).2 k
    (by rw [hpart.kstart_eq p hp]; exact h1.le) (by rw [hpart.kend_eq p hp]; omega)]
  apply Finset.sum_congr rfl
  intro j hj
  apply Finset.sum_congr rfl
  intro i hi
  rw [Finset.mem_Ico] at hi hj
  have e1 : i + j * (g p).icells + k * (g p).ijcells - (g p).ijcells
      = i + j * (g p).icells + (k - 1) * (g p).ijcells := by ring
  have e2 : (cellOf p i j).1 + (cellOf p i j).2 * G.icells + k * G.ijcells - G.ijcells
      = (cellOf p i j).1 + (cellOf p i j).2 * G.icells + (k - 1) * G.ijcells := by ring
  rw [e1, e2, hres p hp i j k ⟨hi.1, hi.2, hj.1, hj.2⟩ h1.le h2,
    hres p hp i j (k - 1) ⟨hi.1, hi.2, hj.1, hj.2⟩ (by omega) (by omega)]

/-- C13: partition invariance of the cloud-mask count.  Let the sub-domains of
the processes partition the interior horizontal cells of the whole domain, each
process holding its part of the field `ql`.  Then the all-process sum of the
per-process `nmask[k]` of the counting loop of `calcmaskql` is, on every
process and for every `kstart ≤ k < kend`, the number of cells of the whole
domain with `ql > 0` at level `k`, and likewise for `nmaskh[k]` with
`kstart < k < kend`.  These numbers are the counts of the counting loop run on
the whole domain by one process, and they are the values in the result of
`calcmaskql` on a process whose `master->sum` returns that all-process sum. -/
theorem calcmaskql_partition_invariant {P : Type} (procs : Finset P) (G : Grid K)
    (g : P → Grid K) (cellOf : P → Int → Int → Int × Int) (Q : Int → K) (ql : P → Int → K)
    (st : P → MaskState K) (master : P → Master) (stG : MaskState K)
    (hpart : IsPartition procs G g cellOf) (hres : IsRestriction procs G g cellOf Q ql)
    (hwf : G.WellFormed) (hk0 : 0 ≤ G.kstart) (hk1 : G.kend ≤ G.kcells) :
    (∀ q k, G.kstart ≤ k → k < G.kend →
      allreduceSum procs (fun p => (calcmaskqlCount (g p) (ql p) (st p)).nmask) G.kcells q k
        = ∑ J in Finset.Ico G.jstart G.jend, ∑ I in Finset.Ico G.istart G.iend,
            boolToInt (decide (Q (I + J * G.icells + k * G.ijcells) > 0))) ∧
    (∀ q k, G.kstart < k → k < G.kend →
      allreduceSum procs (fun p => (calcmaskqlCount (g p) (ql p) (st p)).nmaskh) G.kcells q k
        = ∑ J in Finset.Ico G.jstart G.jend, ∑ I in Finset.Ico G.istart G.iend,
            boolToInt (decide (Q (I + J * G.icells + k * G.ijcells - G.ijcells)
              + Q (I + J * G.icells + k * G.ijcells) > 0))) ∧
    (∀ q k, G.kstart ≤ k → k < G.kend →
      allreduceSum procs (fun p => (calcmaskqlCount (g p) (ql p) (st p)).nmask) G.kcells q k
        = (calcmaskqlCount G Q stG).nmask k) ∧
    (∀ q k, G.kstart < k → k < G.kend →
      allreduceSum procs (fun p => (calcmaskqlCount (g p) (ql p) (st p)).nmaskh) G.kcells q k
        = (calcmaskqlCount G Q stG).nmaskh k) ∧
    (∀ q ∈ procs,
      (master q).sum (calcmaskqlCount (g q) (ql q) (st q)).nmask (g q).kcells
        = allreduceSum procs (fun p => (calcmaskqlCount (g p) (ql p) (st p)).nmask)
            G.kcells q →
      ∀ k, G.kstart ≤ k → k < G.kend →
        (calcmaskql (g q) (master q) (ql q) (st q)).nmask k
          = (calcmaskqlCount G Q stG).nmask k) ∧
    (∀ q ∈ procs,
      (master q).sum (calcmaskqlCount (g q) (ql q) (st q)).nmaskh (g q).kcells
        = allreduceSum procs (fun p => (calcmaskqlCount (g p) (ql p) (st p)).nmaskh)
            G.kcells q →
      ∀ k, G.kstart < k → k < G.kend →
        (calcmaskql (g q) (master q) (ql q) (st q)).nmaskh k
          = (calcmaskqlCount G Q stG).nmaskh k) := by
  have c1 : ∀ (q : P) k, G.kstart ≤ k → k < G.kend →
      allreduceSum procs (fun p => (calcmaskqlCount (g p) (ql p) (st p)).nmask) G.kcells q k
        = ∑ J in Finset.Ico G.jstart G.jend, ∑ I in Finset.Ico G.istart G.iend,
            boolToInt (decide (Q (I + J * G.icells + k * G.ijcells) > 0)) := by
    intro q k h1 h2
    have hr : 0 ≤ k ∧ k < G.kcells := ⟨by omega, by omega⟩
    simp only [allreduceSum, hr, and_self, if_true]
    exact count_partition procs G g cellOf Q ql st hpart hres k h1 h2
  have c2 : ∀ (q : P) k, G.kstart < k → k < G.kend →
      allreduceSum procs (fun p => (calcmaskqlCount (g p) (ql p) (st p)).nmaskh) G.kcells q k
        = ∑ J in Finset.Ico G.jstart G.jend, ∑ I in Finset.Ico G.istart G.iend,
            boolToInt (decide (Q (I + J * G.icells + k * G.ijcells - G.ijcells)
              + Q (I + J * G.icells + k * G.ijcells) > 0)) := by
    intro q k h1 h2
    have hr : 0 ≤ k ∧ k < G.kcells := ⟨by omega, by omega⟩
    simp only [allreduceSum, hr, and_self, if_true]
    exact counth_partition procs G g cellOf Q ql st hpart hres k h1 h2
  have c3 : ∀ (q : P) k, G.kstart ≤ k → k < G.kend →
      allreduceSum procs (fun p => (calcmaskqlCount (g p) (ql p) (st p)).nmask) G.kcells q k
        = (calcmaskqlCount G Q stG).nmask k := by
    intro q k h1 h2
    rw [c1 q k h1 h2, (calcmaskqlCount_spec G hwf Q stG).1 k h1 h2]
  have c4 : ∀ (q : P) k, G.kstart < k → k < G.kend →
      allreduceSum procs (fun p => (calcmaskqlCount (g p) (ql p) (st p)).nmaskh) G.kcells q k
        = (calcmaskqlCount G Q stG).nmaskh k := by
    intro q k h1 h2
    rw [c2 q k h1 h2, (calcmaskqlCount_spec G hwf Q stG).2 k h1.le (by omega)]
  refine ⟨c1, c2, c3, c4, ?_, ?_⟩
  · intro q hq hnm k h1 h2
    rw [(calcmaskql_counts (g q) (master q) (ql q) (st q)).1, hnm, c3 q k h1 h2]
  · intro q hq hnmh k h1 h2
    rw [(calcmaskql_counts (g q) (master q) (ql q) (st q)).2 k
        (by rw [hpart.kstart_eq q hq]; omega) (by rw [hpart.kend_eq q hq]; omega),
      hnmh, c4 q k h1 h2]

/-- The two columns of `pairGrid`, one per process, partition it. -/
theorem pair_partition :
    IsPartition (Finset.univ : Finset Bool) (pairGrid : Grid K) (fun _ => dryGrid) pairCell := by
  refine ⟨fun _ _ => dryGrid_wellFormed, fun _ _ => rfl, fun _ _ => rfl, fun _ _ => rfl,
    ?_, ?_, ?_⟩
  · intro p _ i j h
    simp only [Interior, dryGrid, pairGrid, pairCell] at h ⊢
    cases p <;> simp <;> omega
  · intro p _ q _ i j i2 j2 h1 h2 hc
    simp only [Interior, dryGrid] at h1 h2
    simp only [pairCell, Prod.mk.injEq] at hc
    have hi : i = 0 := by omega
    have hi2 : i2 = 0 := by omega
    subst hi hi2
    refine ⟨?_, rfl, hc.2⟩
    cases p <;> cases q <;> simp at hc ⊢
  · intro I J h
    simp only [Interior, pairGrid] at h
    have hI : I = 0 ∨ I = 1 := by omega
    have hJ : J = 0 := by omega
    subst hJ
    rcases hI with rfl | rfl
    · exact ⟨false, Finset.mem_univ _, 0, 0, by simp [Interior, dryGrid], by simp [pairCell]⟩
    · exact ⟨true, Finset.mem_univ _, 0, 0, by simp [Interior, dryGrid], by simp [pairCell]⟩

/-- Witness for C13: two processes, each with one column of a domain of two
columns whose cells of level `1` are both cloudy.  The all-process sum of the
local counts is `2` at level `1`, `0` at level `2`, and `2` at the half level
`2`. -/
theorem calcmaskql_partition_invariant_witness :
    (IsPartition (Finset.univ : Finset Bool) (pairGrid : Grid ℚ) (fun _ => dryGrid) pairCell ∧
      IsRestriction (Finset.univ : Finset Bool) (pairGrid : Grid ℚ) (fun _ => dryGrid) pairCell
        (fun n => if n = 2 ∨ n = 3 then 1 else 0)
        (fun p n => if (if p then 1 else 0) + n * 2 = 2 ∨ (if p then 1 else 0) + n * 2 = 3
          then 1 else 0) ∧
      (pairGrid : Grid ℚ).WellFormed ∧ 0 ≤ (pairGrid : Grid ℚ).kstart ∧
      (pairGrid : Grid ℚ).kend ≤ (pairGrid : Grid ℚ).kcells) ∧
    allreduceSum (Finset.univ : Finset Bool) (fun p => (calcmaskqlCount (dryGrid : Grid ℚ)
        (fun n => if (if p then 1 else 0) + n * 2 = 2 ∨ (if p then 1 else 0) + n * 2 = 3
          then 1 else 0) zeroMaskState).nmask) (pairGrid : Grid ℚ).kcells false 1 = 2 ∧
    allreduceSum (Finset.univ : Finset Bool) (fun p => (calcmaskqlCount (dryGrid : Grid ℚ)
        (fun n => if (if p then 1 else 0) + n * 2 = 2 ∨ (if p then 1 else 0) + n * 2 = 3
          then 1 else 0) zeroMaskState).nmask) (pairGrid : Grid ℚ).kcells true 2 = 0 ∧
    allreduceSum (Finset.univ : Finset Bool) (fun p => (calcmaskqlCount (dryGrid : Grid ℚ)
        (fun n => if (if p then 1 else 0) + n * 2 = 2 ∨ (if p then 1 else 0) + n * 2 = 3
          then 1 else 0) zeroMaskState).nmaskh) (pairGrid : Grid ℚ).kcells true 2 = 2 := by
  have hres : IsRestriction (Finset.univ : Finset Bool) (pairGrid : Grid ℚ) (fun _ => dryGrid)
      pairCell (fun n => if n = 2 ∨ n = 3 then 1 else 0)
      (fun p n => if (if p then 1 else 0) + n * 2 = 2 ∨ (if p then 1 else 0) + n * 2 = 3
        then 1 else 0) := by
    intro p _ i j k h _ _
    simp only [Interior, dryGrid] at h
    have hi : i = 0 := by omega
    have hj : j = 0 := by omega
    subst hi hj
    have e : ∀ a : Int, a + (0 + 0 * 1 + k * 1) * 2 = 0 + a + 0 * 2 + k * 2 := by
      intro a; ring
    simp only [dryGrid, pairGrid, pairCell, e]
  have hwf : (pairGrid : Grid ℚ).WellFormed := by
    refine ⟨?_, ?_, ?_, ?_, ?_⟩ <;> simp [pairGrid]
  have hk0 : 0 ≤ (pairGrid : Grid ℚ).kstart := by decide
  have hk1 : (pairGrid : Grid ℚ).kend ≤ (pairGrid : Grid ℚ).kcells := by decide
  obtain ⟨t1, t2, -⟩ := calcmaskql_partition_invariant (Finset.univ : Finset Bool)
    (pairGrid : Grid ℚ) (fun _ => dryGrid) pairCell (fun n => if n = 2 ∨ n = 3 then 1 else 0)
    (fun p n => if (if p then 1 else 0) + n * 2 = 2 ∨ (if p then 1 else 0) + n * 2 = 3
      then 1 else 0)
    (fun _ => zeroMaskState) (fun _ => singleMaster) zeroMaskState pair_partition hres hwf hk0 hk1
  have i1 : Finset.Ico (pairGrid : Grid ℚ).istart (pairGrid : Grid ℚ).iend = {0, 1} := by decide
  have j1 : Finset.Ico (pairGrid : Grid ℚ).jstart (pairGrid : Grid ℚ).jend = {0} := by decide
  have a1 := t1 false 1 (by decide) (by decide)
  have a2 := t1 true 2 (by decide) (by decide)
  have a3 := t2 true 2 (by decide) (by decide)
  rw [i1, j1] at a1 a2 a3
  refine ⟨⟨pair_partition, hres, hwf, hk0, hk1⟩, ?_, ?_, ?_⟩
  · rw [a1, Finset.sum_singleton, Finset.sum_pair (by decide)]
    norm_num [pairGrid, boolToInt]
  · rw [a2, Finset.sum_singleton, Finset.sum_pair (by decide)]
    norm_num [pairGrid, boolToInt]
  · rw [a3, Finset.sum_singleton, Finset.sum_pair (by decide)]
    norm_num [pairGrid, boolToInt]

/-! ## Ghost-cell pressures -/

/-- C23: the ghost-cell pressures written by `calcbasestate` are consistent
with the boundary half-level pressures under the configured interpolation.
With at least one interior level and second order,
`interp2(pref[kstart-1], pref[kstart]) = prefh[kstart]` and
`interp2(pref[kend-1], pref[kend]) = prefh[kend]`; with at least two interior
levels and fourth order, `interp4(pref[kstart-2], pref[kstart-1], pref[kstart],
pref[kstart+1]) = prefh[kstart]` and `interp4(pref[kend-2], pref[kend-1],
pref[kend], pref[kend+1]) = prefh[kend]`.  This holds after the ghost-cell fill
on any profiles, hence in every result of `calcbasestate`. -/
theorem calcbasestate_ghost_consistent (pw : K → K → K) (fuel : Nat) (grid : Grid K) (ps : K)
    (thlmean qtmean : Int → K) (s : BaseState K) (hk : grid.kstart < grid.kend) :
    (grid.swspatialorder = "2" →
      interp2 ((basestateGhost grid s).pref (grid.kstart-1)) ((basestateGhost grid s).pref grid.kstart)
        = (basestateGhost grid s).prefh grid.kstart ∧
      interp2 ((basestateGhost grid s).pref (grid.kend-1)) ((basestateGhost grid s).pref grid.kend)
        = (basestateGhost grid s).prefh grid.kend) ∧
    (grid.swspatialorder = "4" → grid.kstart + 1 < grid.kend →
      interp4 ((basestateGhost grid s).pref (grid.kstart-2))
          ((basestateGhost grid s).pref (grid.kstart-1))
          ((basestateGhost grid s).pref grid.kstart) ((basestateGhost grid s).pref (grid.kstart+1))
        = (basestateGhost grid s).prefh grid.kstart ∧
      interp4 ((basestateGhost grid s).pref (grid.kend-2))
          ((basestateGhost grid s).pref (grid.kend-1))
          ((basestateGhost grid s).pref grid.kend) ((basestateGhost grid s).pref (grid.kend+1))
        = (basestateGhost grid s).prefh grid.kend) ∧
    (∀ t, calcbasestate pw fuel grid ps thlmean qtmean s = some t →
      (grid.swspatialorder = "2" →
        interp2 (t.pref (grid.kstart-1)) (t.pref grid.kstart) = t.prefh grid.kstart ∧
        interp2 (t.pref (grid.kend-1)) (t.pref grid.kend) = t.prefh grid.kend) ∧
      (grid.swspatialorder = "4" → grid.kstart + 1 < grid.kend →
        interp4 (t.pref (grid.kstart-2)) (t.pref (grid.kstart-1)) (t.pref grid.kstart)
            (t.pref (grid.kstart+1)) = t.prefh grid.kstart ∧
        interp4 (t.pref (grid.kend-2)) (t.pref (grid.kend-1)) (t.pref grid.kend)
            (t.pref (grid.kend+1)) = t.prefh grid.kend)) := by
  have h2 : ∀ u : BaseState K, grid.swspatialorder = "2" →
      interp2 ((basestateGhost grid u).pref (grid.kstart-1)) ((basestateGhost grid u).pref grid.kstart)
        = (basestateGhost grid u).prefh grid.kstart ∧
      interp2 ((basestateGhost grid u).pref (grid.kend-1)) ((basestateGhost grid u).pref grid.kend)
        = (basestateGhost grid u).prefh grid.kend := by
    intro u ho
    have n1 : grid.kstart - 1 ≠ grid.kend := by omega
    have n2 : grid.kstart ≠ grid.kend := by omega
    have n3 : grid.kstart ≠ grid.kstart - 1 := by omega
    have n4 : grid.kend - 1 ≠ grid.kend := by omega
    simp only [basestateGhost, ho, if_true, interp2, Function.update_same,
      Function.update_noteq n1, Function.update_noteq n2, Function.update_noteq n3,
      Function.update_noteq n4]
    constructor <;> ring
  have h4 : ∀ u : BaseState K, grid.swspatialorder = "4" → grid.kstart + 1 < grid.kend →
      interp4 ((basestateGhost grid u).pref (grid.kstart-2))
          ((basestateGhost grid u).pref (grid.kstart-1))
          ((basestateGhost grid u).pref grid.kstart) ((basestateGhost grid u).pref (grid.kstart+1))
        = (basestateGhost grid u).prefh grid.kstart ∧
      interp4 ((basestateGhost grid u).pref (grid.kend-2))
          ((basestateGhost grid u).pref (grid.kend-1))
          ((basestateGhost grid u).pref grid.kend) ((basestateGhost grid u).pref (grid.kend+1))
        = (basestateGhost grid u).prefh grid.kend := by
    intro u ho hk2
    have m1 : grid.kstart - 2 ≠ grid.kend + 1 := by omega
    have m2 : grid.kstart - 2 ≠ grid.kend := by omega
    have m3 : grid.kstart - 1 ≠ grid.kend + 1 := by omega
    have m4 : grid.kstart - 1 ≠ grid.kend := by omega
    have m5 : grid.kstart - 1 ≠ grid.kstart - 2 := by omega
    have m6 : grid.kstart ≠ grid.kend + 1 := by omega
    have m7 : grid.kstart ≠ grid.kend := by omega
    have m8 : grid.kstart ≠ grid.kstart - 2 := by omega
    have m9 : grid.kstart ≠ grid.kstart - 1 := by omega
    have m10 : grid.kstart + 1 ≠ grid.kend + 1 := by omega
    have m11 : grid.kstart + 1 ≠ grid.kend := by omega
    have m12 : grid.kstart + 1 ≠ grid.kstart - 2 := by omega
    have m13 : grid.kstart + 1 ≠ grid.kstart - 1 := by omega
    have m14 : grid.kend - 2 ≠ grid.kend + 1 := by omega
    have m15 : grid.kend - 2 ≠ grid.kend := by omega
    have m16 : grid.kend - 2 ≠ grid.kstart - 2 := by omega
    have m17 : grid.kend - 2 ≠ grid.kstart - 1 := by omega
    have m18 : grid.kend - 1 ≠ grid.kend + 1 := by omega
    have m19 : grid.kend - 1 ≠ grid.kend := by omega
    have m20 : grid.kend - 1 ≠ grid.kstart - 2 := by omega
    have m21 : grid.kend - 1 ≠ grid.kstart - 1 := by omega
    have m22 : grid.kend ≠ grid.kend + 1 := by omega
    simp only [basestateGhost, ho, show ("4" = "2") = False from by decide, if_true, if_false,
      interp4, Function.update_same,
      Function.update_noteq m1, Function.update_noteq m2, Function.update_noteq m3,
      Function.update_noteq m4, Function.update_noteq m5, Function.update_noteq m6,
      Function.update_noteq m7, Function.update_noteq m8, Function.update_noteq m9,
      Function.update_noteq m10, Function.update_noteq m11, Function.update_noteq m12,
      Function.update_noteq m13, Function.update_noteq m14, Function.update_noteq m15,
      Function.update_noteq m16, Function.update_noteq m17, Function.update_noteq m18,
      Function.update_noteq m19, Function.update_noteq m20, Function.update_noteq m21,
      Function.update_noteq m22]
    constructor <;> ring
  refine ⟨h2 s, h4 s, ?_⟩
  intro t ht
  unfold calcbasestate at ht
  split at ht
  · simp at ht
  · split at ht
    · simp at ht
    · rename_i st2 _
      simp only [Option.some.injEq] at ht
      subst ht
      exact ⟨h2 st2, h4 st2⟩

/-- Witness for C23: the dry column (second order, two interior levels), on
which `calcbasestate` returns. -/
theorem calcbasestate_ghost_consistent_witness :
    (dryGrid : Grid ℝ).kstart < (dryGrid : Grid ℝ).kend ∧
    (dryGrid : Grid ℝ).swspatialorder = "2" ∧
    ∃ t, calcbasestate Real.rpow 2 dryGrid 1e5 (fun _ => 190) (fun _ => 0) zeroBaseState = some t ∧
      interp2 (t.pref ((dryGrid : Grid ℝ).kstart-1)) (t.pref (dryGrid : Grid ℝ).kstart)
        = t.prefh (dryGrid : Grid ℝ).kstart ∧
      interp2 (t.pref ((dryGrid : Grid ℝ).kend-1)) (t.pref (dryGrid : Grid ℝ).kend)
        = t.prefh (dryGrid : Grid ℝ).kend := by
  obtain ⟨t, ht, -⟩ := calcbasestate_dry 0
  exact ⟨by decide, rfl, t, ht,
    ((calcbasestate_ghost_consistent Real.rpow 2 dryGrid 1e5 (fun _ => 190) (fun _ => 0)
      zeroBaseState (by decide)).2.2 t ht).1 rfl⟩

/-! ## Supported names -/

/-- C27 (evaluation of the code at the failing input): for the name `"N2"`,
`checkthermofield` returns `1` whereas `getthermofield` returns `0`, whenever
it returns, and it does return when `swupdatebasestate` is off, as on the test
column.  For every other name the two functions agree. -/
theorem checkthermofield_misses_N2 :
    checkthermofield "N2" = 1 ∧
    (∀ (pw : ℝ → ℝ → ℝ) fuel (grid : Grid ℝ) fld tmp (st st2 : ThermoState ℝ) r,
      getthermofield pw fuel grid fld tmp "N2" st = some (st2, r) → r = 0) ∧
    (∀ (pw : ℝ → ℝ → ℝ) fuel (grid : Grid ℝ) fld tmp (st : ThermoState ℝ),
      st.swupdatebasestate = 0 →
        ∃ st2, getthermofield pw fuel grid fld tmp "N2" st = some (st2, 0)) ∧
    (∃ st2, getthermofield Real.rpow 0 ghostGrid "tmp1" "tmp2" "N2"
      (columnState 0 300 0 1e5 : ThermoState ℝ) = some (st2, 0)) ∧
    (∀ (pw : ℝ → ℝ → ℝ) fuel (grid : Grid ℝ) fld tmp name (st st2 : ThermoState ℝ) r,
      name ≠ "N2" → getthermofield pw fuel grid fld tmp name st = some (st2, r) →
        (checkthermofield name = 0 ↔ r = 0)) := by
  have hN : ∀ (pw : ℝ → ℝ → ℝ) fuel (grid : Grid ℝ) fld tmp (st : ThermoState ℝ),
      st.swupdatebasestate = 0 →
        ∃ st2, getthermofield pw fuel grid fld tmp "N2" st = some (st2, 0) := by
    intro pw fuel grid fld tmp st hsw
    unfold getthermofield
    rw [updateBasestate_off pw fuel grid st hsw]
    simp only [show ("N2" = "b") = False from by decide,
      show ("N2" = "ql") = False from by decide, if_false, if_true]
    exact ⟨_, rfl⟩
  refine ⟨by decide, ?_, hN, hN _ _ _ _ _ _ rfl, ?_⟩
  · intro pw fuel grid fld tmp st st2 r h
    obtain ⟨st1, -, -, -, -, -, -, -, -, -, hc⟩ :=
      getthermofield_profiles pw fuel grid fld tmp "N2" st st2 r h
    rcases hc with ⟨-, hr⟩ | ⟨⟨-, -, hn⟩, -, -⟩
    · exact hr
    · exact absurd rfl hn
  · intro pw fuel grid fld tmp name st st2 r hne h
    obtain ⟨st1, -, -, -, -, -, -, -, -, -, hc⟩ :=
      getthermofield_profiles pw fuel grid fld tmp name st st2 r h
    rcases hc with ⟨hs, hr⟩ | ⟨⟨hb, hq, -⟩, hr, -⟩
    · subst hr
      rcases hs with h1 | h1 | h1
      · simp [checkthermofield, h1]
      · simp [checkthermofield, h1]
      · exact absurd h1 hne
    · subst hr
      simp [checkthermofield, hb, hq]

/-! ## Second and fourth order tendencies -/

/-- Loops whose bodies agree on the range agree. -/
theorem forLoopM_congr {σ : Type} (f g : Int → σ → Option σ) (n : Nat) (lo : Int) (s : σ)
    (h : ∀ k t, lo ≤ k → k < lo + n → f k t = g k t) :
    forLoopM f n lo s = forLoopM g n lo s := by
  induction n generalizing lo s with
  | zero => rfl
  | succ n ih =>
    simp only [forLoopM]
    rw [h lo s le_rfl (by push_cast; omega)]
    cases g lo s with
    | none => rfl
    | some u =>
      simp only [Option.some_bind]
      exact ih (lo + 1) u (fun k t h1 h2 => h k t (by omega) (by push_cast; omega))

/-- Loops over a range whose bodies agree on the range agree. -/
theorem forRangeM_congr {σ : Type} (f g : Int → σ → Option σ) (lo hi : Int) (s : σ)
    (h : ∀ k t, lo ≤ k → k < hi → f k t = g k t) :
    forRangeM lo hi f s = forRangeM lo hi g s := by
  unfold forRangeM
  apply forLoopM_congr
  intro k t h1 h2
  exact h k t h1 (by omega)

/-- Loops whose bodies agree on the range agree. -/
theorem forLoop_congr {σ : Type} (f g : Int → σ → σ) (n : Nat) (lo : Int) (s : σ)
    (h : ∀ k t, lo ≤ k → k < lo + n → f k t = g k t) :
    forLoop f n lo s = forLoop g n lo s := by
  induction n generalizing lo s with
  | zero => rfl
  | succ n ih =>
    simp only [forLoop]
    rw [h lo s le_rfl (by push_cast; omega)]
    exact ih (lo + 1) _ (fun k t h1 h2 => h k t (by omega) (by push_cast; omega))

/-- Horizontal loops whose bodies agree on the interior cells agree. -/
theorem forIJ_congr {σ : Type} (grid : Grid K) (f g : Int → Int → σ → σ) (s : σ)
    (h : ∀ i j t, Interior grid i j → f i j t = g i j t) :
    forIJ grid f s = forIJ grid g s := by
  unfold forIJ forRange
  apply forLoop_congr
  intro j t hj1 hj2
  apply forLoop_congr
  intro i u hi1 hi2
  exact h i j u ⟨hi1, by omega, hj1, by omega⟩

/-- The four-point interpolation of values with `a + d = b + c` is the
two-point interpolation of the inner two. -/
theorem interp4_eq_interp2 (a b c d : K) (h : a + d = b + c) :
    interp4 a b c d = interp2 b c := by
  have hd : d = b + c - a := by linarith
  simp only [interp4, interp2, hd]
  ring

/-- C22: the second- and fourth-order tendency kernels differ only through the
interpolation stencil.  If in every interior column and for every
`kstart+1 ≤ k ≤ kend-1` the fields satisfy `s[k-2] + s[k+1] = s[k-1] + s[k]`
and `qt[k-2] + qt[k+1] = qt[k-1] + qt[k]`, then `interp4` equals `interp2` on
the values read and `calcbuoyancytend_4th` produces exactly the result of
`calcbuoyancytend_2nd` (the same `wt`, or no result for both) given the same
`wt`, `ph` and `thvrefh`. -/
theorem calcbuoyancytend_orders_agree (pw : K → K → K) (fuel : Nat) (grid : Grid K)
    (s qt ph thvrefh : Int → K) (st : TendState K)
    (hs : ∀ i j k, Interior grid i j → grid.kstart + 1 ≤ k → k ≤ grid.kend - 1 →
      s (i + j * grid.icells + (k-2) * (grid.icells * grid.jcells))
        + s (i + j * grid.icells + (k+1) * (grid.icells * grid.jcells))
      = s (i + j * grid.icells + (k-1) * (grid.icells * grid.jcells))
        + s (i + j * grid.icells + k * (grid.icells * grid.jcells)))
    (hq : ∀ i j k, Interior grid i j → grid.kstart + 1 ≤ k → k ≤ grid.kend - 1 →
      qt (i + j * grid.icells + (k-2) * (grid.icells * grid.jcells))
        + qt (i + j * grid.icells + (k+1) * (grid.icells * grid.jcells))
      = qt (i + j * grid.icells + (k-1) * (grid.icells * grid.jcells))
        + qt (i + j * grid.icells + k * (grid.icells * grid.jcells))) :
    (∀ i j k, Interior grid i j → grid.kstart + 1 ≤ k → k ≤ grid.kend - 1 →
      interp4 (s (i + j * grid.icells + (k-2) * (grid.icells * grid.jcells)))
          (s (i + j * grid.icells + (k-1) * (grid.icells * grid.jcells)))
          (s (i + j * grid.icells + k * (grid.icells * grid.jcells)))
          (s (i + j * grid.icells + (k+1) * (grid.icells * grid.jcells)))
        = interp2 (s (i + j * grid.icells + (k-1) * (grid.icells * grid.jcells)))
          (s (i + j * grid.icells + k * (grid.icells * grid.jcells)))) ∧
    calcbuoyancytend_4th pw fuel grid s qt ph thvrefh st
      = calcbuoyancytend_2nd pw fuel grid s qt ph thvrefh st ∧
    (calcbuoyancytend_4th pw fuel grid s qt ph thvrefh st).map (fun r => r.wt)
      = (calcbuoyancytend_2nd pw fuel grid s qt ph thvrefh st).map (fun r => r.wt) := by
  have hi : ∀ i j k, Interior grid i j → grid.kstart + 1 ≤ k → k ≤ grid.kend - 1 →
      interp4 (s (i + j * grid.icells + (k-2) * (grid.icells * grid.jcells)))
          (s (i + j * grid.icells + (k-1) * (grid.icells * grid.jcells)))
          (s (i + j * grid.icells + k * (grid.icells * grid.jcells)))
          (s (i + j * grid.icells + (k+1) * (grid.icells * grid.jcells)))
        = interp2 (s (i + j * grid.icells + (k-1) * (grid.icells * grid.jcells)))
          (s (i + j * grid.icells + k * (grid.icells * grid.jcells))) :=
    fun i j k hij h1 h2 => interp4_eq_interp2 _ _ _ _ (hs i j k hij h1 h2)
  have heq : calcbuoyancytend_4th pw fuel grid s qt ph thvrefh st
      = calcbuoyancytend_2nd pw fuel grid s qt ph thvrefh st := by
    unfold calcbuoyancytend_4th calcbuoyancytend_2nd
    apply forRangeM_congr
    intro k t hk1 hk2
    unfold tendLevel
    have hest : forIJ grid (tendEstimate_4th grid s qt ph (exn pw (ph k)) k) t
        = forIJ grid (tendEstimate_2nd grid s qt ph (exn pw (ph k)) k) t := by
      apply forIJ_congr
      intro i j u hij
      have e3 : i + j * grid.icells + k * (1 * grid.icells * grid.jcells)
          = i + j * grid.icells + k * (grid.icells * grid.jcells) := by ring
      have e1 : i + j * grid.icells + k * (grid.icells * grid.jcells)
            - 2 * grid.icells * grid.jcells
          = i + j * grid.icells + (k-2) * (grid.icells * grid.jcells) := by ring
      have e2 : i + j * grid.icells + k * (grid.icells * grid.jcells)
            - 1 * grid.icells * grid.jcells
          = i + j * grid.icells + (k-1) * (grid.icells * grid.jcells) := by ring
      have e4 : i + j * grid.icells + k * (grid.icells * grid.jcells)
            + 1 * grid.icells * grid.jcells
          = i + j * grid.icells + (k+1) * (grid.icells * grid.jcells) := by ring
      have e5 : i + j * grid.icells + k * (grid.icells * grid.jcells)
            - grid.icells * grid.jcells
          = i + j * grid.icells + (k-1) * (grid.icells * grid.jcells) := by ring
      simp only [tendEstimate_4th, tendEstimate_2nd, e1, e2, e3, e4, e5]
      rw [hi i j k hij hk1 (by omega),
        interp4_eq_interp2 _ _ _ _ (hq i j k hij hk1 (by omega))]
    simp only [hest]
  exact ⟨hi, heq, by rw [heq]⟩

/-- Witness for C22: the one-column grid with dry air at 300 K; both kernels
return and their results are equal. -/
theorem calcbuoyancytend_orders_agree_witness :
    (∀ i j k, Interior (dryGrid : Grid ℝ) i j → (dryGrid : Grid ℝ).kstart + 1 ≤ k →
      k ≤ (dryGrid : Grid ℝ).kend - 1 → (300 : ℝ) + 300 = 300 + 300) ∧
    (∃ r, calcbuoyancytend_2nd Real.rpow 2 dryGrid (fun _ => (300 : ℝ)) (fun _ => 0)
      (fun _ => 1e5) (fun _ => 300) zeroTendState = some r) ∧
    calcbuoyancytend_4th Real.rpow 2 dryGrid (fun _ => (300 : ℝ)) (fun _ => 0)
        (fun _ => 1e5) (fun _ => 300) zeroTendState
      = calcbuoyancytend_2nd Real.rpow 2 dryGrid (fun _ => (300 : ℝ)) (fun _ => 0)
        (fun _ => 1e5) (fun _ => 300) zeroTendState :=
  ⟨fun _ _ _ _ _ _ => rfl, tend2_dry_run,
    (calcbuoyancytend_orders_agree Real.rpow 2 dryGrid (fun _ => (300 : ℝ)) (fun _ => 0)
      (fun _ => 1e5) (fun _ => 300) zeroTendState (fun _ _ _ _ _ _ => rfl)
      (fun _ _ _ _ _ _ => rfl)).2.1⟩

/-! ## The core mask inside the cloud mask -/

/-- Two loops whose bodies keep a relation between their states keep it. -/
theorem forLoop_rel {σ τ : Type} (f : Int → σ → σ) (g : Int → τ → τ) (R : σ → τ → Prop)
    (h : ∀ k t u, R t u → R (f k t) (g k u)) (n : Nat) (lo : Int) (s : σ) (s2 : τ)
    (h0 : R s s2) : R (forLoop f n lo s) (forLoop g n lo s2) := by
  induction n generalizing lo s s2 with
  | zero => exact h0
  | succ n ih =>
    simp only [forLoop]
    exact ih (lo + 1) _ _ (h lo s s2 h0)

/-- Two horizontal loops whose bodies keep a relation between their states
keep it. -/
theorem forIJ_rel {σ τ : Type} (grid : Grid K) (f : Int → Int → σ → σ) (g : Int → Int → τ → τ)
    (R : σ → τ → Prop) (h : ∀ i j t u, R t u → R (f i j t) (g i j u)) (s : σ) (s2 : τ)
    (h0 : R s s2) : R (forIJ grid f s) (forIJ grid g s2) := by
  unfold forIJ forRange
  apply forLoop_rel _ _ R _ _ _ _ _ h0
  intro j t u htu
  exact forLoop_rel _ _ R (fun i t u => h i j t u) _ _ _ _ htu

/-- Storing a smaller value keeps a pointwise order of arrays. -/
theorem update_le_update {α : Type} [Preorder α] (f g : Int → α) (i : Int) (a b : α)
    (h : ∀ n, f n ≤ g n) (hab : a ≤ b) (n : Int) :
    Function.update f i a n ≤ Function.update g i b n := by
  by_cases hn : n = i
  · subst hn
    simpa using hab
  · simpa [Function.update_noteq hn] using h n

/-- The product of two indicators is at most the first one. -/
theorem boolToInt_mul_le (p q : Bool) : boolToInt p * boolToInt q ≤ boolToInt p := by
  cases p <;> cases q <;> decide

/-- The counting loops of `calcmaskqlcore` stay below those of `calcmaskql`. -/
theorem maskqlcore_le_maskql (grid : Grid K) (ql b bmean : Int → K) (st : MaskState K) :
    MaskLe
      (forRange grid.kstart (grid.kend+1) (fun k st =>
        forIJ grid (maskqlcoreCellh grid ql b bmean k)
          { st with nmaskh := Function.update st.nmaskh k 0 })
        (forRange grid.kstart grid.kend (fun k st =>
          forIJ grid (maskqlcoreCell grid ql b bmean k)
            { st with nmask := Function.update st.nmask k 0 }) st))
      (forRange grid.kstart (grid.kend+1) (fun k st =>
        forIJ grid (maskqlCellh grid ql k)
          { st with nmaskh := Function.update st.nmaskh k 0 })
        (forRange grid.kstart grid.kend (fun k st =>
          forIJ grid (maskqlCell grid ql k)
            { st with nmask := Function.update st.nmask k 0 }) st)) := by
  have h0 : MaskLe st st := ⟨fun _ => le_rfl, fun _ => le_rfl, fun _ => le_rfl, fun _ => le_rfl⟩
  unfold forRange
  apply forLoop_rel _ _ MaskLe
  · intro k t u htu
    apply forIJ_rel grid _ _ MaskLe
    · intro i j t2 u2 ⟨a1, a2, a3, a4⟩
      refine ⟨a1, ?_, a3, ?_⟩
      · intro n
        simp only [maskqlcoreCellh, maskqlCellh]
        apply update_le_update _ _ _ _ _ a2
        exact_mod_cast boolToInt_mul_le _ _
      · intro n
        simp only [maskqlcoreCellh, maskqlCellh]
        apply update_le_update _ _ _ _ _ a4
        exact add_le_add (a4 k) (boolToInt_mul_le _ _)
    · obtain ⟨a1, a2, a3, a4⟩ := htu
      exact ⟨a1, a2, a3, fun n => update_le_update _ _ _ _ _ a4 le_rfl n⟩
  · apply forLoop_rel _ _ MaskLe
    · intro k t u htu
      apply forIJ_rel grid _ _ MaskLe
      · intro i j t2 u2 ⟨a1, a2, a3, a4⟩
        refine ⟨?_, a2, ?_, a4⟩
        · intro n
          simp only [maskqlcoreCell, maskqlCell]
          apply update_le_update _ _ _ _ _ a1
          exact_mod_cast boolToInt_mul_le _ _
        · intro n
          simp only [maskqlcoreCell, maskqlCell]
          apply update_le_update _ _ _ _ _ a3
          exact add_le_add (a3 k) (boolToInt_mul_le _ _)
      · obtain ⟨a1, a2, a3, a4⟩ := htu
        exact ⟨a1, a2, fun n => update_le_update _ _ _ _ _ a3 le_rfl n, a4⟩
    · exact h0

/-- C26: the core mask is contained in the cloud mask.  For every `ql`, `b`
and `bmean`, started from the same arrays, with a boundary exchange that leaves
interior cells alone and a reduction `master->sum` that is monotone (as the sum
over processes is), at every interior cell the `mask` and `maskh` values of
`calcmaskqlcore` are at most those of `calcmaskql` for the same `ql`, and the
core counts `nmask[k]`, `nmaskh[k]` do not exceed the cloud counts at any
level. -/
theorem calcmaskqlcore_le_calcmaskql (grid : Grid K) (master : Master) (ql b bmean : Int → K)
    (st : MaskState K)
    (hbc : ∀ (f : Int → K) i j k, Interior grid i j →
      grid.boundary_cyclic f (i + j * grid.icells + k * grid.ijcells)
        = f (i + j * grid.icells + k * grid.ijcells))
    (hmono : ∀ (a c : Int → Int) n, (∀ k, a k ≤ c k) →
      ∀ k, master.sum a n k ≤ master.sum c n k) :
    (∀ i j k, Interior grid i j →
      (calcmaskqlcore grid master ql b bmean st).mask (i + j * grid.icells + k * grid.ijcells)
        ≤ (calcmaskql grid master ql st).mask (i + j * grid.icells + k * grid.ijcells)) ∧
    (∀ i j k, Interior grid i j →
      (calcmaskqlcore grid master ql b bmean st).maskh (i + j * grid.icells + k * grid.ijcells)
        ≤ (calcmaskql grid master ql st).maskh (i + j * grid.icells + k * grid.ijcells)) ∧
    (∀ k, (calcmaskqlcore grid master ql b bmean st).nmask k
      ≤ (calcmaskql grid master ql st).nmask k) ∧
    (∀ k, (calcmaskqlcore grid master ql b bmean st).nmaskh k
      ≤ (calcmaskql grid master ql st).nmaskh k) := by
  obtain ⟨a1, a2, a3, a4⟩ := maskqlcore_le_maskql grid ql b bmean st
  refine ⟨?_, ?_, ?_, ?_⟩
  · intro i j k hij
    simp only [calcmaskqlcore, calcmaskql]
    rw [hbc _ i j k hij, hbc _ i j k hij]
    exact a1 _
  · intro i j k hij
    simp only [calcmaskqlcore, calcmaskql]
    rw [hbc _ i j k hij, hbc _ i j k hij]
    exact a2 _
  · intro k
    simp only [calcmaskqlcore, calcmaskql]
    exact hmono _ _ _ a3 k
  · intro k
    simp only [calcmaskqlcore, calcmaskql]
    apply update_le_update _ _ _ _ _ _ le_rfl
    intro n
    apply update_le_update _ _ _ _ _ _ le_rfl
    exact hmono _ _ _ a4

/-- Witness for C26: the one-column grid on a single process, cloudy at level
`1` and buoyant nowhere: the cloud count of level `1` is `1`, the core count is
`0`. -/
theorem calcmaskqlcore_le_calcmaskql_witness :
    (∀ (f : Int → ℚ) i j k, Interior (dryGrid : Grid ℚ) i j →
      (dryGrid : Grid ℚ).boundary_cyclic f
          (i + j * (dryGrid : Grid ℚ).icells + k * (dryGrid : Grid ℚ).ijcells)
        = f (i + j * (dryGrid : Grid ℚ).icells + k * (dryGrid : Grid ℚ).ijcells)) ∧
    (∀ (a c : Int → Int) n, (∀ k, a k ≤ c k) →
      ∀ k, singleMaster.sum a n k ≤ singleMaster.sum c n k) ∧
    (calcmaskqlcore dryGrid singleMaster (fun idx => if idx = 1 then (1 : ℚ) else 0)
      (fun _ => 0) (fun _ => 0) zeroMaskState).nmask 1
      ≤ (calcmaskql dryGrid singleMaster (fun idx => if idx = 1 then (1 : ℚ) else 0)
        zeroMaskState).nmask 1 ∧
    (calcmaskql dryGrid singleMaster (fun idx => if idx = 1 then (1 : ℚ) else 0)
        zeroMaskState).nmask 1 = 1 ∧
    (calcmaskqlcore dryGrid singleMaster (fun idx => if idx = 1 then (1 : ℚ) else 0)
      (fun _ => 0) (fun _ => 0) zeroMaskState).nmask 1 = 0 := by
  have hbc : ∀ (f : Int → ℚ) i j k, Interior (dryGrid : Grid ℚ) i j →
      (dryGrid : Grid ℚ).boundary_cyclic f
          (i + j * (dryGrid : Grid ℚ).icells + k * (dryGrid : Grid ℚ).ijcells)
        = f (i + j * (dryGrid : Grid ℚ).icells + k * (dryGrid : Grid ℚ).ijcells) :=
    fun _ _ _ _ _ => rfl
  have hmono : ∀ (a c : Int → Int) n, (∀ k, a k ≤ c k) →
      ∀ k, singleMaster.sum a n k ≤ singleMaster.sum c n k := fun _ _ _ h k => h k
  have e1 : ((3 : Int) - 1).toNat = 2 := by decide
  have e2 : ((1 : Int) - 0).toNat = 1 := by decide
  have e3 : ((3 : Int) + 1 - 1).toNat = 3 := by decide
  refine ⟨hbc, hmono,
    (calcmaskqlcore_le_calcmaskql dryGrid singleMaster (fun idx => if idx = 1 then (1 : ℚ) else 0)
      (fun _ => 0) (fun _ => 0) zeroMaskState hbc hmono).2.2.1 1, ?_, ?_⟩
  · simp [calcmaskql, forRange, forIJ, dryGrid, e1, e2, e3, forLoop, maskqlCell, maskqlCellh,
      singleMaster, Function.update, boolToInt, zeroMaskState]
  · simp [calcmaskqlcore, forRange, forIJ, dryGrid, e1, e2, e3, forLoop, maskqlcoreCell,
      maskqlcoreCellh, singleMaster, Function.update, boolToInt, zeroMaskState]

/-! ## The reads of `calcN2` -/

/-- C25 (evaluation of the code at the failing input): on every well-formed
grid with at least one level, at the first level `k = 0` of the loop of
`calcN2` the index `ijk - kk` of every interior cell is negative, and at the
last level `k = kcells - 1` the index `ijk + kk` is at least
`icells*jcells*kcells`.  On the column with `icells = jcells = 3`,
`kcells = 4` (a field of 36 cells) the value stored in the cell `4` of level
`0` depends on `s[-5]` and the value stored in the cell `31` of level `3`
depends on `s[40]`. -/
theorem calcN2_reads_outside :
    (∀ (grid : Grid ℚ), grid.WellFormed → 0 < grid.kcells → ∀ i j, Interior grid i j →
      i + j * grid.icells + 0 * (grid.icells * grid.jcells) - grid.icells * grid.jcells < 0 ∧
      grid.icells * grid.jcells * grid.kcells
        ≤ i + j * grid.icells + (grid.kcells - 1) * (grid.icells * grid.jcells)
          + grid.icells * grid.jcells) ∧
    Interior (ghostGrid : Grid ℚ) 1 1 ∧
    (1 : Int) + 1 * (ghostGrid : Grid ℚ).icells
      + 0 * ((ghostGrid : Grid ℚ).icells * (ghostGrid : Grid ℚ).jcells) = 4 ∧
    (1 : Int) + 1 * (ghostGrid : Grid ℚ).icells
      + 3 * ((ghostGrid : Grid ℚ).icells * (ghostGrid : Grid ℚ).jcells) = 31 ∧
    (ghostGrid : Grid ℚ).icells * (ghostGrid : Grid ℚ).jcells * (ghostGrid : Grid ℚ).kcells = 36 ∧
    calcN2 (ghostGrid : Grid ℚ) (fun _ => 0) (fun _ => 0) (fun _ => 1) (fun _ => 1) 4 = 0 ∧
    calcN2 (ghostGrid : Grid ℚ) (fun _ => 0) (fun n => if n = -5 then 1 else 0) (fun _ => 1)
      (fun _ => 1) 4 = -(grav / 2) ∧
    calcN2 (ghostGrid : Grid ℚ) (fun _ => 0) (fun _ => 0) (fun _ => 1) (fun _ => 1) 31 = 0 ∧
    calcN2 (ghostGrid : Grid ℚ) (fun _ => 0) (fun n => if n = 40 then 1 else 0) (fun _ => 1)
      (fun _ => 1) 31 = grav / 2 := by
  have e1 : ((4 : Int) - 0).toNat = 4 := by decide
  have e2 : ((2 : Int) - 1).toNat = 1 := by decide
  refine ⟨?_, by simp [Interior, ghostGrid], by simp [ghostGrid], by simp [ghostGrid],
    by simp [ghostGrid], ?_, ?_, ?_, ?_⟩
  · intro grid hwf hk i j hij
    obtain ⟨h1, h2⟩ := index_ij_bounds grid hwf i j hij
    constructor
    · linarith
    · nlinarith
  · simp [calcN2, forRange, forIJ, ghostGrid, e1, e2, forLoop, N2Cell, Function.update]
  · simp [calcN2, forRange, forIJ, ghostGrid, e1, e2, forLoop, N2Cell, Function.update]
    norm_num [grav]
  · simp [calcN2, forRange, forIJ, ghostGrid, e1, e2, forLoop, N2Cell, Function.update]
  · simp [calcN2, forRange, forIJ, ghostGrid, e1, e2, forLoop, N2Cell, Function.update]
    norm_num [grav]

/-! ## The reference profiles read by `calcbuoyancy` -/

/-- The surface part of `calcbasestate` does not write `thv`. -/
theorem basestateSurface_thv (pw : K → K → K) (fuel : Nat) (grid : Grid K) (ps : K)
    (thlmean qtmean : Int → K) (s t : BaseState K)
    (h : basestateSurface pw fuel grid ps thlmean qtmean s = some t) : t.thv = s.thv := by
  unfold basestateSurface at h
  simp only at h
  split at h
  · split at h
    · simp at h
    · simp only [Option.some.injEq] at h
      subst h
      rfl
  · simp at h

/-- The profile `thv` is written by `calcbasestate` at the interior levels
`kstart .. kend-1` only. -/
theorem calcbasestate_thv_frame (pw : K → K → K) (fuel : Nat) (grid : Grid K) (ps : K)
    (thlmean qtmean : Int → K) (s t : BaseState K)
    (h : calcbasestate pw fuel grid ps thlmean qtmean s = some t)
    (m : Int) (hm : m < grid.kstart ∨ grid.kend ≤ m) : t.thv m = s.thv m := by
  unfold calcbasestate at h
  split at h
  · simp at h
  · rename_i st1 hs
    split at h
    · simp at h
    · rename_i st2 hloop
      simp only [Option.some.injEq] at h
      subst h
      have inv := forRangeM_ind_max (basestateLevel pw fuel grid thlmean qtmean)
        (fun _ u => u.thv m = s.thv m)
        (grid.kstart+1) (grid.kend+1) st1 st2 hloop
        (congrFun (basestateSurface_thv pw fuel grid ps thlmean qtmean s st1 hs) m)
        (by
          intro k u v hk1 hk2 hP hb
          obtain ⟨-, -, -, f4, -, -⟩ := basestateLevel_spec pw fuel grid thlmean qtmean k u v hb
          exact (f4 m (by omega)).trans hP)
      obtain ⟨-, e2, -⟩ := basestateGhost_spec grid st2
      rw [e2]
      exact inv

/-- On the test column with ghost cells, dry air at 190 K and `p = 1e5` at
every level, `calcbuoyancy` returns and the buoyancy stored in the interior
cell of the ghost level `0` is `bu` evaluated with `thvref[0]`. -/
theorem calcbuoyancy_ghost_level (fuel : Nat) (thvref : Int → ℝ) (st : BuoyState ℝ) :
    ∃ r, calcbuoyancy Real.rpow fuel ghostGrid (fun _ => 190) (fun _ => 0) (fun _ => 1e5)
        thvref st = some r ∧
      r.b 4 = bu Real.rpow 1e5 190 0 0 (thvref 0) ∧
      r.b 31 = bu Real.rpow 1e5 190 0 0 (thvref 3) := by
  have e1 : ((4 : Int) - 0).toNat = 4 := by decide
  have e2 : ((2 : Int) - 1).toNat = 1 := by decide
  have hneg : ¬ ((0 : ℝ) - rslf 1e5 (190 * 1) > 0) := by
    have := rslf_cold_pos (1e5 : ℝ) 1 (by norm_num) le_rfl
    rw [gt_iff_lt, not_lt]
    linarith
  simp only [calcbuoyancy, ghostGrid, forRangeM, forLoopM, forIJ, forIJM, forRange, forLoop,
    e1, e2, buoyEstimate, buoySolve, buoyAssign, Function.update_same, exn_p0, hneg, if_false,
    Option.some_bind]
  refine ⟨_, rfl, ?_, ?_⟩
  · simp [Function.update]
  · simp [Function.update]

/-- C24 (evaluation of the code at the failing input): `calcbasestate` writes
`thv` at the interior levels only, so after `create()` the ghost entries
`thvref[kstart-1]` and `thvref[kend]` hold what the freshly allocated array
held; `calcbuoyancy` loops over all levels `0 ≤ k < kcells` and, on the column
with `kstart = 1`, `kend = 3`, `kcells = 4`, stores in the interior cells of the
ghost levels `0` and `3` the buoyancy `bu` evaluated with `thvref[0]` and
`thvref[3]`, which changes with that value (`0` for `190`, `grav` for `95`). -/
theorem calcbuoyancy_reads_unassigned_thvref :
    (∀ (pw : ℝ → ℝ → ℝ) fuel (grid : Grid ℝ) ps thlmean qtmean (s t : BaseState ℝ),
      calcbasestate pw fuel grid ps thlmean qtmean s = some t →
        t.thv (grid.kstart - 1) = s.thv (grid.kstart - 1) ∧ t.thv grid.kend = s.thv grid.kend) ∧
    ((ghostGrid : Grid ℝ).kstart - 1 = 0 ∧ (ghostGrid : Grid ℝ).kend = 3 ∧
      (ghostGrid : Grid ℝ).kcells = 4) ∧
    (∀ (fuel : Nat) (thvref : Int → ℝ) (st : BuoyState ℝ),
      ∃ r, calcbuoyancy Real.rpow fuel ghostGrid (fun _ => 190) (fun _ => 0) (fun _ => 1e5)
          thvref st = some r ∧
        r.b 4 = bu Real.rpow 1e5 190 0 0 (thvref 0) ∧
        r.b 31 = bu Real.rpow 1e5 190 0 0 (thvref 3)) ∧
    bu Real.rpow 1e5 190 0 0 190 = 0 ∧ bu Real.rpow 1e5 190 0 0 95 = grav := by
  refine ⟨?_, ⟨by decide, rfl, rfl⟩, calcbuoyancy_ghost_level, ?_, ?_⟩
  · intro pw fuel grid ps thlmean qtmean s t h
    exact ⟨calcbasestate_thv_frame pw fuel grid ps thlmean qtmean s t h _ (Or.inl (by omega)),
      calcbasestate_thv_frame pw fuel grid ps thlmean qtmean s t h _ (Or.inr le_rfl)⟩
  · norm_num [bu]
  · norm_num [bu, exn_p0]

/-! ## The ghost cells of the reference profiles -/

/-- A dry parcel between 181 K and 193.15 K near the reference pressure: the
first Newton step is within the tolerance and `calcql` returns zero. -/
theorem calcql_cold (fuel : Nat) (s p ex : K) (hp : 95000 ≤ p) (ht0 : 181 ≤ s * ex)
    (ht : s * ex ≤ 193.15) : calcql (fuel + 2) s 0 p ex = some 0 := by
  have hes : esl (s * ex : K) = 0.109472054016 := esl_clamped _ ht
  have hden : (94999 : K) ≤ p - (1 - ep) * 0.109472054016 := by
    have : ((1 : K) - ep) * 0.109472054016 ≤ 1 := by norm_num [ep, rd, rv]
    linarith
  have hq0 : 0 < rslf p (s * ex) := by
    rw [rslf, hes]
    exact div_pos (by norm_num [ep, rd, rv]) (by linarith)
  have hq1 : rslf p (s * ex) ≤ 7.2e-7 := by
    rw [rslf, hes, div_le_iff₀ (by linarith)]
    have : (ep : K) * 0.109472054016 ≤ 7.2e-7 * 94999 := by norm_num [ep, rd, rv]
    nlinarith
  have h := calcql_one_pass fuel s 0 p ex ?_ ?_
  · rw [h]
    congr 1
    apply max_eq_left
    linarith
  · simp only [calcqlCond, calcqlInit]
    rw [abs_of_neg (by norm_num; linarith)]
    rw [gt_iff_lt, lt_div_iff₀ (by norm_num)]
    norm_num
    linarith
  · simp only [calcqlCond, calcqlInit, calcqlBody]
    rw [gt_iff_lt, not_lt, div_le_iff₀ (by linarith)]
    set q := rslf p (s * ex) with hq
    have hd : (1 : K) ≤ 1 + lv ^ 2 * q / (rv * cp * (s * ex) ^ 2) := by
      have : (0 : K) ≤ lv ^ 2 * q / (rv * cp * (s * ex) ^ 2) := by
        apply div_nonneg
        · exact mul_nonneg (by norm_num [lv]) hq0.le
        · exact mul_nonneg (by norm_num [rv, cp]) (sq_nonneg _)
      linarith
    have hnum : (0 : K) ≤ s * ex + lv / cp * q - s * ex - lv / cp * 0 := by
      have : (0 : K) ≤ lv / cp * q := mul_nonneg (by norm_num [lv, cp]) hq0.le
      linarith
    have e : (s * ex - (s * ex + lv / cp * q - s * ex - lv / cp * 0)
        / (1 + lv ^ 2 * q / (rv * cp * (s * ex) ^ 2)) - s * ex : K)
        = -((s * ex + lv / cp * q - s * ex - lv / cp * 0)
        / (1 + lv ^ 2 * q / (rv * cp * (s * ex) ^ 2))) := by ring
    rw [e, abs_neg, abs_of_nonneg (div_nonneg hnum (by linarith))]
    rw [div_le_iff₀ (by linarith)]
    have h2 : (lv / cp * q : K) ≤ 1e-5 * 181 := by
      have : (lv / cp : K) * 7.2e-7 ≤ 1e-5 * 181 := by norm_num [lv, cp]
      have h3 : (lv / cp : K) * q ≤ lv / cp * 7.2e-7 :=
        mul_le_mul_of_nonneg_left hq1 (by norm_num [lv, cp])
      linarith
    have h4 : (1e-5 * 181 : K) ≤ 1e-5 * (s * ex) := by linarith
    have h5 : (1e-5 * (s * ex) : K) ≤ 1e-5 * (s * ex)
        * (1 + lv ^ 2 * q / (rv * cp * (s * ex) ^ 2)) := by
      apply le_mul_of_one_le_right _ hd
      linarith
    linarith

/-- The stores of `create()` change `thl0` and `qt0` at `kstart-1` and `kend`
only. -/
theorem createGhost_frame (grid : Grid K) (thl0 qt0 : Int → K) (m : Int)
    (h1 : m ≠ grid.kstart - 1) (h2 : m ≠ grid.kend) :
    (createGhost grid thl0 qt0).1 m = thl0 m ∧ (createGhost grid thl0 qt0).2 m = qt0 m := by
  simp [createGhost, Function.update_noteq h1, Function.update_noteq h2]

/-- The profile `thl0` of the fourth-order test column after `create()`, when
the interior levels hold 190 K and every other entry held `g`. -/
theorem createGhost_fourth (g : ℝ) :
    (createGhost (fourthGrid : Grid ℝ) (fun k => if k = 2 ∨ k = 3 then 190 else g)
        (fun _ => 0)).1
      = (fun k => if k = 0 ∨ k = 5 then g else if 1 ≤ k ∧ k ≤ 4 then 190 else g) ∧
    (createGhost (fourthGrid : Grid ℝ) (fun k => if k = 2 ∨ k = 3 then 190 else g)
        (fun _ => 0)).2 = (fun _ => 0) := by
  constructor
  · funext k
    simp only [createGhost, fourthGrid]
    by_cases h1 : k = 1
    · subst h1
      norm_num [Function.update]
    · by_cases h4 : k = 4
      · subst h4
        norm_num [Function.update]
      · have e1 : k ≠ 2 - 1 := by omega
        rw [Function.update_noteq h4, Function.update_noteq e1]
        by_cases h0 : k = 0
        · subst h0; norm_num
        · by_cases h5 : k = 5
          · subst h5; norm_num
          · by_cases h2 : k = 2
            · subst h2; norm_num
            · by_cases h3 : k = 3
              · subst h3; norm_num
              · have : ¬ (1 ≤ k ∧ k ≤ 4) := by omega
                simp [h0, h5, h2, h3, this]
  · funext k
    simp only [createGhost, fourthGrid]
    by_cases h4 : k = 4
    · subst h4
      norm_num [Function.update]
    · by_cases h1 : k = 1
      · subst h1
        norm_num [Function.update]
      · have e1 : k ≠ 2 - 1 := by omega
        rw [Function.update_noteq h4, Function.update_noteq e1]

/-- The surface part of `calcbasestate` on the fourth-order test column after
`create()`: the virtual potential temperature of the surface half level is
`(3230 - g)/16`, where `g` is what the entry `thl0[kstart-2]` held. -/
theorem basestateSurface_fourth (g : ℝ) (hg0 : 174 ≤ g) (hg1 : g ≤ 206) (fuel : Nat)
    (st : BaseState ℝ) :
    ∃ t, basestateSurface Real.rpow (fuel + 2) fourthGrid 1e5
        (createGhost (fourthGrid : Grid ℝ) (fun k => if k = 2 ∨ k = 3 then 190 else g)
          (fun _ => 0)).1
        (createGhost (fourthGrid : Grid ℝ) (fun k => if k = 2 ∨ k = 3 then 190 else g)
          (fun _ => 0)).2 st = some t ∧
      t.thvh 2 = (3230 - g) / 16 := by
  obtain ⟨c1, c2⟩ := createGhost_fourth g
  rw [c1, c2]
  have hi : interpHalf (fourthGrid : Grid ℝ)
      (fun k => if k = 0 ∨ k = 5 then g else if 1 ≤ k ∧ k ≤ 4 then 190 else g) 2
      = some ((3230 - g) / 16) := by
    simp only [interpHalf, fourthGrid, show ("4" = "2") = False from by decide, if_false,
      if_true, interp4]
    norm_num
    ring
  have hq : interpHalf (fourthGrid : Grid ℝ) (fun _ => (0 : ℝ)) 2 = some 0 := by
    simp only [interpHalf, fourthGrid, show ("4" = "2") = False from by decide, if_false,
      if_true, interp4]
    norm_num
  have hk : (fourthGrid : Grid ℝ).kstart = 2 := rfl
  have hc : calcql (fuel + 2) ((3230 - g) / 16) 0 (1e5 : ℝ) 1 = some 0 :=
    calcql_cold fuel _ _ _ (by norm_num) (by linarith) (by linarith)
  unfold basestateSurface
  simp only [hk, hi, hq, Function.update_same, exn_p0, hc]
  refine ⟨_, rfl, ?_⟩
  simp only [Function.update_same]
  norm_num

/-- One pass of the level loop of `calcbasestate` on a cold dry column with
levels ten metres apart: the pass returns, and the Exner function of the new
pressures is that of the old ones minus `grav*dz/(cp*thv)`. -/
theorem basestateLevel_cold (fuel : Nat) (grid : Grid ℝ) (thl qt : Int → ℝ) (k : Int)
    (u : BaseState ℝ) (si : ℝ)
    (hdz : grid.dz (k-1) = 10) (hdzh : grid.dzh k = 10)
    (hthl : thl (k-1) = 190) (hqt : qt (k-1) = 0)
    (hsi : interpHalf grid thl k = some si) (hqi : interpHalf grid qt k = some 0)
    (hs0 : 189 ≤ si) (hs1 : si ≤ 191)
    (hP : 0 < u.pref (k-1)) (hPh : 0 < u.prefh (k-1))
    (hE0 : 0.995 ≤ exn Real.rpow (u.pref (k-1))) (hE1 : exn Real.rpow (u.pref (k-1)) ≤ 1)
    (hEh0 : 0.995 ≤ exn Real.rpow (u.prefh (k-1)))
    (hEh1 : exn Real.rpow (u.prefh (k-1)) ≤ 1) :
    ∃ t, basestateLevel Real.rpow (fuel + 2) grid thl qt k u = some t ∧
      t.thvh k = si ∧ 0 < t.prefh k ∧ 0 < t.pref k ∧
      exn Real.rpow (t.prefh k) = exn Real.rpow (u.prefh (k-1)) - grav * (10 / (cp * 190)) ∧
      exn Real.rpow (t.pref k) = exn Real.rpow (u.pref (k-1)) - grav * (10 / (cp * si)) := by
  have hd : (grav : ℝ) * (10 / (cp * 190)) ≤ 0.001 := by norm_num [grav, cp]
  have hd0 : (0 : ℝ) ≤ grav * (10 / (cp * 190)) := by norm_num [grav, cp]
  have hsp : (0 : ℝ) < cp * si := mul_pos (by norm_num [cp]) (by linarith)
  have he0 : (0 : ℝ) ≤ grav * (10 / (cp * si)) :=
    mul_nonneg (by norm_num [grav]) (div_nonneg (by norm_num) hsp.le)
  have he : (grav : ℝ) * (10 / (cp * si)) ≤ 0.001 := by
    rw [← mul_div_assoc, div_le_iff₀ hsp]
    have : (cp : ℝ) * 189 ≤ cp * si := mul_le_mul_of_nonneg_left hs0 (by norm_num [cp])
    have h2 : (grav : ℝ) * 10 ≤ 0.001 * (cp * 189) := by norm_num [grav, cp]
    linarith
  have hc1 : calcql (fuel + 2) 190 0 (u.pref (k-1)) (exn Real.rpow (u.pref (k-1))) = some 0 :=
    calcql_dry_cold fuel _ _ (pressure_ge_of_exn _ hP.le (by linarith)) (by linarith) hE1
  have hB1 : 0 < u.prefh (k-1) ^ (rd/cp : ℝ) - grav * p0 ^ (rd/cp : ℝ) * (10 / (cp * 190)) :=
    base_pos_of_exn _ _ hPh.le (by linarith)
  have hB2 : 0 < u.pref (k-1) ^ (rd/cp : ℝ) - grav * p0 ^ (rd/cp : ℝ) * (10 / (cp * si)) :=
    base_pos_of_exn _ _ hP.le (by linarith)
  have hx1 := exn_step (u.prefh (k-1)) (10 / (cp * 190)) hPh.le hB1
  have hx2 := exn_step (u.pref (k-1)) (10 / (cp * si)) hP.le hB2
  have hp1 : 0 < Real.rpow (Real.rpow (u.prefh (k-1)) (rd/cp)
      - grav * Real.rpow p0 (rd/cp) * (10 / (cp * 190))) (1/(rd/cp)) :=
    Real.rpow_pos_of_pos hB1 _
  have hp2 : 0 < Real.rpow (Real.rpow (u.pref (k-1)) (rd/cp)
      - grav * Real.rpow p0 (rd/cp) * (10 / (cp * si))) (1/(rd/cp)) :=
    Real.rpow_pos_of_pos hB2 _
  have hc2 : calcql (fuel + 2) si 0 (Real.rpow (Real.rpow (u.prefh (k-1)) (rd/cp)
      - grav * Real.rpow p0 (rd/cp) * (10 / (cp * 190))) (1/(rd/cp)))
      (exn Real.rpow (Real.rpow (Real.rpow (u.prefh (k-1)) (rd/cp)
      - grav * Real.rpow p0 (rd/cp) * (10 / (cp * 190))) (1/(rd/cp)))) = some 0 := by
    apply calcql_cold fuel _ _ _ (pressure_ge_of_exn _ hp1.le (by linarith))
    · nlinarith
    · nlinarith
  unfold basestateLevel
  simp only [Function.update_same, hthl, hqt, hc1, hsi, hqi, hdz, hdzh, mul_div_assoc,
    mul_zero, zero_div, add_zero, sub_zero, mul_one, hc2]
  refine ⟨_, rfl, ?_⟩
  simp only [Function.update_same]
  exact ⟨trivial, hp1, hp2, by linarith, by linarith⟩

/-- The surface part of `calcbasestate` on the fourth-order test column after
`create()`, with the pressures it stores. -/
theorem basestateSurface_fourth_run (g : ℝ) (hg0 : 174 ≤ g) (hg1 : g ≤ 206) (fuel : Nat)
    (st : BaseState ℝ) :
    ∃ t, basestateSurface Real.rpow (fuel + 2) fourthGrid 1e5
        (fun k => if k = 0 ∨ k = 5 then g else if 1 ≤ k ∧ k ≤ 4 then 190 else g)
        (fun _ => 0) st = some t ∧
      t.thvh 2 = (3230 - g) / 16 ∧ t.prefh 2 = 1e5 ∧ 0 < t.pref 2 ∧
      exn Real.rpow (t.pref 2) = 1 - grav * (5 / (cp * ((3230 - g) / 16))) := by
  have hi : interpHalf (fourthGrid : Grid ℝ)
      (fun k => if k = 0 ∨ k = 5 then g else if 1 ≤ k ∧ k ≤ 4 then 190 else g) 2
      = some ((3230 - g) / 16) := by
    simp only [interpHalf, fourthGrid, show ("4" = "2") = False from by decide, if_false,
      if_true, interp4]
    norm_num
    ring
  have hq : interpHalf (fourthGrid : Grid ℝ) (fun _ => (0 : ℝ)) 2 = some 0 := by
    simp only [interpHalf, fourthGrid, show ("4" = "2") = False from by decide, if_false,
      if_true, interp4]
    norm_num
  have hk : (fourthGrid : Grid ℝ).kstart = 2 := rfl
  have hz : (fourthGrid : Grid ℝ).z 2 = 5 := by norm_num [fourthGrid]
  have hc : calcql (fuel + 2) ((3230 - g) / 16) 0 (1e5 : ℝ) 1 = some 0 :=
    calcql_cold fuel _ _ _ (by norm_num) (by linarith) (by linarith)
  have hsp : (0 : ℝ) < cp * ((3230 - g) / 16) := mul_pos (by norm_num [cp]) (by linarith)
  have he : (grav : ℝ) * (5 / (cp * ((3230 - g) / 16))) ≤ 0.001 := by
    rw [← mul_div_assoc, div_le_iff₀ hsp]
    have : (cp : ℝ) * 189 ≤ cp * ((3230 - g) / 16) :=
      mul_le_mul_of_nonneg_left (by linarith) (by norm_num [cp])
    have h2 : (grav : ℝ) * 5 ≤ 0.001 * (cp * 189) := by norm_num [grav, cp]
    linarith
  have hB : 0 < (1e5 : ℝ) ^ (rd/cp : ℝ)
      - grav * p0 ^ (rd/cp : ℝ) * (5 / (cp * ((3230 - g) / 16))) :=
    base_pos_of_exn _ _ (by norm_num) (by rw [exn_p0]; linarith)
  have hx := exn_step (1e5 : ℝ) (5 / (cp * ((3230 - g) / 16))) (by norm_num) hB
  rw [exn_p0] at hx
  unfold basestateSurface
  simp only [hk, hi, hq, Function.update_same, exn_p0, hc, hz, mul_div_assoc,
    mul_zero, zero_div, add_zero, sub_zero, mul_one]
  refine ⟨_, rfl, ?_⟩
  simp only [Function.update_same]
  exact ⟨trivial, trivial, Real.rpow_pos_of_pos hB _, by linarith⟩

/-- On the fourth-order test column after `create()`, `calcbasestate`
returns. -/
theorem calcbasestate_fourth_run (g : ℝ) (hg0 : 174 ≤ g) (hg1 : g ≤ 206) (fuel : Nat)
    (st : BaseState ℝ) :
    ∃ t, calcbasestate Real.rpow (fuel + 2) fourthGrid 1e5
        (createGhost (fourthGrid : Grid ℝ) (fun k => if k = 2 ∨ k = 3 then 190 else g)
          (fun _ => 0)).1
        (createGhost (fourthGrid : Grid ℝ) (fun k => if k = 2 ∨ k = 3 then 190 else g)
          (fun _ => 0)).2 st = some t := by
  obtain ⟨c1, c2⟩ := createGhost_fourth g
  rw [c1, c2]
  have hsp : (0 : ℝ) < cp * ((3230 - g) / 16) := mul_pos (by norm_num [cp]) (by linarith)
  have he0 : (0 : ℝ) ≤ grav * (5 / (cp * ((3230 - g) / 16))) :=
    mul_nonneg (by norm_num [grav]) (div_nonneg (by norm_num) hsp.le)
  have he : (grav : ℝ) * (5 / (cp * ((3230 - g) / 16))) ≤ 0.001 := by
    rw [← mul_div_assoc, div_le_iff₀ hsp]
    have : (cp : ℝ) * 189 ≤ cp * ((3230 - g) / 16) :=
      mul_le_mul_of_nonneg_left (by linarith) (by norm_num [cp])
    have h2 : (grav : ℝ) * 5 ≤ 0.001 * (cp * 189) := by norm_num [grav, cp]
    linarith
  have hd : (grav : ℝ) * (10 / (cp * 190)) ≤ 0.001 := by norm_num [grav, cp]
  have hd0 : (0 : ℝ) ≤ grav * (10 / (cp * 190)) := by norm_num [grav, cp]
  obtain ⟨t1, hs, -, a2, a3, a4⟩ := basestateSurface_fourth_run g hg0 hg1 fuel st
  have a2x : exn Real.rpow (t1.prefh 2) = 1 := by rw [a2, exn_p0]
  have hi3 : interpHalf (fourthGrid : Grid ℝ)
      (fun k => if k = 0 ∨ k = 5 then g else if 1 ≤ k ∧ k ≤ 4 then 190 else g) 3
      = some 190 := by
    simp only [interpHalf, fourthGrid, show ("4" = "2") = False from by decide, if_false,
      if_true, interp4]
    norm_num
  have hi4 : interpHalf (fourthGrid : Grid ℝ)
      (fun k => if k = 0 ∨ k = 5 then g else if 1 ≤ k ∧ k ≤ 4 then 190 else g) 4
      = some ((3230 - g) / 16) := by
    simp only [interpHalf, fourthGrid, show ("4" = "2") = False from by decide, if_false,
      if_true, interp4]
    norm_num
  have hq : ∀ k, interpHalf (fourthGrid : Grid ℝ) (fun _ => (0 : ℝ)) k = some 0 := by
    intro k
    simp only [interpHalf, fourthGrid, show ("4" = "2") = False from by decide, if_false,
      if_true, interp4]
    norm_num
  obtain ⟨t2, hl3, -, b2, b3, b4, b5⟩ := basestateLevel_cold fuel fourthGrid
    (fun k => if k = 0 ∨ k = 5 then g else if 1 ≤ k ∧ k ≤ 4 then 190 else g) (fun _ => 0)
    3 t1 190 rfl rfl (by norm_num) rfl hi3 (hq 3) (by norm_num) (by norm_num)
    (by norm_num; exact a3) (by norm_num; rw [a2]; norm_num)
    (by norm_num; linarith) (by norm_num; linarith)
    (by norm_num; linarith) (by norm_num; linarith)
  norm_num at b4 b5
  obtain ⟨t3, hl4, -⟩ := basestateLevel_cold fuel fourthGrid
    (fun k => if k = 0 ∨ k = 5 then g else if 1 ≤ k ∧ k ≤ 4 then 190 else g) (fun _ => 0)
    4 t2 ((3230 - g) / 16) rfl rfl (by norm_num) rfl hi4 (hq 4) (by linarith) (by linarith)
    (by norm_num; exact b3) (by norm_num; exact b2)
    (by norm_num; linarith) (by norm_num; linarith)
    (by norm_num; linarith) (by norm_num; linarith)
  have hk1 : (fourthGrid : Grid ℝ).kstart = 2 := rfl
  have hk3 : (fourthGrid : Grid ℝ).kend = 4 := rfl
  have hloop : forRangeM ((fourthGrid : Grid ℝ).kstart + 1) ((fourthGrid : Grid ℝ).kend + 1)
      (basestateLevel Real.rpow (fuel + 2) fourthGrid
        (fun k => if k = 0 ∨ k = 5 then g else if 1 ≤ k ∧ k ≤ 4 then 190 else g)
        (fun _ => 0)) t1 = some t3 := by
    have e : ((fourthGrid : Grid ℝ).kend + 1 - ((fourthGrid : Grid ℝ).kstart + 1)).toNat = 2 := by
      rw [hk1, hk3]; rfl
    simp only [forRangeM, e, forLoopM, hk1]
    norm_num
    rw [hl3]
    simp only [Option.some_bind]
    rw [hl4]
  exact ⟨basestateGhost fourthGrid t3, by simp only [calcbasestate, hs, hloop]⟩


/-- C21 (evaluation of the code at the failing input): the stores of
`create()` assign `thl0` and `qt0` at `kstart-1` and `kend` only, whatever the
spatial order, so for fourth order the entries `kstart-2` and `kend+1` keep what
the freshly allocated arrays held; `calcbasestate` for fourth order
interpolates with `interp4` over `kstart-2 .. kstart+1` and `kend-2 .. kend+1`.
On the fourth-order column with `kstart = 2`, `kend = 4`, interior levels at
190 K and every other entry of `thl0` holding `g` (`174 ≤ g ≤ 206`),
`calcbasestate` returns with `thvh[kstart] = (3230 - g)/16`: the initial base
state depends on the unassigned value `g`. -/
theorem create_fourth_order_unassigned :
    (∀ (grid : Grid ℝ) (thl0 qt0 : Int → ℝ) m, m ≠ grid.kstart - 1 → m ≠ grid.kend →
      (createGhost grid thl0 qt0).1 m = thl0 m ∧ (createGhost grid thl0 qt0).2 m = qt0 m) ∧
    ((fourthGrid : Grid ℝ).swspatialorder = "4" ∧ (fourthGrid : Grid ℝ).kstart - 2 = 0 ∧
      (fourthGrid : Grid ℝ).kend + 1 = 5) ∧
    (∀ a : Int → ℝ,
      interpHalf (fourthGrid : Grid ℝ) a (fourthGrid : Grid ℝ).kstart
        = some (interp4 (a 0) (a 1) (a 2) (a 3)) ∧
      interpHalf (fourthGrid : Grid ℝ) a (fourthGrid : Grid ℝ).kend
        = some (interp4 (a 2) (a 3) (a 4) (a 5))) ∧
    (∀ g : ℝ, 174 ≤ g → g ≤ 206 → ∀ (fuel : Nat) (st : BaseState ℝ),
      ∃ t, calcbasestate Real.rpow (fuel + 2) fourthGrid 1e5
          (createGhost (fourthGrid : Grid ℝ) (fun k => if k = 2 ∨ k = 3 then 190 else g)
            (fun _ => 0)).1
          (createGhost (fourthGrid : Grid ℝ) (fun k => if k = 2 ∨ k = 3 then 190 else g)
            (fun _ => 0)).2 st = some t ∧
        t.thvh 2 = (3230 - g) / 16) := by
  refine ⟨fun grid thl0 qt0 m h1 h2 => createGhost_frame grid thl0 qt0 m h1 h2,
    ⟨rfl, by decide, by decide⟩, ?_, ?_⟩
  · intro a
    simp only [interpHalf, fourthGrid, show ("4" = "2") = False from by decide, if_false,
      if_true]
    norm_num
  · intro g hg0 hg1 fuel st
    obtain ⟨t1, h1, h2⟩ := basestateSurface_fourth g hg0 hg1 fuel st
    obtain ⟨t, ht⟩ := calcbasestate_fourth_run g hg0 hg1 fuel st
    refine ⟨t, ht, ?_⟩
    obtain ⟨t2, h3, h4, -⟩ := calcbasestate_surface Real.rpow (fuel + 2) fourthGrid 1e5 _ _ st t ht
    rw [h1] at h3
    have e := Option.some.inj h3
    subst e
    have hk : (fourthGrid : Grid ℝ).kstart = 2 := rfl
    rw [hk] at h4
    rw [h4, h2]

end cthermo_moist
